import Mathlib

/-! stoidoc: from a tab-delimited label spreadsheet to an IDoc.

A shallow embedding of `idoc.c` and `label.c`.

Conventions of the embedding.

* A C string is the list of its characters, without the terminating NUL (`CStr`).
* `sequence_number`, `prev_material` and the `Ctrl` structure are the fields of `State`;
  the output file and the operator channel (stdout) are two more fields: the lines written
  so far and the diagnostics printed so far.
* A line of the output file is kept as a `Line` (its kind, the two six-digit numbers and the
  texts printed after them); `Line.render` gives the characters that `fprintf` writes.
* `int` and `long long` values are integers; no run of the program comes near their bounds
  except where a cast is written out (`toInt32`, `strtoll`).
* The lookup table of `lookup.h` is not part of the sources read here; it is the field
  `lookup` of `Config`.
* A string is cut where the code cuts it (`strlcpy`, `strncpy`, `memcpy` of four bytes), not
  by the size of the array that receives it: where the C code writes past an array (`strcat`
  in `print_graphic_column_header` and `print_graphic0x_record`, `strlcpy` into
  `prev_material`, `memmove` in the SIZE block) the embedding keeps the string written.
  The test `token[strlen(token) - 1] == '"'` on an empty `token` reads the byte before it,
  which is taken not to be a quote.
* The pointer `tdline` is an `Option`; the read through a NULL `tdline` ends a call with the
  status `null_tdline`.
* `char` is signed: the byte 255 read by `(char) fgetc(fp)` compares equal to `EOF`, and
  `strncmpci` subtracts signed character values.
* In `read_spreadsheet` the characters of a line are kept in full (the C code writes past
  `buffer[999]` for a line of 1000 characters or more) and the row stored is what `strlcpy`
  copies; the bytes that the test on a line feed reads before the array (`buffer[-1]`,
  `buffer[-2]`) are the field `outside_buffer` of `Config`.
* The arrays `ltnumber` and `ipn` of a record are filled by `strncpy`, which writes no NUL
  for contents of `MED` characters or more. The members of `Label_record` keep the
  characters copied; a read of such a member as a C string runs on into the next member of
  the structure (`Label_record.ltnumber_string`, `Label_record.ipn_string`).
* In `duplicate_column_names` a column name that does not fit the block allocated for it is
  copied past the end of the block: the function then has no value (`none`), and `main`
  ends with the status `column_name_overrun`.
* In `main` the allocations and the opening of the output file are taken to succeed.
-/

namespace Stoidoc

/-! ## Strings -/

/-- A C string: its characters up to, and without, the terminating NUL. -/
abbrev CStr := List Char

/-- Field length `LRG` of `label.h`. -/
def LRG : Nat := 41
/-- Field length `MED` of `label.h`. -/
def MED : Nat := 30
/-- Length of a GTIN-13, `GTIN_13` of `idoc.c`. -/
def GTIN_13 : Nat := 13
/-- Divisor isolating the first digit of a 14-digit GTIN. -/
def GTIN_14_DIGIT : Int := 10000000000000
/-- Divisor isolating the first digit of a 13-digit GTIN. -/
def GTIN_13_DIGIT : Int := 1000000000000
/-- Divisor isolating the company prefix of a 14-digit GTIN. -/
def GTIN_14_CPNY_DIVISOR : Int := 1000000
/-- Divisor isolating the company prefix of a 13-digit GTIN. -/
def GTIN_13_CPNY_DIVISOR : Int := 100000
/-- Number of spaces before the text of a TDLINE line. -/
def TDLINE_INDENT : Nat := 61
/-- Largest `long long`. -/
def LLONG_MAX : Int := 9223372036854775807

/-- The value of a character as `strcmp` sees it. -/
def ord (c : Char) : Int := (c.toNat : Int)

/-- The libc `strcmp`: the difference of the first two characters that differ, the end of a
string counting as 0. -/
def strcmp : CStr → CStr → Int
  | [], [] => 0
  | [], b :: _ => 0 - ord b
  | a :: _, [] => ord a
  | a :: s, b :: t => if a = b then strcmp s t else ord a - ord b

/-- The libc `tolower` in the C locale. -/
def tolower (c : Char) : Char := c.toLower

/-- The libc `strcasecmp`: `strcmp` on the lower-cased characters. -/
def strcasecmp : CStr → CStr → Int
  | [], [] => 0
  | [], b :: _ => 0 - ord (tolower b)
  | a :: _, [] => ord (tolower a)
  | a :: s, b :: t =>
    if tolower a = tolower b then strcasecmp s t else ord (tolower a) - ord (tolower b)

/-- The function `equals_yes` of `label.c`. -/
def equals_yes (field : CStr) : Bool :=
  strcasecmp field "Y".toList == 0 || strcasecmp field "Yes".toList == 0

/-- The function `equals_no` of `label.c`. -/
def equals_no (field : CStr) : Bool :=
  strcasecmp field "N".toList == 0 || strcasecmp field "NO".toList == 0

/-- The function `isNumeric` of `idoc.c`: non-empty and all decimal digits. -/
def isNumeric (str : CStr) : Bool :=
  match str with
  | [] => false
  | _ => str.all Char.isDigit

/-- The function `containsSpaces` of `idoc.c`. -/
def containsSpaces (str : CStr) : Bool :=
  str.any (fun c => c == ' ')

/-- The value of a decimal digit character. -/
def digitValue (c : Char) : Int := ord c - 48

/-- The libc `strtoll` in base 10, as the program uses it: on a string of decimal digits
(every call is guarded by `isNumeric`). A value that does not fit is clamped to
`LLONG_MAX`. -/
def strtoll (s : CStr) : Int :=
  min ((s.takeWhile Char.isDigit).foldl (fun acc c => acc * 10 + digitValue c) 0) LLONG_MAX

/-- The cast `(int) x` of a `long long`: reduction to 32 bits, two's complement. -/
def toInt32 (x : Int) : Int := (x + 2147483648) % 4294967296 - 2147483648

/-! ## The check digit -/

/-- The `while (gtin > 0)` loop of `checkDigit`; every turn removes two digits, so `fuel`
turns are enough as soon as `gtin ≤ fuel`. -/
def checkDigit_loop : Nat → Int → Int → Int
  | 0, _, sum => sum
  | fuel + 1, gtin, sum =>
    if gtin > 0 then
      let digit := gtin.tmod 10
      let sum := sum + 3 * digit
      let gtin := gtin.tdiv 10
      let digit := gtin.tmod 10
      let sum := sum + 1 * digit
      let gtin := gtin.tdiv 10
      checkDigit_loop fuel gtin sum
    else sum

/-- The function `checkDigit` of `idoc.c`. -/
def checkDigit (llp : Int) : Int :=
  let gtin := llp.tdiv 10
  let sum := checkDigit_loop gtin.toNat gtin 0
  if sum.tmod 10 = 0 then 0 else (sum.tdiv 10 * 10 + 10) - sum

/-- The weighted digit sum in the words of the specification: the digits are listed from
the rightmost one and weighted 3, 1, 3, 1, ... -/
def weightedSum : List Nat → Nat
  | [] => 0
  | [d] => 3 * d
  | d :: e :: rest => 3 * d + 1 * e + weightedSum rest

/-- The check digit in the words of the specification: `S` is the weighted sum of the
digits of `g` without the last one; the result is 0 when `S mod 10 = 0` and
`10 - S mod 10` otherwise. -/
def specCheckDigit (g : Nat) : Nat :=
  let S := weightedSum (Nat.digits 10 g).tail
  if S % 10 = 0 then 0 else 10 - S % 10

/-! ## Output lines, diagnostics and the global state -/

/-- The structure `control_numbers` (`Ctrl`) of `idoc.c`. -/
structure Ctrl where
  ctrl_num : CStr
  matl_seq_number : Int
  labl_seq_number : Int
  tdline_seq_number : Int
  char_seq_number : Int
deriving DecidableEq

/-- One line of the output file. `seq` is the own sequence number, printed first, and
`parent` the second six-digit number; the other fields are the texts handed to the
`fprintf` calls that follow the two numbers. -/
inductive Line where
  /-- A `Z2BTMH01000` line. -/
  | material (seq parent : Int) (material : CStr)
  /-- A `Z2BTLH01000` line. -/
  | label (seq parent : Int) (label : CStr)
  /-- A `Z2BTTX01000` line: `content` is what is printed between the indent and the final
  mark, `mark` is that mark. -/
  | text (seq parent : Int) (label content : CStr) (mark : Char)
  /-- A `Z2BTLC01000` line: column name, column value and the third field as printed. -/
  | characteristic (seq parent : Int) (name value third : CStr)
deriving DecidableEq

/-- Own sequence number of a line. -/
def Line.seq : Line → Int
  | .material n _ _ => n
  | .label n _ _ => n
  | .text n _ _ _ _ => n
  | .characteristic n _ _ _ _ => n

/-- Second number of a line: the parent reference. -/
def Line.parent : Line → Int
  | .material _ p _ => p
  | .label _ p _ => p
  | .text _ p _ _ _ => p
  | .characteristic _ p _ _ _ => p

/-- Is the line a material line? -/
def Line.isMaterial : Line → Bool
  | .material _ _ _ => true
  | _ => false

/-- Is the line a label line? -/
def Line.isLabel : Line → Bool
  | .label _ _ _ => true
  | _ => false

/-- Is the line a free-text line? -/
def Line.isText : Line → Bool
  | .text _ _ _ _ _ => true
  | _ => false

/-- Is the line a characteristic line? -/
def Line.isCharacteristic : Line → Bool
  | .characteristic _ _ _ _ _ => true
  | _ => false

/-- The function `print_spaces`: `n` spaces, none when `n ≤ 0`. -/
def print_spaces (n : Int) : CStr := List.replicate n.toNat ' '

/-- The conversion `%-Ns` of `fprintf`: the text, then spaces up to width `n`. -/
def padRight (n : Nat) (s : CStr) : CStr := s ++ List.replicate (n - s.length) ' '

/-- The conversion `%d` of `fprintf`. -/
def fmt_d (n : Int) : CStr := (toString n).toList

/-- The conversion `%06d` of `fprintf`: zeros between the sign and the digits up to width 6. -/
def fmt_06d (n : Int) : CStr :=
  if n < 0 then
    '-' :: (List.replicate (5 - (Nat.repr n.natAbs).length) '0' ++ (Nat.repr n.natAbs).toList)
  else List.replicate (6 - (Nat.repr n.toNat).length) '0' ++ (Nat.repr n.toNat).toList

/-- What all four kinds of line start with: the record tag, 19 spaces, the routing code, the
control number and the two six-digit numbers. -/
def line_head (tag ctrl_num : CStr) (seq parent : Int) : CStr :=
  tag ++ print_spaces 19 ++ "500000000000".toList ++ ctrl_num ++ fmt_06d seq ++ fmt_06d parent

/-- The characters written to the output file for a line, the line feed included. -/
def Line.render (ctrl_num : CStr) : Line → CStr
  | .material n p matl =>
    line_head "Z2BTMH01000".toList ctrl_num n p ++ "02".toList ++ padRight 18 matl
      ++ "\n".toList
  | .label n p lbl =>
    line_head "Z2BTLH01000".toList ctrl_num n p ++ "03".toList ++ padRight 18 lbl
      ++ "\n".toList
  | .text n p lbl content mark =>
    line_head "Z2BTTX01000".toList ctrl_num n p ++ "04".toList
      ++ "GRUNE  ENMATERIAL  ".toList ++ lbl ++ print_spaces TDLINE_INDENT ++ content
      ++ [mark] ++ "\n".toList
  | .characteristic n p name value third =>
    line_head "Z2BTLC01000".toList ctrl_num n p ++ "04".toList ++ padRight 30 name
      ++ padRight 30 value ++ third ++ "\n".toList

/-- The messages printed for the operator on stdout. -/
inductive Diag where
  /-- The first 3 characters of the record are not "LBL". -/
  | not_LBL (record : Int)
  /-- Missing template number. -/
  | missing_template (record : Int)
  /-- Invalid revision value, REVISION record skipped. -/
  | invalid_revision (value : CStr) (record : Int)
  /-- Invalid release date value, LABEL_RELEASE_DATE record skipped. -/
  | invalid_release (value : CStr) (record : Int)
  /-- Level value is not a standard LEVEL value. -/
  | nonstandard_level (value : CStr) (record : Int)
  /-- Invalid GTIN check digit. -/
  | invalid_check_digit (value : CStr) (record : Int)
  /-- Invalid GTIN check digit or length. -/
  | invalid_check_digit_or_length (value : CStr) (record : Int)
  /-- Invalid GTIN prefix. -/
  | prefix_invalid (gtin_cpny : Int) (record : Int)
  /-- Nonnumeric GTIN. -/
  | nonnumeric_gtin (value : CStr) (record : Int)
  /-- Column "PCODE" substituted for "MATERIAL". -/
  | pcode_substituted
  /-- Found both "MATERIAL" and "PCODE" column headings. -/
  | material_and_pcode
  /-- Change "CAUTIONSTATEMENT" to "CAUTIONSTATE.". -/
  | change_cautionstatement (token : CStr)
  /-- Ignoring column. -/
  | ignoring_column (token : CStr)
  /-- Content error in text-delimited spreadsheet, aborting. -/
  | content_error (line : Int)
  /-- Correct values in SAP Characteristics array: the entries `i` and `j` and their terms. -/
  | lookup_order (i : Int) (term : CStr) (j : Int) (next : CStr)
  /-- The usage line of `main`. -/
  | usage
  /-- Alternate graphics path selected. -/
  | alternate_path_selected
  /-- "Label Data" output file option selected. -/
  | label_data_selected
  /-- Including non-SAP column headings in IDoc. -/
  | non_SAP_selected
  /-- File not found. -/
  | file_not_found
  /-- Duplicate column names in spreadsheet, aborting. -/
  | duplicate_columns
  /-- Aborting. -/
  | aborting
  /-- Creating IDoc file. -/
  | creating_idoc_file
deriving DecidableEq

/-- What the run depends on besides the spreadsheet: the two command-line switches read by the
functions modelled here, the lookup table of `lookup.h` (`lookupsize` is its length), and
the contents of memory that the C code reads without having written it: `beyond` is the
table entry that a read past the last entry of `lookup` finds, `uninit_ctry` and
`uninit_cpny` are the values of the two prefix variables of a GTIN block when neither
length branch has assigned them, `outside_buffer k` is the byte that `read_spreadsheet`
finds at `buffer[k]` for `k = -1` and `k = -2`. -/
structure Config where
  alt_path : Bool
  non_SAP_fields : Bool
  lookup : List (CStr × CStr)
  beyond : CStr × CStr
  uninit_ctry : Int
  uninit_cpny : Int
  outside_buffer : Int → Char := fun _ => Char.ofNat 0

/-- The global variables `sequence_number` and `prev_material`, the `Ctrl` structure that
`main` hands to every call, the lines written to the output file by
`print_label_idoc_records` (the control record that `print_control_record` writes before
them carries no sequence number and is not kept) and the diagnostics printed so far. -/
structure State where
  sequence_number : Int
  prev_material : CStr
  idoc : Ctrl
  fpout : List Line
  stdout : List Diag

/-- The state in which `main` starts serialising: `sequence_number = 1`, `prev_material`
empty, `Ctrl idoc = \x7b"2541435", 0, 1, 0, 0\x7d`, nothing written. -/
def State.initial : State :=
  { sequence_number := 1
    prev_material := []
    idoc := { ctrl_num := "2541435".toList, matl_seq_number := 0, labl_seq_number := 1,
              tdline_seq_number := 0, char_seq_number := 0 }
    fpout := []
    stdout := [] }

/-- A `printf` on stdout. -/
def State.report (s : State) (d : Diag) : State := { s with stdout := s.stdout ++ [d] }

/-! ## The lookup table -/

/-- The entry `lookup[i]`; outside the table the read finds `cfg.beyond`. -/
def lookup_entry (cfg : Config) (i : Int) : CStr × CStr :=
  if 0 ≤ i ∧ i < cfg.lookup.length then cfg.lookup.getD i.toNat cfg.beyond else cfg.beyond

/-- The `while (!exit)` loop of `sap_lookup`. The result is the value returned (`none` for
NULL) and the indices of the table read, in order. -/
def sap_lookup_loop (cfg : Config) (needle : CStr) :
    Nat → Int → Int → Int → Bool → List Int → Option CStr × List Int
  | 0, _, _, _, _, reads => (none, reads)
  | fuel + 1, start, end_, middle, exit, reads =>
    if !exit then
      let exit := if middle ≠ (end_ - start).tdiv 2 + start then exit else true
      let middle := if middle ≠ (end_ - start).tdiv 2 + start
        then (end_ - start).tdiv 2 + start else middle
      let haystack := (lookup_entry cfg middle).1
      let reads := reads ++ [middle]
      let result := strcasecmp needle haystack
      if result = 0 then (some (lookup_entry cfg middle).2, reads)
      else if result < 0 then sap_lookup_loop cfg needle fuel start (middle - 1) middle exit reads
      else sap_lookup_loop cfg needle fuel (middle + 1) end_ middle exit reads
    else (none, reads)

/-- The function `sap_lookup` with the indices it reads. The interval shrinks at every turn
but the last two, so `lookupsize + 4` turns are never used up. -/
def sap_lookup_trace (cfg : Config) (needle : CStr) : Option CStr × List Int :=
  sap_lookup_loop cfg needle (cfg.lookup.length + 4) 0 ((cfg.lookup.length : Int) - 1) 0 false []

/-- The function `sap_lookup` of `idoc.c`: the value found, `none` for NULL. -/
def sap_lookup (cfg : Config) (needle : CStr) : Option CStr := (sap_lookup_trace cfg needle).1

/-! ## Label records -/

/-- The structure `Label_record` of `label.h`. A character array is the string it holds, a
four-bit field is a natural number, `tdline` is the pointer of the C structure: `none` is
NULL, the value `calloc` leaves in a record whose `tdline` was never allocated. -/
structure Label_record where
  material : CStr := []
  coostate : CStr := []
  address : CStr := []
  barcode1 : CStr := []
  cautionstatement : CStr := []
  cemark : CStr := []
  distby : CStr := []
  ecrepaddress : CStr := []
  flgraphic : CStr := []
  gs1 : CStr := []
  insertgraphic : CStr := []
  labelgraph1 : CStr := []
  labelgraph2 : CStr := []
  latexstatement : CStr := []
  logo1 : CStr := []
  logo2 : CStr := []
  logo3 : CStr := []
  logo4 : CStr := []
  logo5 : CStr := []
  mdr1 : CStr := []
  mdr2 : CStr := []
  mdr3 : CStr := []
  mdr4 : CStr := []
  mdr5 : CStr := []
  manufacturedby : CStr := []
  patentstatement : CStr := []
  size : CStr := []
  sterilitystatement : CStr := []
  sterilitytype : CStr := []
  temprange : CStr := []
  version : CStr := []
  oldlabel : CStr := []
  oldtemplate : CStr := []
  prevlabel : CStr := []
  prevtemplate : CStr := []
  description : CStr := []
  pcode : CStr := []
  ltnumber : CStr := []
  ipn : CStr := []
  barcodetext : CStr := []
  gtin : CStr := []
  level : CStr := []
  label : CStr := []
  quantity : CStr := []
  template : CStr := []
  bomlevel : CStr := []
  revision : CStr := []
  release : CStr := []
  tdline : Option CStr := none
  caution : Nat := 0
  consultifu : Nat := 0
  donotusedamaged : Nat := 0
  electroifu : Nat := 0
  keepdry : Nat := 0
  latex : Nat := 0
  latexfree : Nat := 0
  maninbox : Nat := 0
  nonsterile : Nat := 0
  noresterilize : Nat := 0
  pvcfree : Nat := 0
  reusable : Nat := 0
  singlepatientuse : Nat := 0
  singleuseonly : Nat := 0
  ecrep : Nat := 0
  expdate : Nat := 0
  keepawayheat : Nat := 0
  lotgraphic : Nat := 0
  manufacturer : Nat := 0
  mfgdate : Nat := 0
  phtbbp : Nat := 0
  phtdehp : Nat := 0
  phtdinp : Nat := 0
  ref : Nat := 0
  refnumber : Nat := 0
  rxonly : Nat := 0
  serial : Nat := 0
  sizelogo : Nat := 0
  tfxlogo : Nat := 0

/-! ## The printing functions of `idoc.c` -/

/-- The normal graphics folder path. -/
def GRAPHICS_PATH : CStr := "T:\\MEDICAL\\NA\\RTP\\TEAM CENTER\\TEMPLATES\\GRAPHICS\\".toList

/-- The alternate graphics folder path. -/
def ALT_GRAPHICS_PATH : CStr :=
  "C:\\Users\\jkottiel\\OneDrive - Teleflex Incorporated\\1 - Teleflex\\Labeling Resources\\Personal Graphics\\".toList

/-- The libc `strnlen`. -/
def strnlen (s : CStr) (maxlen : Nat) : Nat := min s.length maxlen

/-- The function `print_graphic_path`: the folder, the graphic name and `n` spaces, where
`n` is 255 less the length of the folder and the length of the name counted up to
`MED + 1`. -/
def print_graphic_path (cfg : Config) (graphic : CStr) : CStr :=
  if cfg.alt_path then
    ALT_GRAPHICS_PATH ++ graphic
      ++ print_spaces (255 - ((ALT_GRAPHICS_PATH.length : Int) + (strnlen graphic (MED + 1) : Int)))
  else
    GRAPHICS_PATH ++ graphic
      ++ print_spaces (255 - ((GRAPHICS_PATH.length : Int) + (strnlen graphic (MED + 1) : Int)))

/-- The function `print_Z2BTLC01000`, with the texts that its callers print after it on the
same line: the line takes the current `sequence_number`, which is then incremented, and
carries `char_seq_number` as its second number. -/
def print_Z2BTLC01000 (char_seq_number : Int) (name value third : CStr) (s : State) : State :=
  { s with
    fpout := s.fpout ++ [Line.characteristic s.sequence_number char_seq_number name value third]
    sequence_number := s.sequence_number + 1 }

/-- The function `print_info_column_header`: nothing for an empty value; a value that
`equals_no` is overwritten with "NO" first. -/
def print_info_column_header (col_name col_value : CStr) (s : State) : State :=
  if col_value.length > 0 then
    let col_value := if equals_no col_value then "NO".toList else col_value
    print_Z2BTLC01000 s.idoc.char_seq_number col_name col_value (padRight 255 col_value) s
  else s

/-- The function `print_graphic_column_header`. `cell_contents` holds the first `MED - 1`
characters of the value; the two `strcat` calls are taken on strings, without the bound of
the arrays they write to. -/
def print_graphic_column_header (cfg : Config) (col_name col_value default_yes : CStr)
    (s : State) : State :=
  let cell_contents := col_value.take (MED - 1)
  if cell_contents.length > 0 then
    let third :=
      if equals_yes col_value then
        print_graphic_path cfg (default_yes.take (MED - 1))
      else if equals_no col_value then
        print_graphic_path cfg "blank-01.tif".toList
      else
        match sap_lookup cfg col_value with
        | some gnp => print_graphic_path cfg (gnp.take (LRG - 1) ++ ".tif".toList)
        | none => print_graphic_path cfg (cell_contents ++ ".tif".toList)
    print_Z2BTLC01000 s.idoc.char_seq_number col_name col_value third s
  else s

/-- The function `print_blank_graphic_column_header`. -/
def print_blank_graphic_column_header (cfg : Config) (col_name col_value : CStr)
    (s : State) : State :=
  print_Z2BTLC01000 s.idoc.char_seq_number col_name col_value (print_graphic_path cfg []) s

/-- The function `print_info_lookup_column_header`. The argument `lookup` may be NULL
(`none`), which `%-255s` prints as "(null)". -/
def print_info_lookup_column_header (col_name col_value : CStr) (lookup : Option CStr)
    (s : State) : State :=
  print_Z2BTLC01000 s.idoc.char_seq_number col_name col_value
    (padRight 255 (lookup.getD "(null)".toList)) s

/-- The function `print_graphic0x_record`; `g_cnt` is passed by reference, the new value is
returned with the state. The name printed is "GRAPHIC0" followed by `g_cnt` in decimal. -/
def print_graphic0x_record (cfg : Config) (g_cnt : Int) (graphic_name : CStr) (value : Nat)
    (s : State) : Int × State :=
  if value = 2 then
    (g_cnt + 1, print_Z2BTLC01000 s.idoc.char_seq_number ("GRAPHIC0".toList ++ fmt_d g_cnt)
      "Y".toList (print_graphic_path cfg graphic_name) s)
  else if value = 3 then
    (g_cnt + 1, print_Z2BTLC01000 s.idoc.char_seq_number ("GRAPHIC0".toList ++ fmt_d g_cnt)
      "F_Y".toList (print_graphic_path cfg ("F_".toList ++ graphic_name)) s)
  else if value = 4 then
    (g_cnt + 1, print_Z2BTLC01000 s.idoc.char_seq_number ("GRAPHIC0".toList ++ fmt_d g_cnt)
      "ISO_Y".toList (print_graphic_path cfg ("ISO_".toList ++ graphic_name)) s)
  else (g_cnt, s)

/-- The function `print_boolean_record`. -/
def print_boolean_record (cfg : Config) (col_name : CStr) (value : Nat) (graphic_name : CStr)
    (s : State) : State :=
  if value ≠ 0 then
    if value = 2 then
      print_Z2BTLC01000 s.idoc.char_seq_number col_name "Y".toList
        (print_graphic_path cfg graphic_name) s
    else if value = 3 then
      print_Z2BTLC01000 s.idoc.char_seq_number col_name "F_Y".toList
        (print_graphic_path cfg ("F_".toList ++ graphic_name)) s
    else if value = 4 then
      print_Z2BTLC01000 s.idoc.char_seq_number col_name "ISO_Y".toList
        (print_graphic_path cfg ("ISO_".toList ++ graphic_name)) s
    else
      print_Z2BTLC01000 s.idoc.char_seq_number col_name "N".toList
        (print_graphic_path cfg "blank-01.tif".toList) s
  else s

/-- The function `print_boolean_column_header`; `value` is a C `bool`. -/
def print_boolean_column_header (cfg : Config) (col_name : CStr) (value : Bool)
    (s : State) : State :=
  if value then
    print_Z2BTLC01000 s.idoc.char_seq_number col_name "Y".toList
      (print_graphic_path cfg "Yes".toList) s
  else
    print_Z2BTLC01000 s.idoc.char_seq_number col_name "N".toList
      (print_graphic_path cfg "No".toList) s

/-! ## The blocks of `print_label_idoc_records` -/

/-- The double-quote character. -/
def DQUOTE : Char := Char.ofNat 34

/-- The libc `strstr`: the index of the first occurrence of `needle`, `none` for NULL. -/
def strstr : CStr → CStr → Option Nat
  | [], needle => if needle.isEmpty then some 0 else none
  | c :: s, needle =>
    if needle.isPrefixOf (c :: s) then some 0 else (strstr s needle).map (fun i => i + 1)

/-- The test `if (labels[record].field)` on a character array of the structure: the address
of the array, which is never NULL. -/
def array_nonnull (_field : CStr) : Bool := true

/-- The MATERIAL block: a line is written when the material is not empty and `strcmp` finds
it different from `prev_material`. `strlcpy` keeps `LRG - 1` characters; `prev_material` is
an array of `MED` characters, which a material of fewer than `MED` characters fits. -/
def material_record (r : Label_record) (s : State) : State :=
  if r.material.length > 0 then
    if strcmp s.prev_material r.material ≠ 0 then
      { s with
        fpout := s.fpout ++ [Line.material s.sequence_number (s.sequence_number - 1) r.material]
        idoc := { s.idoc with
                  matl_seq_number := s.sequence_number - 1
                  labl_seq_number := s.sequence_number }
        sequence_number := s.sequence_number + 1
        prev_material := r.material.take (LRG - 1) }
    else s
  else s

/-- The `else` branch of the LABEL block, which writes the label line. -/
def label_record (r : Label_record) (s : State) : State :=
  { s with
    fpout := s.fpout ++ [Line.label s.sequence_number s.idoc.labl_seq_number r.label]
    idoc := { s.idoc with
              tdline_seq_number := s.sequence_number
              char_seq_number := s.sequence_number }
    sequence_number := s.sequence_number + 1 }

/-- The loop `while (a = strstr(token, "\"\"")) memmove(a, a + 1, strlen(a))` of the TDLINE
block: every turn removes the first character of the first pair of quotes. -/
def collapse_quotes : Nat → CStr → CStr
  | 0, token => token
  | fuel + 1, token =>
    match strstr token [DQUOTE, DQUOTE] with
    | some a => collapse_quotes fuel (token.eraseIdx a)
    | none => token

/-- The quote processing of the TDLINE block: a leading quote is removed, then a trailing
one, then the pairs of quotes are collapsed. -/
def tdline_unquote (tdline : CStr) : CStr :=
  let token := if tdline.head? = some DQUOTE then tdline.tail else tdline
  let token := if token.getLast? = some DQUOTE then token.dropLast else token
  collapse_quotes token.length token

/-- One turn of the TDLINE loop on a non-empty `token`: the text printed between the indent
and the mark, and the `token` of the next turn. With a marker at `dpos` the text is the
segment before it, "##" and `70 - (int) (strlen(token) - 2)` spaces, and the next `token`
starts after the marker; without one the text is `%-74s` of `token` and the next `token` is
empty. -/
def tdline_segment (token : CStr) : CStr × CStr :=
  match strstr token "##".toList with
  | some dpos =>
    (token.take dpos ++ "##".toList ++ print_spaces (70 - ((dpos : Int) - 2)),
      token.drop (dpos + 2))
  | none => (padRight 74 token, [])

/-- The loop `while (strlen(token) > 0)` of the TDLINE block. Every turn writes one line and
shortens `token`, so `strlen(token)` turns are enough. -/
def tdline_loop (label : CStr) : Nat → CStr → Int → State → State
  | 0, _, _, s => s
  | fuel + 1, token, tdline_count, s =>
    if token.length > 0 then
      tdline_loop label fuel (tdline_segment token).2 (tdline_count + 1)
        { s with
          fpout := s.fpout ++
            [Line.text s.sequence_number s.idoc.tdline_seq_number label (tdline_segment token).1
              (if tdline_count = 0 then '*' else '/')]
          sequence_number := s.sequence_number + 1 }
    else s

/-- The TDLINE block for an allocated `tdline`. `graphic_val` receives its first four
bytes; the three tests are decided within them. -/
def tdline_records (label tdline : CStr) (s : State) : State :=
  let graphic_val := tdline.take 4
  if graphic_val.length > 0 ∧ strcasecmp graphic_val "n/a".toList ≠ 0
      ∧ equals_no graphic_val ≠ true then
    let token := tdline_unquote tdline
    tdline_loop label token.length token 0 s
  else s

/-- The libc `isspace` in the C locale. -/
def isspace (c : Char) : Bool :=
  c.toNat = 32 || (9 ≤ c.toNat && c.toNat ≤ 13)

/-- The digits read by a `%d` conversion: `none` when there is none, else their value and
the rest of the input. The fields scanned hold at most seven characters, so the value
fits an `int`. -/
def scan_digits (s : CStr) : Option (Int × CStr) :=
  if (s.takeWhile Char.isDigit).isEmpty then none
  else some ((s.takeWhile Char.isDigit).foldl (fun acc c => acc * 10 + digitValue c) 0,
    s.dropWhile Char.isDigit)

/-- The conversion `%d` of `sscanf`: white space is skipped, then an optional sign and the
digits are read. -/
def scan_d (s : CStr) : Option (Int × CStr) :=
  match s.dropWhile isspace with
  | '-' :: t => (scan_digits t).map (fun v => (0 - v.1, v.2))
  | '+' :: t => scan_digits t
  | t => scan_digits t

/-- The call `sscanf(revision, "R%d", &rev)`: `some rev` when it returns 1. -/
def sscanf_R_d (s : CStr) : Option Int :=
  match s with
  | 'R' :: t => (scan_d t).map (fun v => v.1)
  | _ => none

/-- The call `sscanf(release, "%d-%d", &year, &month)`: `some (year, month)` when it
returns 2. -/
def sscanf_d_d (s : CStr) : Option (Int × Int) :=
  match scan_d s with
  | some (year, '-' :: t) => (scan_d t).map (fun v => (year, v.1))
  | _ => none

/-- The REVISION block. -/
def revision_record (r : Label_record) (record : Int) (s : State) : State :=
  if array_nonnull r.revision then
    match sscanf_R_d r.revision with
    | some rev =>
      if rev ≥ 0 ∧ rev ≤ 99 then print_info_column_header "REVISION".toList r.revision s
      else s.report (.invalid_revision r.revision record)
    | none => s.report (.invalid_revision r.revision record)
  else s

/-- The LABEL_RELEASE_DATE block. -/
def release_record (r : Label_record) (record : Int) (s : State) : State :=
  if r.release.length > 0 then
    match sscanf_d_d r.release with
    | some (year, month) =>
      if year > 2019 ∧ month > 0 ∧ month < 13 then
        print_info_column_header "LABEL_RELEASE_DATE".toList r.release s
      else s.report (.invalid_release r.release record)
    | none => s.report (.invalid_release r.release record)
  else s

/-- One turn of the quote loop of the SIZE block,
`memmove(token + diff, token + diff + 1, strlen(token) - 1)`: for `diff ≥ 1` the bytes moved
include the NUL and the character at `diff` disappears; for `diff = 0` the NUL is not moved,
the characters shift left by one and the last one stays in place. -/
def size_shift (token : CStr) (diff : Nat) : CStr :=
  if diff = 0 then token.tail ++ token.getLast?.toList else token.eraseIdx diff

/-- The quote loop of the SIZE block; `none` when it has not ended after `fuel` turns. -/
def size_quote_loop : Nat → CStr → Option CStr
  | 0, _ => none
  | fuel + 1, token =>
    match strstr token [DQUOTE, DQUOTE] with
    | some diff => size_quote_loop fuel (size_shift token diff)
    | none => some token

/-- The SIZE block; `none` when its quote loop does not end. -/
def size_record (cfg : Config) (r : Label_record) (s : State) : Option State :=
  if r.size.length > 0 ∧ !equals_no r.size then
    let token := if r.size.head? = some DQUOTE then r.size.tail else r.size
    let token := if token.getLast? = some DQUOTE then token.dropLast else token
    match size_quote_loop ((token.length + 1) * (token.length + 1)) token with
    | none => none
    | some size =>
      match sap_lookup cfg size with
      | some gnp => some (print_info_lookup_column_header "SIZE".toList size (some gnp) s)
      | none => some (print_info_column_header "SIZE".toList size s)
  else some s

/-- The LEVEL block. -/
def level_record (cfg : Config) (r : Label_record) (record : Int) (s : State) : State :=
  if r.level.length > 0 ∧ !equals_no r.level then
    let gnp := sap_lookup cfg r.level
    let s := if gnp.isNone then s.report (.nonstandard_level r.level record) else s
    print_info_lookup_column_header "LEVEL".toList r.level gnp s
  else s

/-- The QUANTITY block. -/
def quantity_record (r : Label_record) (s : State) : State :=
  if array_nonnull r.quantity ∧ !equals_no r.quantity then
    print_info_column_header "QUANTITY".toList r.quantity s
  else s

/-- The test of the GTIN prefixes. -/
def gtin_prefix_check (gtin gtin_ctry gtin_cpny record : Int) (s : State) :
    State :=
  if gtin_ctry > 4 ∨
      (gtin ≠ 0 ∧ (gtin_cpny ≠ 4026704 ∧ gtin_cpny ≠ 5060112)) then
    s.report (.prefix_invalid gtin_cpny record)
  else s

/-- The checks made on a numeric barcode value; the same statements stand in the
BARCODETEXT, GTIN, BARCODE1 and GS1 blocks. -/
def gtin_checks (cfg : Config) (value : CStr) (record : Int) (s : State) : State :=
  let gtin := strtoll value
  if value.length = GTIN_13 + 1 then
    let s := if gtin.tmod 10 ≠ checkDigit gtin then
      s.report (.invalid_check_digit value record) else s
    let gtin_ctry := toInt32 (gtin.tdiv GTIN_14_DIGIT)
    let gtin_cpny :=
      toInt32 ((gtin - gtin_ctry * GTIN_14_DIGIT).tdiv GTIN_14_CPNY_DIVISOR)
    gtin_prefix_check gtin gtin_ctry gtin_cpny record s
  else if value.length = GTIN_13 then
    let gtin_ctry := toInt32 (gtin.tdiv GTIN_13_DIGIT)
    let gtin_cpny :=
      toInt32 ((gtin - gtin_ctry * GTIN_13_DIGIT).tdiv GTIN_13_CPNY_DIVISOR)
    gtin_prefix_check gtin gtin_ctry gtin_cpny record s
  else
    gtin_prefix_check gtin cfg.uninit_ctry cfg.uninit_cpny record
      (s.report (.invalid_check_digit_or_length value record))

/-- The BARCODETEXT block. -/
def barcodetext_record (cfg : Config) (r : Label_record) (record : Int) (s : State) : State :=
  if r.barcodetext.length > 0 ∧ !equals_no r.barcodetext then
    let s := if isNumeric r.barcodetext then gtin_checks cfg r.barcodetext record s
      else s.report (.nonnumeric_gtin r.barcodetext record)
    print_info_column_header "BARCODETEXT".toList r.barcodetext s
  else s

/-- The GTIN block. -/
def gtin_record (cfg : Config) (r : Label_record) (record : Int) (s : State) : State :=
  if array_nonnull r.gtin then
    if cfg.non_SAP_fields then
      if r.gtin.length > 0 ∧ !equals_no r.gtin then
        let s := if isNumeric r.gtin then gtin_checks cfg r.gtin record s
          else s.report (.nonnumeric_gtin r.gtin record)
        print_info_column_header "GTIN".toList r.gtin s
      else s
    else s
  else s

/-- The string that a read of `labels[record].ipn` as a C string finds. The array `ipn` has
`MED` elements and is filled by `strncpy(labels[i].ipn, contents, sizeof(labels[0].ipn))`,
which writes no NUL for contents of `MED` characters or more: the string then runs on into
the next member of the structure, `barcodetext`, which `strlcpy` always terminates. -/
def Label_record.ipn_string (r : Label_record) : CStr :=
  if r.ipn.length < MED then r.ipn else r.ipn.take MED ++ r.barcodetext

/-- The string that a read of `labels[record].ltnumber` as a C string finds. The array
`ltnumber` has `MED` elements and is filled by `strncpy` as `ipn` is; without a NUL in it the
string runs on into the next member of the structure, `ipn`. -/
def Label_record.ltnumber_string (r : Label_record) : CStr :=
  if r.ltnumber.length < MED then r.ltnumber else r.ltnumber.take MED ++ r.ipn_string

/-- The LTNUMBER block. -/
def ltnumber_record (r : Label_record) (s : State) : State :=
  if array_nonnull r.ltnumber then
    print_info_column_header "LTNUMBER".toList r.ltnumber_string s
  else s

/-- The IPN block. -/
def ipn_record (cfg : Config) (r : Label_record) (s : State) : State :=
  if cfg.non_SAP_fields then
    if array_nonnull r.ipn then print_info_column_header "IPN".toList r.ipn_string s else s
  else s

/-- The fourteen calls of `print_graphic0x_record`, in the order of the source: the graphic
name and the flag of each call. -/
def graphic0x_calls (r : Label_record) : List (CStr × Nat) :=
  [ ("Caution.tif".toList, r.caution),
    ("ConsultIFU.tif".toList, r.consultifu),
    ("Latex.tif".toList, r.latex),
    ("DoNotUsePakDam.tif".toList, r.donotusedamaged),
    ("Latex Free.tif".toList, r.latexfree),
    ("ManInBox.tif".toList, r.maninbox),
    ("DoNotRe-sterilize.tif".toList, r.noresterilize),
    ("Non-sterile.tif".toList, r.nonsterile),
    ("PVC_Free.tif".toList, r.pvcfree),
    ("Reusable.tif".toList, r.reusable),
    ("SINGLEUSE.tif".toList, r.singleuseonly),
    ("SinglePatienUse.tif".toList, r.singlepatientuse),
    ("ElectroSurIFU.tif".toList, r.electroifu),
    ("KeepDry.tif".toList, r.keepdry) ]

/-- A sequence of `print_graphic0x_record` calls sharing the counter `g_cnt`. -/
def graphic0x_run (cfg : Config) : List (CStr × Nat) → Int → State → Int × State
  | [], g_cnt, s => (g_cnt, s)
  | call :: rest, g_cnt, s =>
    graphic0x_run cfg rest (print_graphic0x_record cfg g_cnt call.1 call.2 s).1
      (print_graphic0x_record cfg g_cnt call.1 call.2 s).2

/-- The GRAPHIC01 - GRAPHIC14 block: `int g_cnt = 1` and the fourteen calls. -/
def graphic0x_records (cfg : Config) (r : Label_record) (s : State) : State :=
  (graphic0x_run cfg (graphic0x_calls r) 1 s).2

/-- The BARCODE1 block. -/
def barcode1_record (cfg : Config) (r : Label_record) (record : Int) (s : State) : State :=
  if array_nonnull r.barcode1 ∧ !equals_no r.barcode1 then
    let s := if isNumeric r.barcode1 then gtin_checks cfg r.barcode1 record s else s
    print_graphic_column_header cfg "BARCODE1".toList r.barcode1 "Nothing".toList s
  else s

/-- The GS1 block. -/
def gs1_record (cfg : Config) (r : Label_record) (record : Int) (s : State) : State :=
  if array_nonnull r.gs1 ∧ !equals_no r.gs1 then
    let s := if isNumeric r.gs1 then gtin_checks cfg r.gs1 record s else s
    if containsSpaces r.gs1 then
      print_blank_graphic_column_header cfg "GS1".toList r.gs1 s
    else print_graphic_column_header cfg "GS1".toList r.gs1 "GS1".toList s
  else s

/-- The statements of `print_label_idoc_records` from the LEVEL block to the end, one
element for each block or call, in the order of the source. -/
def characteristic_steps (cfg : Config) (r : Label_record) (record : Int) :
    List (State → State) :=
  [ level_record cfg r record,
    quantity_record r,
    barcodetext_record cfg r record,
    gtin_record cfg r record,
    ltnumber_record r,
    ipn_record cfg r,
    graphic0x_records cfg r,
    barcode1_record cfg r record,
    gs1_record cfg r record,
    print_boolean_record cfg "ECREP".toList r.ecrep "EC Rep.tif".toList,
    print_boolean_record cfg "EXPDATE".toList r.expdate "Expiration Date.tif".toList,
    print_boolean_record cfg "KEEPAWAYHEAT".toList r.keepawayheat "KeepAwayHeat.tif".toList,
    print_boolean_record cfg "LOTGRAPHIC".toList r.lotgraphic "Lot.tif".toList,
    print_boolean_record cfg "MANUFACTURER".toList r.manufacturer "Manufacturer.tif".toList,
    print_boolean_record cfg "MFGDATE".toList r.mfgdate "DateofManufacture.tif".toList,
    print_boolean_record cfg "PHTDEHP".toList r.phtdehp "PHT-DEHP.tif".toList,
    print_boolean_record cfg "PHTBBP".toList r.phtbbp "PHT-BBP.tif".toList,
    print_boolean_record cfg "PHTDINP".toList r.phtdinp "PHT-DINP.tif".toList,
    print_boolean_record cfg "REFNUMBER".toList r.refnumber "REF.tif".toList,
    print_boolean_record cfg "REF".toList r.ref "REF.tif".toList,
    print_boolean_record cfg "RXONLY".toList r.rxonly "RX Only.tif".toList,
    print_boolean_record cfg "SERIAL".toList r.serial "Serial Number.tif".toList,
    print_boolean_record cfg "TFXLOGO".toList r.tfxlogo "TeleflexMedical.tif".toList,
    print_boolean_column_header cfg "SIZELOGO".toList (r.sizelogo != 0),
    print_graphic_column_header cfg "ADDRESS".toList r.address "Nothing".toList,
    print_graphic_column_header cfg "CAUTIONSTATE".toList r.cautionstatement "Nothing".toList,
    print_graphic_column_header cfg "CE0120".toList r.cemark "Nothing".toList,
    print_graphic_column_header cfg "COOSTATE".toList r.coostate "Nothing".toList,
    print_graphic_column_header cfg "DISTRIBUTEDBY".toList r.distby "Nothing".toList,
    print_graphic_column_header cfg "ECREPADDRESS".toList r.ecrepaddress "Nothing".toList,
    print_graphic_column_header cfg "FLGRAPHIC".toList r.flgraphic "Nothing".toList,
    print_graphic_column_header cfg "LABELGRAPH1".toList r.labelgraph1 "Nothing".toList,
    print_graphic_column_header cfg "LABELGRAPH2".toList r.labelgraph2 "Nothing".toList,
    print_graphic_column_header cfg "LATEXSTATEMENT".toList r.latexstatement "Nothing".toList,
    print_graphic_column_header cfg "LOGO1".toList r.logo1 "Nothing".toList,
    print_graphic_column_header cfg "LOGO2".toList r.logo2 "Nothing".toList,
    print_graphic_column_header cfg "LOGO3".toList r.logo3 "Nothing".toList,
    print_graphic_column_header cfg "LOGO4".toList r.logo4 "Nothing".toList,
    print_graphic_column_header cfg "LOGO5".toList r.logo5 "Nothing".toList,
    print_graphic_column_header cfg "MDR1".toList r.mdr1 "Nothing".toList,
    print_graphic_column_header cfg "MDR2".toList r.mdr2 "Nothing".toList,
    print_graphic_column_header cfg "MDR3".toList r.mdr3 "Nothing".toList,
    print_graphic_column_header cfg "MDR4".toList r.mdr4 "Nothing".toList,
    print_graphic_column_header cfg "MDR5".toList r.mdr5 "Nothing".toList,
    print_graphic_column_header cfg "MANUFACTUREDBY".toList r.manufacturedby "Nothing".toList,
    print_graphic_column_header cfg "PATENTSTA".toList r.patentstatement "Nothing".toList,
    print_graphic_column_header cfg "STERILESTA".toList r.sterilitystatement "Nothing".toList,
    print_graphic_column_header cfg "STERILITYTYPE".toList r.sterilitytype "blank-01.txt".toList,
    print_graphic_column_header cfg "TEMPRANGE".toList r.temprange "Nothing".toList,
    print_graphic_column_header cfg "VERSION".toList r.version "Nothing".toList,
    print_graphic_column_header cfg "INSERTGRAPHIC".toList r.insertgraphic "yes".toList ]

/-- The quote processing of the DESCRIPTION block: a leading quote is removed, then a
trailing one. -/
def description_unquote (description : CStr) : CStr :=
  let d := if description.head? = some DQUOTE then description.tail else description
  if d.getLast? = some DQUOTE then d.dropLast else d

/-- The statements under the final `if (non_SAP_fields)`. -/
def non_SAP_steps (cfg : Config) (r : Label_record) : List (State → State) :=
  if cfg.non_SAP_fields then
    [ print_info_column_header "OLDLABEL".toList r.oldlabel,
      print_info_column_header "OLDTEMPLATE".toList r.oldtemplate,
      print_info_column_header "PREVLABEL".toList r.prevlabel,
      print_info_column_header "PREVTEMPLATE".toList r.prevtemplate,
      print_info_column_header "BOMLEVEL".toList r.bomlevel,
      print_info_column_header "DESCRIPTION".toList (description_unquote r.description) ]
  else []

/-- Statements run one after the other. -/
def run_steps (steps : List (State → State)) (s : State) : State :=
  steps.foldl (fun s step => step s) s

/-- How a call of `print_label_idoc_records`, the loop of `main`, or `main` ends: with a
return value, in the read through the NULL pointer `tdline` (`memcpy(graphic_val,
labels[record].tdline, 4)`, undefined behaviour), in the quote loop of the SIZE block, in
the read through `spreadsheet[0]` when no row has been stored (the pointer has not been
set), or in a `strcpy` of `duplicate_column_names` that writes past the block of a column
name (undefined behaviour). -/
inductive Status where
  /-- The function returned this value. -/
  | returned (value : Int)
  /-- The call read through a NULL `tdline`. -/
  | null_tdline
  /-- The call does not leave the quote loop of the SIZE block. -/
  | size_loop
  /-- The function `main` read through `spreadsheet[0]` of a spreadsheet without rows. -/
  | no_rows
  /-- The function `duplicate_column_names` copied a column name past the end of the block
  allocated for it. -/
  | column_name_overrun
deriving DecidableEq

/-- The outcome of a call: how it ended and the state it left. -/
structure Result where
  status : Status
  state : State

/-- The function `print_label_idoc_records` of `idoc.c`, for the record `r = labels[record]`. -/
def print_label_idoc_records (cfg : Config) (r : Label_record) (record : Int) (s : State) :
    Result :=
  let s := material_record r s
  if strcmp (r.label.take 3) "LBL".toList ≠ 0 then
    ⟨.returned 0, s.report (.not_LBL record)⟩
  else
    let s := label_record r s
    match r.tdline with
    | none => ⟨.null_tdline, s⟩
    | some tdline =>
      let s := tdline_records r.label tdline s
      if array_nonnull r.template then
        let s := print_info_column_header "TEMPLATENUMBER".toList r.template s
        let s := revision_record r record s
        let s := release_record r record s
        match size_record cfg r s with
        | none => ⟨.size_loop, s⟩
        | some s =>
          ⟨.returned 1,
            run_steps (non_SAP_steps cfg r) (run_steps (characteristic_steps cfg r record) s)⟩
      else ⟨.returned 0, s.report (.missing_template record)⟩

/-- The status `EXIT_SUCCESS`. -/
def EXIT_SUCCESS : Int := 0
/-- The status `EXIT_FAILURE`. -/
def EXIT_FAILURE : Int := 1

/-- The loop `while (i < spreadsheet_row_number)` of `main` over the records
`labels[i], labels[i + 1], ...`: it stops with `EXIT_FAILURE` at the first call that
returns 0. -/
def main_loop (cfg : Config) : List Label_record → Int → State → Result
  | [], _, s => ⟨.returned EXIT_SUCCESS, s⟩
  | r :: rest, i, s =>
    match print_label_idoc_records cfg r i s with
    | ⟨.returned value, s1⟩ =>
      if value ≠ 0 then main_loop cfg rest (i + 1) s1
      else ⟨.returned EXIT_FAILURE, s1.report (.content_error i)⟩
    | res => res

/-! ## Reading the spreadsheet into label records (`label.c`) -/

/-- Field length `MAX_TEMPLATE_LEN` of `label.h`. -/
def MAX_TEMPLATE_LEN : Nat := 18
/-- Field length `MAX_LEVEL` of `label.h`. -/
def MAX_LEVEL : Nat := 18
/-- Field length `MAX_LABEL_LEN` of `label.h`. -/
def MAX_LABEL_LEN : Nat := 10
/-- Field length `MAX_GTIN_LEN` of `label.h`. -/
def MAX_GTIN_LEN : Nat := 15
/-- Field length `SML` of `label.h`. -/
def SML : Nat := 5
/-- Field length `MED2` of `label.h`. -/
def MED2 : Nat := 8
/-- Field length `MAX_REV_LEN` of `label.h`. -/
def MAX_REV_LEN : Nat := 4
/-- The delimiter `TAB` of `label.h`. -/
def TAB : Char := Char.ofNat 9

/-- What `strlcpy(dst, src, size)` leaves in `dst`: the first `size - 1` characters. -/
def strlcpy (src : CStr) (size : Nat) : CStr := src.take (size - 1)

/-- What `strncpy(dst, src, n)` leaves in `dst`: the first `n` characters (the array holds no
NUL when `src` has `n` characters or more). -/
def strncpy (src : CStr) (n : Nat) : CStr := src.take n

/-- The function `get_token` of `label.c`: the token and what is left in `buffer`. With a
delimiter in `buffer` the token is the text before the first one and `buffer` keeps the
text after it; otherwise the token is the whole of a non-empty `buffer`, which becomes
empty. For an empty `buffer` the C function returns the block it allocated as it is; no
caller reaches this case. For the delimiter NUL, `strchr` finds the end of the string: the
token is the whole of `buffer`, and `memmove` moves 0 bytes, so `buffer` stays as it is. -/
def get_token (buffer : CStr) (tab_str : Char) : CStr × CStr :=
  if tab_str = Char.ofNat 0 then (buffer, buffer)
  else if tab_str ∈ buffer then
    (buffer.takeWhile (fun c => c != tab_str), (buffer.dropWhile (fun c => c != tab_str)).tail)
  else if buffer.length > 0 then (buffer, [])
  else ([], [])

/-- The loop of `peek_nth_token`: the values of `i` and `hit_count` when it ends. -/
def peek_loop (n : Int) (delimiter : Char) : CStr → Int → Int → Int × Int
  | [], i, hit_count => (i, hit_count)
  | c :: rest, i, hit_count =>
    if hit_count < n then
      peek_loop n delimiter rest (i + 1) (if c = delimiter then hit_count + 1 else hit_count)
    else (i, hit_count)

/-- The function `peek_nth_token` of `label.c`: the position of the `n`-th delimiter, 0 for
`n = 0`, -1 when there are fewer than `n` delimiters. -/
def peek_nth_token (n : Int) (buffer : CStr) (delimiter : Char) : Int :=
  if n = 0 then 0
  else if (peek_loop n delimiter buffer 0 0).2 = n then (peek_loop n delimiter buffer 0 0).1 - 1
  else -1

/-- The function `get_field_contents_from_row` of `label.c` for the row `spreadsheet[i]`:
what it leaves in `contents` and the value it returns. -/
def get_field_contents_from_row (row : CStr) (count : Int) (tab_str : Char) : CStr × Int :=
  let start : Int :=
    if count = 0 then 0
    else if peek_nth_token count row tab_str = -1 then row.length
    else peek_nth_token count row tab_str + 1
  let stop : Int :=
    if peek_nth_token (count + 1) row tab_str = -1 then row.length
    else peek_nth_token (count + 1) row tab_str
  let length := stop - start
  let contents := (row.drop start.toNat).take length.toNat
  let contents :=
    if length > 4 ∧ contents.get? (length - 4).toNat = some '.' then
      if strcmp (contents.drop (length - 3).toNat) "tif".toList = 0 then
        contents.take (length - 4).toNat
      else contents
    else contents
  if equals_no contents then (contents, 0) else (contents, length)

/-- The variables of `parse_spreadsheet` that the columns change: the label records of the
data rows (`labels[1]`, `labels[2]`, ...), the two flags, and what was printed. -/
structure ParseState where
  labels : List Label_record
  material : Bool
  pcode : Bool
  stdout : List Diag

/-- A `printf` on stdout. -/
def ParseState.report (ps : ParseState) (d : Diag) : ParseState :=
  { ps with stdout := ps.stdout ++ [d] }

/-- The loop `for (int i = 1; i < spreadsheet_row_number; i++)` of a column: the cell of
column `count` is read from each data row and `set` stores it in the record of the row. -/
def for_each_row (rows : List CStr) (count : Nat)
    (set : CStr → Int → Label_record → Label_record) (labels : List Label_record) :
    List Label_record :=
  List.zipWith
    (fun row r =>
      set (get_field_contents_from_row row count TAB).1
        (get_field_contents_from_row row count TAB).2 r)
    rows labels

/-- The end of the MATERIAL / PCODE branch: the flag of the heading is set, and the function
returns -1 (`true`) when both headings have been seen. -/
def material_or_pcode (token : CStr) (ps : ParseState) : Bool × ParseState :=
  let ps :=
    if strcmp token "MATERIAL".toList = 0 then { ps with material := true }
    else { ps with pcode := true, stdout := ps.stdout ++ [Diag.pcode_substituted] }
  if ps.pcode && ps.material then (true, ps.report .material_and_pcode) else (false, ps)

/-- The chain of tests on one column heading `token`, column number `count`. The Boolean
says whether `parse_spreadsheet` returns -1 there. -/
def parse_column (cfg : Config) (rows : List CStr) (token : CStr) (count : Nat)
    (ps : ParseState) : Bool × ParseState :=
  if strcmp token "LABEL".toList = 0 then
    (false,
      { ps with
        labels := for_each_row rows count
          (fun contents _ r => { r with label := strlcpy contents MAX_LABEL_LEN }) ps.labels })
  else if strcmp token "MATERIAL".toList = 0 ∨ strcmp token "PCODE".toList = 0 then
    material_or_pcode token
      { ps with
        labels := for_each_row rows count
          (fun contents _ r => { r with material := strlcpy contents LRG }) ps.labels }
  else if strcmp token "TDLINE".toList = 0 then
    (false,
      { ps with
        labels := for_each_row rows count
          (fun contents _ r => { r with tdline := some contents }) ps.labels })
  else if strcmp token "ADDRESS".toList = 0 then
    (false,
      { ps with
        labels := for_each_row rows count
          (fun contents _ r => { r with address := strlcpy contents MED }) ps.labels })
  else if strcmp token "BARCODETEXT".toList = 0 then
    (false,
      { ps with
        labels := for_each_row rows count
          (fun contents _ r => { r with barcodetext := strlcpy contents MAX_GTIN_LEN }) ps.labels })
  else if strcmp token "BARCODE1".toList = 0 then
    (false,
      { ps with
        labels := for_each_row rows count
          (fun contents _ r => { r with barcode1 := strlcpy contents MED }) ps.labels })
  else if strcmp token "GS1".toList = 0 then
    (false,
      { ps with
        labels := for_each_row rows count
          (fun contents _ r => { r with gs1 := strlcpy contents MED }) ps.labels })
  else if strcmp token "GTIN".toList = 0 then
    if cfg.non_SAP_fields then
      (false,
        { ps with
          labels := for_each_row rows count
            (fun contents _ r => { r with gtin := strlcpy contents MAX_GTIN_LEN }) ps.labels })
    else (false, ps.report (.ignoring_column token))
  else if strcmp token "BOMLEVEL".toList = 0 then
    (false,
      { ps with
        labels := for_each_row rows count
          (fun contents _ r => { r with bomlevel := strlcpy contents SML }) ps.labels })
  else if strcmp token "CAUTION".toList = 0 then
    (false,
      { ps with
        labels := for_each_row rows count
          (fun contents _ r =>
            if equals_yes contents then { r with caution := 2 }
            else if equals_no contents then { r with caution := 1 } else r) ps.labels })
  else if strcmp token "CAUTIONSTATE".toList = 0 then
    (false,
      { ps with
        labels := for_each_row rows count
          (fun contents _ r => { r with cautionstatement := strlcpy contents MED }) ps.labels })
  else if strcmp token "CE0120".toList = 0 ∨ strcmp token "CEMARK".toList = 0 ∨ strcmp token "CE".toList = 0 then
    (false,
      { ps with
        labels := for_each_row rows count
          (fun contents _ r => { r with cemark := strlcpy contents MED }) ps.labels })
  else if strcmp token "CONSULTIFU".toList = 0 then
    (false,
      { ps with
        labels := for_each_row rows count
          (fun contents _ r =>
            if equals_yes contents then { r with consultifu := 2 }
            else if equals_no contents then { r with consultifu := 1 } else r) ps.labels })
  else if strcmp token "CONTAINSLATEX".toList = 0 then
    (false,
      { ps with
        labels := for_each_row rows count
          (fun contents _ r =>
            if equals_yes contents then { r with latex := 2 }
            else if equals_no contents then { r with latex := 1 } else r) ps.labels })
  else if strcmp token "COOSTATE".toList = 0 then
    (false,
      { ps with
        labels := for_each_row rows count
          (fun contents _ r => { r with coostate := strlcpy contents LRG }) ps.labels })
  else if strcmp token "DESCRIPTION".toList = 0 then
    if cfg.non_SAP_fields then
      (false,
        { ps with
          labels := for_each_row rows count
            (fun contents _ r => { r with description := strlcpy contents MED }) ps.labels })
    else (false, ps.report (.ignoring_column token))
  else if strcmp token "DISTRIBUTEDBY".toList = 0 then
    (false,
      { ps with
        labels := for_each_row rows count
          (fun contents _ r => { r with distby := strlcpy contents MED }) ps.labels })
  else if strcmp token "DONOTUSEDAM".toList = 0 ∨ strcmp token "DONOTPAKDAM".toList = 0 then
    (false,
      { ps with
        labels := for_each_row rows count
          (fun contents _ r =>
            if equals_yes contents then { r with donotusedamaged := 2 }
            else if equals_no contents then { r with donotusedamaged := 1 } else r) ps.labels })
  else if strcmp token "ECREP".toList = 0 then
    (false,
      { ps with
        labels := for_each_row rows count
          (fun contents _ r =>
            if equals_yes contents then { r with ecrep := 2 }
            else if equals_no contents then { r with ecrep := 1 } else r) ps.labels })
  else if strcmp token "ECREPADDRESS".toList = 0 then
    (false,
      { ps with
        labels := for_each_row rows count
          (fun contents _ r => { r with ecrepaddress := strlcpy contents MED }) ps.labels })
  else if strcmp token "ELECTROSURIFU".toList = 0 then
    (false,
      { ps with
        labels := for_each_row rows count
          (fun contents _ r =>
            if equals_yes contents then { r with electroifu := 2 }
            else if equals_no contents then { r with electroifu := 1 } else r) ps.labels })
  else if strcmp token "EXPDATE".toList = 0 then
    (false,
      { ps with
        labels := for_each_row rows count
          (fun contents _ r =>
            if equals_yes contents then { r with expdate := 2 }
            else if equals_no contents then { r with expdate := 1 } else r) ps.labels })
  else if strcmp token "FLGRAPHIC".toList = 0 then
    (false,
      { ps with
        labels := for_each_row rows count
          (fun contents _ r => { r with flgraphic := strlcpy contents MED }) ps.labels })
  else if strcmp token "KEEPAWAYHEAT".toList = 0 then
    (false,
      { ps with
        labels := for_each_row rows count
          (fun contents _ r =>
            if equals_yes contents then { r with keepawayheat := 2 }
            else if equals_no contents then { r with keepawayheat := 1 } else r) ps.labels })
  else if strcmp token "INSERTGRAPHIC".toList = 0 then
    (false,
      { ps with
        labels := for_each_row rows count
          (fun contents _ r => { r with insertgraphic := strlcpy contents MED }) ps.labels })
  else if strcmp token "KEEPDRY".toList = 0 then
    (false,
      { ps with
        labels := for_each_row rows count
          (fun contents _ r => if equals_yes contents then { r with keepdry := 2 } else r) ps.labels })
  else if strcmp token "LABELGRAPH1".toList = 0 then
    (false,
      { ps with
        labels := for_each_row rows count
          (fun contents _ r => { r with labelgraph1 := strlcpy contents MED }) ps.labels })
  else if strcmp token "LABELGRAPH2".toList = 0 then
    (false,
      { ps with
        labels := for_each_row rows count
          (fun contents _ r => { r with labelgraph2 := strlcpy contents MED }) ps.labels })
  else if strcmp token "LATEXFREE".toList = 0 then
    (false,
      { ps with
        labels := for_each_row rows count
          (fun contents _ r =>
            if equals_yes contents then { r with latexfree := 2 }
            else if equals_no contents then { r with latexfree := 1 } else r) ps.labels })
  else if strcmp token "LATEXSTATEMENT".toList = 0 then
    (false,
      { ps with
        labels := for_each_row rows count
          (fun contents _ r => { r with latexstatement := strlcpy contents MED }) ps.labels })
  else if strcmp token "LEVEL".toList = 0 then
    (false,
      { ps with
        labels := for_each_row rows count
          (fun contents _ r => { r with level := strlcpy contents MAX_LEVEL }) ps.labels })
  else if strcmp token "LOGO1".toList = 0 then
    (false,
      { ps with
        labels := for_each_row rows count
          (fun contents _ r => { r with logo1 := strlcpy contents MED }) ps.labels })
  else if strcmp token "LOGO2".toList = 0 then
    (false,
      { ps with
        labels := for_each_row rows count
          (fun contents _ r => { r with logo2 := strlcpy contents MED }) ps.labels })
  else if strcmp token "LOGO3".toList = 0 then
    (false,
      { ps with
        labels := for_each_row rows count
          (fun contents _ r => { r with logo3 := strlcpy contents MED }) ps.labels })
  else if strcmp token "LOGO4".toList = 0 then
    (false,
      { ps with
        labels := for_each_row rows count
          (fun contents _ r => { r with logo4 := strlcpy contents MED }) ps.labels })
  else if strcmp token "LOGO5".toList = 0 then
    (false,
      { ps with
        labels := for_each_row rows count
          (fun contents _ r => { r with logo5 := strlcpy contents MED }) ps.labels })
  else if strcmp token "MDR1".toList = 0 then
    (false,
      { ps with
        labels := for_each_row rows count
          (fun contents _ r => { r with mdr1 := strlcpy contents MED }) ps.labels })
  else if strcmp token "MDR2".toList = 0 then
    (false,
      { ps with
        labels := for_each_row rows count
          (fun contents _ r => { r with mdr2 := strlcpy contents MED }) ps.labels })
  else if strcmp token "MDR3".toList = 0 then
    (false,
      { ps with
        labels := for_each_row rows count
          (fun contents _ r => { r with mdr3 := strlcpy contents MED }) ps.labels })
  else if strcmp token "MDR4".toList = 0 then
    (false,
      { ps with
        labels := for_each_row rows count
          (fun contents _ r => { r with mdr4 := strlcpy contents MED }) ps.labels })
  else if strcmp token "MDR5".toList = 0 then
    (false,
      { ps with
        labels := for_each_row rows count
          (fun contents length r => if length ≠ 0 then { r with mdr5 := strlcpy contents MED } else r) ps.labels })
  else if strcmp token "LOTGRAPHIC".toList = 0 then
    (false,
      { ps with
        labels := for_each_row rows count
          (fun contents _ r =>
            if equals_yes contents then { r with lotgraphic := 2 }
            else if equals_no contents then { r with lotgraphic := 1 } else r) ps.labels })
  else if strcmp token "LTNUMBER".toList = 0 then
    (false,
      { ps with
        labels := for_each_row rows count
          (fun contents _ r => { r with ltnumber := strncpy contents MED }) ps.labels })
  else if strcmp token "IPN".toList = 0 then
    (false,
      { ps with
        labels := for_each_row rows count
          (fun contents _ r => { r with ipn := strncpy contents MED }) ps.labels })
  else if strcmp token "MANINBOX".toList = 0 then
    (false,
      { ps with
        labels := for_each_row rows count
          (fun contents _ r =>
            if equals_yes contents then { r with maninbox := 2 }
            else if equals_no contents then { r with maninbox := 1 } else r) ps.labels })
  else if strcmp token "MANUFACTUREDBY".toList = 0 then
    (false,
      { ps with
        labels := for_each_row rows count
          (fun contents _ r => { r with manufacturedby := strlcpy contents MED }) ps.labels })
  else if strcmp token "MANUFACTURER".toList = 0 then
    (false,
      { ps with
        labels := for_each_row rows count
          (fun contents _ r =>
            if equals_yes contents then { r with manufacturer := 2 }
            else if equals_no contents then { r with manufacturer := 1 } else r) ps.labels })
  else if strcmp token "MFGDATE".toList = 0 then
    (false,
      { ps with
        labels := for_each_row rows count
          (fun contents _ r =>
            if equals_yes contents then { r with mfgdate := 2 }
            else if equals_no contents then { r with mfgdate := 1 } else r) ps.labels })
  else if strcmp token "NORESTERILE".toList = 0 then
    (false,
      { ps with
        labels := for_each_row rows count
          (fun contents _ r =>
            if equals_yes contents then { r with noresterilize := 2 }
            else if equals_no contents then { r with noresterilize := 1 } else r) ps.labels })
  else if strcmp token "NONSTERILE".toList = 0 then
    (false,
      { ps with
        labels := for_each_row rows count
          (fun contents _ r =>
            if equals_yes contents then { r with nonsterile := 2 }
            else if equals_no contents then { r with nonsterile := 1 } else r) ps.labels })
  else if strcmp token "OLDLABEL".toList = 0 then
    if cfg.non_SAP_fields then
      (false,
        { ps with
          labels := for_each_row rows count
            (fun contents _ r => { r with oldlabel := strlcpy contents MED }) ps.labels })
    else (false, ps.report (.ignoring_column token))
  else if strcmp token "OLDTEMPLATE".toList = 0 then
    if cfg.non_SAP_fields then
      (false,
        { ps with
          labels := for_each_row rows count
            (fun contents _ r => { r with oldtemplate := strlcpy contents MED }) ps.labels })
    else (false, ps.report (.ignoring_column token))
  else if strcmp token "PREVLABEL".toList = 0 then
    if cfg.non_SAP_fields then
      (false,
        { ps with
          labels := for_each_row rows count
            (fun contents _ r => { r with prevlabel := strlcpy contents MED }) ps.labels })
    else (false, ps.report (.ignoring_column token))
  else if strcmp token "PREVTEMPLATE".toList = 0 then
    if cfg.non_SAP_fields then
      (false,
        { ps with
          labels := for_each_row rows count
            (fun contents _ r => { r with prevtemplate := strlcpy contents MED }) ps.labels })
    else (false, ps.report (.ignoring_column token))
  else if strcmp token "PATENTSTA".toList = 0 then
    (false,
      { ps with
        labels := for_each_row rows count
          (fun contents _ r => { r with patentstatement := strlcpy contents MED }) ps.labels })
  else if strcmp token "PHTDEHP".toList = 0 then
    (false,
      { ps with
        labels := for_each_row rows count
          (fun contents _ r =>
            if equals_yes contents then { r with phtdehp := 2 }
            else if equals_no contents then { r with phtdehp := 1 } else r) ps.labels })
  else if strcmp token "PHTBBP".toList = 0 then
    (false,
      { ps with
        labels := for_each_row rows count
          (fun contents _ r =>
            if equals_yes contents then { r with phtbbp := 2 }
            else if equals_no contents then { r with phtbbp := 1 } else r) ps.labels })
  else if strcmp token "PHTDINP".toList = 0 then
    (false,
      { ps with
        labels := for_each_row rows count
          (fun contents _ r =>
            if equals_yes contents then { r with phtdinp := 2 }
            else if equals_no contents then { r with phtdinp := 1 } else r) ps.labels })
  else if strcmp token "PVCFREE".toList = 0 then
    (false,
      { ps with
        labels := for_each_row rows count
          (fun contents _ r =>
            if equals_yes contents then { r with pvcfree := 2 }
            else if equals_no contents then { r with pvcfree := 1 } else r) ps.labels })
  else if strcmp token "QUANTITY".toList = 0 then
    (false,
      { ps with
        labels := for_each_row rows count
          (fun contents _ r => { r with quantity := strlcpy contents LRG }) ps.labels })
  else if strcmp token "REF".toList = 0 then
    (false,
      { ps with
        labels := for_each_row rows count
          (fun contents _ r =>
            if equals_yes contents then { r with ref := 2 }
            else if equals_no contents then { r with ref := 1 } else r) ps.labels })
  else if strcmp token "REFNUMBER".toList = 0 then
    (false,
      { ps with
        labels := for_each_row rows count
          (fun contents _ r =>
            if equals_yes contents then { r with refnumber := 2 }
            else if equals_no contents then { r with refnumber := 1 } else r) ps.labels })
  else if strcmp token "REUSABLE".toList = 0 then
    (false,
      { ps with
        labels := for_each_row rows count
          (fun contents _ r =>
            if equals_yes contents then { r with reusable := 2 }
            else if equals_no contents then { r with reusable := 1 } else r) ps.labels })
  else if strcmp token "REVISION".toList = 0 then
    (false,
      { ps with
        labels := for_each_row rows count
          (fun contents _ r => { r with revision := strlcpy contents MAX_REV_LEN }) ps.labels })
  else if strcmp token "LABEL_RELEASE_DATE".toList = 0 then
    (false,
      { ps with
        labels := for_each_row rows count
          (fun contents _ r => { r with release := strlcpy contents MED2 }) ps.labels })
  else if strcmp token "RXONLY".toList = 0 then
    (false,
      { ps with
        labels := for_each_row rows count
          (fun contents _ r =>
            if equals_yes contents then { r with rxonly := 2 }
            else if equals_no contents then { r with rxonly := 1 } else r) ps.labels })
  else if strcmp token "SINGLEUSE".toList = 0 then
    (false,
      { ps with
        labels := for_each_row rows count
          (fun contents _ r =>
            if equals_yes contents then { r with singleuseonly := 2 }
            else if equals_no contents then { r with singleuseonly := 1 } else r) ps.labels })
  else if strcmp token "SERIAL".toList = 0 then
    (false,
      { ps with
        labels := for_each_row rows count
          (fun contents _ r =>
            if equals_yes contents then { r with serial := 2 }
            else if equals_no contents then { r with serial := 1 } else r) ps.labels })
  else if strcmp token "SINGLEPATIENTUSE".toList = 0 then
    (false,
      { ps with
        labels := for_each_row rows count
          (fun contents _ r =>
            if equals_yes contents then { r with singlepatientuse := 2 }
            else if equals_no contents then { r with singlepatientuse := 1 } else r) ps.labels })
  else if strcmp token "SIZE".toList = 0 then
    (false,
      { ps with
        labels := for_each_row rows count
          (fun contents _ r => { r with size := strlcpy contents MED }) ps.labels })
  else if strcmp token "SIZELOGO".toList = 0 then
    (false,
      { ps with
        labels := for_each_row rows count
          (fun contents _ r =>
            if equals_yes contents then { r with sizelogo := 2 }
            else if equals_no contents then { r with sizelogo := 1 } else r) ps.labels })
  else if strcmp token "STERILITYTYPE".toList = 0 then
    (false,
      { ps with
        labels := for_each_row rows count
          (fun contents _ r => { r with sterilitytype := strlcpy contents MED }) ps.labels })
  else if strcmp token "STERILESTA".toList = 0 then
    (false,
      { ps with
        labels := for_each_row rows count
          (fun contents _ r => { r with sterilitystatement := strlcpy contents MED }) ps.labels })
  else if strcmp token "TEMPRANGE".toList = 0 then
    (false,
      { ps with
        labels := for_each_row rows count
          (fun contents _ r => { r with temprange := strlcpy contents MED }) ps.labels })
  else if strcmp token "TEMPLATENUMBER".toList = 0 ∨ strcmp token "TEMPLATE".toList = 0 then
    (false,
      { ps with
        labels := for_each_row rows count
          (fun contents _ r => { r with template := strlcpy contents MAX_TEMPLATE_LEN }) ps.labels })
  else if strcmp token "TFXLOGO".toList = 0 then
    (false,
      { ps with
        labels := for_each_row rows count
          (fun contents _ r =>
            if equals_yes contents then { r with tfxlogo := 2 }
            else if equals_no contents then { r with tfxlogo := 1 } else r) ps.labels })
  else if strcmp token "VERSION".toList = 0 then
    (false,
      { ps with
        labels := for_each_row rows count
          (fun contents _ r => { r with version := strlcpy contents MED }) ps.labels })
  else if token.length > 0 then
    if strcmp token "CAUTIONSTATEMENT".toList = 0 then
      (false, (ps.report (.change_cautionstatement token)).report (.ignoring_column token))
    else (false, ps.report (.ignoring_column token))
  else (false, ps)

/-- The loop `while (strlen(buffer) > 0)` of `parse_spreadsheet`; every turn takes at least
one character off `buffer`. `count` is an `unsigned short`. -/
def parse_loop (cfg : Config) (rows : List CStr) : Nat → CStr → Nat → ParseState →
    Int × ParseState
  | 0, _, count, ps => (count, ps)
  | fuel + 1, buffer, count, ps =>
    if buffer.length > 0 then
      if (parse_column cfg rows (get_token buffer TAB).1 count ps).1 then
        (-1, (parse_column cfg rows (get_token buffer TAB).1 count ps).2)
      else
        parse_loop cfg rows fuel (get_token buffer TAB).2 ((count + 1) % 65536)
          (parse_column cfg rows (get_token buffer TAB).1 count ps).2
    else (count, ps)

/-- The function `parse_spreadsheet` of `label.c`: `buffer` is the heading row, `rows` are
the data rows `spreadsheet[1]`, `spreadsheet[2]`, ..., `labels` their records. The result is
the value returned, the records and what was printed. -/
def parse_spreadsheet (cfg : Config) (buffer : CStr) (rows : List CStr)
    (labels : List Label_record) : Int × ParseState :=
  parse_loop cfg rows buffer.length buffer 0
    { labels := labels, material := false, pcode := false, stdout := [] }

/-- The records as `calloc` leaves them in `main`, one for each data row. -/
def calloc_labels (rows : List CStr) : List Label_record := rows.map (fun _ => {})

/-! ## Predicates on the lines written -/

/-- The lines `ls` are text or characteristic lines numbered `n, n + 1, ...` in this order,
each with parent number `p`. -/
def ChildLines : Int → Int → List Line → Prop
  | _, _, [] => True
  | n, p, l :: ls =>
    l.seq = n ∧ l.parent = p ∧ (l.isText = true ∨ l.isCharacteristic = true)
      ∧ ChildLines (n + 1) p ls

/-- From `s` to `t` the program has only written text or characteristic lines with parent
number `p`, numbered from the counter of `s`, and has advanced the counter by their number;
`idoc` and `prev_material` are unchanged. -/
def Extends (p : Int) (s t : State) : Prop :=
  ∃ ls : List Line, t.fpout = s.fpout ++ ls
    ∧ t.sequence_number = s.sequence_number + ls.length
    ∧ t.idoc = s.idoc ∧ t.prev_material = s.prev_material
    ∧ ChildLines s.sequence_number p ls

/-- A statement that only adds characteristic lines under the current label line. -/
def CharStep (f : State → State) : Prop :=
  ∀ s : State, Extends s.idoc.char_seq_number s (f s)

/-- The last material line among `lines`, if there is one. -/
def lastMaterial (lines : List Line) : Option Line := (lines.filter Line.isMaterial).getLast?

/-- The last label line among `lines`, if there is one. -/
def lastLabel (lines : List Line) : Option Line := (lines.filter Line.isLabel).getLast?

/-- The numbering discipline of the document written so far, together with what the control
numbers hold: the lines are numbered 1, 2, ... by the counter; a material line refers to its
own number less one; a label line refers to the last material line before it, and to 1 when
there is none; a text or characteristic line refers to the last label line before it. -/
structure RunInv (s : State) : Prop where
  counter : s.sequence_number = (s.fpout.length : Int) + 1
  own : ∀ (k : Nat) (l : Line), s.fpout[k]? = some l → l.seq = (k : Int) + 1
  material_ref : ∀ (k : Nat) (l : Line), s.fpout[k]? = some l → l.isMaterial = true →
    l.parent = l.seq - 1
  label_ref : ∀ (k : Nat) (l : Line), s.fpout[k]? = some l → l.isLabel = true →
    l.parent = ((lastMaterial (s.fpout.take k)).map Line.seq).getD 1
  child_ref : ∀ (k : Nat) (l : Line), s.fpout[k]? = some l →
    (l.isText = true ∨ l.isCharacteristic = true) →
    ∃ lbl, lastLabel (s.fpout.take k) = some lbl ∧ l.parent = lbl.seq
  labl : s.idoc.labl_seq_number = ((lastMaterial s.fpout).map Line.seq).getD 1
  char : ∀ lbl, lastLabel s.fpout = some lbl →
    s.idoc.char_seq_number = lbl.seq ∧ s.idoc.tdline_seq_number = lbl.seq

/-! ## Statements of the specification and sample inputs -/

/-- Claim C3 as the specification states it, for the lines of a document: every label line
carries as parent number the own sequence number of the last material line written before
it. -/
def LabelRefersToLastMaterial (lines : List Line) : Prop :=
  ∀ (k : Nat) (l : Line), lines[k]? = some l → l.isLabel = true →
    ∃ m : Line, lastMaterial (lines.take k) = some m ∧ l.parent = m.seq

/-- A configuration for the sample runs: both switches off, a lookup table of two entries. -/
def sample_config : Config :=
  { alt_path := false
    non_SAP_fields := false
    lookup := [("BOX".toList, "Box".toList), ("CASE".toList, "Case".toList)]
    beyond := ([], [])
    uninit_ctry := 0
    uninit_cpny := 0 }

/-- A record with a label and a template number, without material; its `tdline` is
allocated and empty. -/
def sample_record_plain : Label_record :=
  { label := "LBL001".toList, template := "TPL1".toList, tdline := some [] }

/-- A record with material MAT1; its `tdline` is allocated and empty. -/
def sample_record_mat1 : Label_record :=
  { material := "MAT1".toList, label := "LBL001".toList, template := "TPL1".toList,
    tdline := some [] }

/-- The text of a material line (empty for another line). -/
def Line.materialText : Line → CStr
  | .material _ _ m => m
  | _ => []

/-- The string `s` is one that a character array of `n` elements can hold: fewer than `n`
characters, none of them NUL. -/
def FitsField (n : Nat) (s : CStr) : Prop := s.length < n ∧ ∀ c ∈ s, c ≠ Char.ofNat 0

/-- The variable `prev_material` holds the text of the last material line written, and is
empty when there is none. -/
def MaterialInv (s : State) : Prop :=
  s.prev_material = ((lastMaterial s.fpout).map Line.materialText).getD []
    ∧ ∀ c ∈ s.prev_material, c ≠ Char.ofNat 0

/-- The heading row of the scenario of claim C8. -/
def scenario_header : CStr := "LABEL\tMATERIAL\tTEMPLATE".toList

/-- The data row of the scenario of claim C8. -/
def scenario_row : CStr := "LBL001\tMAT1\tTPL1".toList

/-- The heading row of the scenario with a TDLINE column added. -/
def scenario_header_tdline : CStr := "LABEL\tMATERIAL\tTEMPLATE\tTDLINE".toList

/-- The data row of the scenario with an empty TDLINE cell added. -/
def scenario_row_tdline : CStr := "LBL001\tMAT1\tTPL1\t".toList

/-- The number that a string of decimal digits writes. -/
def decimal (s : CStr) : Int := s.foldl (fun acc c => acc * 10 + digitValue c) 0

/-! ## The lookup check, reading the file, sorting the records, and `main` -/

/-- The loop of `check_lookup_array` from the entry `i` on, over the entries `lookup[i]`,
`lookup[i + 1]`, ...: the value returned and what was printed. -/
def check_lookup_array_from : Int → List (CStr × CStr) → Bool × List Diag
  | i, a :: b :: rest =>
    if strcasecmp a.1 b.1 ≥ 0 then (false, [Diag.lookup_order i a.1 (i + 1) b.1])
    else check_lookup_array_from (i + 1) (b :: rest)
  | _, _ => (true, [])

/-- The function `check_lookup_array` of `idoc.c`. -/
def check_lookup_array (cfg : Config) : Bool × List Diag :=
  check_lookup_array_from 0 cfg.lookup

/-- The end-of-line character `LF` of `idoc.c`. -/
def LF : Char := Char.ofNat 10

/-- The size `MAX_COLUMNS` of `label.h`. -/
def MAX_COLUMNS : Nat := 1000

/-- The C string that starts at the first character of an array: the characters before the
first NUL. -/
def c_string (array : CStr) : CStr := array.takeWhile (fun c => c != Char.ofNat 0)

/-- The variables of `read_spreadsheet`: the characters `buffer[0] .. buffer[i - 1]` written
since the last row was closed (`i` is their number), `line_not_empty`, and the rows stored
in `spreadsheet` (`spreadsheet_row_number` is their number). -/
structure ReadState where
  buffer : CStr
  line_not_empty : Bool
  spreadsheet : List CStr

/-- The byte `buffer[k]` for `k < i`. -/
def buffer_at (cfg : Config) (buffer : CStr) (k : Int) : Char :=
  if 0 ≤ k then buffer.getD k.toNat (Char.ofNat 0) else cfg.outside_buffer k

/-- One turn of the loop of `read_spreadsheet`, for the character `c`. -/
def read_char (cfg : Config) (st : ReadState) (c : Char) : ReadState :=
  if c = LF then
    if ((st.buffer.length : Int) > 1
          ∧ buffer_at cfg st.buffer ((st.buffer.length : Int) - 1) ≠ '#')
        ∨ buffer_at cfg st.buffer ((st.buffer.length : Int) - 2) ≠ '#' then
      { buffer := []
        line_not_empty := false
        spreadsheet :=
          if st.line_not_empty then
            st.spreadsheet ++ [strlcpy (c_string st.buffer) MAX_COLUMNS]
          else st.spreadsheet }
    else st
  else
    { st with
      buffer := st.buffer ++ [c]
      line_not_empty :=
        if c ≠ Char.ofNat 9 then (if c ≠ Char.ofNat 13 then true else st.line_not_empty)
        else st.line_not_empty }

/-- The loop of `read_spreadsheet` over the characters `text`. -/
def read_chars (cfg : Config) (st : ReadState) (text : CStr) : ReadState :=
  text.foldl (read_char cfg) st

/-- The function `read_spreadsheet` of `idoc.c` on a file with the contents `fp`: the rows
stored. The loop ends at the end of the file or at the first byte 255, which the cast
`(char) fgetc(fp)` makes equal to `EOF` (`char` is signed). -/
def read_spreadsheet (cfg : Config) (fp : CStr) : List CStr :=
  (read_chars cfg { buffer := [], line_not_empty := false, spreadsheet := [] }
    (fp.takeWhile (fun c => c != Char.ofNat 255))).spreadsheet

/-- The value `INT_MIN` of `limits.h`. -/
def INT_MIN : Int := -2147483648

/-- The value of a `char` converted to `int` (`char` is signed). -/
def char_int (c : Char) : Int := if 128 ≤ ord c ∧ ord c < 256 then ord c - 256 else ord c

/-- The libc `tolower` on an `int`, in the C locale. -/
def tolower_int (x : Int) : Int := if 65 ≤ x ∧ x ≤ 90 then x + 32 else x

/-- The loop of `strncmpci`; the first argument is the number of characters still to be
compared, `*str` at the end of a string is 0. -/
def strncmpci_loop : Nat → CStr → CStr → Int → Int
  | 0, _, _, ret_code => ret_code
  | n + 1, str1, str2, ret_code =>
    if str1 = [] ∧ str2 = [] then ret_code
    else if tolower_int ((str1.head?.map char_int).getD 0)
        - tolower_int ((str2.head?.map char_int).getD 0) ≠ 0 then
      tolower_int ((str1.head?.map char_int).getD 0)
        - tolower_int ((str2.head?.map char_int).getD 0)
    else strncmpci_loop n str1.tail str2.tail 0

/-- The function `strncmpci` of `label.c`; `none` is a NULL pointer. The test
`chars_compared < num` is made on `size_t`, so a negative `num` sets no bound. -/
def strncmpci (str1 str2 : Option CStr) (num : Int) : Int :=
  match str1, str2 with
  | some a, some b =>
    strncmpci_loop (if num < 0 then max a.length b.length + 1 else num.toNat) a b INT_MIN
  | _, _ => INT_MIN

/-- The loop `while (strlen(buffer) > 0)` of `duplicate_column_names`: the non-empty tokens
are appended to `column_names`. Every turn takes at least one character off `buffer`. -/
def column_names_loop : Nat → CStr → List CStr → List CStr
  | 0, _, column_names => column_names
  | fuel + 1, buffer, column_names =>
    if buffer.length > 0 then
      column_names_loop fuel (get_token buffer TAB).2
        (if (get_token buffer TAB).1.length > 0 then column_names ++ [(get_token buffer TAB).1]
         else column_names)
    else column_names

/-- The inner loop `for (int j = i + 1; j < count; j++)` of `duplicate_column_names`, with
the number of turns left: `min_column` and `min_index` at its end. -/
def column_names_scan (column_names : List CStr) : Nat → Nat → CStr → Nat → CStr × Nat
  | 0, _, min_column, min_index => (min_column, min_index)
  | n + 1, j, min_column, min_index =>
    if strcmp (column_names.getD j []) min_column < 0 then
      column_names_scan column_names n (j + 1) (column_names.getD j []) j
    else column_names_scan column_names n (j + 1) min_column min_index

/-- The outer loop `for (int i = 0; i < count; i++)` of `duplicate_column_names`, with the
number of turns left; the three `strcpy` exchange the names at `i` and `min_index`. -/
def column_names_sort : Nat → Nat → List CStr → List CStr
  | 0, _, column_names => column_names
  | n + 1, i, column_names =>
    if i ≠ (column_names_scan column_names n (i + 1) (column_names.getD i []) i).2 then
      column_names_sort n (i + 1)
        ((column_names.set i (column_names.getD
            (column_names_scan column_names n (i + 1) (column_names.getD i []) i).2 [])).set
          (column_names_scan column_names n (i + 1) (column_names.getD i []) i).2
          (column_names.getD i []))
    else column_names_sort n (i + 1) column_names

/-- The last loop of `duplicate_column_names`: `return_code` becomes 1 when two names that
follow each other are equal. -/
def column_names_equal : List CStr → Int → Int
  | a :: b :: rest, return_code =>
    column_names_equal (b :: rest) (if strcmp a b = 0 then 1 else return_code)
  | _, return_code => return_code

/-- The size in bytes of the block that `duplicate_column_names` allocates for a column
name, `malloc(sizeof(char *) + sizeof(token) + 3)`: `token` is a `char *`, so with pointers
of 8 bytes the block has 19 bytes, whatever the length of the name. -/
def COLUMN_NAME_BLOCK : Nat := 8 + 8 + 3

/-- The function `duplicate_column_names` of `label.c`. Every name is copied with `strcpy`
into its block of `COLUMN_NAME_BLOCK` bytes (and, during the sort, into the arrays
`min_column` and `temp` of `MED` characters and into the blocks of other names): a name
with its NUL must fit the block. The result is `none` when a name does not fit: the
`strcpy` then writes past the end of the block, which is undefined behaviour. Otherwise it
is the value returned. -/
def duplicate_column_names (cols : CStr) : Option Int :=
  if (column_names_loop cols.length cols []).all (fun name => name.length < COLUMN_NAME_BLOCK)
  then
    some
      (column_names_equal
        (column_names_sort (column_names_loop cols.length cols []).length 0
          (column_names_loop cols.length cols [])) 0)
  else none

/-- The inner loop `for (int j = i + 1; j < spreadsheet_row_number; j++)` of `sort_labels`,
with the number of turns left: `min_label` and `min_index` at its end. The list `labels`
holds the records of the data rows: its entry `k` is `labels[k + 1]` of the C array, and the
indices `i`, `j` and `min_index` are those of the list. -/
def sort_labels_scan (labels : List Label_record) :
    Nat → Nat → Label_record → Nat → Label_record × Nat
  | 0, _, min_label, min_index => (min_label, min_index)
  | n + 1, j, min_label, min_index =>
    if strcmp (labels.getD j {}).label min_label.label < 0 then
      sort_labels_scan labels n (j + 1) (labels.getD j {}) j
    else sort_labels_scan labels n (j + 1) min_label min_index

/-- The function `swap_label_records` of `label.c`. -/
def swap_label_records (labels : List Label_record) (i min_index : Nat) :
    List Label_record :=
  (labels.set i (labels.getD min_index {})).set min_index (labels.getD i {})

/-- The outer loop `for (int i = 1; i < spreadsheet_row_number; i++)` of `sort_labels`, with
the number of turns left: the value of `sorted` and the array at its end. -/
def sort_labels_from : Nat → Nat → List Label_record → Bool → Bool × List Label_record
  | 0, _, labels, sorted => (sorted, labels)
  | n + 1, i, labels, sorted =>
    if i ≠ (sort_labels_scan labels n (i + 1) (labels.getD i {}) i).2 then
      sort_labels_from n (i + 1)
        (swap_label_records labels i
          (sort_labels_scan labels n (i + 1) (labels.getD i {}) i).2) false
    else sort_labels_from n (i + 1) labels sorted

/-- The function `sort_labels` of `label.c` on the records of the data rows: the value
returned and the records in their new order. -/
def sort_labels (labels : List Label_record) : Bool × List Label_record :=
  sort_labels_from labels.length 0 labels true

/-- The switches that `main` reads from the command line, and what it printed. -/
structure Switches where
  alt_path : Bool
  label_data : Bool
  non_SAP_fields : Bool
  stdout : List Diag

/-- The chain of tests that `main` makes on one argument `argv[k]`. -/
def read_switch (arg : Option CStr) (sw : Switches) : Switches :=
  if arg ≠ none ∧ strncmpci arg (some "-J".toList) 2 = 0 then
    { sw with alt_path := true, stdout := sw.stdout ++ [Diag.alternate_path_selected] }
  else if arg ≠ none ∧ strncmpci arg (some "-L".toList) 2 = 0 then
    { sw with label_data := true, stdout := sw.stdout ++ [Diag.label_data_selected] }
  else if arg ≠ none ∧ strncmpci arg (some "-n".toList) 2 = 0 then
    { sw with non_SAP_fields := true, stdout := sw.stdout ++ [Diag.non_SAP_selected] }
  else sw

/-- The three statements `if (argc > 4)`, `if (argc > 3)`, `if (argc > 2)` of `main`. -/
def read_switches (argv : List CStr) (sw : Switches) : Switches :=
  let sw := if argv.length > 4 then read_switch (argv.get? 4) sw else sw
  let sw := if argv.length > 3 then read_switch (argv.get? 3) sw else sw
  if argv.length > 2 then read_switch (argv.get? 2) sw else sw

/-- How `main` ends: the status, the rows that `read_spreadsheet` stored in `spreadsheet`,
the label records, and the state with the lines written and the diagnostics printed. -/
structure Run where
  status : Status
  spreadsheet : List CStr
  labels : List Label_record
  state : State

/-- The function `main` of `idoc.c`. The arguments are `argv[0]`, ..., `argv[argc - 1]`;
`file` is the contents of the file named `argv[1]`, `none` when `fopen` does not open it.
The switches `alt_path` and `non_SAP_fields` are the globals that `main` sets; they start
as `false`. The allocations and the opening of the output files are taken to succeed, and
the name of the output file and the elapsed time are not kept. -/
def main (cfg : Config) (argv : List CStr) (file : Option CStr) : Run :=
  if !(check_lookup_array cfg).1 then
    { status := .returned EXIT_FAILURE, spreadsheet := [], labels := []
      state := { State.initial with stdout := (check_lookup_array cfg).2 } }
  else if argv.length ≠ 2 ∧ argv.length ≠ 3 ∧ argv.length ≠ 4 then
    { status := .returned EXIT_FAILURE, spreadsheet := [], labels := []
      state := { State.initial with stdout := [Diag.usage] } }
  else
    let sw := read_switches argv
      { alt_path := false, label_data := false, non_SAP_fields := false, stdout := [] }
    let cfg := { cfg with alt_path := sw.alt_path, non_SAP_fields := sw.non_SAP_fields }
    match file with
    | none =>
      { status := .returned EXIT_FAILURE, spreadsheet := [], labels := []
        state := { State.initial with stdout := sw.stdout ++ [Diag.file_not_found] } }
    | some fp =>
      match read_spreadsheet cfg fp with
      | [] =>
        { status := .no_rows, spreadsheet := [], labels := []
          state := { State.initial with stdout := sw.stdout } }
      | heading :: rows =>
        if duplicate_column_names heading = none then
          { status := .column_name_overrun, spreadsheet := heading :: rows
            labels := calloc_labels rows
            state := { State.initial with stdout := sw.stdout } }
        else if duplicate_column_names heading ≠ some 0 then
          { status := .returned EXIT_FAILURE, spreadsheet := heading :: rows
            labels := calloc_labels rows
            state := { State.initial with stdout := sw.stdout ++ [Diag.duplicate_columns] } }
        else if (parse_spreadsheet cfg heading rows (calloc_labels rows)).1 = -1 then
          { status := .returned EXIT_FAILURE, spreadsheet := heading :: rows
            labels := (parse_spreadsheet cfg heading rows (calloc_labels rows)).2.labels
            state :=
              { State.initial with
                stdout := sw.stdout
                  ++ (parse_spreadsheet cfg heading rows (calloc_labels rows)).2.stdout
                  ++ [Diag.aborting] } }
        else
          let labels :=
            (sort_labels (parse_spreadsheet cfg heading rows (calloc_labels rows)).2.labels).2
          let res := main_loop cfg labels 1
            { State.initial with
              stdout := sw.stdout
                ++ (parse_spreadsheet cfg heading rows (calloc_labels rows)).2.stdout
                ++ [Diag.creating_idoc_file] }
          { status := res.status, spreadsheet := heading :: rows, labels := labels
            state := res.state }

/-- A table of three entries; the memory after it holds, by chance, an entry with the term
PACK. -/
def sample_config_three : Config :=
  { sample_config with
    lookup := [("BOX".toList, "Box".toList), ("CASE".toList, "Case".toList),
      ("EACH".toList, "Each".toList)]
    beyond := ("PACK".toList, "Pack".toList) }

/-- Three records, the first two with the same label, the third with a label below it. -/
def sample_labels_equal : List Label_record :=
  [{ label := "LBL002".toList, material := "MAT1".toList },
   { label := "LBL002".toList, material := "MAT2".toList },
   { label := "LBL001".toList, material := "MAT3".toList }]

/-- Whether a line has a character other than tab and carriage return (the words of the
specification). -/
def spec_line_kept (l : CStr) : Bool :=
  l.any (fun c => c != Char.ofNat 9 && c != Char.ofNat 13)

/-- The text made of the lines `ls`, each followed by a line feed, and of the characters `r`
after the last line feed (the words of the specification). -/
def spec_text (ls : List CStr) (r : CStr) : CStr :=
  (ls.map (fun l => l ++ [LF])).flatten ++ r

/-- The sample configuration when the bytes before `buffer` in `read_spreadsheet` hold the
character `#`. -/
def sample_config_marker : Config :=
  { sample_config with outside_buffer := fun _ => '#' }

/-! ## The words of the specification on the quotes of a free-text value -/

/-- A leading double quote is removed if present, then a trailing one if present (the words
of the specification). -/
def spec_strip_quotes (text : CStr) : CStr :=
  let text := if text.head? = some DQUOTE then text.tail else text
  if text.getLast? = some DQUOTE then text.dropLast else text

/-- Each pair of adjacent double quotes, taken from left to right without overlap, becomes
one double quote (the words of the specification). -/
def spec_collapse_pairs : CStr → CStr
  | [] => []
  | [c] => [c]
  | c :: d :: t =>
    if c = DQUOTE ∧ d = DQUOTE then DQUOTE :: spec_collapse_pairs t
    else c :: spec_collapse_pairs (d :: t)

/-- Each run of adjacent double quotes becomes one double quote: a double quote that is
followed by a double quote is dropped. -/
def spec_squeeze_quotes : CStr → CStr
  | [] => []
  | c :: rest =>
    if c = DQUOTE ∧ rest.head? = some DQUOTE then spec_squeeze_quotes rest
    else c :: spec_squeeze_quotes rest

/-- The heading row made of the column names `names`, separated by tabs (the words of the
specification). -/
def spec_header : List CStr → CStr
  | [] => []
  | [n] => n
  | n :: m :: rest => n ++ TAB :: spec_header (m :: rest)

/-- The yes/no columns of `parse_spreadsheet`: each heading the chain tests for a flag, with
the flag of `Label_record` that its branch assigns. -/
def flag_columns : List (CStr × (Label_record → Nat)) :=
  [("CAUTION".toList, fun r => r.caution),
   ("CONSULTIFU".toList, fun r => r.consultifu),
   ("CONTAINSLATEX".toList, fun r => r.latex),
   ("DONOTUSEDAM".toList, fun r => r.donotusedamaged),
   ("DONOTPAKDAM".toList, fun r => r.donotusedamaged),
   ("ECREP".toList, fun r => r.ecrep),
   ("ELECTROSURIFU".toList, fun r => r.electroifu),
   ("EXPDATE".toList, fun r => r.expdate),
   ("KEEPAWAYHEAT".toList, fun r => r.keepawayheat),
   ("KEEPDRY".toList, fun r => r.keepdry),
   ("LATEXFREE".toList, fun r => r.latexfree),
   ("LOTGRAPHIC".toList, fun r => r.lotgraphic),
   ("MANINBOX".toList, fun r => r.maninbox),
   ("MANUFACTURER".toList, fun r => r.manufacturer),
   ("MFGDATE".toList, fun r => r.mfgdate),
   ("NORESTERILE".toList, fun r => r.noresterilize),
   ("NONSTERILE".toList, fun r => r.nonsterile),
   ("PHTDEHP".toList, fun r => r.phtdehp),
   ("PHTBBP".toList, fun r => r.phtbbp),
   ("PHTDINP".toList, fun r => r.phtdinp),
   ("PVCFREE".toList, fun r => r.pvcfree),
   ("REF".toList, fun r => r.ref),
   ("REFNUMBER".toList, fun r => r.refnumber),
   ("REUSABLE".toList, fun r => r.reusable),
   ("RXONLY".toList, fun r => r.rxonly),
   ("SINGLEUSE".toList, fun r => r.singleuseonly),
   ("SERIAL".toList, fun r => r.serial),
   ("SINGLEPATIENTUSE".toList, fun r => r.singlepatientuse),
   ("SIZELOGO".toList, fun r => r.sizelogo),
   ("TFXLOGO".toList, fun r => r.tfxlogo)]

/-- Equality of two strings ignoring case, in the words of the specification. -/
def spec_equals_ignoring_case (a b : CStr) : Prop := a.map Char.toLower = b.map Char.toLower

instance (a b : CStr) : Decidable (spec_equals_ignoring_case a b) := by
  unfold spec_equals_ignoring_case; infer_instance

/-- The flag attributes of a record (the `char` and `bool` members of `Label_record` in
`label.h`), in the order of their declaration. -/
def Label_record.flags (r : Label_record) : List Nat :=
  [r.caution, r.consultifu, r.donotusedamaged, r.electroifu, r.keepdry, r.latex, r.latexfree,
   r.maninbox, r.nonsterile, r.noresterilize, r.pvcfree, r.reusable, r.singlepatientuse,
   r.singleuseonly, r.ecrep, r.expdate, r.keepawayheat, r.lotgraphic, r.manufacturer,
   r.mfgdate, r.phtbbp, r.phtdehp, r.phtdinp, r.ref, r.refnumber, r.rxonly, r.serial,
   r.sizelogo, r.tfxlogo]

/-- The text columns of `parse_spreadsheet` other than MDR5: each heading the chain tests,
the attribute of `Label_record` that its branch assigns, the copy it makes of the cell, and
whether the branch is inside `if (non_SAP_fields)`. For TDLINE the attribute is the text
`tdline` points to. -/
def text_columns : List (CStr × (Label_record → CStr) × (CStr → CStr) × Bool) :=
  [("LABEL".toList, (fun r => r.label), (fun contents => strlcpy contents MAX_LABEL_LEN), false),
   ("MATERIAL".toList, (fun r => r.material), (fun contents => strlcpy contents LRG), false),
   ("PCODE".toList, (fun r => r.material), (fun contents => strlcpy contents LRG), false),
   ("TDLINE".toList, (fun r => r.tdline.getD []), (fun contents => contents), false),
   ("ADDRESS".toList, (fun r => r.address), (fun contents => strlcpy contents MED), false),
   ("BARCODETEXT".toList, (fun r => r.barcodetext), (fun contents => strlcpy contents MAX_GTIN_LEN), false),
   ("BARCODE1".toList, (fun r => r.barcode1), (fun contents => strlcpy contents MED), false),
   ("GS1".toList, (fun r => r.gs1), (fun contents => strlcpy contents MED), false),
   ("GTIN".toList, (fun r => r.gtin), (fun contents => strlcpy contents MAX_GTIN_LEN), true),
   ("BOMLEVEL".toList, (fun r => r.bomlevel), (fun contents => strlcpy contents SML), false),
   ("CAUTIONSTATE".toList, (fun r => r.cautionstatement), (fun contents => strlcpy contents MED), false),
   ("CE0120".toList, (fun r => r.cemark), (fun contents => strlcpy contents MED), false),
   ("CEMARK".toList, (fun r => r.cemark), (fun contents => strlcpy contents MED), false),
   ("CE".toList, (fun r => r.cemark), (fun contents => strlcpy contents MED), false),
   ("COOSTATE".toList, (fun r => r.coostate), (fun contents => strlcpy contents LRG), false),
   ("DESCRIPTION".toList, (fun r => r.description), (fun contents => strlcpy contents MED), true),
   ("DISTRIBUTEDBY".toList, (fun r => r.distby), (fun contents => strlcpy contents MED), false),
   ("ECREPADDRESS".toList, (fun r => r.ecrepaddress), (fun contents => strlcpy contents MED), false),
   ("FLGRAPHIC".toList, (fun r => r.flgraphic), (fun contents => strlcpy contents MED), false),
   ("INSERTGRAPHIC".toList, (fun r => r.insertgraphic), (fun contents => strlcpy contents MED), false),
   ("LABELGRAPH1".toList, (fun r => r.labelgraph1), (fun contents => strlcpy contents MED), false),
   ("LABELGRAPH2".toList, (fun r => r.labelgraph2), (fun contents => strlcpy contents MED), false),
   ("LATEXSTATEMENT".toList, (fun r => r.latexstatement), (fun contents => strlcpy contents MED), false),
   ("LEVEL".toList, (fun r => r.level), (fun contents => strlcpy contents MAX_LEVEL), false),
   ("LOGO1".toList, (fun r => r.logo1), (fun contents => strlcpy contents MED), false),
   ("LOGO2".toList, (fun r => r.logo2), (fun contents => strlcpy contents MED), false),
   ("LOGO3".toList, (fun r => r.logo3), (fun contents => strlcpy contents MED), false),
   ("LOGO4".toList, (fun r => r.logo4), (fun contents => strlcpy contents MED), false),
   ("LOGO5".toList, (fun r => r.logo5), (fun contents => strlcpy contents MED), false),
   ("MDR1".toList, (fun r => r.mdr1), (fun contents => strlcpy contents MED), false),
   ("MDR2".toList, (fun r => r.mdr2), (fun contents => strlcpy contents MED), false),
   ("MDR3".toList, (fun r => r.mdr3), (fun contents => strlcpy contents MED), false),
   ("MDR4".toList, (fun r => r.mdr4), (fun contents => strlcpy contents MED), false),
   ("LTNUMBER".toList, (fun r => r.ltnumber), (fun contents => strncpy contents MED), false),
   ("IPN".toList, (fun r => r.ipn), (fun contents => strncpy contents MED), false),
   ("MANUFACTUREDBY".toList, (fun r => r.manufacturedby), (fun contents => strlcpy contents MED), false),
   ("OLDLABEL".toList, (fun r => r.oldlabel), (fun contents => strlcpy contents MED), true),
   ("OLDTEMPLATE".toList, (fun r => r.oldtemplate), (fun contents => strlcpy contents MED), true),
   ("PREVLABEL".toList, (fun r => r.prevlabel), (fun contents => strlcpy contents MED), true),
   ("PREVTEMPLATE".toList, (fun r => r.prevtemplate), (fun contents => strlcpy contents MED), true),
   ("PATENTSTA".toList, (fun r => r.patentstatement), (fun contents => strlcpy contents MED), false),
   ("QUANTITY".toList, (fun r => r.quantity), (fun contents => strlcpy contents LRG), false),
   ("REVISION".toList, (fun r => r.revision), (fun contents => strlcpy contents MAX_REV_LEN), false),
   ("LABEL_RELEASE_DATE".toList, (fun r => r.release), (fun contents => strlcpy contents MED2), false),
   ("SIZE".toList, (fun r => r.size), (fun contents => strlcpy contents MED), false),
   ("STERILITYTYPE".toList, (fun r => r.sterilitytype), (fun contents => strlcpy contents MED), false),
   ("STERILESTA".toList, (fun r => r.sterilitystatement), (fun contents => strlcpy contents MED), false),
   ("TEMPRANGE".toList, (fun r => r.temprange), (fun contents => strlcpy contents MED), false),
   ("TEMPLATENUMBER".toList, (fun r => r.template), (fun contents => strlcpy contents MAX_TEMPLATE_LEN), false),
   ("TEMPLATE".toList, (fun r => r.template), (fun contents => strlcpy contents MAX_TEMPLATE_LEN), false),
   ("VERSION".toList, (fun r => r.version), (fun contents => strlcpy contents MED), false)]

/-- The pattern `R<0-99>` in the words of the specification: the letter R followed by one or
more decimal digits whose value is between 0 and 99, and nothing else. -/
def spec_revision_pattern (v : CStr) : Bool :=
  match v with
  | 'R' :: t => !t.isEmpty && t.all Char.isDigit && decide (decimal t ≤ 99)
  | _ => false

/-- The numbered-graphic lines in the words of the specification: one line for each call of
the list, with slot numbers `slot`, `slot + 1`, ... and sequence numbers `seq`, `seq + 1`,
... in this order. The calls are those of flags that are yes (2) or a yes-variant (3, 4). -/
def spec_slot_lines (cfg : Config) (char_seq : Int) : List (CStr × Nat) → Int → Int → List Line
  | [], _, _ => []
  | call :: rest, slot, seq =>
    Line.characteristic seq char_seq ("GRAPHIC0".toList ++ fmt_d slot)
        (if call.2 = 2 then "Y".toList else if call.2 = 3 then "F_Y".toList
          else "ISO_Y".toList)
        (print_graphic_path cfg
          (if call.2 = 2 then call.1 else if call.2 = 3 then "F_".toList ++ call.1
            else "ISO_".toList ++ call.1))
      :: spec_slot_lines cfg char_seq rest (slot + 1) (seq + 1)

/-- The flag of a call is yes or a yes-variant. -/
def spec_is_yes (call : CStr × Nat) : Bool := call.2 = 2 || call.2 = 3 || call.2 = 4

/-- The column name printed on a characteristic line (empty for another line). -/
def Line.name : Line → CStr
  | .characteristic _ _ name _ _ => name
  | _ => []

/-- From `s` to `t` the program has only added lines to the output, none of them a
characteristic line named SIZELOGO. -/
def OtherLines (s t : State) : Prop :=
  ∃ ls : List Line, t.fpout = s.fpout ++ ls ∧ ∀ l ∈ ls, l.name ≠ "SIZELOGO".toList

/-- A record with label, template number and an allocated empty `tdline`, whose flag
`sizelogo` is no (1). -/
def sample_record_sizelogo_no : Label_record :=
  { label := "LBL001".toList, template := "TPL1".toList, tdline := some [], sizelogo := 1 }

/-- The tab-delimited field number `k` (from 0) of a row, in the words of the
specification: field 0 is the text before the first tab, field `k + 1` is field `k` of the
text after the first tab, and a row with fewer fields has the empty field. -/
def spec_field : Nat → CStr → CStr
  | 0, row => row.takeWhile (fun c => c != TAB)
  | k + 1, row =>
    if TAB ∈ row then spec_field k (row.dropWhile (fun c => c != TAB)).tail else []

/-- A field without its extension ".tif"; a field of four characters or fewer is kept. -/
def spec_cut_tif (field : CStr) : CStr :=
  if field.length > 4 ∧ field.drop (field.length - 4) = ".tif".toList then
    field.take (field.length - 4)
  else field

/-- The variable `start` of `get_field_contents_from_row` after its first statement. -/
def field_start (row : CStr) (count : Int) (tab_str : Char) : Int :=
  if count = 0 then 0
  else if peek_nth_token count row tab_str = -1 then row.length
  else peek_nth_token count row tab_str + 1

/-- The variable `stop` of `get_field_contents_from_row` after its second statement. -/
def field_stop (row : CStr) (count : Int) (tab_str : Char) : Int :=
  if peek_nth_token (count + 1) row tab_str = -1 then row.length
  else peek_nth_token (count + 1) row tab_str

/-! ## The columns as a table of effects on the members of a record -/

/-- The value of a member of `Label_record`: a character array, a flag, or the pointer
`tdline`. -/
inductive Field_value where
  | text (s : CStr)
  | flag (n : Nat)
  | pointer (p : Option CStr)
deriving DecidableEq

/-- The members of a record, in the order of their declaration in `label.h`. -/
def Label_record.fields (r : Label_record) : List Field_value :=
  .text r.material :: .text r.coostate :: .text r.address :: .text r.barcode1 ::
  .text r.cautionstatement :: .text r.cemark :: .text r.distby :: .text r.ecrepaddress ::
  .text r.flgraphic :: .text r.gs1 :: .text r.insertgraphic :: .text r.labelgraph1 ::
  .text r.labelgraph2 :: .text r.latexstatement :: .text r.logo1 :: .text r.logo2 ::
  .text r.logo3 :: .text r.logo4 :: .text r.logo5 :: .text r.mdr1 :: .text r.mdr2 ::
  .text r.mdr3 :: .text r.mdr4 :: .text r.mdr5 :: .text r.manufacturedby ::
  .text r.patentstatement :: .text r.size :: .text r.sterilitystatement ::
  .text r.sterilitytype :: .text r.temprange :: .text r.version :: .text r.oldlabel ::
  .text r.oldtemplate :: .text r.prevlabel :: .text r.prevtemplate :: .text r.description ::
  .text r.pcode :: .text r.ltnumber :: .text r.ipn :: .text r.barcodetext :: .text r.gtin ::
  .text r.level :: .text r.label :: .text r.quantity :: .text r.template :: .text r.bomlevel ::
  .text r.revision :: .text r.release :: .pointer r.tdline :: .flag r.caution ::
  .flag r.consultifu :: .flag r.donotusedamaged :: .flag r.electroifu :: .flag r.keepdry ::
  .flag r.latex :: .flag r.latexfree :: .flag r.maninbox :: .flag r.nonsterile ::
  .flag r.noresterilize :: .flag r.pvcfree :: .flag r.reusable :: .flag r.singlepatientuse ::
  .flag r.singleuseonly :: .flag r.ecrep :: .flag r.expdate :: .flag r.keepawayheat ::
  .flag r.lotgraphic :: .flag r.manufacturer :: .flag r.mfgdate :: .flag r.phtbbp ::
  .flag r.phtdehp :: .flag r.phtdinp :: .flag r.ref :: .flag r.refnumber :: .flag r.rxonly ::
  .flag r.serial :: .flag r.sizelogo :: .flag r.tfxlogo :: []

/-- What the branch of a column does with the cell: `strlcpy` or `strncpy` into a
character array, the pointer `tdline` set to the contents, a flag set to 2 on a yes and
to 1 on a no, a flag set to 2 on a yes only, or `strlcpy` when the value returned for the
cell is not 0. -/
inductive Column_kind where
  | copy (size : Nat)
  | copy_n (size : Nat)
  | pointer
  | yes_no
  | yes
  | copy_if_length (size : Nat)
deriving DecidableEq

/-- The value that a branch of kind `k` stores, from the cell, the value returned by
`get_field_contents_from_row` and the value held before. -/
def Column_kind.value : Column_kind → CStr → Int → Field_value → Field_value
  | .copy size, contents, _, _ => .text (strlcpy contents size)
  | .copy_n size, contents, _, _ => .text (strncpy contents size)
  | .pointer, contents, _, _ => .pointer (some contents)
  | .yes_no, contents, _, old =>
    if equals_yes contents then .flag 2 else if equals_no contents then .flag 1 else old
  | .yes, contents, _, old => if equals_yes contents then .flag 2 else old
  | .copy_if_length size, contents, length, old =>
    if length ≠ 0 then .text (strlcpy contents size) else old

/-- The columns of `parse_spreadsheet` that store a value: each heading the chain tests, the
position in `Label_record.fields` of the member its branch assigns, what the branch does
with the cell, and whether the branch is inside `if (non_SAP_fields)`. -/
def column_effects : List (CStr × Nat × Column_kind × Bool) :=
  ("LABEL".toList, 42, .copy MAX_LABEL_LEN, false) ::
  ("MATERIAL".toList, 0, .copy LRG, false) ::
  ("PCODE".toList, 0, .copy LRG, false) ::
  ("TDLINE".toList, 48, .pointer, false) ::
  ("ADDRESS".toList, 2, .copy MED, false) ::
  ("BARCODETEXT".toList, 39, .copy MAX_GTIN_LEN, false) ::
  ("BARCODE1".toList, 3, .copy MED, false) ::
  ("GS1".toList, 9, .copy MED, false) ::
  ("GTIN".toList, 40, .copy MAX_GTIN_LEN, true) ::
  ("BOMLEVEL".toList, 45, .copy SML, false) ::
  ("CAUTION".toList, 49, .yes_no, false) ::
  ("CAUTIONSTATE".toList, 4, .copy MED, false) ::
  ("CE0120".toList, 5, .copy MED, false) ::
  ("CEMARK".toList, 5, .copy MED, false) ::
  ("CE".toList, 5, .copy MED, false) ::
  ("CONSULTIFU".toList, 50, .yes_no, false) ::
  ("CONTAINSLATEX".toList, 54, .yes_no, false) ::
  ("COOSTATE".toList, 1, .copy LRG, false) ::
  ("DESCRIPTION".toList, 35, .copy MED, true) ::
  ("DISTRIBUTEDBY".toList, 6, .copy MED, false) ::
  ("DONOTUSEDAM".toList, 51, .yes_no, false) ::
  ("DONOTPAKDAM".toList, 51, .yes_no, false) ::
  ("ECREP".toList, 63, .yes_no, false) ::
  ("ECREPADDRESS".toList, 7, .copy MED, false) ::
  ("ELECTROSURIFU".toList, 52, .yes_no, false) ::
  ("EXPDATE".toList, 64, .yes_no, false) ::
  ("FLGRAPHIC".toList, 8, .copy MED, false) ::
  ("KEEPAWAYHEAT".toList, 65, .yes_no, false) ::
  ("INSERTGRAPHIC".toList, 10, .copy MED, false) ::
  ("KEEPDRY".toList, 53, .yes, false) ::
  ("LABELGRAPH1".toList, 11, .copy MED, false) ::
  ("LABELGRAPH2".toList, 12, .copy MED, false) ::
  ("LATEXFREE".toList, 55, .yes_no, false) ::
  ("LATEXSTATEMENT".toList, 13, .copy MED, false) ::
  ("LEVEL".toList, 41, .copy MAX_LEVEL, false) ::
  ("LOGO1".toList, 14, .copy MED, false) ::
  ("LOGO2".toList, 15, .copy MED, false) ::
  ("LOGO3".toList, 16, .copy MED, false) ::
  ("LOGO4".toList, 17, .copy MED, false) ::
  ("LOGO5".toList, 18, .copy MED, false) ::
  ("MDR1".toList, 19, .copy MED, false) ::
  ("MDR2".toList, 20, .copy MED, false) ::
  ("MDR3".toList, 21, .copy MED, false) ::
  ("MDR4".toList, 22, .copy MED, false) ::
  ("MDR5".toList, 23, .copy_if_length MED, false) ::
  ("LOTGRAPHIC".toList, 66, .yes_no, false) ::
  ("LTNUMBER".toList, 37, .copy_n MED, false) ::
  ("IPN".toList, 38, .copy_n MED, false) ::
  ("MANINBOX".toList, 56, .yes_no, false) ::
  ("MANUFACTUREDBY".toList, 24, .copy MED, false) ::
  ("MANUFACTURER".toList, 67, .yes_no, false) ::
  ("MFGDATE".toList, 68, .yes_no, false) ::
  ("NORESTERILE".toList, 58, .yes_no, false) ::
  ("NONSTERILE".toList, 57, .yes_no, false) ::
  ("OLDLABEL".toList, 31, .copy MED, true) ::
  ("OLDTEMPLATE".toList, 32, .copy MED, true) ::
  ("PREVLABEL".toList, 33, .copy MED, true) ::
  ("PREVTEMPLATE".toList, 34, .copy MED, true) ::
  ("PATENTSTA".toList, 25, .copy MED, false) ::
  ("PHTDEHP".toList, 70, .yes_no, false) ::
  ("PHTBBP".toList, 69, .yes_no, false) ::
  ("PHTDINP".toList, 71, .yes_no, false) ::
  ("PVCFREE".toList, 59, .yes_no, false) ::
  ("QUANTITY".toList, 43, .copy LRG, false) ::
  ("REF".toList, 72, .yes_no, false) ::
  ("REFNUMBER".toList, 73, .yes_no, false) ::
  ("REUSABLE".toList, 60, .yes_no, false) ::
  ("REVISION".toList, 46, .copy MAX_REV_LEN, false) ::
  ("LABEL_RELEASE_DATE".toList, 47, .copy MED2, false) ::
  ("RXONLY".toList, 74, .yes_no, false) ::
  ("SINGLEUSE".toList, 62, .yes_no, false) ::
  ("SERIAL".toList, 75, .yes_no, false) ::
  ("SINGLEPATIENTUSE".toList, 61, .yes_no, false) ::
  ("SIZE".toList, 26, .copy MED, false) ::
  ("SIZELOGO".toList, 76, .yes_no, false) ::
  ("STERILITYTYPE".toList, 28, .copy MED, false) ::
  ("STERILESTA".toList, 27, .copy MED, false) ::
  ("TEMPRANGE".toList, 29, .copy MED, false) ::
  ("TEMPLATENUMBER".toList, 44, .copy MAX_TEMPLATE_LEN, false) ::
  ("TEMPLATE".toList, 44, .copy MAX_TEMPLATE_LEN, false) ::
  ("TFXLOGO".toList, 77, .yes_no, false) ::
  ("VERSION".toList, 30, .copy MED, false) :: []

/-- What a column with heading `token` does to the members of the record of a row, given
the cell and the value returned for it: nothing for a heading that no branch stores, and
for a branch inside `if (non_SAP_fields)` when the switch is off. -/
def apply_column (cfg : Config) (token : CStr) (contents : CStr) (length : Int)
    (fs : List Field_value) : List Field_value :=
  match column_effects.find? (fun e => e.1 = token) with
  | some e =>
    if e.2.2.2 = true ∧ cfg.non_SAP_fields = false then fs
    else fs.set e.2.1 (e.2.2.1.value contents length (fs.getD e.2.1 (.flag 0)))
  | none => fs

/-- The member of the record that a column with heading `token` names, as its position in
`Label_record.fields`; `none` for a column that stores nothing. -/
def spec_attribute (cfg : Config) (token : CStr) : Option Nat :=
  match column_effects.find? (fun e => e.1 = token) with
  | some e => if e.2.2.2 = true ∧ cfg.non_SAP_fields = false then none else some e.2.1
  | none => none

/-- The members of the record of a row after the columns `names`, numbered from `count`,
have been read from the row. -/
def spec_row_fields (cfg : Config) (row : CStr) :
    List CStr → Nat → List Field_value → List Field_value
  | [], _, fs => fs
  | name :: rest, count, fs =>
    spec_row_fields cfg row rest (count + 1)
      (apply_column cfg name (get_field_contents_from_row row count TAB).1
        (get_field_contents_from_row row count TAB).2 fs)
/-- A heading row of four columns, one of them a column that stores nothing. -/
def sample_column_names : List CStr :=
  ["LABEL".toList, "MATERIAL".toList, "NOTE".toList, "CAUTION".toList]

/-- Two data rows for `sample_column_names`, as lists of cells. -/
def sample_cells : List (List CStr) :=
  [["LBL001".toList, "MAT1".toList, "x".toList, "Y".toList],
   ["LBL002".toList, "MAT2".toList, "".toList, "no".toList]]

/-- An order of the four columns: the column 2 first, then 0, 3 and 1. -/
def sample_column_order : List Nat := [2, 0, 3, 1]

/-! ## The attributes outside SAP -/

/-- A record without the attributes that only the switch `non_SAP_fields` brings into the
document: gtin, ipn, oldlabel, oldtemplate, prevlabel, prevtemplate, bomlevel and
description are cleared, the other members are kept. Two records differ only in those
attributes when this gives the same record for both. -/
def spec_SAP_part (r : Label_record) : Label_record :=
  { r with
    gtin := [], ipn := [], oldlabel := [], oldtemplate := [], prevlabel := [],
    prevtemplate := [], bomlevel := [], description := [] }

/-- What `print_label_idoc_records` reads of a record when the switch is off: the record
without the eight attributes, except that `ipn` stays when `ltnumber` holds `MED` characters
or more, since the string read at `ltnumber` then runs on into `ipn`. -/
def spec_printed_part (r : Label_record) : Label_record :=
  { spec_SAP_part r with ipn := if r.ltnumber.length < MED then [] else r.ipn }

/-- Two records that differ in each of the eight attributes and in nothing else. -/
def sample_record_non_SAP : Label_record × Label_record :=
  ({ sample_record_mat1 with
      gtin := "04026704000012".toList, ipn := "IPN-1".toList, oldlabel := "LBL000".toList,
      oldtemplate := "T0".toList, prevlabel := "LBL00A".toList, prevtemplate := "T1".toList,
      bomlevel := "2".toList, description := "first".toList },
   { sample_record_mat1 with
      gtin := "x".toList, ipn := "IPN-2".toList, oldlabel := "LBL999".toList,
      oldtemplate := "T9".toList, prevlabel := "LBL99A".toList, prevtemplate := "T8".toList,
      bomlevel := "7".toList, description := "\"second\"".toList })

/-- A heading row with the columns LTNUMBER and IPN. -/
def sample_header_ltnumber : CStr := "LABEL\tTEMPLATE\tTDLINE\tLTNUMBER\tIPN".toList

/-- A data row for `sample_header_ltnumber` whose LTNUMBER cell has 30 characters; the IPN
cell is `ipn`. -/
def sample_row_ltnumber (ipn : CStr) : CStr :=
  "LBL001\tTPL1\tx\t123456789012345678901234567890\t".toList ++ ipn

/-! ## The names of the numbered graphics -/

/-- The name of the numbered-graphic line of slot `j` in the words of the specification:
"GRAPHIC" followed by `j` written with two digits. -/
def spec_graphic_name (j : Nat) : CStr :=
  "GRAPHIC".toList ++ [Char.ofNat (48 + j / 10 % 10), Char.ofNat (48 + j % 10)]

/-- A record whose first ten graphic flags are yes. -/
def sample_record_ten_graphics : Label_record :=
  { caution := 2, consultifu := 2, latex := 2, donotusedamaged := 2, latexfree := 2,
    maninbox := 2, noresterilize := 2, nonsterile := 2, pvcfree := 2, reusable := 2 }

/-! ## The indices read by `sap_lookup` -/

/-- An index that `sap_lookup` may read in a table of `lookupsize` entries: an index of the
table, or the index `lookupsize` after a comparison that put the needle above the last
term. -/
def lookup_read (cfg : Config) (needle : CStr) (i : Int) : Prop :=
  0 ≤ i ∧ i ≤ cfg.lookup.length
    ∧ (i = cfg.lookup.length →
      strcasecmp needle (lookup_entry cfg ((cfg.lookup.length : Int) - 1)).1 > 0)

/-- The states of the loop of `sap_lookup` at the head of a turn: the flag `exit` is set, or
the interval is not empty and inside the table, or the interval has just become empty on
its left or on its right side, or it has been passed by one. -/
def lookup_state (cfg : Config) (needle : CStr) (start end_ middle : Int) (exit : Bool) :
    Prop :=
  exit = true
    ∨ (0 ≤ start ∧ start ≤ end_ ∧ end_ ≤ (cfg.lookup.length : Int) - 1)
    ∨ (start = end_ + 1 ∧ middle = start ∧ lookup_read cfg needle start)
    ∨ (start = end_ + 1 ∧ middle = end_ ∧ 0 ≤ end_ ∧ end_ ≤ (cfg.lookup.length : Int) - 1
        ∧ (end_ = (cfg.lookup.length : Int) - 1 →
          strcasecmp needle (lookup_entry cfg ((cfg.lookup.length : Int) - 1)).1 > 0))
    ∨ (start = end_ + 2 ∧ middle = end_ + 1 ∧ lookup_read cfg needle (end_ + 1))

/-! ## Theorems -/

theorem tmod_natCast (n m : Nat) : (n : Int).tmod (m : Int) = ((n % m : Nat) : Int) :=
  (Int.ofNat_tmod n m).symm

theorem tdiv_natCast (n m : Nat) : (n : Int).tdiv (m : Int) = ((n / m : Nat) : Int) :=
  (Int.ofNat_tdiv n m).symm

theorem weightedSum_digits_step (n : Nat) (h : 0 < n) :
    weightedSum (Nat.digits 10 n) =
      3 * (n % 10) + 1 * (n / 10 % 10) + weightedSum (Nat.digits 10 (n / 10 / 10)) := by
  rw [Nat.digits_def' (by norm_num) h]
  rcases Nat.eq_zero_or_pos (n / 10) with h0 | h1
  · simp [h0, weightedSum]
  · rw [Nat.digits_def' (by norm_num) h1]
    simp [weightedSum]

theorem checkDigit_loop_eq (fuel : Nat) : ∀ (n : Nat) (s : Int), n ≤ fuel →
    checkDigit_loop fuel (n : Int) s = s + (weightedSum (Nat.digits 10 n) : Nat) := by
  induction fuel with
  | zero =>
    intro n s h
    have : n = 0 := by omega
    subst this
    simp [checkDigit_loop, weightedSum]
  | succ fuel ih =>
    intro n s h
    rcases Nat.eq_zero_or_pos n with h0 | hpos
    · subst h0
      simp [checkDigit_loop, weightedSum]
    · have hgt : (n : Int) > 0 := by exact_mod_cast hpos
      have h10 : ((10 : Nat) : Int) = 10 := rfl
      simp only [checkDigit_loop, hgt, if_true]
      rw [← h10, tdiv_natCast, tdiv_natCast, tmod_natCast, tmod_natCast,
        ih (n / 10 / 10) _ (by omega), weightedSum_digits_step n hpos]
      push_cast
      ring

theorem checkDigit_natCast (g : Nat) :
    checkDigit (g : Int) = (specCheckDigit g : Nat) := by
  have h10 : ((10 : Nat) : Int) = 10 := rfl
  have htail : (Nat.digits 10 g).tail = Nat.digits 10 (g / 10) := by
    rcases Nat.eq_zero_or_pos g with h0 | hpos
    · subst h0; simp
    · rw [Nat.digits_def' (by norm_num) hpos]; rfl
  unfold checkDigit specCheckDigit
  simp only [htail]
  rw [← h10, tdiv_natCast, Int.toNat_natCast, checkDigit_loop_eq _ _ _ le_rfl, zero_add,
    tmod_natCast, tdiv_natCast]
  generalize weightedSum (Nat.digits 10 (g / 10)) = S
  by_cases hS : S % 10 = 0
  · simp [hS]
  · have : ((S % 10 : Nat) : Int) ≠ 0 := by exact_mod_cast hS
    simp only [this, hS, if_false]
    have h1 : S % 10 < 10 := Nat.mod_lt _ (by norm_num)
    push_cast
    omega

/-- Claim C9: for every non-negative integer `g`, `checkDigit g` is the check digit of the
specification (0 when the weighted sum `S` of the digits of `g` without the last one is a
multiple of 10, `10 - S mod 10` otherwise), and it is a single digit, between 0 and 9. -/
theorem checkDigit_spec (g : Nat) :
    checkDigit (g : Int) = (specCheckDigit g : Nat) ∧
      0 ≤ checkDigit (g : Int) ∧ checkDigit (g : Int) ≤ 9 := by
  rw [checkDigit_natCast]
  refine ⟨rfl, by positivity, ?_⟩
  unfold specCheckDigit
  simp only
  split
  · simp
  · have h1 : 0 < weightedSum (Nat.digits 10 g).tail % 10 := by omega
    have : 10 - weightedSum (Nat.digits 10 g).tail % 10 ≤ 9 := by omega
    exact_mod_cast this

/-! ### Steps that only add child lines -/

theorem ChildLines_append (p : Int) : ∀ (a b : List Line) (n : Int),
    ChildLines n p a → ChildLines (n + a.length) p b → ChildLines n p (a ++ b) := by
  intro a
  induction a with
  | nil => intro b n _ hb; simpa using hb
  | cons l a ih =>
    intro b n ha hb
    obtain ⟨h1, h2, h3, h4⟩ := ha
    refine ⟨h1, h2, h3, ih b (n + 1) h4 ?_⟩
    have : n + 1 + (a.length : Int) = n + ((l :: a).length : Int) := by
      simp only [List.length_cons]; push_cast; ring
    rw [this]; exact hb

theorem Extends.refl (p : Int) (s : State) : Extends p s s :=
  ⟨[], by simp, by simp, rfl, rfl, trivial⟩

theorem Extends.trans {p : Int} {s t u : State} (h1 : Extends p s t) (h2 : Extends p t u) :
    Extends p s u := by
  obtain ⟨a, ha1, ha2, ha3, ha4, ha5⟩ := h1
  obtain ⟨b, hb1, hb2, hb3, hb4, hb5⟩ := h2
  refine ⟨a ++ b, ?_, ?_, hb3.trans ha3, hb4.trans ha4, ?_⟩
  · rw [hb1, ha1, List.append_assoc]
  · rw [hb2, ha2, List.length_append]; push_cast; ring
  · exact ChildLines_append p a b _ ha5 (by rw [← ha2]; exact hb5)

theorem Extends.report (p : Int) (s : State) (d : Diag) : Extends p s (s.report d) :=
  ⟨[], by simp [State.report], by simp [State.report], rfl, rfl, trivial⟩

theorem print_Z2BTLC01000_extends (p : Int) (name value third : CStr) (s : State) :
    Extends p s (print_Z2BTLC01000 p name value third s) :=
  ⟨[Line.characteristic s.sequence_number p name value third], rfl,
    by simp [print_Z2BTLC01000], rfl, rfl,
    by simp [ChildLines, Line.seq, Line.parent, Line.isCharacteristic]⟩

theorem print_info_column_header_step (col_name col_value : CStr) :
    CharStep (print_info_column_header col_name col_value) := by
  intro s
  unfold print_info_column_header
  split
  · exact print_Z2BTLC01000_extends _ _ _ _ s
  · exact Extends.refl _ s

theorem print_graphic_column_header_step (cfg : Config) (col_name col_value d : CStr) :
    CharStep (print_graphic_column_header cfg col_name col_value d) := by
  intro s
  unfold print_graphic_column_header
  simp only
  split
  · exact print_Z2BTLC01000_extends _ _ _ _ s
  · exact Extends.refl _ s

theorem print_blank_graphic_column_header_step (cfg : Config) (col_name col_value : CStr) :
    CharStep (print_blank_graphic_column_header cfg col_name col_value) :=
  fun s => print_Z2BTLC01000_extends _ _ _ _ s

theorem print_info_lookup_column_header_step (col_name col_value : CStr) (l : Option CStr) :
    CharStep (print_info_lookup_column_header col_name col_value l) :=
  fun s => print_Z2BTLC01000_extends _ _ _ _ s

theorem print_boolean_record_step (cfg : Config) (col_name : CStr) (value : Nat) (g : CStr) :
    CharStep (print_boolean_record cfg col_name value g) := by
  intro s
  unfold print_boolean_record
  split_ifs
  all_goals first
    | exact print_Z2BTLC01000_extends _ _ _ _ s
    | exact Extends.refl _ s

theorem print_boolean_column_header_step (cfg : Config) (col_name : CStr) (value : Bool) :
    CharStep (print_boolean_column_header cfg col_name value) := by
  intro s
  unfold print_boolean_column_header
  split <;> exact print_Z2BTLC01000_extends _ _ _ _ s

theorem CharStep.comp {f g : State → State} (hf : CharStep f) (hg : CharStep g) :
    CharStep (fun s => g (f s)) := by
  intro s
  have h1 := hf s
  have h2 := hg (f s)
  have hid : (f s).idoc = s.idoc := by
    obtain ⟨_, _, _, h, _⟩ := h1; exact h
  rw [hid] at h2
  exact h1.trans h2

theorem Extends.step {s t : State} {g : State → State}
    (h1 : Extends s.idoc.char_seq_number s t) (hg : CharStep g) :
    Extends s.idoc.char_seq_number s (g t) := by
  have h2 := hg t
  have hid : t.idoc = s.idoc := by
    obtain ⟨_, _, _, h, _⟩ := h1; exact h
  rw [hid] at h2
  exact h1.trans h2

theorem run_steps_step : ∀ steps : List (State → State),
    (∀ f ∈ steps, CharStep f) → CharStep (run_steps steps) := by
  intro steps
  induction steps with
  | nil => intro _ s; exact Extends.refl _ s
  | cons f rest ih =>
    intro h
    have hf : CharStep f := h f (List.mem_cons_self _ _)
    have hr : CharStep (run_steps rest) := ih (fun g hg => h g (List.mem_cons_of_mem _ hg))
    exact CharStep.comp (f := f) (g := run_steps rest) hf hr

theorem gtin_prefix_check_extends (p gtin c1 c2 record : Int) (s : State) :
    Extends p s (gtin_prefix_check gtin c1 c2 record s) := by
  unfold gtin_prefix_check
  split
  · exact Extends.report _ _ _
  · exact Extends.refl _ _

theorem gtin_checks_extends (cfg : Config) (value : CStr) (p record : Int) (s : State) :
    Extends p s (gtin_checks cfg value record s) := by
  unfold gtin_checks
  simp only
  split_ifs
  · exact (Extends.report _ _ _).trans (gtin_prefix_check_extends _ _ _ _ _ _)
  · exact gtin_prefix_check_extends _ _ _ _ _ _
  · exact gtin_prefix_check_extends _ _ _ _ _ _
  · exact (Extends.report _ _ _).trans (gtin_prefix_check_extends _ _ _ _ _ _)

theorem level_record_step (cfg : Config) (r : Label_record) (record : Int) :
    CharStep (level_record cfg r record) := by
  intro s
  unfold level_record
  simp only
  split_ifs
  · exact (Extends.report _ _ _).step (print_info_lookup_column_header_step _ _ _)
  · exact print_info_lookup_column_header_step _ _ _ _
  · exact Extends.refl _ _

theorem quantity_record_step (r : Label_record) : CharStep (quantity_record r) := by
  intro s
  unfold quantity_record
  split
  · exact print_info_column_header_step _ _ _
  · exact Extends.refl _ _

theorem barcodetext_record_step (cfg : Config) (r : Label_record) (record : Int) :
    CharStep (barcodetext_record cfg r record) := by
  intro s
  unfold barcodetext_record
  simp only
  split_ifs
  · exact (gtin_checks_extends _ _ _ _ _).step (print_info_column_header_step _ _)
  · exact (Extends.report _ _ _).step (print_info_column_header_step _ _)
  · exact Extends.refl _ _

theorem gtin_record_step (cfg : Config) (r : Label_record) (record : Int) :
    CharStep (gtin_record cfg r record) := by
  intro s
  unfold gtin_record
  simp only
  split_ifs
  · exact (gtin_checks_extends _ _ _ _ _).step (print_info_column_header_step _ _)
  · exact (Extends.report _ _ _).step (print_info_column_header_step _ _)
  all_goals exact Extends.refl _ _

theorem ltnumber_record_step (r : Label_record) : CharStep (ltnumber_record r) := by
  intro s
  unfold ltnumber_record
  split
  · exact print_info_column_header_step _ _ _
  · exact Extends.refl _ _

theorem ipn_record_step (cfg : Config) (r : Label_record) : CharStep (ipn_record cfg r) := by
  intro s
  unfold ipn_record
  split_ifs
  · exact print_info_column_header_step _ _ _
  all_goals exact Extends.refl _ _

theorem print_graphic0x_record_extends (cfg : Config) (g_cnt : Int) (g : CStr) (value : Nat)
    (s : State) :
    Extends s.idoc.char_seq_number s (print_graphic0x_record cfg g_cnt g value s).2 := by
  unfold print_graphic0x_record
  split_ifs
  all_goals first
    | exact print_Z2BTLC01000_extends _ _ _ _ s
    | exact Extends.refl _ s

theorem graphic0x_run_extends (cfg : Config) : ∀ (calls : List (CStr × Nat)) (g_cnt : Int)
    (s : State), Extends s.idoc.char_seq_number s (graphic0x_run cfg calls g_cnt s).2 := by
  intro calls
  induction calls with
  | nil => intro g_cnt s; exact Extends.refl _ s
  | cons call rest ih =>
    intro g_cnt s
    have h1 := print_graphic0x_record_extends cfg g_cnt call.1 call.2 s
    have h2 := ih (print_graphic0x_record cfg g_cnt call.1 call.2 s).1
      (print_graphic0x_record cfg g_cnt call.1 call.2 s).2
    have hid : (print_graphic0x_record cfg g_cnt call.1 call.2 s).2.idoc = s.idoc := by
      obtain ⟨_, _, _, h, _⟩ := h1; exact h
    rw [hid] at h2
    exact h1.trans h2

theorem graphic0x_records_step (cfg : Config) (r : Label_record) :
    CharStep (graphic0x_records cfg r) :=
  fun s => graphic0x_run_extends cfg _ 1 s

theorem barcode1_record_step (cfg : Config) (r : Label_record) (record : Int) :
    CharStep (barcode1_record cfg r record) := by
  intro s
  unfold barcode1_record
  simp only
  split_ifs
  · exact (gtin_checks_extends _ _ _ _ _).step (print_graphic_column_header_step _ _ _ _)
  · exact print_graphic_column_header_step _ _ _ _ _
  · exact Extends.refl _ _

theorem gs1_record_step (cfg : Config) (r : Label_record) (record : Int) :
    CharStep (gs1_record cfg r record) := by
  intro s
  unfold gs1_record
  simp only
  split_ifs
  all_goals first
    | exact (gtin_checks_extends _ _ _ _ _).step (print_blank_graphic_column_header_step _ _ _)
    | exact (gtin_checks_extends _ _ _ _ _).step (print_graphic_column_header_step _ _ _ _)
    | exact print_blank_graphic_column_header_step _ _ _ _
    | exact print_graphic_column_header_step _ _ _ _ _
    | exact Extends.refl _ _

theorem characteristic_steps_step (cfg : Config) (r : Label_record) (record : Int) :
    ∀ f ∈ characteristic_steps cfg r record, CharStep f := by
  unfold characteristic_steps
  simp only [List.forall_mem_cons]
  repeat' apply And.intro
  all_goals first
    | exact print_graphic_column_header_step _ _ _ _
    | exact print_boolean_record_step _ _ _ _
    | exact print_boolean_column_header_step _ _ _
    | exact level_record_step _ _ _
    | exact quantity_record_step _
    | exact barcodetext_record_step _ _ _
    | exact gtin_record_step _ _ _
    | exact ltnumber_record_step _
    | exact ipn_record_step _ _
    | exact graphic0x_records_step _ _
    | exact barcode1_record_step _ _ _
    | exact gs1_record_step _ _ _
    | (intro x hx; cases hx)

theorem non_SAP_steps_step (cfg : Config) (r : Label_record) :
    ∀ f ∈ non_SAP_steps cfg r, CharStep f := by
  unfold non_SAP_steps
  split
  · simp only [List.forall_mem_cons]
    repeat' apply And.intro
    all_goals first
      | exact print_info_column_header_step _ _
      | (intro x hx; cases hx)
  · intro x hx; cases hx

/-! ### The invariant of a run -/

theorem forall_snoc {P : Nat → Line → List Line → Prop} (lines : List Line) (x : Line)
    (hold : ∀ (k : Nat) (l : Line), lines[k]? = some l → P k l (lines.take k))
    (hnew : P lines.length x lines) :
    ∀ (k : Nat) (l : Line), (lines ++ [x])[k]? = some l → P k l ((lines ++ [x]).take k) := by
  intro k l h
  rcases Nat.lt_trichotomy k lines.length with hlt | heq | hgt
  · rw [List.getElem?_append_left hlt] at h
    rw [List.take_append_of_le_length (Nat.le_of_lt hlt)]
    exact hold k l h
  · subst heq
    rw [List.getElem?_append_right (Nat.le_refl _)] at h
    simp at h
    subst h
    simpa using hnew
  · rw [List.getElem?_append_right (Nat.le_of_lt hgt)] at h
    have : k - lines.length ≠ 0 := by omega
    obtain ⟨j, hj⟩ := Nat.exists_eq_succ_of_ne_zero this
    rw [hj] at h
    simp at h

theorem lastMaterial_snoc (lines : List Line) (x : Line) :
    lastMaterial (lines ++ [x]) = if x.isMaterial = true then some x else lastMaterial lines := by
  unfold lastMaterial
  rw [List.filter_append]
  by_cases hx : x.isMaterial = true
  · simp [hx]
  · simp [hx]

theorem lastLabel_snoc (lines : List Line) (x : Line) :
    lastLabel (lines ++ [x]) = if x.isLabel = true then some x else lastLabel lines := by
  unfold lastLabel
  rw [List.filter_append]
  by_cases hx : x.isLabel = true
  · simp [hx]
  · simp [hx]

theorem RunInv.child {s t : State} (h : RunInv s) (x lbl : Line)
    (hf : t.fpout = s.fpout ++ [x]) (hs : t.sequence_number = s.sequence_number + 1)
    (hi : t.idoc = s.idoc) (hx : x.seq = s.sequence_number)
    (hk : x.isText = true ∨ x.isCharacteristic = true)
    (hl : lastLabel s.fpout = some lbl) (hp : x.parent = lbl.seq) : RunInv t := by
  have hnm : x.isMaterial = false := by
    cases x <;> simp_all [Line.isText, Line.isCharacteristic, Line.isMaterial]
  have hnl : x.isLabel = false := by
    cases x <;> simp_all [Line.isText, Line.isCharacteristic, Line.isLabel]
  constructor
  · rw [hs, hf, h.counter, List.length_append]; simp
  · rw [hf]
    exact forall_snoc (P := fun k l _ => l.seq = (k : Int) + 1) _ _ h.own
      (by show x.seq = _; rw [hx, h.counter])
  · rw [hf]
    exact forall_snoc (P := fun _ l _ => l.isMaterial = true → l.parent = l.seq - 1) _ _
      h.material_ref (by simp [hnm])
  · rw [hf]
    exact forall_snoc (P := fun _ l pre => l.isLabel = true →
      l.parent = ((lastMaterial pre).map Line.seq).getD 1) _ _ h.label_ref (by simp [hnl])
  · rw [hf]
    exact forall_snoc (P := fun _ l pre => (l.isText = true ∨ l.isCharacteristic = true) →
      ∃ lbl, lastLabel pre = some lbl ∧ l.parent = lbl.seq) _ _ h.child_ref
      (fun _ => ⟨lbl, hl, hp⟩)
  · rw [hi, hf, lastMaterial_snoc, h.labl]; simp [hnm]
  · intro lbl1 h1
    rw [hf, lastLabel_snoc] at h1
    simp only [hnl, Bool.false_eq_true, if_false] at h1
    rw [hi]; exact h.char lbl1 h1

theorem RunInv.material {s t : State} (h : RunInv s) (m : CStr)
    (hf : t.fpout = s.fpout ++ [Line.material s.sequence_number (s.sequence_number - 1) m])
    (hs : t.sequence_number = s.sequence_number + 1)
    (hl : t.idoc.labl_seq_number = s.sequence_number)
    (hc : t.idoc.char_seq_number = s.idoc.char_seq_number)
    (ht : t.idoc.tdline_seq_number = s.idoc.tdline_seq_number) : RunInv t := by
  constructor
  · rw [hs, hf, h.counter, List.length_append]; simp
  · rw [hf]
    exact forall_snoc (P := fun k l _ => l.seq = (k : Int) + 1) _ _ h.own
      (by simp [Line.seq, h.counter])
  · rw [hf]
    exact forall_snoc (P := fun _ l _ => l.isMaterial = true → l.parent = l.seq - 1) _ _
      h.material_ref (by simp [Line.parent, Line.seq])
  · rw [hf]
    exact forall_snoc (P := fun _ l pre => l.isLabel = true →
      l.parent = ((lastMaterial pre).map Line.seq).getD 1) _ _ h.label_ref
      (by simp [Line.isLabel])
  · rw [hf]
    exact forall_snoc (P := fun _ l pre => (l.isText = true ∨ l.isCharacteristic = true) →
      ∃ lbl, lastLabel pre = some lbl ∧ l.parent = lbl.seq) _ _ h.child_ref
      (by simp [Line.isText, Line.isCharacteristic])
  · rw [hl, hf, lastMaterial_snoc]; simp [Line.isMaterial, Line.seq]
  · intro lbl1 h1
    rw [hf, lastLabel_snoc] at h1
    simp only [Line.isLabel, Bool.false_eq_true, if_false] at h1
    rw [hc, ht]; exact h.char lbl1 h1

theorem RunInv.label {s t : State} (h : RunInv s) (lb : CStr)
    (hf : t.fpout = s.fpout ++ [Line.label s.sequence_number s.idoc.labl_seq_number lb])
    (hs : t.sequence_number = s.sequence_number + 1)
    (hl : t.idoc.labl_seq_number = s.idoc.labl_seq_number)
    (hc : t.idoc.char_seq_number = s.sequence_number)
    (ht : t.idoc.tdline_seq_number = s.sequence_number) : RunInv t := by
  constructor
  · rw [hs, hf, h.counter, List.length_append]; simp
  · rw [hf]
    exact forall_snoc (P := fun k l _ => l.seq = (k : Int) + 1) _ _ h.own
      (by simp [Line.seq, h.counter])
  · rw [hf]
    exact forall_snoc (P := fun _ l _ => l.isMaterial = true → l.parent = l.seq - 1) _ _
      h.material_ref (by simp [Line.isMaterial])
  · rw [hf]
    exact forall_snoc (P := fun _ l pre => l.isLabel = true →
      l.parent = ((lastMaterial pre).map Line.seq).getD 1) _ _ h.label_ref
      (by intro _; simp [Line.parent, h.labl])
  · rw [hf]
    exact forall_snoc (P := fun _ l pre => (l.isText = true ∨ l.isCharacteristic = true) →
      ∃ lbl, lastLabel pre = some lbl ∧ l.parent = lbl.seq) _ _ h.child_ref
      (by simp [Line.isText, Line.isCharacteristic])
  · rw [hl, hf, lastMaterial_snoc, h.labl]; simp [Line.isMaterial]
  · intro lbl1 h1
    rw [hf, lastLabel_snoc] at h1
    simp only [Line.isLabel, if_true, Option.some.injEq] at h1
    subst h1
    simp [hc, ht, Line.seq]

theorem RunInv.children : ∀ (ls : List Line) {s t : State} (lbl : Line), RunInv s →
    lastLabel s.fpout = some lbl → t.fpout = s.fpout ++ ls →
    t.sequence_number = s.sequence_number + ls.length → t.idoc = s.idoc →
    ChildLines s.sequence_number lbl.seq ls → RunInv t := by
  intro ls
  induction ls with
  | nil =>
    intro s t lbl h _ hf hs hi _
    simp at hf hs
    exact ⟨by rw [hs, hf]; exact h.counter, by rw [hf]; exact h.own,
      by rw [hf]; exact h.material_ref, by rw [hf]; exact h.label_ref,
      by rw [hf]; exact h.child_ref, by rw [hf, hi]; exact h.labl,
      by rw [hf, hi]; exact h.char⟩
  | cons x ls ih =>
    intro s t lbl h hl hf hs hi hc
    obtain ⟨hx, hp, hk, hrest⟩ := hc
    have hnl : x.isLabel = false := by
      cases x <;> simp_all [Line.isText, Line.isCharacteristic, Line.isLabel]
    have hmid : RunInv { s with fpout := s.fpout ++ [x],
                                sequence_number := s.sequence_number + 1 } :=
      RunInv.child h x lbl rfl rfl rfl hx hk hl hp
    refine ih (s := { s with fpout := s.fpout ++ [x],
                             sequence_number := s.sequence_number + 1 }) lbl hmid ?_ ?_ ?_ hi hrest
    · show lastLabel (s.fpout ++ [x]) = some lbl
      rw [lastLabel_snoc]; simp [hnl, hl]
    · show t.fpout = s.fpout ++ [x] ++ ls
      rw [hf]; simp
    · show t.sequence_number = s.sequence_number + 1 + ls.length
      rw [hs]; simp only [List.length_cons]; push_cast; ring

theorem RunInv.extends {s t : State} (lbl : Line) (h : RunInv s)
    (hl : lastLabel s.fpout = some lbl) (he : Extends lbl.seq s t) : RunInv t := by
  obtain ⟨ls, h1, h2, h3, _, h5⟩ := he
  exact RunInv.children ls lbl h hl h1 h2 h3 h5

theorem RunInv.reported {s : State} (h : RunInv s) (d : Diag) : RunInv (s.report d) :=
  ⟨h.counter, h.own, h.material_ref, h.label_ref, h.child_ref, h.labl, h.char⟩

theorem RunInv.initial : RunInv State.initial := by
  constructor
  · simp [State.initial]
  · intro k l h; simp [State.initial] at h
  · intro k l h; simp [State.initial] at h
  · intro k l h; simp [State.initial] at h
  · intro k l h; simp [State.initial] at h
  · simp [State.initial, lastMaterial]
  · intro lbl h; simp [State.initial, lastLabel] at h

/-! ### One call of `print_label_idoc_records` -/

theorem tdline_loop_extends (label : CStr) : ∀ (fuel : Nat) (token : CStr) (n : Int)
    (s : State), Extends s.idoc.tdline_seq_number s (tdline_loop label fuel token n s) := by
  intro fuel
  induction fuel with
  | zero => intro token n s; exact Extends.refl _ s
  | succ fuel ih =>
    intro token n s
    unfold tdline_loop
    split
    · refine Extends.trans ?_ (ih _ _ _)
      exact ⟨[_], rfl, by simp, rfl, rfl,
        by simp [ChildLines, Line.seq, Line.parent, Line.isText]⟩
    · exact Extends.refl _ s

theorem tdline_records_extends (label tdline : CStr) (s : State) :
    Extends s.idoc.tdline_seq_number s (tdline_records label tdline s) := by
  unfold tdline_records
  simp only
  split
  · exact tdline_loop_extends _ _ _ _ _
  · exact Extends.refl _ s

theorem revision_record_step (r : Label_record) (record : Int) :
    CharStep (revision_record r record) := by
  intro s
  unfold revision_record
  split
  · split
    · split
      · exact print_info_column_header_step _ _ _
      · exact Extends.report _ _ _
    · exact Extends.report _ _ _
  · exact Extends.refl _ _

theorem release_record_step (r : Label_record) (record : Int) :
    CharStep (release_record r record) := by
  intro s
  unfold release_record
  split
  · split
    · split
      · exact print_info_column_header_step _ _ _
      · exact Extends.report _ _ _
    · exact Extends.report _ _ _
  · exact Extends.refl _ _

theorem size_record_extends (cfg : Config) (r : Label_record) (s t : State)
    (h : size_record cfg r s = some t) : Extends s.idoc.char_seq_number s t := by
  unfold size_record at h
  simp only at h
  split at h
  · split at h
    · cases h
    · split at h
      · cases h; exact print_info_lookup_column_header_step _ _ _ _
      · cases h; exact print_info_column_header_step _ _ _
  · cases h; exact Extends.refl _ _

/-- After the label line, a call only adds text and characteristic lines that refer to it. -/
theorem call_children (cfg : Config) (r : Label_record) (record : Int) (s : State)
    (hgood : strcmp (r.label.take 3) "LBL".toList = 0) :
    Extends (material_record r s).sequence_number (label_record r (material_record r s))
      (print_label_idoc_records cfg r record s).state := by
  unfold print_label_idoc_records
  simp only [hgood, ne_eq, not_true_eq_false, if_false]
  set s2 := label_record r (material_record r s) with hs2
  have hc : s2.idoc.char_seq_number = (material_record r s).sequence_number := rfl
  have ht : s2.idoc.tdline_seq_number = (material_record r s).sequence_number := rfl
  rw [← hc]
  split
  · exact Extends.refl _ _
  · rename_i tdline _
    have h3 : Extends s2.idoc.char_seq_number s2 (tdline_records r.label tdline s2) := by
      have := tdline_records_extends r.label tdline s2
      rwa [ht, ← hc] at this
    split
    · have h4 := ((h3.step (print_info_column_header_step "TEMPLATENUMBER".toList r.template)).step
        (revision_record_step r record)).step (release_record_step r record)
      split
      · exact h4
      · rename_i t hsz
        have h5 := size_record_extends cfg r _ t hsz
        have hid : (release_record r record (revision_record r record
            (print_info_column_header "TEMPLATENUMBER".toList r.template
              (tdline_records r.label tdline s2)))).idoc = s2.idoc := by
          obtain ⟨_, _, _, h, _⟩ := h4; exact h
        rw [hid] at h5
        exact ((h4.trans h5).step (run_steps_step _ (characteristic_steps_step cfg r record))).step
          (run_steps_step _ (non_SAP_steps_step cfg r))
    · exact h3.trans (Extends.report _ _ _)

theorem material_record_inv (r : Label_record) {s : State} (h : RunInv s) :
    RunInv (material_record r s) := by
  unfold material_record
  split_ifs
  · exact RunInv.material h r.material rfl rfl rfl rfl rfl
  · exact h
  · exact h

theorem lastLabel_label_record (r : Label_record) (s : State) :
    lastLabel (label_record r s).fpout
      = some (Line.label s.sequence_number s.idoc.labl_seq_number r.label) := by
  show lastLabel (s.fpout ++ [_]) = _
  rw [lastLabel_snoc]; simp [Line.isLabel]

theorem call_bad_label (cfg : Config) (r : Label_record) (record : Int) (s : State)
    (hbad : strcmp (r.label.take 3) "LBL".toList ≠ 0) :
    print_label_idoc_records cfg r record s
      = ⟨.returned 0, (material_record r s).report (.not_LBL record)⟩ := by
  unfold print_label_idoc_records
  simp only [hbad, ne_eq, not_false_eq_true, if_true]

theorem call_inv (cfg : Config) (r : Label_record) (record : Int) {s : State} (h : RunInv s) :
    RunInv (print_label_idoc_records cfg r record s).state := by
  by_cases hgood : strcmp (r.label.take 3) "LBL".toList = 0
  · have h1 := material_record_inv r h
    have h2 : RunInv (label_record r (material_record r s)) :=
      RunInv.label h1 r.label rfl rfl rfl rfl rfl
    exact RunInv.extends _ h2 (lastLabel_label_record r _) (call_children cfg r record s hgood)
  · rw [call_bad_label cfg r record s hgood]
    exact (material_record_inv r h).reported _

theorem main_loop_inv (cfg : Config) : ∀ (records : List Label_record) (i : Int) (s : State),
    RunInv s → RunInv (main_loop cfg records i s).state := by
  intro records
  induction records with
  | nil => intro i s h; exact h
  | cons r rest ih =>
    intro i s h
    have hc := call_inv cfg r i h
    unfold main_loop
    split
    · rename_i value s1 heq
      rw [heq] at hc
      split
      · exact ih _ _ hc
      · exact hc.reported _
    · exact hc

theorem run_inv (cfg : Config) (records : List Label_record) (i : Int) :
    RunInv (main_loop cfg records i State.initial).state :=
  main_loop_inv cfg records i _ RunInv.initial

theorem map_seq_of_own (lines : List Line)
    (h : ∀ (k : Nat) (l : Line), lines[k]? = some l → l.seq = (k : Int) + 1) :
    lines.map Line.seq = (List.range lines.length).map (fun (k : Nat) => (k : Int) + 1) := by
  apply List.ext_getElem?
  intro k
  rcases Nat.lt_or_ge k lines.length with hlt | hge
  · rw [List.getElem?_map, List.getElem?_map, List.getElem?_range hlt,
      List.getElem?_eq_getElem hlt]
    simp only [Option.map_some']
    rw [h k _ (List.getElem?_eq_getElem hlt)]
  · rw [List.getElem?_eq_none (by simpa using hge), List.getElem?_eq_none (by simpa using hge)]

/-- Claim C1: in a run of `main` from the initial control state (counter 1), the lines
written carry the own sequence numbers 1, 2, 3, ... in the order they are written, whatever
their kind; hence the numbers increase strictly from one line to the next, and the counter
ends at 1 plus the number of lines written. -/
theorem own_sequence_numbers (cfg : Config) (records : List Label_record) (i : Int) :
    (main_loop cfg records i State.initial).state.fpout.map Line.seq
        = (List.range (main_loop cfg records i State.initial).state.fpout.length).map
            (fun (k : Nat) => (k : Int) + 1)
      ∧ List.Chain' (fun a b => a < b)
          ((main_loop cfg records i State.initial).state.fpout.map Line.seq)
      ∧ (main_loop cfg records i State.initial).state.sequence_number
          = 1 + ((main_loop cfg records i State.initial).state.fpout.length : Int) := by
  have h := run_inv cfg records i
  have hmap := map_seq_of_own _ h.own
  refine ⟨hmap, ?_, by rw [h.counter]; ring⟩
  rw [hmap]
  have hp : List.Pairwise (fun a b : Nat => (a : Int) + 1 < (b : Int) + 1)
      (List.range (main_loop cfg records i State.initial).state.fpout.length) :=
    (List.pairwise_lt_range _).imp (by intro a b hab; omega)
  exact (List.pairwise_map.mpr hp).chain'

theorem ChildLines_mem (p : Int) : ∀ (ls : List Line) (n : Int), ChildLines n p ls →
    ∀ c ∈ ls, (c.isText = true ∨ c.isCharacteristic = true) ∧ c.parent = p := by
  intro ls
  induction ls with
  | nil => intro n _ c hc; cases hc
  | cons l ls ih =>
    intro n h c hc
    obtain ⟨_, h2, h3, h4⟩ := h
    rcases List.mem_cons.mp hc with rfl | hc
    · exact ⟨h3, h2⟩
    · exact ih _ h4 c hc

theorem material_record_fpout (r : Label_record) (s : State) :
    ∃ mat : List Line, (material_record r s).fpout = s.fpout ++ mat
      ∧ ∀ m ∈ mat, m.isMaterial = true := by
  unfold material_record
  split_ifs
  · exact ⟨[_], rfl, by simp [Line.isMaterial]⟩
  · exact ⟨[], by simp, by simp⟩
  · exact ⟨[], by simp, by simp⟩

/-- Claim C2: what a call of `print_label_idoc_records` writes is at most one material line,
then either nothing more (no label line is written) or one label line followed only by
free-text and characteristic lines, each of which carries as parent number the own sequence
number of that label line. -/
theorem children_refer_to_label_line (cfg : Config) (r : Label_record) (record : Int)
    (s : State) :
    ∃ mat lab children : List Line,
      (print_label_idoc_records cfg r record s).state.fpout = s.fpout ++ mat ++ lab ++ children
      ∧ (∀ m ∈ mat, m.isMaterial = true)
      ∧ ((lab = [] ∧ children = []) ∨
          ∃ lbl : Line, lab = [lbl] ∧ lbl.isLabel = true ∧
            ∀ c ∈ children,
              (c.isText = true ∨ c.isCharacteristic = true) ∧ c.parent = lbl.seq) := by
  obtain ⟨mat, hmat, hm⟩ := material_record_fpout r s
  by_cases hgood : strcmp (r.label.take 3) "LBL".toList = 0
  · obtain ⟨ls, h1, _, _, _, h5⟩ := call_children cfg r record s hgood
    refine ⟨mat, [Line.label (material_record r s).sequence_number
      (material_record r s).idoc.labl_seq_number r.label], ls, ?_, hm, Or.inr ⟨_, rfl, rfl, ?_⟩⟩
    · rw [h1, ← hmat]; rfl
    · exact ChildLines_mem _ ls _ h5
  · refine ⟨mat, [], [], ?_, hm, Or.inl ⟨rfl, rfl⟩⟩
    rw [call_bad_label cfg r record s hgood]
    simpa [State.report] using hmat


/-! ### Label lines and material lines -/

/-- Claim C3, counterexample: a single record without material gives a document whose first
line is a label line with parent number 1, and no material line stands before it. -/
theorem label_without_material_counterexample :
    ¬ LabelRefersToLastMaterial
      (main_loop sample_config [sample_record_plain] 1 State.initial).state.fpout := by
  intro h
  obtain ⟨m, hm, _⟩ := h 0 (Line.label 1 1 "LBL001".toList) (by decide) rfl
  simp [lastMaterial] at hm

/-- Claim C3, amended: in a run of `main` from the initial control state, every label line
carries as parent number the own sequence number of the last material line written before
it, and the number 1 when no material line was written before it. -/
theorem label_parent_last_material_or_one (cfg : Config) (records : List Label_record)
    (i : Int) (k : Nat) (l : Line)
    (hk : (main_loop cfg records i State.initial).state.fpout[k]? = some l)
    (hl : l.isLabel = true) :
    l.parent = ((lastMaterial
      ((main_loop cfg records i State.initial).state.fpout.take k)).map Line.seq).getD 1 :=
  (run_inv cfg records i).label_ref k l hk hl

/-- Claim C3, amended, at the record with material MAT1: the label line is the second line
and refers to the material line, number 1. -/
theorem label_parent_last_material_or_one_witness :
    (main_loop sample_config [sample_record_mat1] 1 State.initial).state.fpout[1]?
        = some (Line.label 2 1 "LBL001".toList)
      ∧ lastMaterial ((main_loop sample_config [sample_record_mat1] 1
          State.initial).state.fpout.take 1) = some (Line.material 1 0 "MAT1".toList)
      ∧ (Line.label 2 1 "LBL001".toList).parent = ((lastMaterial
          ((main_loop sample_config [sample_record_mat1] 1 State.initial).state.fpout.take
            1)).map Line.seq).getD 1 :=
  ⟨by decide, by decide,
    label_parent_last_material_or_one sample_config [sample_record_mat1] 1 1
      (Line.label 2 1 "LBL001".toList) (by decide) rfl⟩

theorem lastMaterial_take (lines : List Line) (j : Nat) (m : Line)
    (hj : lines[j]? = some m) (hm : m.isMaterial = true) : ∀ (d : Nat),
    (∀ (q : Nat) (x : Line), j < q → q < j + 1 + d → lines[q]? = some x →
      x.isMaterial = false) →
    lastMaterial (lines.take (j + 1 + d)) = some m := by
  intro d
  induction d with
  | zero =>
    intro _
    rw [Nat.add_zero, List.take_succ, hj]
    simp [lastMaterial_snoc, hm]
  | succ d ih =>
    intro h
    have ih1 := ih (fun q x h1 h2 h3 => h q x h1 (by omega) h3)
    rw [show j + 1 + (d + 1) = (j + 1 + d) + 1 from rfl, List.take_succ]
    cases hx : lines[j + 1 + d]? with
    | none => simpa using ih1
    | some x =>
      have hxm := h (j + 1 + d) x (by omega) (by omega) hx
      simp [lastMaterial_snoc, hxm, ih1]

theorem strcmp_self (a : CStr) : strcmp a a = 0 := by
  induction a with
  | nil => rfl
  | cons c a ih => simp [strcmp, ih]

/-- Claim C4: when a call writes a material line while the counter holds `n`, the line
carries own number `n` and reference number `n - 1`, the counter becomes `n + 1` (the
lines that follow in the call are numbered from `n + 1`), and a label line written by the
call carries parent number `n`; and in a run from the initial control state every material
line refers to its own number less one, and a label line written after a material line with
no other material line in between carries that material line's own number as parent. -/
theorem material_line_numbers (cfg : Config) :
    (∀ (r : Label_record) (record : Int) (s : State), r.material ≠ [] →
      strcmp s.prev_material r.material ≠ 0 →
      ∃ rest : List Line,
        (print_label_idoc_records cfg r record s).state.fpout
            = s.fpout ++ Line.material s.sequence_number (s.sequence_number - 1) r.material
                :: rest
          ∧ (print_label_idoc_records cfg r record s).state.sequence_number
            = s.sequence_number + 1 + rest.length
          ∧ (print_label_idoc_records cfg r record s).state.idoc.labl_seq_number
            = s.sequence_number
          ∧ (r.label.take 3 = "LBL".toList → ∃ rest1 : List Line,
              rest = Line.label (s.sequence_number + 1) s.sequence_number r.label :: rest1))
    ∧ (∀ (records : List Label_record) (i : Int) (j k : Nat) (m l : Line),
        (main_loop cfg records i State.initial).state.fpout[j]? = some m →
        m.isMaterial = true →
        (main_loop cfg records i State.initial).state.fpout[k]? = some l →
        l.isLabel = true → j < k →
        (∀ (q : Nat) (x : Line), j < q → q < k →
          (main_loop cfg records i State.initial).state.fpout[q]? = some x →
          x.isMaterial = false) →
        m.parent = m.seq - 1 ∧ l.parent = m.seq) := by
  constructor
  · intro r record s hne hcmp
    have hmr : material_record r s =
        { s with
          fpout := s.fpout ++
            [Line.material s.sequence_number (s.sequence_number - 1) r.material]
          idoc := { s.idoc with
                    matl_seq_number := s.sequence_number - 1
                    labl_seq_number := s.sequence_number }
          sequence_number := s.sequence_number + 1
          prev_material := r.material.take (LRG - 1) } := by
      unfold material_record
      have : r.material.length > 0 := List.length_pos.mpr hne
      simp only [this, hcmp, ne_eq, not_false_eq_true, if_true]
    by_cases hgood : strcmp (r.label.take 3) "LBL".toList = 0
    · obtain ⟨ls, h1, h2, h3, _, _⟩ := call_children cfg r record s hgood
      refine ⟨Line.label (s.sequence_number + 1) s.sequence_number r.label :: ls, ?_, ?_, ?_,
        fun _ => ⟨ls, rfl⟩⟩
      · rw [h1]; simp [label_record, hmr]
      · rw [h2]; simp [label_record, hmr]; ring
      · rw [h3]; simp [label_record, hmr]
    · refine ⟨[], ?_, ?_, ?_, ?_⟩
      · rw [call_bad_label cfg r record s hgood, hmr]; rfl
      · rw [call_bad_label cfg r record s hgood, hmr]; simp [State.report]
      · rw [call_bad_label cfg r record s hgood, hmr]; rfl
      · intro h; rw [h] at hgood; exact absurd (strcmp_self _) hgood
  · intro records i j k m l hj hm hk hl hjk hno
    have hinv := run_inv cfg records i
    refine ⟨hinv.material_ref j m hj hm, ?_⟩
    rw [hinv.label_ref k l hk hl]
    obtain ⟨d, rfl⟩ : ∃ d, k = j + 1 + d := ⟨k - (j + 1), by omega⟩
    rw [lastMaterial_take _ j m hj hm d hno]
    rfl


/-- Claim C4 at the sample records: the material line of the first record is numbered 1
with reference 0, and the label line of the second record, which has no material, still
carries the parent number 1. -/
theorem material_line_numbers_witness :
    (∃ rest : List Line,
        (print_label_idoc_records sample_config sample_record_mat1 1 State.initial).state.fpout
            = State.initial.fpout ++ Line.material State.initial.sequence_number
                (State.initial.sequence_number - 1) sample_record_mat1.material :: rest
          ∧ (print_label_idoc_records sample_config sample_record_mat1 1
              State.initial).state.sequence_number
            = State.initial.sequence_number + 1 + rest.length
          ∧ (print_label_idoc_records sample_config sample_record_mat1 1
              State.initial).state.idoc.labl_seq_number = State.initial.sequence_number
          ∧ (sample_record_mat1.label.take 3 = "LBL".toList → ∃ rest1 : List Line,
              rest = Line.label (State.initial.sequence_number + 1)
                State.initial.sequence_number sample_record_mat1.label :: rest1))
      ∧ (Line.material 1 0 "MAT1".toList).parent = (Line.material 1 0 "MAT1".toList).seq - 1
      ∧ (Line.label 5 1 "LBL001".toList).parent = (Line.material 1 0 "MAT1".toList).seq := by
  refine ⟨(material_line_numbers sample_config).1 sample_record_mat1 1 State.initial
    (by decide) (by decide), ?_⟩
  refine (material_line_numbers sample_config).2 [sample_record_mat1, sample_record_plain] 1
    0 4 (Line.material 1 0 "MAT1".toList) (Line.label 5 1 "LBL001".toList)
    (by decide) rfl (by decide) rfl (by decide) ?_
  intro q x h1 h2 h3
  have hq : q = 1 ∨ q = 2 ∨ q = 3 := by omega
  rcases hq with rfl | rfl | rfl
  · have e : ((main_loop sample_config [sample_record_mat1, sample_record_plain] 1
        State.initial).state.fpout[1]?).map Line.isMaterial = some false := by decide
    rw [h3] at e; simpa using e
  · have e : ((main_loop sample_config [sample_record_mat1, sample_record_plain] 1
        State.initial).state.fpout[2]?).map Line.isMaterial = some false := by decide
    rw [h3] at e; simpa using e
  · have e : ((main_loop sample_config [sample_record_mat1, sample_record_plain] 1
        State.initial).state.fpout[3]?).map Line.isMaterial = some false := by decide
    rw [h3] at e; simpa using e

/-! ### When a material line is written -/

theorem ord_inj {a b : Char} (h : ord a = ord b) : a = b := by
  unfold ord at h
  have h1 : a.toNat = b.toNat := by exact_mod_cast h
  rw [← Char.ofNat_toNat a, ← Char.ofNat_toNat b, h1]

theorem ord_eq_zero {a : Char} (h : ord a = 0) : a = Char.ofNat 0 :=
  ord_inj (by rw [h]; rfl)

theorem strcmp_eq_zero : ∀ (a b : CStr), (∀ c ∈ a, c ≠ Char.ofNat 0) →
    (∀ c ∈ b, c ≠ Char.ofNat 0) → (strcmp a b = 0 ↔ a = b) := by
  intro a
  induction a with
  | nil =>
    intro b _ hb
    cases b with
    | nil => simp [strcmp]
    | cons c b =>
      simp only [strcmp, List.nil_eq, reduceCtorEq, iff_false]
      intro h
      exact hb c (List.mem_cons_self _ _) (ord_eq_zero (by omega))
  | cons x a ih =>
    intro b ha hb
    cases b with
    | nil =>
      simp only [strcmp, reduceCtorEq, iff_false]
      intro h
      exact ha x (List.mem_cons_self _ _) (ord_eq_zero h)
    | cons c b =>
      simp only [strcmp, List.cons.injEq]
      by_cases hxc : x = c
      · simp only [hxc, if_true, true_and]
        exact ih b (fun y hy => ha y (List.mem_cons_of_mem _ hy))
          (fun y hy => hb y (List.mem_cons_of_mem _ hy))
      · simp only [hxc, if_false, false_and, iff_false]
        intro h
        exact hxc (ord_inj (by omega))


theorem lastMaterial_append_other (a ls : List Line) (h : ∀ x ∈ ls, x.isMaterial = false) :
    lastMaterial (a ++ ls) = lastMaterial a := by
  unfold lastMaterial
  rw [List.filter_append]
  have : ls.filter Line.isMaterial = [] := by
    rw [List.filter_eq_nil_iff]
    intro x hx; simp [h x hx]
  rw [this, List.append_nil]

theorem not_material_of_child {c : Line} (h : c.isText = true ∨ c.isCharacteristic = true) :
    c.isMaterial = false := by
  cases c <;> simp_all [Line.isText, Line.isCharacteristic, Line.isMaterial]

theorem call_rest (cfg : Config) (r : Label_record) (record : Int) (s : State) :
    ∃ rest : List Line, (∀ x ∈ rest, x.isMaterial = false)
      ∧ (print_label_idoc_records cfg r record s).state.fpout
          = (material_record r s).fpout ++ rest
      ∧ (print_label_idoc_records cfg r record s).state.prev_material
          = (material_record r s).prev_material := by
  by_cases hgood : strcmp (r.label.take 3) "LBL".toList = 0
  · obtain ⟨ls, h1, _, _, h4, h5⟩ := call_children cfg r record s hgood
    refine ⟨Line.label (material_record r s).sequence_number
      (material_record r s).idoc.labl_seq_number r.label :: ls, ?_, ?_, ?_⟩
    · intro x hx
      rcases List.mem_cons.mp hx with rfl | hx
      · rfl
      · exact not_material_of_child (ChildLines_mem _ ls _ h5 x hx).1
    · rw [h1]; simp [label_record]
    · rw [h4]; rfl
  · refine ⟨[], by simp, ?_, ?_⟩
    · rw [call_bad_label cfg r record s hgood]; simp [State.report]
    · rw [call_bad_label cfg r record s hgood]; rfl

theorem material_record_emits (r : Label_record) (s : State)
    (hs : ∀ c ∈ s.prev_material, c ≠ Char.ofNat 0) (hr : FitsField LRG r.material)
    (h : r.material ≠ [] ∧ s.prev_material ≠ r.material) :
    material_record r s =
      { s with
        fpout := s.fpout ++
          [Line.material s.sequence_number (s.sequence_number - 1) r.material]
        idoc := { s.idoc with
                  matl_seq_number := s.sequence_number - 1
                  labl_seq_number := s.sequence_number }
        sequence_number := s.sequence_number + 1
        prev_material := r.material } := by
  unfold material_record
  have h1 : r.material.length > 0 := List.length_pos.mpr h.1
  have h2 : strcmp s.prev_material r.material ≠ 0 :=
    fun e => h.2 ((strcmp_eq_zero _ _ hs hr.2).mp e)
  have h3 : r.material.take (LRG - 1) = r.material :=
    List.take_of_length_le (by have := hr.1; unfold LRG at *; omega)
  simp only [h1, h2, ne_eq, not_false_eq_true, if_true, h3]

theorem material_record_skips (r : Label_record) (s : State)
    (hs : ∀ c ∈ s.prev_material, c ≠ Char.ofNat 0) (hr : FitsField LRG r.material)
    (h : ¬ (r.material ≠ [] ∧ s.prev_material ≠ r.material)) :
    material_record r s = s := by
  unfold material_record
  split_ifs with h1 h2
  · exfalso
    exact h ⟨List.length_pos.mp h1, fun e => h2 ((strcmp_eq_zero _ _ hs hr.2).mpr e)⟩
  · rfl
  · rfl

theorem material_record_material_inv (r : Label_record) (s : State) (hs : MaterialInv s)
    (hr : FitsField LRG r.material) : MaterialInv (material_record r s) := by
  by_cases h : r.material ≠ [] ∧ s.prev_material ≠ r.material
  · rw [material_record_emits r s hs.2 hr h]
    refine ⟨?_, hr.2⟩
    simp [lastMaterial_snoc, Line.isMaterial, Line.materialText]
  · rw [material_record_skips r s hs.2 hr h]; exact hs

theorem call_material_inv (cfg : Config) (r : Label_record) (record : Int) (s : State)
    (hs : MaterialInv s) (hr : FitsField LRG r.material) :
    MaterialInv (print_label_idoc_records cfg r record s).state := by
  obtain ⟨rest, h1, h2, h3⟩ := call_rest cfg r record s
  have hm := material_record_material_inv r s hs hr
  unfold MaterialInv
  rw [h2, h3, lastMaterial_append_other _ _ h1]
  exact hm

theorem main_loop_material_inv (cfg : Config) : ∀ (records : List Label_record) (i : Int)
    (s : State), MaterialInv s → (∀ x ∈ records, FitsField LRG x.material) →
    MaterialInv (main_loop cfg records i s).state := by
  intro records
  induction records with
  | nil => intro i s h _; exact h
  | cons r rest ih =>
    intro i s h hfit
    have hc := call_material_inv cfg r i s h (hfit r (List.mem_cons_self _ _))
    unfold main_loop
    split
    · rename_i value s1 heq
      rw [heq] at hc
      split
      · exact ih _ _ hc (fun x hx => hfit x (List.mem_cons_of_mem _ hx))
      · exact hc
    · exact hc

theorem material_inv_initial : MaterialInv State.initial := by
  refine ⟨by simp [State.initial, lastMaterial], ?_⟩
  intro c hc; simp [State.initial] at hc

theorem FitsField_mono {n m : Nat} {s : CStr} (h : n ≤ m) (hs : FitsField n s) :
    FitsField m s := ⟨Nat.lt_of_lt_of_le hs.1 h, hs.2⟩

/-- Claim C5, the code: for materials of fewer than `MED` characters, which fit the array
`prev_material`: at any point of a run from the initial control state, a call of
`print_label_idoc_records` writes a material line if and only if the material of its record
is not empty and is not the material of the last material line written so far; besides that
line the call writes no material line. A material of `MED` characters or more, which the
record can hold, is copied past the end of `prev_material`.
In particular two consecutive records with the same non-empty material give exactly one
material line, written for the first of them. -/
theorem material_line_iff (cfg : Config) :
    (∀ (records : List Label_record) (i : Int) (r : Label_record) (record : Int),
      (∀ x ∈ records, FitsField MED x.material) → FitsField MED r.material →
      ∃ rest : List Line, (∀ x ∈ rest, x.isMaterial = false) ∧
        (print_label_idoc_records cfg r record
            (main_loop cfg records i State.initial).state).state.fpout
          = (main_loop cfg records i State.initial).state.fpout
            ++ (if r.material ≠ [] ∧
                  (lastMaterial (main_loop cfg records i State.initial).state.fpout).map
                    Line.materialText ≠ some r.material
                then [Line.material (main_loop cfg records i State.initial).state.sequence_number
                  ((main_loop cfg records i State.initial).state.sequence_number - 1)
                  r.material]
                else [])
            ++ rest)
    ∧ (∀ (r1 r2 : Label_record) (i : Int), FitsField MED r1.material → r1.material ≠ [] →
        r2.material = r1.material →
        (main_loop cfg [r1, r2] i State.initial).state.fpout.filter Line.isMaterial
          = [Line.material 1 0 r1.material]) := by
  constructor
  · intro records i r record hfit0 hr0
    have hfit : ∀ x ∈ records, FitsField LRG x.material :=
      fun x hx => FitsField_mono (by decide) (hfit0 x hx)
    have hr : FitsField LRG r.material := FitsField_mono (by decide) hr0
    have hinv := main_loop_material_inv cfg records i _ material_inv_initial hfit
    obtain ⟨rest, h1, h2, _⟩ :=
      call_rest cfg r record (main_loop cfg records i State.initial).state
    refine ⟨rest, h1, ?_⟩
    rw [h2]
    congr 1
    by_cases h : r.material ≠ [] ∧
        (main_loop cfg records i State.initial).state.prev_material ≠ r.material
    · rw [material_record_emits r _ hinv.2 hr h]
      have hc : r.material ≠ [] ∧
          (lastMaterial (main_loop cfg records i State.initial).state.fpout).map
            Line.materialText ≠ some r.material := by
        refine ⟨h.1, fun e => h.2 ?_⟩
        rw [hinv.1, e]; rfl
      rw [if_pos hc]
    · rw [material_record_skips r _ hinv.2 hr h]
      have hc : ¬ (r.material ≠ [] ∧
          (lastMaterial (main_loop cfg records i State.initial).state.fpout).map
            Line.materialText ≠ some r.material) := by
        rintro ⟨h1, h2⟩
        apply h
        refine ⟨h1, fun e => ?_⟩
        rw [hinv.1] at e
        cases hl : lastMaterial (main_loop cfg records i State.initial).state.fpout with
        | none => rw [hl] at e; exact h1 (by simpa using e.symm)
        | some m => rw [hl] at e h2; exact h2 (by simpa using e)
      rw [if_neg hc, List.append_nil]
  · intro r1 r2 i hfit0 hne heq
    have hfit : FitsField LRG r1.material := FitsField_mono (by decide) hfit0
    have hfit2 : FitsField LRG r2.material := by rw [heq]; exact hfit
    have hinit : ∀ c ∈ State.initial.prev_material, c ≠ Char.ofNat 0 := material_inv_initial.2
    obtain ⟨rest1, ha1, ha2, ha3⟩ := call_rest cfg r1 i State.initial
    rw [material_record_emits r1 _ hinit hfit ⟨hne, fun e => hne e.symm⟩] at ha2 ha3
    have hf1 : (print_label_idoc_records cfg r1 i State.initial).state.fpout.filter
        Line.isMaterial = [Line.material 1 0 r1.material] := by
      rw [ha2, List.filter_append]
      have : rest1.filter Line.isMaterial = [] := by
        rw [List.filter_eq_nil_iff]; intro x hx; simp [ha1 x hx]
      rw [this]; rfl
    unfold main_loop
    split
    · rename_i value s1 hres
      rw [hres] at hf1 ha3
      split
      · obtain ⟨rest2, hb1, hb2, _⟩ := call_rest cfg r2 (i + 1) s1
        have hs1 : ∀ c ∈ s1.prev_material, c ≠ Char.ofNat 0 := by
          rw [show s1.prev_material = r1.material from ha3]; exact hfit.2
        rw [material_record_skips r2 s1 hs1 hfit2
          (fun h => h.2 (by rw [heq]; exact ha3))] at hb2
        have hf2 : (print_label_idoc_records cfg r2 (i + 1) s1).state.fpout.filter
            Line.isMaterial = [Line.material 1 0 r1.material] := by
          rw [hb2, List.filter_append]
          have : rest2.filter Line.isMaterial = [] := by
            rw [List.filter_eq_nil_iff]; intro x hx; simp [hb1 x hx]
          rw [this, List.append_nil]; exact hf1
        unfold main_loop
        split
        · split
          · rename_i hres2 _
            rw [hres2] at hf2
            exact hf2
          · rename_i hres2 _
            rw [hres2] at hf2
            exact hf2
        · exact hf2
      · exact hf1
    · exact hf1


/-- Claim C5 at the sample records: after the record with material MAT1, a second record
with material MAT1 gets no material line, and the two records together give the one
material line numbered 1. -/
theorem material_line_iff_witness :
    (∃ rest : List Line, (∀ x ∈ rest, x.isMaterial = false) ∧
        (print_label_idoc_records sample_config sample_record_mat1 2
            (main_loop sample_config [sample_record_mat1] 1 State.initial).state).state.fpout
          = (main_loop sample_config [sample_record_mat1] 1 State.initial).state.fpout
            ++ (if sample_record_mat1.material ≠ [] ∧
                  (lastMaterial (main_loop sample_config [sample_record_mat1] 1
                    State.initial).state.fpout).map Line.materialText
                    ≠ some sample_record_mat1.material
                then [Line.material
                  (main_loop sample_config [sample_record_mat1] 1
                    State.initial).state.sequence_number
                  ((main_loop sample_config [sample_record_mat1] 1
                    State.initial).state.sequence_number - 1)
                  sample_record_mat1.material]
                else [])
            ++ rest)
      ∧ (main_loop sample_config [sample_record_mat1, sample_record_mat1] 1
          State.initial).state.fpout.filter Line.isMaterial
          = [Line.material 1 0 sample_record_mat1.material] :=
  ⟨(material_line_iff sample_config).1 [sample_record_mat1] 1 sample_record_mat1 2
      (by unfold FitsField; decide) (by unfold FitsField; decide),
    (material_line_iff sample_config).2 sample_record_mat1 sample_record_mat1 1
      (by unfold FitsField; decide) (by decide) rfl⟩

/-! ### The label test -/

theorem strcmp_eq_zero_short : ∀ (a b : CStr), (∀ c ∈ b, c ≠ Char.ofNat 0) →
    a.length ≤ b.length → (strcmp a b = 0 ↔ a = b) := by
  intro a
  induction a with
  | nil =>
    intro b hb _
    cases b with
    | nil => simp [strcmp]
    | cons c b =>
      simp only [strcmp, List.nil_eq, reduceCtorEq, iff_false]
      intro h
      exact hb c (List.mem_cons_self _ _) (ord_eq_zero (by omega))
  | cons x a ih =>
    intro b hb hlen
    cases b with
    | nil => simp at hlen
    | cons c b =>
      simp only [strcmp, List.cons.injEq]
      by_cases hxc : x = c
      · simp only [hxc, if_true, true_and]
        exact ih b (fun y hy => hb y (List.mem_cons_of_mem _ hy))
          (by simpa using hlen)
      · simp only [hxc, if_false, false_and, iff_false]
        intro h
        exact hxc (ord_inj (by omega))

theorem strcmp_LBL (label : CStr) :
    strcmp (label.take 3) "LBL".toList = 0 ↔ label.take 3 = "LBL".toList :=
  strcmp_eq_zero_short _ _ (by decide) (by simp [List.length_take])

theorem not_label_of_material {c : Line} (h : c.isMaterial = true) : c.isLabel = false := by
  cases c <;> simp_all [Line.isMaterial, Line.isLabel]

theorem not_label_of_child {c : Line} (h : c.isText = true ∨ c.isCharacteristic = true) :
    c.isLabel = false := by
  cases c <;> simp_all [Line.isText, Line.isCharacteristic, Line.isLabel]

/-- Claim C6: for a record whose label does not begin with the three characters "LBL",
`print_label_idoc_records` returns 0, writes no label, text or characteristic line (at most
the material line), and the loop of `main` stops there with `EXIT_FAILURE` without writing
another line; for a record whose label begins with "LBL" the call writes exactly one label
line. -/
theorem label_line_written (cfg : Config) (r : Label_record) (record : Int) (s : State) :
    (r.label.take 3 ≠ "LBL".toList →
      (print_label_idoc_records cfg r record s).status = Status.returned 0
        ∧ (∃ mat : List Line,
            (print_label_idoc_records cfg r record s).state.fpout = s.fpout ++ mat
              ∧ ∀ m ∈ mat, m.isMaterial = true)
        ∧ ∀ rest : List Label_record,
            (main_loop cfg (r :: rest) record s).status = Status.returned EXIT_FAILURE
              ∧ (main_loop cfg (r :: rest) record s).state.fpout
                = (print_label_idoc_records cfg r record s).state.fpout)
    ∧ (r.label.take 3 = "LBL".toList →
        ∃ emitted : List Line,
          (print_label_idoc_records cfg r record s).state.fpout = s.fpout ++ emitted
            ∧ (emitted.filter Line.isLabel).length = 1) := by
  constructor
  · intro hbad
    have hb : strcmp (r.label.take 3) "LBL".toList ≠ 0 :=
      fun e => hbad ((strcmp_LBL r.label).mp e)
    have hcall := call_bad_label cfg r record s hb
    refine ⟨by rw [hcall], ?_, ?_⟩
    · obtain ⟨mat, h1, h2⟩ := material_record_fpout r s
      exact ⟨mat, by rw [hcall]; simpa [State.report] using h1, h2⟩
    · intro rest
      unfold main_loop
      rw [hcall]
      simp [State.report]
  · intro hgood
    have hg : strcmp (r.label.take 3) "LBL".toList = 0 := (strcmp_LBL r.label).mpr hgood
    obtain ⟨mat, hm1, hm2⟩ := material_record_fpout r s
    obtain ⟨ls, h1, _, _, _, h5⟩ := call_children cfg r record s hg
    refine ⟨mat ++ Line.label (material_record r s).sequence_number
      (material_record r s).idoc.labl_seq_number r.label :: ls, ?_, ?_⟩
    · rw [h1]; simp [label_record, hm1]
    · have e1 : mat.filter Line.isLabel = [] := by
        rw [List.filter_eq_nil_iff]
        intro x hx; simp [not_label_of_material (hm2 x hx)]
      have e2 : ls.filter Line.isLabel = [] := by
        rw [List.filter_eq_nil_iff]
        intro x hx; simp [not_label_of_child (ChildLines_mem _ ls _ h5 x hx).1]
      rw [List.filter_append, e1, List.nil_append, List.filter_cons]
      simp [Line.isLabel, e2]

/-- Claim C6 at two records: the label XYZ1 stops the run with no line written, the label
LBL001 gives one label line. -/
theorem label_line_written_witness :
    ((print_label_idoc_records sample_config { label := "XYZ1".toList, tdline := some [] } 1
          State.initial).status = Status.returned 0
        ∧ (∃ mat : List Line,
            (print_label_idoc_records sample_config { label := "XYZ1".toList, tdline := some [] }
                1 State.initial).state.fpout = State.initial.fpout ++ mat
              ∧ ∀ m ∈ mat, m.isMaterial = true)
        ∧ ∀ rest : List Label_record,
            (main_loop sample_config ({ label := "XYZ1".toList, tdline := some [] } :: rest) 1
                State.initial).status = Status.returned EXIT_FAILURE
              ∧ (main_loop sample_config ({ label := "XYZ1".toList, tdline := some [] } :: rest)
                  1 State.initial).state.fpout
                = (print_label_idoc_records sample_config
                    { label := "XYZ1".toList, tdline := some [] } 1 State.initial).state.fpout)
      ∧ (∃ emitted : List Line,
          (print_label_idoc_records sample_config sample_record_plain 1 State.initial).state.fpout
              = State.initial.fpout ++ emitted
            ∧ (emitted.filter Line.isLabel).length = 1) :=
  ⟨(label_line_written sample_config { label := "XYZ1".toList, tdline := some [] } 1
      State.initial).1 (by decide),
    (label_line_written sample_config sample_record_plain 1 State.initial).2 (by decide)⟩

/-! ### The template number -/

set_option maxRecDepth 8000 in
/-- Claim C7, the code at a record without template number: the call returns 1, the only
diagnostic is the one of the REVISION block, and the label line and the SIZELOGO line are
written. -/
theorem empty_template_returns_one :
    (print_label_idoc_records sample_config { label := "LBL001".toList, tdline := some [] } 1
        State.initial).status = Status.returned 1
      ∧ (print_label_idoc_records sample_config { label := "LBL001".toList, tdline := some [] }
          1 State.initial).state.stdout = [Diag.invalid_revision [] 1]
      ∧ (print_label_idoc_records sample_config { label := "LBL001".toList, tdline := some [] }
          1 State.initial).state.fpout
        = [Line.label 1 1 "LBL001".toList,
            Line.characteristic 2 1 "SIZELOGO".toList "N".toList
              (print_graphic_path sample_config "No".toList)] := by
  decide


/-! ### The check digit of a barcode value -/

theorem isDigit_bounds {c : Char} (h : c.isDigit = true) : 48 ≤ c.toNat ∧ c.toNat ≤ 57 := by
  unfold Char.isDigit at h
  simp only [Bool.and_eq_true, decide_eq_true_eq] at h
  obtain ⟨h1, h2⟩ := h
  have h1' : (48 : UInt32).toNat ≤ c.val.toNat := h1
  have h2' : c.val.toNat ≤ (57 : UInt32).toNat := h2
  exact ⟨h1', h2'⟩

theorem digitValue_bounds {c : Char} (h : c.isDigit = true) :
    0 ≤ digitValue c ∧ digitValue c ≤ 9 := by
  have := isDigit_bounds h
  unfold digitValue ord
  omega

theorem tolower_digit {c : Char} (h : c.isDigit = true) : tolower c = c := by
  have := isDigit_bounds h
  unfold tolower Char.toLower
  simp only
  split
  · omega
  · rfl

theorem strcasecmp_digit_N {c : Char} (h : c.isDigit = true) (rest t : CStr) :
    strcasecmp (c :: rest) ('N' :: t) ≠ 0 := by
  have hb := isDigit_bounds h
  have hn : tolower 'N' = 'n' := by decide
  have hne : c ≠ 'n' := by
    intro e; rw [e] at hb
    have : ('n' : Char).toNat = 110 := by decide
    omega
  unfold strcasecmp
  rw [tolower_digit h, hn, if_neg hne]
  have : ord 'n' = 110 := by decide
  unfold ord at *
  omega

theorem equals_no_digits {v : CStr} (hdig : ∀ c ∈ v, c.isDigit = true) :
    equals_no v = false := by
  cases v with
  | nil => decide
  | cons c rest =>
    have hc := hdig c (List.mem_cons_self _ _)
    have h1 : strcasecmp (c :: rest) "N".toList ≠ 0 := strcasecmp_digit_N hc rest []
    have h2 : strcasecmp (c :: rest) "NO".toList ≠ 0 := strcasecmp_digit_N hc rest ['O']
    have e1 : "N".toList = ['N'] := rfl
    have e2 : "NO".toList = ['N', 'O'] := rfl
    rw [e1] at h1; rw [e2] at h2
    unfold equals_no
    simp [h1, h2]

/-- The number written by a string of decimal digits. -/
theorem decimal_bounds : ∀ v : CStr, (∀ c ∈ v, c.isDigit = true) →
    0 ≤ v.foldl (fun acc c => acc * 10 + digitValue c) (0 : Int)
      ∧ v.foldl (fun acc c => acc * 10 + digitValue c) (0 : Int) < 10 ^ v.length := by
  intro v
  induction v using List.reverseRecOn with
  | nil => intro _; simp
  | append_singleton init c ih =>
    intro h
    have hi := ih (fun x hx => h x (List.mem_append_left _ hx))
    have hc := digitValue_bounds (h c (List.mem_append_right _ (List.mem_singleton_self c)))
    rw [List.foldl_append, List.length_append]
    simp only [List.foldl_cons, List.foldl_nil, List.length_singleton]
    rw [pow_succ]
    constructor
    · nlinarith [hi.1, hc.1]
    · nlinarith [hi.2, hc.2]

theorem strtoll_last_digit (v : CStr) (hdig : ∀ c ∈ v, c.isDigit = true)
    (hlen : v.length = 14) :
    v.getLast?.map digitValue = some ((strtoll v).tmod 10) := by
  have hne : v ≠ [] := by intro e; rw [e] at hlen; simp at hlen
  obtain ⟨init, c, rfl⟩ : ∃ init c, v = init ++ [c] :=
    ⟨v.dropLast, v.getLast hne, (List.dropLast_append_getLast hne).symm⟩
  have hall : (init ++ [c]).takeWhile Char.isDigit = init ++ [c] :=
    List.takeWhile_eq_self_iff.mpr hdig
  have hb := decimal_bounds (init ++ [c]) hdig
  have hi := decimal_bounds init (fun x hx => hdig x (List.mem_append_left _ hx))
  have hc := digitValue_bounds (hdig c (List.mem_append_right _ (List.mem_singleton_self c)))
  rw [hlen] at hb
  unfold strtoll
  rw [hall]
  rw [List.foldl_append] at hb ⊢
  simp only [List.foldl_cons, List.foldl_nil] at hb ⊢
  rw [min_eq_left (by unfold LLONG_MAX; omega)]
  rw [Int.tmod_eq_emod hb.1 (by norm_num)]
  have hl : (init ++ [c]).getLast? = some c := by simp
  rw [hl]
  simp only [Option.map_some', Option.some.injEq]
  omega

theorem gtin_prefix_check_stdout (gtin a b record : Int) (s : State) :
    ∃ tail : List Diag, (∀ d ∈ tail, ∃ x, d = Diag.prefix_invalid x record)
      ∧ (gtin_prefix_check gtin a b record s).stdout = s.stdout ++ tail := by
  unfold gtin_prefix_check
  split
  · exact ⟨[Diag.prefix_invalid b record], by simp, rfl⟩
  · exact ⟨[], by simp, by simp⟩

theorem gtin_checks_stdout_14 (cfg : Config) (value : CStr) (record : Int) (s : State)
    (hlen : value.length = 14) :
    ∃ tail : List Diag, (∀ d ∈ tail, ∃ x, d = Diag.prefix_invalid x record)
      ∧ (gtin_checks cfg value record s).stdout
        = s.stdout
          ++ (if (strtoll value).tmod 10 ≠ checkDigit (strtoll value)
              then [Diag.invalid_check_digit value record] else [])
          ++ tail := by
  unfold gtin_checks
  have h14 : value.length = GTIN_13 + 1 := hlen
  simp only [h14, if_true]
  obtain ⟨tail, h1, h2⟩ := gtin_prefix_check_stdout (strtoll value)
    (toInt32 ((strtoll value).tdiv GTIN_14_DIGIT))
    (toInt32 ((strtoll value - toInt32 ((strtoll value).tdiv GTIN_14_DIGIT) * GTIN_14_DIGIT).tdiv
      GTIN_14_CPNY_DIVISOR)) record
    (if (strtoll value).tmod 10 ≠ checkDigit (strtoll value)
      then s.report (Diag.invalid_check_digit value record) else s)
  refine ⟨tail, h1, ?_⟩
  rw [h2]
  split <;> simp [State.report]

theorem print_info_column_header_stdout (name value : CStr) (s : State) :
    (print_info_column_header name value s).stdout = s.stdout := by
  unfold print_info_column_header
  split <;> rfl

/-- Claim C10: for a barcode value (BARCODETEXT) of 14 characters, all decimal digits, the
diagnostics that the BARCODETEXT block prints never contain "Invalid GTIN check digit or
length", and they do not contain "Invalid GTIN check digit" if and only if the check digit
that `checkDigit` computes from the value is the final digit of the value. -/
theorem check_digit_diagnostic (cfg : Config) (r : Label_record) (record : Int) (s : State)
    (hlen : r.barcodetext.length = 14) (hdig : ∀ c ∈ r.barcodetext, c.isDigit = true) :
    ∃ diags : List Diag,
      (barcodetext_record cfg r record s).stdout = s.stdout ++ diags
        ∧ Diag.invalid_check_digit_or_length r.barcodetext record ∉ diags
        ∧ (Diag.invalid_check_digit r.barcodetext record ∉ diags ↔
            r.barcodetext.getLast?.map digitValue
              = some (checkDigit (strtoll r.barcodetext))) := by
  have hpos : r.barcodetext.length > 0 := by omega
  have hno : equals_no r.barcodetext = false := equals_no_digits hdig
  have hnum : isNumeric r.barcodetext = true := by
    unfold isNumeric
    split
    · rename_i e; rw [e] at hlen; simp at hlen
    · exact List.all_eq_true.mpr hdig
  obtain ⟨tail, ht1, ht2⟩ := gtin_checks_stdout_14 cfg r.barcodetext record s hlen
  have ht3 : ∀ d ∈ tail, d ≠ Diag.invalid_check_digit r.barcodetext record := by
    intro d hd e
    obtain ⟨x, hx⟩ := ht1 d hd
    rw [hx] at e; cases e
  have ht4 : ∀ d ∈ tail, d ≠ Diag.invalid_check_digit_or_length r.barcodetext record := by
    intro d hd e
    obtain ⟨x, hx⟩ := ht1 d hd
    rw [hx] at e; cases e
  refine ⟨(if (strtoll r.barcodetext).tmod 10 ≠ checkDigit (strtoll r.barcodetext)
      then [Diag.invalid_check_digit r.barcodetext record] else []) ++ tail, ?_, ?_, ?_⟩
  · unfold barcodetext_record
    simp only [hpos, hno, hnum, Bool.not_false, and_self, if_true]
    rw [print_info_column_header_stdout, ht2, List.append_assoc]
  · intro hm
    rcases List.mem_append.mp hm with h1 | h1
    · split at h1
      · simp at h1
      · simp at h1
    · exact ht4 _ h1 rfl
  · rw [strtoll_last_digit r.barcodetext hdig hlen]
    by_cases hc : (strtoll r.barcodetext).tmod 10 = checkDigit (strtoll r.barcodetext)
    · simp only [hc, ne_eq, not_true_eq_false, if_false, List.nil_append, iff_true]
      exact fun hm => ht3 _ hm rfl
    · simp only [ne_eq, hc, not_false_eq_true, if_true, List.singleton_append, List.mem_cons,
        true_or, not_true_eq_false, Option.some.injEq, false_iff]

/-- Claim C10 at the value 04026704123452, which ends with its check digit 2. -/
theorem check_digit_diagnostic_witness :
    ∃ diags : List Diag,
      (barcodetext_record sample_config { barcodetext := "04026704123452".toList } 1
          State.initial).stdout = State.initial.stdout ++ diags
        ∧ Diag.invalid_check_digit_or_length "04026704123452".toList 1 ∉ diags
        ∧ (Diag.invalid_check_digit "04026704123452".toList 1 ∉ diags ↔
            "04026704123452".toList.getLast?.map digitValue
              = some (checkDigit (strtoll "04026704123452".toList))) :=
  check_digit_diagnostic sample_config { barcodetext := "04026704123452".toList } 1
    State.initial (by decide) (by decide)

/-! ### The scenario with one data row -/

set_option maxRecDepth 8000 in
/-- Claim C8, the code at the scenario (headings LABEL, MATERIAL, TEMPLATE, one row LBL001,
MAT1, TPL1): `parse_spreadsheet` returns 3 and leaves `tdline` NULL, and the call of
`print_label_idoc_records` ends in the read through that pointer after the material line
1/0 and the label line 2/1; no TEMPLATENUMBER line is written. With a fourth heading
TDLINE and an empty cell under it the run succeeds and writes the material line 1/0, the
label line 2/1, the TEMPLATENUMBER line 3/2 and the SIZELOGO line 4/2. -/
theorem scenario_run :
    (parse_spreadsheet sample_config scenario_header [scenario_row]
        (calloc_labels [scenario_row])).1 = 3
      ∧ (parse_spreadsheet sample_config scenario_header [scenario_row]
          (calloc_labels [scenario_row])).2.labels.map
            (fun r => (r.label, r.material, r.template, r.tdline))
        = [("LBL001".toList, "MAT1".toList, "TPL1".toList, none)]
      ∧ (main_loop sample_config
          (parse_spreadsheet sample_config scenario_header [scenario_row]
            (calloc_labels [scenario_row])).2.labels 1 State.initial).status
        = Status.null_tdline
      ∧ (main_loop sample_config
          (parse_spreadsheet sample_config scenario_header [scenario_row]
            (calloc_labels [scenario_row])).2.labels 1 State.initial).state.fpout
        = [Line.material 1 0 "MAT1".toList, Line.label 2 1 "LBL001".toList]
      ∧ (main_loop sample_config
          (parse_spreadsheet sample_config scenario_header_tdline [scenario_row_tdline]
            (calloc_labels [scenario_row_tdline])).2.labels 1 State.initial).status
        = Status.returned EXIT_SUCCESS
      ∧ (main_loop sample_config
          (parse_spreadsheet sample_config scenario_header_tdline [scenario_row_tdline]
            (calloc_labels [scenario_row_tdline])).2.labels 1 State.initial).state.fpout
        = [Line.material 1 0 "MAT1".toList, Line.label 2 1 "LBL001".toList,
            Line.characteristic 3 2 "TEMPLATENUMBER".toList "TPL1".toList
              (padRight 255 "TPL1".toList),
            Line.characteristic 4 2 "SIZELOGO".toList "N".toList
              (print_graphic_path sample_config "No".toList)] := by
  decide

/-! ### The prefixes of a barcode value -/

theorem foldl_decimal (l : CStr) : ∀ acc : Int,
    l.foldl (fun acc c => acc * 10 + digitValue c) acc = acc * 10 ^ l.length + decimal l := by
  induction l with
  | nil => intro acc; simp [decimal]
  | cons c l ih =>
    intro acc
    unfold decimal
    simp only [List.foldl_cons, List.length_cons]
    rw [ih, ih (0 * 10 + digitValue c), pow_succ]
    ring

theorem decimal_append (a b : CStr) :
    decimal (a ++ b) = decimal a * 10 ^ b.length + decimal b := by
  unfold decimal
  rw [List.foldl_append, foldl_decimal]
  rfl

theorem decimal_range (v : CStr) (h : ∀ c ∈ v, c.isDigit = true) :
    0 ≤ decimal v ∧ decimal v < 10 ^ v.length := decimal_bounds v h

theorem digitValue_eq_zero {c : Char} (h : digitValue c = 0) : c = '0' := by
  apply ord_inj
  have : ord '0' = 48 := by decide
  unfold digitValue at h
  omega

theorem decimal_eq_zero : ∀ v : CStr, (∀ c ∈ v, c.isDigit = true) →
    (decimal v = 0 ↔ ∀ c ∈ v, c = '0') := by
  intro v
  induction v using List.reverseRecOn with
  | nil => intro _; simp [decimal]
  | append_singleton init c ih =>
    intro h
    have hd : ∀ x ∈ init, x.isDigit = true := fun x hx => h x (List.mem_append_left _ hx)
    have hi := decimal_range init hd
    have hc := digitValue_bounds (h c (List.mem_append_right _ (List.mem_singleton_self c)))
    have e : decimal (init ++ [c]) = decimal init * 10 + digitValue c := by
      rw [decimal_append]; simp [decimal]
    rw [e]
    constructor
    · intro h0
      have h1 : decimal init = 0 := by omega
      have h2 : digitValue c = 0 := by omega
      intro x hx
      rcases List.mem_append.mp hx with hx | hx
      · exact (ih hd).mp h1 x hx
      · rw [List.mem_singleton.mp hx]; exact digitValue_eq_zero h2
    · intro hz
      have h1 : decimal init = 0 := (ih hd).mpr (fun x hx => hz x (List.mem_append_left _ hx))
      have h2 : c = '0' := hz c (List.mem_append_right _ (List.mem_singleton_self c))
      rw [h1, h2]; decide

theorem strtoll_digits (v : CStr) (hdig : ∀ c ∈ v, c.isDigit = true) (hlen : v.length ≤ 18) :
    strtoll v = decimal v := by
  have hall : v.takeWhile Char.isDigit = v := List.takeWhile_eq_self_iff.mpr hdig
  have hb := decimal_range v hdig
  have hp : (10 : Int) ^ v.length ≤ 10 ^ 18 := pow_le_pow_right₀ (by norm_num) hlen
  unfold strtoll
  rw [hall]
  exact min_eq_left (by unfold LLONG_MAX; unfold decimal at hb; omega)
theorem decimal_parts (v : CStr) (k : Nat) (hlen : v.length = 8 + k) :
    decimal v = (v.head?.map digitValue).getD 0 * 10 ^ (7 + k)
      + decimal ((v.drop 1).take 7) * 10 ^ k + decimal (v.drop 8) := by
  cases v with
  | nil => rw [List.length_nil] at hlen; omega
  | cons c rest =>
    have hr : rest.length = 7 + k := by simp at hlen; omega
    have e1 : decimal (c :: rest) = digitValue c * 10 ^ rest.length + decimal rest := by
      have := decimal_append [c] rest
      simpa [decimal] using this
    have e2 : decimal rest = decimal (rest.take 7) * 10 ^ (rest.drop 7).length
        + decimal (rest.drop 7) := by
      have := decimal_append (rest.take 7) (rest.drop 7)
      rwa [List.take_append_drop] at this
    have e3 : (rest.drop 7).length = k := by simp [hr]
    rw [e1, e2, e3, hr]
    simp only [List.head?_cons, Option.map_some', Option.getD_some, List.drop_succ_cons,
      List.drop_zero]
    ring

theorem gtin_split_14 (gtin c m l : Int) (hg : gtin = c * 10 ^ 13 + m * 10 ^ 6 + l)
    (hc : 0 ≤ c ∧ c ≤ 9) (hm : 0 ≤ m ∧ m < 10 ^ 7) (hl : 0 ≤ l ∧ l < 10 ^ 6) :
    toInt32 (gtin.tdiv GTIN_14_DIGIT) = c
      ∧ toInt32 ((gtin - toInt32 (gtin.tdiv GTIN_14_DIGIT) * GTIN_14_DIGIT).tdiv
          GTIN_14_CPNY_DIVISOR) = m := by
  have h0 : 0 ≤ gtin := by rw [hg]; omega
  have e1 : gtin.tdiv GTIN_14_DIGIT = c := by
    unfold GTIN_14_DIGIT
    rw [Int.tdiv_eq_ediv h0 (by norm_num)]
    omega
  have e2 : toInt32 c = c := by unfold toInt32; omega
  rw [e1, e2]
  refine ⟨rfl, ?_⟩
  have e3 : (gtin - c * GTIN_14_DIGIT).tdiv GTIN_14_CPNY_DIVISOR = m := by
    unfold GTIN_14_DIGIT GTIN_14_CPNY_DIVISOR
    rw [Int.tdiv_eq_ediv (by omega) (by norm_num)]
    omega
  rw [e3]
  unfold toInt32; omega

theorem gtin_split_13 (gtin c m l : Int) (hg : gtin = c * 10 ^ 12 + m * 10 ^ 5 + l)
    (hc : 0 ≤ c ∧ c ≤ 9) (hm : 0 ≤ m ∧ m < 10 ^ 7) (hl : 0 ≤ l ∧ l < 10 ^ 5) :
    toInt32 (gtin.tdiv GTIN_13_DIGIT) = c
      ∧ toInt32 ((gtin - toInt32 (gtin.tdiv GTIN_13_DIGIT) * GTIN_13_DIGIT).tdiv
          GTIN_13_CPNY_DIVISOR) = m := by
  have h0 : 0 ≤ gtin := by rw [hg]; omega
  have e1 : gtin.tdiv GTIN_13_DIGIT = c := by
    unfold GTIN_13_DIGIT
    rw [Int.tdiv_eq_ediv h0 (by norm_num)]
    omega
  have e2 : toInt32 c = c := by unfold toInt32; omega
  rw [e1, e2]
  refine ⟨rfl, ?_⟩
  have e3 : (gtin - c * GTIN_13_DIGIT).tdiv GTIN_13_CPNY_DIVISOR = m := by
    unfold GTIN_13_DIGIT GTIN_13_CPNY_DIVISOR
    rw [Int.tdiv_eq_ediv (by omega) (by norm_num)]
    omega
  rw [e3]
  unfold toInt32; omega

theorem gtin_prefix_check_stdout_eq (g a b record : Int) (s : State) :
    (gtin_prefix_check g a b record s).stdout = s.stdout
      ++ (if a > 4 ∨ (g ≠ 0 ∧ (b ≠ 4026704 ∧ b ≠ 5060112))
          then [Diag.prefix_invalid b record] else []) := by
  unfold gtin_prefix_check
  split <;> simp [State.report]

/-- The prefixes that the GTIN block computes from a value of 13 or 14 digits: the first
digit and the number written by the digits 2 to 8. -/
theorem gtin_checks_prefixes (cfg : Config) (v : CStr) (record : Int) (s : State)
    (hlen : v.length = 13 ∨ v.length = 14) (hdig : ∀ c ∈ v, c.isDigit = true) :
    ∃ head : List Diag, (∀ d ∈ head, ∀ x, d ≠ Diag.prefix_invalid x record)
      ∧ (gtin_checks cfg v record s).stdout = s.stdout ++ head
        ++ (if (v.head?.map digitValue).getD 0 > 4 ∨
              (decimal v ≠ 0 ∧ (decimal ((v.drop 1).take 7) ≠ 4026704
                ∧ decimal ((v.drop 1).take 7) ≠ 5060112))
            then [Diag.prefix_invalid (decimal ((v.drop 1).take 7)) record] else []) := by
  have hs : strtoll v = decimal v := strtoll_digits v hdig (by omega)
  have hc : 0 ≤ (v.head?.map digitValue).getD 0 ∧ (v.head?.map digitValue).getD 0 ≤ 9 := by
    cases v with
    | nil => simp
    | cons c rest => simpa using digitValue_bounds (hdig c (List.mem_cons_self _ _))
  have hm := decimal_range ((v.drop 1).take 7)
    (fun c hc => hdig c (List.mem_of_mem_drop (List.mem_of_mem_take hc)))
  have hl := decimal_range (v.drop 8) (fun c hc => hdig c (List.mem_of_mem_drop hc))
  have hml : ((v.drop 1).take 7).length = 7 := by
    rw [List.length_take, List.length_drop]; omega
  rw [hml] at hm
  unfold gtin_checks
  rw [hs]
  rcases hlen with h13 | h14
  · have hd := decimal_parts v 5 (by omega)
    have hll : (v.drop 8).length = 5 := by rw [List.length_drop]; omega
    rw [hll] at hl
    obtain ⟨e1, e2⟩ := gtin_split_13 (decimal v) _ _ _ hd hc
      (by norm_num at hm ⊢; exact hm) (by norm_num at hl ⊢; exact hl)
    have hn14 : ¬ v.length = GTIN_13 + 1 := by unfold GTIN_13; omega
    have hy13 : v.length = GTIN_13 := h13
    rw [if_neg hn14, if_pos hy13]
    simp only []
    rw [e2, e1, gtin_prefix_check_stdout_eq]
    exact ⟨[], by simp, by simp⟩
  · have hd := decimal_parts v 6 (by omega)
    have hll : (v.drop 8).length = 6 := by rw [List.length_drop]; omega
    rw [hll] at hl
    obtain ⟨e1, e2⟩ := gtin_split_14 (decimal v) _ _ _ hd hc
      (by norm_num at hm ⊢; exact hm) (by norm_num at hl ⊢; exact hl)
    have hy14 : v.length = GTIN_13 + 1 := h14
    rw [if_pos hy14]
    simp only []
    rw [e2, e1, gtin_prefix_check_stdout_eq]
    refine ⟨if (decimal v).tmod 10 ≠ checkDigit (decimal v)
      then [Diag.invalid_check_digit v record] else [], ?_, ?_⟩
    · intro d hd x
      split at hd
      · simp at hd; rw [hd]; simp
      · simp at hd
    · split <;> simp [State.report]

/-- Claim C11: for a barcode value (BARCODETEXT) of 13 or 14 characters, all decimal digits,
with first digit `c` and company prefix `p` (the number written by the digits 2 to 8), the
diagnostics that the BARCODETEXT block prints contain "Invalid GTIN prefix" if and only if
`c > 4`, or the value is not all zeros and `p` is neither 4026704 nor 5060112; the diagnostic
printed carries `p`, and an all-zero value gives no prefix diagnostic. -/
theorem prefix_diagnostic (cfg : Config) (r : Label_record) (record : Int) (s : State)
    (hlen : r.barcodetext.length = 13 ∨ r.barcodetext.length = 14)
    (hdig : ∀ c ∈ r.barcodetext, c.isDigit = true) :
    ∃ diags : List Diag,
      (barcodetext_record cfg r record s).stdout = s.stdout ++ diags
        ∧ ((∃ x, Diag.prefix_invalid x record ∈ diags) ↔
            ((r.barcodetext.head?.map digitValue).getD 0 > 4
              ∨ ((∃ ch ∈ r.barcodetext, ch ≠ '0')
                  ∧ decimal ((r.barcodetext.drop 1).take 7) ≠ 4026704
                  ∧ decimal ((r.barcodetext.drop 1).take 7) ≠ 5060112)))
        ∧ (∀ x, Diag.prefix_invalid x record ∈ diags →
            x = decimal ((r.barcodetext.drop 1).take 7))
        ∧ ((∀ ch ∈ r.barcodetext, ch = '0') → ∀ x, Diag.prefix_invalid x record ∉ diags) := by
  have hpos : r.barcodetext.length > 0 := by omega
  have hno : equals_no r.barcodetext = false := equals_no_digits hdig
  have hnum : isNumeric r.barcodetext = true := by
    unfold isNumeric
    split
    · rename_i e; rw [e] at hlen; simp at hlen
    · exact List.all_eq_true.mpr hdig
  obtain ⟨head, hhead, hout⟩ := gtin_checks_prefixes cfg r.barcodetext record s hlen hdig
  have hz := decimal_eq_zero r.barcodetext hdig
  have hnz : decimal r.barcodetext ≠ 0 ↔ ∃ ch ∈ r.barcodetext, ch ≠ '0' := by
    rw [Ne, hz]; push_neg; rfl
  have hst : (barcodetext_record cfg r record s).stdout
      = (gtin_checks cfg r.barcodetext record s).stdout := by
    unfold barcodetext_record
    simp only [hpos, hno, hnum, Bool.not_false, and_self, if_true]
    exact print_info_column_header_stdout _ _ _
  simp only [hnz] at hout
  rw [List.append_assoc] at hout
  refine ⟨_, hst.trans hout, ?_, ?_, ?_⟩
  · constructor
    · rintro ⟨x, hx⟩
      rcases List.mem_append.mp hx with hx | hx
      · exact absurd rfl (hhead _ hx x)
      · by_contra hcon
        rw [if_neg hcon] at hx
        simp at hx
    · intro hcond
      refine ⟨decimal ((r.barcodetext.drop 1).take 7), ?_⟩
      rw [if_pos hcond]
      simp
  · intro x hx
    rcases List.mem_append.mp hx with hx | hx
    · exact absurd rfl (hhead _ hx x)
    · split at hx
      · rw [List.mem_singleton] at hx; exact (Diag.prefix_invalid.inj hx).1
      · simp at hx
  · intro hall x hx
    rcases List.mem_append.mp hx with hx | hx
    · exact absurd rfl (hhead _ hx x)
    · have hc0 : ¬ ((r.barcodetext.head?.map digitValue).getD 0 > 4
          ∨ ((∃ ch ∈ r.barcodetext, ch ≠ '0')
              ∧ decimal ((r.barcodetext.drop 1).take 7) ≠ 4026704
              ∧ decimal ((r.barcodetext.drop 1).take 7) ≠ 5060112)) := by
        rintro (h | ⟨⟨ch, hch, hne⟩, _⟩)
        · cases hb : r.barcodetext with
          | nil => rw [hb] at h; simp at h
          | cons c rest =>
            rw [hb] at h hall
            have : c = '0' := hall c (List.mem_cons_self _ _)
            rw [this] at h
            simp only [List.head?_cons, Option.map_some', Option.getD_some] at h
            revert h
            decide
        · exact hne (hall ch hch)
      rw [if_neg hc0] at hx
      simp at hx

theorem prefix_diagnostic_witness :
    ∃ diags : List Diag,
      (barcodetext_record sample_config { barcodetext := "00000000000000".toList } 1
          State.initial).stdout = State.initial.stdout ++ diags
        ∧ ((∃ x, Diag.prefix_invalid x 1 ∈ diags) ↔
            (("00000000000000".toList.head?.map digitValue).getD 0 > 4
              ∨ ((∃ ch ∈ "00000000000000".toList, ch ≠ '0')
                  ∧ decimal (("00000000000000".toList.drop 1).take 7) ≠ 4026704
                  ∧ decimal (("00000000000000".toList.drop 1).take 7) ≠ 5060112)))
        ∧ (∀ x, Diag.prefix_invalid x 1 ∈ diags →
            x = decimal (("00000000000000".toList.drop 1).take 7))
        ∧ ((∀ ch ∈ "00000000000000".toList, ch = '0') →
            ∀ x, Diag.prefix_invalid x 1 ∉ diags) :=
  prefix_diagnostic sample_config { barcodetext := "00000000000000".toList } 1
    State.initial (by decide) (by decide)

/-! ### The order of strings under `strcmp` and `strcasecmp` -/

theorem ord_nonneg (c : Char) : 0 ≤ ord c := by unfold ord; omega

theorem strcmp_swap : ∀ a b : CStr, strcmp b a = - strcmp a b
  | [], [] => by simp [strcmp]
  | [], y :: b => by simp [strcmp]
  | x :: a, [] => by simp [strcmp]
  | x :: a, y :: b => by
    simp only [strcmp]
    by_cases h : x = y
    · subst h; rw [if_pos rfl, if_pos rfl]; exact strcmp_swap a b
    · rw [if_neg h, if_neg (fun e => h e.symm)]; ring

theorem strcmp_lt_trans : ∀ a b c : CStr, strcmp a b < 0 → strcmp b c < 0 → strcmp a c < 0
  | [], [], _, h, _ => by simp [strcmp] at h
  | [], y :: b, [], _, h2 => by
    have := ord_nonneg y
    simp only [strcmp] at h2; omega
  | [], y :: b, z :: c, h1, h2 => by
    simp only [strcmp] at h1 h2 ⊢
    split at h2
    · rename_i e; subst e; exact h1
    · omega
  | x :: a, [], _, h1, _ => by
    have := ord_nonneg x
    simp only [strcmp] at h1; omega
  | x :: a, y :: b, [], _, h2 => by
    have := ord_nonneg y
    simp only [strcmp] at h2; omega
  | x :: a, y :: b, z :: c, h1, h2 => by
    simp only [strcmp] at h1 h2 ⊢
    by_cases hxy : x = y
    · subst hxy
      rw [if_pos rfl] at h1
      by_cases hxz : x = z
      · subst hxz
        rw [if_pos rfl] at h2 ⊢
        exact strcmp_lt_trans a b c h1 h2
      · rw [if_neg hxz] at h2 ⊢
        exact h2
    · rw [if_neg hxy] at h1
      by_cases hyz : y = z
      · subst hyz
        rw [if_neg hxy]
        exact h1
      · rw [if_neg hyz] at h2
        have hxz : x ≠ z := by intro e; subst e; omega
        rw [if_neg hxz]; omega

theorem strcasecmp_eq_strcmp : ∀ a b : CStr,
    strcasecmp a b = strcmp (a.map tolower) (b.map tolower)
  | [], [] => rfl
  | [], y :: b => rfl
  | x :: a, [] => rfl
  | x :: a, y :: b => by
    simp only [strcasecmp, List.map_cons, strcmp]
    rw [strcasecmp_eq_strcmp a b]

theorem strcasecmp_swap (a b : CStr) : strcasecmp b a = - strcasecmp a b := by
  rw [strcasecmp_eq_strcmp, strcasecmp_eq_strcmp]; exact strcmp_swap _ _

theorem strcasecmp_lt_trans (a b c : CStr) (h1 : strcasecmp a b < 0)
    (h2 : strcasecmp b c < 0) : strcasecmp a c < 0 := by
  rw [strcasecmp_eq_strcmp] at h1 h2 ⊢; exact strcmp_lt_trans _ _ _ h1 h2

/-! ### The check of the lookup table -/

theorem check_lookup_array_from_chain : ∀ (l : List (CStr × CStr)) (i : Int),
    (check_lookup_array_from i l).1 = true
      ↔ List.Chain' (fun a b : CStr × CStr => strcasecmp a.1 b.1 < 0) l
  | [], i => by simp [check_lookup_array_from]
  | [a], i => by simp [check_lookup_array_from]
  | a :: b :: rest, i => by
    rw [check_lookup_array_from, List.chain'_cons]
    by_cases h : strcasecmp a.1 b.1 ≥ 0
    · rw [if_pos h]
      simp only [Bool.false_eq_true, false_iff, not_and]
      intro h2; omega
    · rw [if_neg h, check_lookup_array_from_chain (b :: rest) (i + 1)]
      constructor
      · intro hc; exact ⟨by omega, hc⟩
      · intro hc; exact hc.2

theorem check_lookup_array_from_pairwise (l : List (CStr × CStr)) (i : Int) :
    (check_lookup_array_from i l).1 = true
      ↔ List.Pairwise (fun a b : CStr × CStr => strcasecmp a.1 b.1 < 0) l := by
  rw [check_lookup_array_from_chain]
  haveI : IsTrans (CStr × CStr) (fun a b => strcasecmp a.1 b.1 < 0) :=
    ⟨fun a b c h1 h2 => strcasecmp_lt_trans a.1 b.1 c.1 h1 h2⟩
  exact List.chain'_iff_pairwise

theorem lookup_entry_nat (cfg : Config) (i : Nat) (h : i < cfg.lookup.length) :
    lookup_entry cfg (i : Int) = cfg.lookup.get ⟨i, h⟩ := by
  unfold lookup_entry
  have h1 : (0 : Int) ≤ (i : Int) ∧ (i : Int) < (cfg.lookup.length : Int) := by omega
  rw [if_pos h1]
  simp [List.getD_eq_getElem?_getD, List.getElem?_eq_getElem h]

theorem check_lookup_array_from_false : ∀ (l : List (CStr × CStr)) (i : Int),
    (check_lookup_array_from i l).1 = false →
      ∃ k a b, (check_lookup_array_from i l).2 = [Diag.lookup_order k a (k + 1) b]
  | [], i => by simp [check_lookup_array_from]
  | [a], i => by simp [check_lookup_array_from]
  | a :: b :: rest, i => by
    rw [check_lookup_array_from]
    by_cases h : strcasecmp a.1 b.1 ≥ 0
    · rw [if_pos h]; intro _; exact ⟨i, a.1, b.1, rfl⟩
    · rw [if_neg h]; exact check_lookup_array_from_false (b :: rest) (i + 1)

theorem check_lookup_array_increasing (cfg : Config) :
    (check_lookup_array cfg).1 = true ↔
      ∀ i j : Nat, i < j → j < cfg.lookup.length →
        strcasecmp (lookup_entry cfg i).1 (lookup_entry cfg j).1 < 0 := by
  unfold check_lookup_array
  rw [check_lookup_array_from_pairwise, List.pairwise_iff_get]
  constructor
  · intro h i j hij hj
    rw [lookup_entry_nat cfg i (by omega), lookup_entry_nat cfg j hj]
    exact h ⟨i, by omega⟩ ⟨j, hj⟩ hij
  · intro h i j hij
    have := h i.1 j.1 hij j.2
    rw [lookup_entry_nat cfg i.1 i.2, lookup_entry_nat cfg j.1 j.2] at this
    exact this

/-- Claim C12: `check_lookup_array` returns true if and only if every term of the table is
below every later term under `strcasecmp`; then no two terms at different places are equal
ignoring case; and when it returns false, `main` returns `EXIT_FAILURE` whatever its
arguments and the input file are: no row is stored, no line is written, and the only thing
printed is the message of `check_lookup_array`. -/
theorem lookup_check (cfg : Config) :
    ((check_lookup_array cfg).1 = true ↔
        ∀ i j : Nat, i < j → j < cfg.lookup.length →
          strcasecmp (lookup_entry cfg i).1 (lookup_entry cfg j).1 < 0)
      ∧ ((check_lookup_array cfg).1 = true →
          ∀ i j : Nat, i < cfg.lookup.length → j < cfg.lookup.length → i ≠ j →
            strcasecmp (lookup_entry cfg i).1 (lookup_entry cfg j).1 ≠ 0)
      ∧ ((check_lookup_array cfg).1 = false →
          (∃ k a b, (check_lookup_array cfg).2 = [Diag.lookup_order k a (k + 1) b])
            ∧ ∀ (argv : List CStr) (file : Option CStr),
              (main cfg argv file).status = Status.returned EXIT_FAILURE
                ∧ (main cfg argv file).spreadsheet = []
                ∧ (main cfg argv file).labels = []
                ∧ (main cfg argv file).state.fpout = []
                ∧ (main cfg argv file).state.stdout = (check_lookup_array cfg).2) := by
  have key := check_lookup_array_increasing cfg
  refine ⟨key, ?_, ?_⟩
  · intro h i j hi hj hne
    rcases Nat.lt_or_gt_of_ne hne with hlt | hgt
    · have := key.mp h i j hlt hj
      omega
    · have := key.mp h j i hgt hi
      rw [strcasecmp_swap] at this
      omega
  · intro h
    refine ⟨check_lookup_array_from_false _ _ h, ?_⟩
    intro argv file
    unfold main
    simp [h, State.initial]

/-- The sample table passes the check; a table with the terms "Box" and "BOX" does not. -/
theorem lookup_check_witness :
    (check_lookup_array sample_config).1 = true
      ∧ (main { sample_config with
            lookup := [("Box".toList, "1".toList), ("BOX".toList, "2".toList)] }
          ["stoidoc".toList, "labels.txt".toList] (some "LABEL\nLBL001\n".toList)).status
        = Status.returned EXIT_FAILURE :=
  ⟨by decide,
    ((lookup_check { sample_config with
        lookup := [("Box".toList, "1".toList), ("BOX".toList, "2".toList)] }).2.2
      (by decide)).2 _ _ |>.1⟩

/-! ### The search in the lookup table -/

theorem strcasecmp_congr (a t u : CStr) (h : a.map tolower = t.map tolower) :
    strcasecmp a u = strcasecmp t u := by
  rw [strcasecmp_eq_strcmp, strcasecmp_eq_strcmp, h]

theorem strcasecmp_map_eq (a t : CStr) (h : a.map tolower = t.map tolower) :
    strcasecmp a t = 0 := by
  rw [strcasecmp_eq_strcmp, h]; exact strcmp_self _

/-- In a table in increasing order, a needle that equals the term of the entry `k` ignoring
case is above the terms before it and below the terms after it. -/
theorem needle_sign (cfg : Config) (needle : CStr) (k : Nat)
    (hinc : ∀ i j : Nat, i < j → j < cfg.lookup.length →
      strcasecmp (lookup_entry cfg i).1 (lookup_entry cfg j).1 < 0)
    (hk : k < cfg.lookup.length)
    (heq : needle.map tolower = (lookup_entry cfg k).1.map tolower)
    (i : Int) (h0 : 0 ≤ i) (hn : i < cfg.lookup.length) :
    (i < k → strcasecmp needle (lookup_entry cfg i).1 > 0)
      ∧ ((k : Int) < i → strcasecmp needle (lookup_entry cfg i).1 < 0)
      ∧ (i = k → strcasecmp needle (lookup_entry cfg i).1 = 0) := by
  obtain ⟨j, rfl⟩ := Int.eq_ofNat_of_zero_le h0
  refine ⟨?_, ?_, ?_⟩
  · intro h
    rw [strcasecmp_congr _ _ _ heq, strcasecmp_swap]
    have := hinc j k (by omega) hk
    omega
  · intro h
    rw [strcasecmp_congr _ _ _ heq]
    exact hinc k j (by omega) (by omega)
  · intro h
    have e : j = k := by omega
    rw [e]
    exact strcasecmp_map_eq _ _ heq

theorem sap_lookup_loop_found (cfg : Config) (needle : CStr) (k : Nat)
    (hinc : ∀ i j : Nat, i < j → j < cfg.lookup.length →
      strcasecmp (lookup_entry cfg i).1 (lookup_entry cfg j).1 < 0)
    (hk : k < cfg.lookup.length)
    (heq : needle.map tolower = (lookup_entry cfg k).1.map tolower) :
    ∀ (fuel : Nat) (start end_ middle : Int) (reads : List Int),
      0 ≤ start → start ≤ k → (k : Int) ≤ end_ → end_ < cfg.lookup.length →
      end_ - start < fuel →
      (middle ≠ (end_ - start).tdiv 2 + start ∨ (end_ - start).tdiv 2 + start = k) →
      (sap_lookup_loop cfg needle fuel start end_ middle false reads).1
        = some (lookup_entry cfg k).2 := by
  intro fuel
  induction fuel with
  | zero => intro start end_ middle reads h0 h1 h2 h3 h4 _; omega
  | succ fuel ih =>
    intro start end_ middle reads h0 h1 h2 h3 h4 h5
    have hdiv : (end_ - start).tdiv 2 = (end_ - start) / 2 :=
      Int.tdiv_eq_ediv (by omega) (by norm_num)
    have hm1 : start ≤ (end_ - start).tdiv 2 + start := by rw [hdiv]; omega
    have hm2 : (end_ - start).tdiv 2 + start ≤ end_ := by rw [hdiv]; omega
    generalize hmd : (end_ - start).tdiv 2 + start = m at h5 hm1 hm2
    have hs := needle_sign cfg needle k hinc hk heq m (by omega) (by omega)
    unfold sap_lookup_loop
    simp only [Bool.not_false, if_true, hmd]
    have hmid : (if middle ≠ m then m else middle) = m := by
      split
      · rfl
      · rename_i h; push_neg at h; exact h
    rw [hmid]
    rcases lt_trichotomy m (k : Int) with hlt | heq2 | hgt
    · have hpos := hs.1 hlt
      have hne : middle ≠ m := by
        rcases h5 with h | h
        · exact h
        · omega
      rw [if_neg (by omega), if_neg (by omega), if_pos hne]
      apply ih
      · omega
      · omega
      · exact h2
      · exact h3
      · omega
      · left
        have hdiv2 : (end_ - (m + 1)).tdiv 2 = (end_ - (m + 1)) / 2 :=
          Int.tdiv_eq_ediv (by omega) (by norm_num)
        rw [hdiv2]; omega
    · rw [if_pos (hs.2.2 heq2), heq2]
    · have hneg := hs.2.1 hgt
      have hne : middle ≠ m := by
        rcases h5 with h | h
        · exact h
        · omega
      rw [if_neg (by omega), if_pos hneg, if_pos hne]
      apply ih
      · exact h0
      · exact h1
      · omega
      · omega
      · omega
      · left
        have hdiv2 : (m - 1 - start).tdiv 2 = (m - 1 - start) / 2 :=
          Int.tdiv_eq_ediv (by omega) (by norm_num)
        rw [hdiv2]; omega

/-- Claim C13, the code: in a table accepted by `check_lookup_array`, a needle that equals
the term of the entry `k` ignoring case is found, and `sap_lookup` returns the value of that
entry, when the table does not have exactly two entries or `k` is the first entry; in a table
of two entries the second entry is never compared and `sap_lookup` returns NULL for its
term. -/
theorem lookup_found (cfg : Config) (needle : CStr) (k : Nat)
    (hchk : (check_lookup_array cfg).1 = true) (hk : k < cfg.lookup.length)
    (heq : needle.map tolower = (lookup_entry cfg k).1.map tolower) :
    ((cfg.lookup.length ≠ 2 ∨ k = 0) → sap_lookup cfg needle = some (lookup_entry cfg k).2)
      ∧ (cfg.lookup.length = 2 → k = 1 →
          sap_lookup cfg needle = none ∧ (sap_lookup_trace cfg needle).2 = [0]) := by
  have hinc := (check_lookup_array_increasing cfg).mp hchk
  constructor
  · intro h
    unfold sap_lookup sap_lookup_trace
    apply sap_lookup_loop_found cfg needle k hinc hk heq
    · exact le_refl _
    · omega
    · omega
    · omega
    · omega
    · have hdiv : ((cfg.lookup.length : Int) - 1 - 0).tdiv 2
          = ((cfg.lookup.length : Int) - 1 - 0) / 2 :=
        Int.tdiv_eq_ediv (by omega) (by norm_num)
      rw [hdiv]
      omega
  · intro h2 h1
    have hs := (needle_sign cfg needle k hinc hk heq 0 (le_refl _) (by omega)).1 (by omega)
    unfold sap_lookup sap_lookup_trace
    rw [h2]
    have e : (((2 : Nat) : Int) - 1 - 0).tdiv 2 + 0 = 0 := by decide
    simp only [sap_lookup_loop, Bool.not_false, if_true, e, ne_eq, not_true_eq_false, if_false,
      Bool.not_true, Bool.false_eq_true, List.nil_append]
    rw [if_neg (by omega), if_neg (by omega)]
    exact ⟨rfl, rfl⟩

/-- The sample table has the two entries BOX and CASE: the term CASE is not found. -/
theorem lookup_found_witness :
    ((sample_config.lookup.length ≠ 2 ∨ 1 = 0) →
        sap_lookup sample_config "CASE".toList = some (lookup_entry sample_config (1 : Nat)).2)
      ∧ (sample_config.lookup.length = 2 → 1 = 1 →
          sap_lookup sample_config "CASE".toList = none
            ∧ (sap_lookup_trace sample_config "CASE".toList).2 = [0]) :=
  lookup_found sample_config "CASE".toList 1 (by decide) (by decide) (by decide)

theorem sap_lookup_loop_exit (cfg : Config) (needle : CStr) (fuel : Nat)
    (start end_ middle : Int) (reads : List Int) :
    sap_lookup_loop cfg needle fuel start end_ middle true reads = (none, reads) := by
  cases fuel <;> simp [sap_lookup_loop]

theorem sap_lookup_loop_step (cfg : Config) (needle : CStr) (fuel : Nat)
    (start end_ middle m : Int) (reads : List Int) (hm : (end_ - start).tdiv 2 + start = m) :
    sap_lookup_loop cfg needle (fuel + 1) start end_ middle false reads =
      if strcasecmp needle (lookup_entry cfg m).1 = 0 then
        (some (lookup_entry cfg m).2, reads ++ [m])
      else if strcasecmp needle (lookup_entry cfg m).1 < 0 then
        sap_lookup_loop cfg needle fuel start (m - 1) m (decide (middle = m)) (reads ++ [m])
      else
        sap_lookup_loop cfg needle fuel (m + 1) end_ m (decide (middle = m)) (reads ++ [m]) := by
  conv_lhs => rw [sap_lookup_loop]
  simp only [Bool.not_false, if_true, hm]
  by_cases h : middle = m
  · subst h; simp
  · simp [h]

theorem lookup_entry_beyond (cfg : Config) : lookup_entry cfg cfg.lookup.length = cfg.beyond := by
  unfold lookup_entry
  rw [if_neg (by omega)]

/-- A needle that equals no term of a table in increasing order splits the table: it is
above the first `p` terms and below the others. -/
theorem needle_split (cfg : Config) (needle : CStr)
    (hinc : ∀ i j : Nat, i < j → j < cfg.lookup.length →
      strcasecmp (lookup_entry cfg i).1 (lookup_entry cfg j).1 < 0)
    (hne : ∀ i : Nat, i < cfg.lookup.length → strcasecmp needle (lookup_entry cfg i).1 ≠ 0) :
    ∀ m : Nat, m ≤ cfg.lookup.length →
      ∃ p : Nat, p ≤ m ∧ (∀ i : Nat, i < p → strcasecmp needle (lookup_entry cfg i).1 > 0)
        ∧ (∀ i : Nat, p ≤ i → i < m → strcasecmp needle (lookup_entry cfg i).1 < 0) := by
  intro m
  induction m with
  | zero => intro _; exact ⟨0, le_refl _, by intro i hi; omega, by intro i _ hi; omega⟩
  | succ m ih =>
    intro hm
    obtain ⟨p, hp, hlow, hhigh⟩ := ih (by omega)
    rcases lt_or_gt_of_ne (hne m (by omega)) with hlt | hgt
    · refine ⟨p, by omega, hlow, ?_⟩
      intro i hpi hi
      by_cases him : i = m
      · rw [him]; exact hlt
      · exact hhigh i hpi (by omega)
    · refine ⟨m + 1, le_refl _, ?_, by intro i h1 h2; omega⟩
      intro i hi
      by_cases him : i = m
      · rw [him]; exact hgt
      · have h1 := hinc i m (by omega) (by omega)
        have h2 : strcasecmp (lookup_entry cfg m).1 needle < 0 := by
          rw [strcasecmp_swap]; omega
        have h3 := strcasecmp_lt_trans _ _ _ h1 h2
        rw [strcasecmp_swap] at h3
        omega

/-- The search for a needle that is above the first `p` terms and below the others. -/
theorem sap_lookup_loop_absent (cfg : Config) (needle : CStr) (p : Int)
    (hp0 : 0 ≤ p) (hpn : p ≤ cfg.lookup.length)
    (hlow : ∀ i : Int, 0 ≤ i → i < p → strcasecmp needle (lookup_entry cfg i).1 > 0)
    (hhigh : ∀ i : Int, p ≤ i → i < cfg.lookup.length →
      strcasecmp needle (lookup_entry cfg i).1 < 0) :
    ∀ (fuel : Nat) (start end_ middle : Int) (reads : List Int),
      0 ≤ start → start ≤ p → p ≤ end_ + 1 → end_ + 1 ≤ cfg.lookup.length →
      end_ - start + 3 ≤ fuel →
      (middle = start - 1 ∨ (middle = end_ + 1 ∧ middle < cfg.lookup.length)
        ∨ (start ≤ end_ ∧ middle ≠ (end_ - start).tdiv 2 + start)) →
      ∃ r : List Int, (∀ i ∈ r, 0 ≤ i ∧ i < cfg.lookup.length)
        ∧ sap_lookup_loop cfg needle fuel start end_ middle false reads =
          if p < cfg.lookup.length then (none, reads ++ r)
          else if strcasecmp needle cfg.beyond.1 = 0 then
            (some cfg.beyond.2, reads ++ r ++ [(cfg.lookup.length : Int)])
          else (none, reads ++ r ++ [(cfg.lookup.length : Int), (cfg.lookup.length : Int)]) := by
  intro fuel
  induction fuel with
  | zero => intro start end_ middle reads h0 h1 h2 h3 h4 _; omega
  | succ fuel ih =>
    intro start end_ middle reads h0 h1 h2 h3 h4 h5
    by_cases hse : start ≤ end_
    · -- the interval is not empty
      have hdiv : (end_ - start).tdiv 2 = (end_ - start) / 2 :=
        Int.tdiv_eq_ediv (by omega) (by norm_num)
      have hm1 : start ≤ (end_ - start).tdiv 2 + start := by rw [hdiv]; omega
      have hm2 : (end_ - start).tdiv 2 + start ≤ end_ := by rw [hdiv]; omega
      have hne : middle ≠ (end_ - start).tdiv 2 + start := by
        rcases h5 with h | h | h
        · omega
        · omega
        · exact h.2
      generalize hmd : (end_ - start).tdiv 2 + start = m at hm1 hm2 hne
      rw [sap_lookup_loop_step cfg needle fuel start end_ middle m reads hmd]
      have hdec : decide (middle = m) = false := by simp [hne]
      rw [hdec]
      by_cases hmp : m < p
      · have hpos := hlow m (by omega) hmp
        rw [if_neg (by omega), if_neg (by omega)]
        obtain ⟨r, hr, he⟩ := ih (m + 1) end_ m (reads ++ [m]) (by omega) (by omega) h2 h3
          (by omega) (Or.inl (by omega))
        refine ⟨m :: r, ?_, ?_⟩
        · intro i hi
          rcases List.mem_cons.mp hi with h | h
          · rw [h]; omega
          · exact hr i h
        · rw [he]; simp
      · have hneg := hhigh m (by omega) (by omega)
        rw [if_neg (by omega), if_pos hneg]
        obtain ⟨r, hr, he⟩ := ih start (m - 1) m (reads ++ [m]) h0 h1 (by omega) (by omega)
          (by omega) (Or.inr (Or.inl ⟨by omega, by omega⟩))
        refine ⟨m :: r, ?_, ?_⟩
        · intro i hi
          rcases List.mem_cons.mp hi with h | h
          · rw [h]; omega
          · exact hr i h
        · rw [he]; simp
    · -- the interval is empty: start = end_ + 1 = p
      have hsp : start = p := by omega
      have hes : end_ = p - 1 := by omega
      subst hes
      subst hsp
      have hmd : (start - 1 - start).tdiv 2 + start = start := by
        have e : start - 1 - start = -1 := by omega
        rw [e]
        have e2 : (-1 : Int).tdiv 2 = 0 := by decide
        rw [e2]; omega
      obtain ⟨fuel, rfl⟩ : ∃ f, fuel = f + 1 := ⟨fuel - 1, by omega⟩
      rw [sap_lookup_loop_step cfg needle (fuel + 1) start (start - 1) middle start reads hmd]
      by_cases hpn2 : start < cfg.lookup.length
      · have hneg := hhigh start (le_refl _) hpn2
        rw [if_neg (by omega), if_pos hneg]
        simp only [if_pos hpn2]
        by_cases hmid : middle = start
        · have hdec : decide (middle = start) = true := by simp [hmid]
          rw [hdec, sap_lookup_loop_exit]
          exact ⟨[start], by intro i hi; rw [List.mem_singleton.mp hi]; omega, rfl⟩
        · have hdec : decide (middle = start) = false := by simp [hmid]
          rw [hdec,
            sap_lookup_loop_step cfg needle fuel start (start - 1) start start _ hmd]
          rw [if_neg (by omega), if_pos hneg]
          have hdec2 : decide (start = start) = true := by simp
          rw [hdec2, sap_lookup_loop_exit]
          refine ⟨[start, start], ?_, by simp⟩
          intro i hi
          simp only [List.mem_cons, List.mem_singleton, List.not_mem_nil, or_false,
            or_self] at hi
          rw [hi]; omega
      · have hpe : start = cfg.lookup.length := by omega
        have hmid : middle ≠ start := by
          rcases h5 with h | h | h
          · omega
          · omega
          · omega
        have hdec : decide (middle = start) = false := by simp [hmid]
        rw [hdec]
        simp only [if_neg hpn2]
        subst hpe
        rw [lookup_entry_beyond]
        refine ⟨[], by simp, ?_⟩
        by_cases hz : strcasecmp needle cfg.beyond.1 = 0
        · rw [if_pos hz, if_pos hz]; simp
        · rw [if_neg hz, if_neg hz]
          by_cases hl : strcasecmp needle cfg.beyond.1 < 0
          · rw [if_pos hl,
              sap_lookup_loop_step cfg needle fuel _ _ _ (cfg.lookup.length : Int) _ hmd]
            rw [lookup_entry_beyond, if_neg hz, if_pos hl]
            have hdec2 : decide ((cfg.lookup.length : Int) = cfg.lookup.length) = true := by
              simp
            rw [hdec2, sap_lookup_loop_exit]
            simp
          · rw [if_neg hl]
            have hmd2 : ((cfg.lookup.length : Int) - 1 - ((cfg.lookup.length : Int) + 1)).tdiv 2
                + ((cfg.lookup.length : Int) + 1) = cfg.lookup.length := by
              have e : (cfg.lookup.length : Int) - 1 - ((cfg.lookup.length : Int) + 1) = -2 := by
                omega
              rw [e]
              have e2 : (-2 : Int).tdiv 2 = -1 := by decide
              rw [e2]; omega
            rw [sap_lookup_loop_step cfg needle fuel _ _ _ (cfg.lookup.length : Int) _ hmd2]
            rw [lookup_entry_beyond, if_neg hz, if_neg hl]
            have hdec2 : decide ((cfg.lookup.length : Int) = cfg.lookup.length) = true := by
              simp
            rw [hdec2, sap_lookup_loop_exit]
            simp

/-- Claim C14, the code: for a non-empty table accepted by `check_lookup_array` and a needle
that `strcasecmp` finds equal to no term, `sap_lookup` returns NULL after reading entries of
the table only, when the table has at most two entries or the needle is below the last term;
when the table has three entries or more and the needle is above the last term, `sap_lookup`
reads the entry `lookup[lookupsize]`, which is outside the table, and returns the value found
there if the term found there equals the needle, NULL otherwise. -/
theorem lookup_absent (cfg : Config) (needle : CStr)
    (hchk : (check_lookup_array cfg).1 = true) (hn : 0 < cfg.lookup.length)
    (hne : ∀ i : Nat, i < cfg.lookup.length → strcasecmp needle (lookup_entry cfg i).1 ≠ 0) :
    ((cfg.lookup.length ≤ 2
          ∨ strcasecmp needle (lookup_entry cfg ((cfg.lookup.length : Int) - 1)).1 < 0) →
        sap_lookup cfg needle = none
          ∧ ∀ i ∈ (sap_lookup_trace cfg needle).2, 0 ≤ i ∧ i < cfg.lookup.length)
      ∧ ((3 ≤ cfg.lookup.length
            ∧ strcasecmp needle (lookup_entry cfg ((cfg.lookup.length : Int) - 1)).1 > 0) →
          (cfg.lookup.length : Int) ∈ (sap_lookup_trace cfg needle).2
            ∧ sap_lookup cfg needle
              = if strcasecmp needle cfg.beyond.1 = 0 then some cfg.beyond.2 else none) := by
  have hinc := (check_lookup_array_increasing cfg).mp hchk
  obtain ⟨p, hp, hlow, hhigh⟩ := needle_split cfg needle hinc hne cfg.lookup.length (le_refl _)
  have hlowi : ∀ i : Int, 0 ≤ i → i < (p : Int) →
      strcasecmp needle (lookup_entry cfg i).1 > 0 := by
    intro i h0 h1
    obtain ⟨j, rfl⟩ := Int.eq_ofNat_of_zero_le h0
    exact hlow j (by omega)
  have hhighi : ∀ i : Int, (p : Int) ≤ i → i < cfg.lookup.length →
      strcasecmp needle (lookup_entry cfg i).1 < 0 := by
    intro i h0 h1
    obtain ⟨j, rfl⟩ := Int.eq_ofNat_of_zero_le (by omega : 0 ≤ i)
    exact hhigh j (by omega) (by omega)
  have hsmall : cfg.lookup.length ≤ 2 → sap_lookup_trace cfg needle = (none, [0]) := by
    intro h2
    have hmd : ((cfg.lookup.length : Int) - 1 - 0).tdiv 2 + 0 = 0 := by
      have hdiv : ((cfg.lookup.length : Int) - 1 - 0).tdiv 2
          = ((cfg.lookup.length : Int) - 1 - 0) / 2 :=
        Int.tdiv_eq_ediv (by omega) (by norm_num)
      rw [hdiv]; omega
    have h0 : strcasecmp needle (lookup_entry cfg 0).1 ≠ 0 := hne 0 hn
    unfold sap_lookup_trace
    rw [sap_lookup_loop_step cfg needle _ _ _ _ 0 _ hmd]
    have hdec : decide ((0 : Int) = 0) = true := by simp
    rw [if_neg h0, hdec, sap_lookup_loop_exit, sap_lookup_loop_exit]
    simp
  have hbig : 3 ≤ cfg.lookup.length →
      ∃ r : List Int, (∀ i ∈ r, 0 ≤ i ∧ i < cfg.lookup.length)
        ∧ sap_lookup_trace cfg needle =
          if (p : Int) < cfg.lookup.length then (none, [] ++ r)
          else if strcasecmp needle cfg.beyond.1 = 0 then
            (some cfg.beyond.2, [] ++ r ++ [(cfg.lookup.length : Int)])
          else (none, [] ++ r ++ [(cfg.lookup.length : Int), (cfg.lookup.length : Int)]) := by
    intro h3
    unfold sap_lookup_trace
    apply sap_lookup_loop_absent cfg needle p (by omega) (by omega) hlowi hhighi
    · exact le_refl _
    · omega
    · omega
    · omega
    · push_cast; omega
    · right; right
      have hdiv : ((cfg.lookup.length : Int) - 1 - 0).tdiv 2
          = ((cfg.lookup.length : Int) - 1 - 0) / 2 :=
        Int.tdiv_eq_ediv (by omega) (by norm_num)
      rw [hdiv]
      omega
  constructor
  · intro h
    by_cases h2 : cfg.lookup.length ≤ 2
    · unfold sap_lookup
      rw [hsmall h2]
      refine ⟨rfl, ?_⟩
      intro i hi
      rw [List.mem_singleton.mp hi]; omega
    · have hlast : strcasecmp needle (lookup_entry cfg ((cfg.lookup.length : Int) - 1)).1 < 0 := by
        rcases h with h | h
        · omega
        · exact h
      obtain ⟨r, hr, he⟩ := hbig (by omega)
      have hpn : (p : Int) < cfg.lookup.length := by
        by_contra hcon
        have := hlowi ((cfg.lookup.length : Int) - 1) (by omega) (by omega)
        omega
      rw [if_pos hpn] at he
      unfold sap_lookup
      rw [he]
      exact ⟨rfl, by simpa using hr⟩
  · rintro ⟨h3, hlast⟩
    obtain ⟨r, hr, he⟩ := hbig h3
    have hpn : ¬ (p : Int) < cfg.lookup.length := by
      intro hcon
      have := hhighi ((cfg.lookup.length : Int) - 1) (by omega) (by omega)
      omega
    rw [if_neg hpn] at he
    unfold sap_lookup
    rw [he]
    split <;> simp

/-- A table with the terms BOX, CASE, EACH and the needle PACK: the entry after the table is
read, and what it holds is returned. -/
theorem lookup_absent_witness :
    ((sample_config_three.lookup.length ≤ 2
          ∨ strcasecmp "PACK".toList
              (lookup_entry sample_config_three
                ((sample_config_three.lookup.length : Int) - 1)).1 < 0) →
        sap_lookup sample_config_three "PACK".toList = none
          ∧ ∀ i ∈ (sap_lookup_trace sample_config_three "PACK".toList).2,
              0 ≤ i ∧ i < sample_config_three.lookup.length)
      ∧ ((3 ≤ sample_config_three.lookup.length
            ∧ strcasecmp "PACK".toList
                (lookup_entry sample_config_three
                  ((sample_config_three.lookup.length : Int) - 1)).1 > 0) →
          (sample_config_three.lookup.length : Int)
              ∈ (sap_lookup_trace sample_config_three "PACK".toList).2
            ∧ sap_lookup sample_config_three "PACK".toList
              = if strcasecmp "PACK".toList sample_config_three.beyond.1 = 0
                then some sample_config_three.beyond.2 else none)
      ∧ sap_lookup_trace sample_config_three "PACK".toList = (some "Pack".toList, [1, 2, 3])
      ∧ sap_lookup_trace { sample_config_three with beyond := ([], []) } "PACK".toList
        = (none, [1, 2, 3, 3]) :=
  ⟨(lookup_absent sample_config_three "PACK".toList (by decide) (by decide) (by decide)).1,
    (lookup_absent sample_config_three "PACK".toList (by decide) (by decide) (by decide)).2,
    by decide, by decide⟩

/-! ### Sorting the records -/

theorem getD_set_perm {α : Type} (d : α) : ∀ (l : List α) (j : Nat) (x : α), j < l.length →
    (l.getD j d :: l.set j x).Perm (x :: l)
  | [], j, x, h => by simp at h
  | h :: t, 0, x, _ => by
    simp only [List.getD_cons_zero, List.set_cons_zero]
    exact List.Perm.swap x h t
  | h :: t, j + 1, x, hj => by
    simp only [List.getD_cons_succ, List.set_cons_succ]
    have ih := getD_set_perm d t j x (by simpa using hj)
    exact (List.Perm.swap h (t.getD j d) (t.set j x)).trans
      ((ih.cons h).trans (List.Perm.swap x h t))

theorem swap_label_records_perm : ∀ (l : List Label_record) (i j : Nat),
    i < l.length → j < l.length → (swap_label_records l i j).Perm l
  | [], i, j, h, _ => by simp at h
  | h :: t, 0, 0, _, _ => by simp [swap_label_records]
  | h :: t, 0, j + 1, _, hj => by
    simp only [swap_label_records, List.getD_cons_succ, List.getD_cons_zero, List.set_cons_zero,
      List.set_cons_succ]
    exact getD_set_perm {} t j h (by simpa using hj)
  | h :: t, i + 1, 0, hi, _ => by
    simp only [swap_label_records, List.getD_cons_succ, List.getD_cons_zero, List.set_cons_zero,
      List.set_cons_succ]
    exact getD_set_perm {} t i h (by simpa using hi)
  | h :: t, i + 1, j + 1, hi, hj => by
    have ih := swap_label_records_perm t i j (by simpa using hi) (by simpa using hj)
    unfold swap_label_records at ih ⊢
    simp only [List.getD_cons_succ, List.set_cons_succ]
    exact ih.cons h

theorem swap_label_records_length (l : List Label_record) (i j : Nat) :
    (swap_label_records l i j).length = l.length := by
  simp [swap_label_records]

theorem swap_label_records_getD (l : List Label_record) (i j x : Nat)
    (hi : i < l.length) (hj : j < l.length) :
    (swap_label_records l i j).getD x {}
      = if x = j then l.getD i {} else if x = i then l.getD j {} else l.getD x {} := by
  unfold swap_label_records
  simp only [List.getD_eq_getElem?_getD, List.getElem?_set, List.length_set]
  by_cases h1 : x = j
  · subst h1; simp [hj]
  · by_cases h2 : x = i
    · subst h2; simp [hi, h1, Ne.symm h1]
    · simp [h1, h2, Ne.symm h1, Ne.symm h2]

/-- The inner loop of `sort_labels` ends with the index of a record whose label is not above
the label of any record from `i` on, and with a copy of that record. -/
theorem sort_labels_scan_spec (labels : List Label_record) (i : Nat) :
    ∀ (n j : Nat) (min_label : Label_record) (min_index : Nat),
      j + n = labels.length → i ≤ min_index → min_index < j →
      min_label = labels.getD min_index {} →
      (∀ q, i ≤ q → q < j → ¬ strcmp (labels.getD q {}).label min_label.label < 0) →
      i ≤ (sort_labels_scan labels n j min_label min_index).2
        ∧ (sort_labels_scan labels n j min_label min_index).2 < labels.length
        ∧ (sort_labels_scan labels n j min_label min_index).1
          = labels.getD (sort_labels_scan labels n j min_label min_index).2 {}
        ∧ ∀ q, i ≤ q → q < labels.length →
          ¬ strcmp (labels.getD q {}).label
              (sort_labels_scan labels n j min_label min_index).1.label < 0 := by
  intro n
  induction n with
  | zero =>
    intro j m mi hj hi hmi hm hall
    simp only [sort_labels_scan]
    exact ⟨hi, by omega, hm, fun q h1 h2 => hall q h1 (by omega)⟩
  | succ n ih =>
    intro j m mi hj hi hmi hm hall
    simp only [sort_labels_scan]
    split
    · rename_i hlt
      apply ih (j + 1) (labels.getD j {}) j (by omega) (by omega) (by omega) rfl
      intro q h1 h2 hcon
      by_cases hq : q = j
      · rw [hq, strcmp_self] at hcon; omega
      · exact hall q h1 (by omega) (strcmp_lt_trans _ _ _ hcon hlt)
    · rename_i hnlt
      apply ih (j + 1) m mi (by omega) hi (by omega) hm
      intro q h1 h2
      by_cases hq : q = j
      · rw [hq]; exact hnlt
      · exact hall q h1 (by omega)

/-- The outer loop of `sort_labels` from the index `i` on: the records are rearranged, and
each record is followed only by records whose labels are not below its own. -/
theorem sort_labels_from_spec :
    ∀ (n i : Nat) (labels : List Label_record) (sorted : Bool),
      i + n = labels.length →
      (∀ p q, p < i → p < q → q < labels.length →
        strcmp (labels.getD p {}).label (labels.getD q {}).label ≤ 0) →
      (sort_labels_from n i labels sorted).2.Perm labels
        ∧ ∀ p q, p < q → q < labels.length →
          strcmp ((sort_labels_from n i labels sorted).2.getD p {}).label
            ((sort_labels_from n i labels sorted).2.getD q {}).label ≤ 0 := by
  intro n
  induction n with
  | zero =>
    intro i labels sorted hi hinv
    simp only [sort_labels_from]
    exact ⟨List.Perm.refl _, fun p q h1 h2 => hinv p q (by omega) h1 h2⟩
  | succ n ih =>
    intro i labels sorted hi hinv
    have hs := sort_labels_scan_spec labels i n (i + 1) (labels.getD i {}) i (by omega)
      (le_refl _) (by omega) rfl
      (by
        intro q h1 h2
        have : q = i := by omega
        rw [this, strcmp_self]; omega)
    simp only [sort_labels_from]
    generalize sort_labels_scan labels n (i + 1) (labels.getD i {}) i = res at hs
    obtain ⟨h1, h2, h3, h4⟩ := hs
    have hmin : ∀ q, i ≤ q → q < labels.length →
        strcmp (labels.getD res.2 {}).label (labels.getD q {}).label ≤ 0 := by
      intro q hq1 hq2
      have := h4 q hq1 hq2
      rw [h3] at this
      rw [strcmp_swap]
      omega
    split
    · rename_i hne
      have hlen := swap_label_records_length labels i res.2
      obtain ⟨hp, hs⟩ := ih (i + 1) (swap_label_records labels i res.2) false
        (by rw [hlen]; omega)
        (by
          intro p q hp1 hp2 hq
          rw [hlen] at hq
          rw [swap_label_records_getD labels i res.2 p (by omega) h2,
            swap_label_records_getD labels i res.2 q (by omega) h2]
          by_cases hpi : p = i
          · have hpm : p ≠ res.2 := by omega
            rw [if_neg hpm, if_pos hpi]
            split
            · exact hmin i (le_refl _) (by omega)
            · split
              · omega
              · exact hmin q (by omega) hq
          · have hpm : p ≠ res.2 := by omega
            rw [if_neg hpm, if_neg hpi]
            split
            · exact hinv p i (by omega) (by omega) (by omega)
            · split
              · exact hinv p res.2 (by omega) (by omega) h2
              · exact hinv p q (by omega) hp2 hq)
      rw [hlen] at hs
      exact ⟨hp.trans (swap_label_records_perm labels i res.2 (by omega) h2), hs⟩
    · rename_i heq
      have heq2 : i = res.2 := by
        by_contra h; exact heq h
      apply ih (i + 1) labels sorted (by omega)
      intro p q hp1 hp2 hq
      by_cases hpi : p = i
      · rw [hpi, heq2]; exact hmin q (by omega) hq
      · exact hinv p q (by omega) hp2 hq

/-- Claim C15: after `sort_labels` the records of the data rows are a rearrangement of the
records before the call, and every record is followed only by records whose label is equal
or above under `strcmp`: the labels are in non-decreasing order. -/
theorem sort_labels_sorted (labels : List Label_record) :
    (sort_labels labels).2.Perm labels
      ∧ List.Pairwise (fun a b : Label_record => strcmp a.label b.label ≤ 0)
          (sort_labels labels).2 := by
  unfold sort_labels
  obtain ⟨hp, hs⟩ := sort_labels_from_spec labels.length 0 labels true (by omega)
    (by intro p q h; omega)
  refine ⟨hp, ?_⟩
  rw [List.pairwise_iff_getElem]
  intro p q hp1 hq1 hpq
  have hlen := hp.length_eq
  have := hs p q hpq (by omega)
  rw [List.getD_eq_getElem _ _ hp1, List.getD_eq_getElem _ _ hq1] at this
  exact this

theorem sort_labels_scan_none (labels : List Label_record) :
    ∀ (n j : Nat) (min_label : Label_record) (min_index : Nat),
      j + n = labels.length →
      (∀ q, j ≤ q → q < labels.length →
        ¬ strcmp (labels.getD q {}).label min_label.label < 0) →
      sort_labels_scan labels n j min_label min_index = (min_label, min_index) := by
  intro n
  induction n with
  | zero => intro j m mi _ _; rfl
  | succ n ih =>
    intro j m mi hj h
    simp only [sort_labels_scan]
    rw [if_neg (h j (le_refl _) (by omega))]
    exact ih (j + 1) m mi (by omega) (fun q hq hq2 => h q (by omega) hq2)

theorem sort_labels_from_sorted (labels : List Label_record)
    (h : ∀ p q, p < q → q < labels.length →
      strcmp (labels.getD p {}).label (labels.getD q {}).label ≤ 0) :
    ∀ (n i : Nat) (sorted : Bool), i + n = labels.length →
      sort_labels_from n i labels sorted = (sorted, labels) := by
  intro n
  induction n with
  | zero => intro i sorted _; rfl
  | succ n ih =>
    intro i sorted hi
    have hs : sort_labels_scan labels n (i + 1) (labels.getD i {}) i = (labels.getD i {}, i) := by
      apply sort_labels_scan_none labels n (i + 1) _ _ (by omega)
      intro q hq hql
      have := h i q (by omega) hql
      rw [strcmp_swap]
      omega
    simp only [sort_labels_from, hs, ne_eq, not_true_eq_false, if_false]
    exact ih (i + 1) sorted (by omega)

/-- Claim C16, the code: `sort_labels` exchanges records with equal labels. In an array with
the labels LBL002, LBL002, LBL001 the first and the third record are exchanged, and the two
records with the label LBL002 end in the opposite order. -/
theorem sort_labels_exchanges_equal_labels :
    (sort_labels sample_labels_equal).1 = false
      ∧ (sort_labels sample_labels_equal).2.map (fun r => (r.label, r.material))
        = [("LBL001".toList, "MAT3".toList), ("LBL002".toList, "MAT2".toList),
            ("LBL002".toList, "MAT1".toList)] := by
  decide

/-- Claim C16, amended: when the records are already in non-decreasing order of their
labels, `sort_labels` returns 1 and leaves every record in its place, so records with equal
labels keep their order. -/
theorem sort_labels_keeps_sorted (labels : List Label_record)
    (h : List.Pairwise (fun a b : Label_record => strcmp a.label b.label ≤ 0) labels) :
    sort_labels labels = (true, labels) := by
  unfold sort_labels
  apply sort_labels_from_sorted labels _ labels.length 0 true (by omega)
  intro p q hpq hq
  rw [List.pairwise_iff_getElem] at h
  have := h p q (by omega) hq hpq
  rw [List.getD_eq_getElem _ _ (by omega : p < labels.length), List.getD_eq_getElem _ _ hq]
  exact this

theorem sort_labels_keeps_sorted_witness :
    sort_labels [{ label := "LBL001".toList, material := "MAT3".toList },
        { label := "LBL002".toList, material := "MAT1".toList },
        { label := "LBL002".toList, material := "MAT2".toList }]
      = (true, [{ label := "LBL001".toList, material := "MAT3".toList },
        { label := "LBL002".toList, material := "MAT1".toList },
        { label := "LBL002".toList, material := "MAT2".toList }]) :=
  sort_labels_keeps_sorted _ (by decide)

/-! ### Reading the rows of the spreadsheet -/

theorem buffer_at_last_two (cfg : Config) (pre : CStr) (x y : Char) :
    buffer_at cfg (pre ++ [x, y]) (((pre ++ [x, y]).length : Int) - 1) = y
      ∧ buffer_at cfg (pre ++ [x, y]) (((pre ++ [x, y]).length : Int) - 2) = x := by
  have hlen : (pre ++ [x, y]).length = pre.length + 2 := by simp
  have e1 : (((pre ++ [x, y]).length : Int) - 1).toNat = pre.length + 1 := by
    rw [hlen]; omega
  have e2 : (((pre ++ [x, y]).length : Int) - 2).toNat = pre.length := by
    rw [hlen]; omega
  unfold buffer_at
  rw [if_pos (by rw [hlen]; omega), if_pos (by rw [hlen]; omega), e1, e2]
  constructor
  · rw [List.getD_eq_getElem?_getD, List.getElem?_append_right (by omega)]
    simp
  · rw [List.getD_eq_getElem?_getD, List.getElem?_append_right (by omega)]
    simp

theorem read_char_other (cfg : Config) (st : ReadState) (c : Char) (h : c ≠ LF) :
    (read_char cfg st c).buffer = st.buffer ++ [c]
      ∧ (read_char cfg st c).spreadsheet = st.spreadsheet := by
  unfold read_char
  rw [if_neg h]
  exact ⟨rfl, rfl⟩

/-- A line feed that finds `##` at the end of `buffer` changes nothing. -/
theorem read_char_after_markers (cfg : Config) (st : ReadState) (pre : CStr)
    (h : st.buffer = pre ++ ['#', '#']) : read_char cfg st LF = st := by
  have hb := buffer_at_last_two cfg pre '#' '#'
  unfold read_char
  rw [if_pos rfl, h, hb.1, hb.2]
  rw [if_neg]
  rintro (⟨_, h1⟩ | h2)
  · exact h1 rfl
  · exact h2 rfl

theorem read_chars_after_markers (cfg : Config) (a b : CStr) (st : ReadState) :
    read_chars cfg st (a ++ '#' :: '#' :: LF :: b) = read_chars cfg st (a ++ '#' :: '#' :: b) := by
  unfold read_chars
  rw [List.foldl_append, List.foldl_append]
  simp only [List.foldl_cons]
  have h1 := read_char_other cfg (List.foldl (read_char cfg) st a) '#' (by decide)
  have h2 := read_char_other cfg (read_char cfg (List.foldl (read_char cfg) st a) '#') '#'
    (by decide)
  rw [read_char_after_markers cfg _ (List.foldl (read_char cfg) st a).buffer
    (by rw [h2.1, h1.1]; simp)]

theorem takeWhile_append_cases {α : Type} (p : α → Bool) : ∀ a : List α,
    (∀ x : List α, (a ++ x).takeWhile p = a ++ x.takeWhile p)
      ∨ (∀ x : List α, (a ++ x).takeWhile p = a.takeWhile p)
  | [] => Or.inl (fun x => rfl)
  | c :: a => by
    by_cases hc : p c = true
    · rcases takeWhile_append_cases p a with h | h
      · left; intro x
        simp only [List.cons_append, List.takeWhile_cons, hc, if_true, h]
      · right; intro x
        simp only [List.cons_append, List.takeWhile_cons, hc, if_true, h]
    · right; intro x
      simp [List.takeWhile_cons, hc]

/-- Claim C17: in `read_spreadsheet` a line feed that follows the two characters `##` does
not close the row. The line feed leaves the variables of the loop as they are, so what is
read after it is appended to the same row: the rows stored for a text are those stored for
the text without that line feed. For the text of a heading row and a data row whose last
cell is broken after `one##`, the data row is stored as one row. -/
theorem marker_line_feed (cfg : Config) (a b : CStr) :
    (∀ st : ReadState,
        read_chars cfg st (a ++ '#' :: '#' :: LF :: b) = read_chars cfg st (a ++ '#' :: '#' :: b))
      ∧ read_spreadsheet cfg (a ++ '#' :: '#' :: LF :: b)
        = read_spreadsheet cfg (a ++ '#' :: '#' :: b)
      ∧ read_spreadsheet sample_config
          "LABEL\tTDLINE\nLBL001\tone##\ntwo\nLBL002\tthree\n".toList
        = ["LABEL\tTDLINE".toList, "LBL001\tone##two".toList, "LBL002\tthree".toList] := by
  refine ⟨fun st => read_chars_after_markers cfg a b st, ?_, by decide⟩
  unfold read_spreadsheet
  rcases takeWhile_append_cases (fun c => c != Char.ofNat 255) a with h | h
  · rw [h, h]
    have h1 : ('#' != Char.ofNat 255) = true := by decide
    have h2 : (LF != Char.ofNat 255) = true := by decide
    simp only [List.takeWhile_cons, h1, h2, if_true]
    rw [read_chars_after_markers]
  · rw [h, h]

theorem read_chars_line (cfg : Config) : ∀ (l : CStr) (st : ReadState), LF ∉ l →
    read_chars cfg st l =
      { buffer := st.buffer ++ l
        line_not_empty := st.line_not_empty || spec_line_kept l
        spreadsheet := st.spreadsheet }
  | [], st, _ => by simp [read_chars, spec_line_kept]
  | c :: l, st, h => by
    have hc : c ≠ LF := fun e => h (by rw [e]; exact List.mem_cons_self _ _)
    have hl : LF ∉ l := fun e => h (List.mem_cons_of_mem _ e)
    have ih := read_chars_line cfg l (read_char cfg st c) hl
    unfold read_chars at ih ⊢
    rw [List.foldl_cons, ih]
    unfold read_char
    rw [if_neg hc]
    simp only [spec_line_kept, List.any_cons, List.append_assoc, List.singleton_append]
    congr 1
    by_cases h9 : c = Char.ofNat 9
    · simp [h9]
    · by_cases h13 : c = Char.ofNat 13
      · simp [h13]
      · simp [h9, h13]

theorem ends_cases : ∀ l : CStr, l = [] ∨ (∃ x, l = [x]) ∨ ∃ pre x y, l = pre ++ [x, y]
  | [] => Or.inl rfl
  | [x] => Or.inr (Or.inl ⟨x, rfl⟩)
  | x :: y :: t => by
    rcases ends_cases (y :: t) with h | ⟨z, h⟩ | ⟨pre, a, b, h⟩
    · simp at h
    · right; right
      exact ⟨[], x, z, by rw [h]; rfl⟩
    · right; right
      exact ⟨x :: pre, a, b, by rw [h]; rfl⟩

/-- A line feed closes the row when the line does not end in `##` and, for a line of one
character, the byte before `buffer` is not `#`. -/
theorem read_char_closes (cfg : Config) (l : CStr) (rows : List CStr)
    (hmark : ∀ pre, l ≠ pre ++ ['#', '#'])
    (hone : cfg.outside_buffer (-1) ≠ '#' ∨ l.length ≠ 1) :
    read_char cfg { buffer := l, line_not_empty := spec_line_kept l, spreadsheet := rows } LF =
      { buffer := []
        line_not_empty := false
        spreadsheet :=
          if spec_line_kept l then rows ++ [strlcpy (c_string l) MAX_COLUMNS] else rows } := by
  unfold read_char
  rw [if_pos rfl]
  rcases ends_cases l with h | ⟨x, h⟩ | ⟨pre, x, y, h⟩
  · subst h
    split
    · rfl
    · rfl
  · subst h
    rw [if_pos]
    right
    have e : buffer_at cfg [x] ((([x] : CStr).length : Int) - 2) = cfg.outside_buffer (-1) := by
      unfold buffer_at
      rfl
    simp only [e]
    rcases hone with h | h
    · exact h
    · simp at h
  · subst h
    have hb := buffer_at_last_two cfg pre x y
    rw [if_pos]
    simp only [hb.1, hb.2]
    by_cases hy : y = '#'
    · right
      intro hx
      exact hmark pre (by rw [hx, hy])
    · left
      exact ⟨by simp; omega, hy⟩

theorem read_chars_lines (cfg : Config) (r : CStr) (hr : LF ∉ r) :
    ∀ (ls : List CStr) (rows : List CStr),
      (∀ l ∈ ls, LF ∉ l) → (∀ l ∈ ls, ∀ pre, l ≠ pre ++ ['#', '#']) →
      (cfg.outside_buffer (-1) ≠ '#' ∨ ∀ l ∈ ls, l.length ≠ 1) →
      (read_chars cfg { buffer := [], line_not_empty := false, spreadsheet := rows }
          (spec_text ls r)).spreadsheet
        = rows ++ (ls.filter spec_line_kept).map (fun l => strlcpy (c_string l) MAX_COLUMNS)
  | [], rows, _, _, _ => by
    simp only [spec_text, List.map_nil, List.flatten_nil, List.nil_append, List.filter_nil,
      List.append_nil]
    rw [read_chars_line cfg r _ hr]
  | l :: ls, rows, hls, hmark, hone => by
    have hl : LF ∉ l := hls l (List.mem_cons_self _ _)
    have e : spec_text (l :: ls) r = l ++ LF :: spec_text ls r := by
      simp [spec_text]
    have hone2 : cfg.outside_buffer (-1) ≠ '#' ∨ l.length ≠ 1 := by
      rcases hone with h | h
      · exact Or.inl h
      · exact Or.inr (h l (List.mem_cons_self _ _))
    have hone3 : cfg.outside_buffer (-1) ≠ '#' ∨ ∀ l ∈ ls, l.length ≠ 1 := by
      rcases hone with h | h
      · exact Or.inl h
      · exact Or.inr (fun x hx => h x (List.mem_cons_of_mem _ hx))
    rw [e]
    unfold read_chars
    rw [List.foldl_append, List.foldl_cons]
    have h1 := read_chars_line cfg l
      { buffer := [], line_not_empty := false, spreadsheet := rows } hl
    unfold read_chars at h1
    rw [h1]
    simp only [List.nil_append, Bool.false_or]
    rw [read_char_closes cfg l rows (hmark l (List.mem_cons_self _ _)) hone2]
    have ih := read_chars_lines cfg r hr ls
      (if spec_line_kept l then rows ++ [strlcpy (c_string l) MAX_COLUMNS] else rows)
      (fun x hx => hls x (List.mem_cons_of_mem _ hx))
      (fun x hx => hmark x (List.mem_cons_of_mem _ hx)) hone3
    unfold read_chars at ih
    rw [ih]
    by_cases hk : spec_line_kept l = true
    · simp [hk, List.filter_cons]
    · simp [hk, List.filter_cons]

/-- Claim C18, the code: for a text made of lines ended by line feeds, none of which ends in
`##`, and without a byte 255, `read_spreadsheet` stores, in input order, the lines that have a
character other than tab and carriage return (each cut at a NUL and at 999 characters),
provided that no line has exactly one character or that the byte before `buffer` is not `#`.
For a line of one character the test reads `buffer[-1]`: when that byte is `#` the line feed
is dropped, and the text of the two lines A and B is stored as the single row AB. -/
theorem rows_stored (cfg : Config) (ls : List CStr) (r : CStr)
    (hls : ∀ l ∈ ls, LF ∉ l) (hr : LF ∉ r)
    (hmark : ∀ l ∈ ls, ∀ pre, l ≠ pre ++ ['#', '#'])
    (hff : ∀ c ∈ spec_text ls r, c ≠ Char.ofNat 255) :
    ((cfg.outside_buffer (-1) ≠ '#' ∨ ∀ l ∈ ls, l.length ≠ 1) →
        read_spreadsheet cfg (spec_text ls r)
          = (ls.filter spec_line_kept).map (fun l => strlcpy (c_string l) MAX_COLUMNS))
      ∧ read_spreadsheet sample_config_marker (spec_text ["A".toList, "B".toList] [])
        = ["AB".toList] := by
  refine ⟨?_, by decide⟩
  intro hone
  unfold read_spreadsheet
  have e : (spec_text ls r).takeWhile (fun c => c != Char.ofNat 255) = spec_text ls r := by
    rw [List.takeWhile_eq_self_iff]
    intro c hc
    simpa using hff c hc
  rw [e, read_chars_lines cfg r hr ls [] hls hmark hone]
  simp

/-- The lines A, a line of tabs, and B with a carriage return: the rows A and B with its
carriage return are stored when the byte before `buffer` is not `#`. -/
theorem rows_stored_witness :
    ((sample_config.outside_buffer (-1) ≠ '#'
          ∨ ∀ l ∈ ["A".toList, "\t\t".toList, "B\r".toList], l.length ≠ 1) →
        read_spreadsheet sample_config
            (spec_text ["A".toList, "\t\t".toList, "B\r".toList] "rest".toList)
          = (["A".toList, "\t\t".toList, "B\r".toList].filter spec_line_kept).map
              (fun l => strlcpy (c_string l) MAX_COLUMNS))
      ∧ read_spreadsheet sample_config_marker (spec_text ["A".toList, "B".toList] [])
        = ["AB".toList] :=
  rows_stored sample_config ["A".toList, "\t\t".toList, "B\r".toList] "rest".toList
    (by decide) (by decide)
    (by
      intro l hl pre h
      have h2 : (['#', '#'] : CStr) <:+ l := ⟨pre, h.symm⟩
      clear h
      revert l
      decide)
    (by decide)

/-! ### The text lines of a record -/

theorem strstr_cons (c : Char) (s needle : CStr) :
    strstr (c :: s) needle
      = if needle.isPrefixOf (c :: s) then some 0 else (strstr s needle).map (fun i => i + 1) := by
  rw [strstr]

theorem marker_isPrefixOf (c : Char) (x rest : CStr) :
    (['#', '#'] : CStr).isPrefixOf (c :: (x ++ '#' :: '#' :: rest))
      = (['#', '#'] : CStr).isPrefixOf (c :: (x ++ ['#'])) := by
  cases x with
  | nil => simp [List.isPrefixOf]
  | cons d x => simp [List.isPrefixOf]

theorem strstr_marker : ∀ (x rest : CStr), strstr (x ++ ['#']) ['#', '#'] = none →
    strstr (x ++ '#' :: '#' :: rest) ['#', '#'] = some x.length
  | [], rest, _ => by simp [strstr, List.isPrefixOf]
  | c :: x, rest, h => by
    rw [List.cons_append, strstr_cons] at h ⊢
    rw [marker_isPrefixOf]
    by_cases hp : (['#', '#'] : CStr).isPrefixOf (c :: (x ++ ['#'])) = true
    · rw [if_pos hp] at h; simp at h
    · rw [if_neg hp] at h ⊢
      have h2 : strstr (x ++ ['#']) ['#', '#'] = none := by
        cases hs : strstr (x ++ ['#']) ['#', '#'] with
        | none => rfl
        | some v => rw [hs] at h; simp at h
      rw [strstr_marker x rest h2]
      simp

theorem tdline_segment_marker (x rest : CStr) (h : strstr (x ++ ['#']) ['#', '#'] = none) :
    tdline_segment (x ++ '#' :: '#' :: rest)
      = (x ++ "##".toList ++ print_spaces (70 - ((x.length : Int) - 2)), rest) := by
  unfold tdline_segment
  have e : "##".toList = ['#', '#'] := rfl
  rw [e, strstr_marker x rest h]
  simp

theorem tdline_segment_last (r : CStr) (h : strstr r ['#', '#'] = none) :
    tdline_segment r = (padRight 74 r, []) := by
  unfold tdline_segment
  have e : "##".toList = ['#', '#'] := rfl
  rw [e, h]

theorem tdline_loop_nil (label : CStr) (fuel : Nat) (k : Int) (s : State) :
    tdline_loop label fuel [] k s = s := by
  cases fuel <;> simp [tdline_loop]

/-- The TDLINE loop on a text made of the segments `segs`, each followed by a marker, and of
the rest `r`: one line for each segment and one for a non-empty rest. -/
theorem tdline_loop_lines (label : CStr) (r : CStr) (hr : strstr r ['#', '#'] = none) :
    ∀ (segs : List CStr) (fuel k : Nat) (s : State),
      (∀ x ∈ segs, strstr (x ++ ['#']) ['#', '#'] = none) →
      ((segs.map (fun x => x ++ ['#', '#'])).flatten ++ r).length ≤ fuel →
      tdline_loop label fuel ((segs.map (fun x => x ++ ['#', '#'])).flatten ++ r) (k : Int) s =
        { s with
          fpout := s.fpout ++
            ((segs.map (fun x => x ++ "##".toList ++ print_spaces (70 - ((x.length : Int) - 2)))
                ++ (if r = [] then [] else [padRight 74 r])).enumFrom k).map
              (fun p => Line.text (s.sequence_number + ((p.1 : Int) - (k : Int)))
                s.idoc.tdline_seq_number label p.2 (if (p.1 : Int) = 0 then '*' else '/'))
          sequence_number := s.sequence_number
            + ((segs.length + (if r = [] then 0 else 1) : Nat) : Int) }
  | [], fuel, k, s, _, hfuel => by
    simp only [List.map_nil, List.flatten_nil, List.nil_append, List.length_nil, zero_add]
      at hfuel ⊢
    by_cases hre : r = []
    · subst hre
      rw [tdline_loop_nil]
      simp
    · obtain ⟨fuel, rfl⟩ : ∃ f, fuel = f + 1 := by
        have : 0 < r.length := List.length_pos.mpr hre
        exact ⟨fuel - 1, by omega⟩
      rw [tdline_loop, if_pos (List.length_pos.mpr hre), tdline_segment_last r hr,
        tdline_loop_nil]
      simp [hre]
  | x :: segs, fuel, k, s, hsegs, hfuel => by
    have hx := hsegs x (List.mem_cons_self _ _)
    have e : ((x :: segs).map (fun x => x ++ ['#', '#'])).flatten ++ r
        = x ++ '#' :: '#' :: ((segs.map (fun x => x ++ ['#', '#'])).flatten ++ r) := by
      simp
    rw [e] at hfuel ⊢
    obtain ⟨fuel, rfl⟩ : ∃ f, fuel = f + 1 := by
      simp at hfuel
      exact ⟨fuel - 1, by omega⟩
    rw [tdline_loop, if_pos (by simp), tdline_segment_marker x _ hx]
    have ih := tdline_loop_lines label r hr segs fuel (k + 1)
      { s with
        fpout := s.fpout ++
          [Line.text s.sequence_number s.idoc.tdline_seq_number label
            (x ++ "##".toList ++ print_spaces (70 - ((x.length : Int) - 2)))
            (if (k : Int) = 0 then '*' else '/')]
        sequence_number := s.sequence_number + 1 }
      (fun y hy => hsegs y (List.mem_cons_of_mem _ hy))
      (by simp at hfuel ⊢; omega)
    have ek : ((k : Int) + 1) = ((k + 1 : Nat) : Int) := by push_cast; rfl
    rw [ek, ih]
    simp only [List.map_cons, List.cons_append, List.enumFrom_cons, List.length_cons,
      List.append_assoc, List.singleton_append]
    congr 1
    · push_cast; ring
    · have e1 : s.sequence_number + ((k : Int) - (k : Int)) = s.sequence_number := by omega
      have e2 : ∀ p : Nat × CStr,
          s.sequence_number + 1 + ((p.1 : Int) - ((k + 1 : Nat) : Int))
            = s.sequence_number + ((p.1 : Int) - (k : Int)) := by
        intro p; push_cast; omega
      simp only [e1, e2, List.nil_append]

set_option maxRecDepth 8000 in
/-- Claim C19: for a free-text value that is not skipped, whose text after the quote
processing is made of `m` segments each followed by the marker `##` (the markers are those
found from left to right: a segment followed by `#` contains no marker) and of a rest `r`
without marker, the TDLINE block writes `m` lines, and one more when `r` is not empty. The
lines carry the sequence numbers from the current one on, one each, the first line ends with
`*` and every later one with `/`. For the value `A""B##C` there are two lines: `A"B##` with
`*` and `C` with `/`. -/
theorem text_lines (label tdline : CStr) (s : State) (segs : List CStr) (r : CStr)
    (hskip : (tdline.take 4).length > 0 ∧ strcasecmp (tdline.take 4) "n/a".toList ≠ 0
      ∧ equals_no (tdline.take 4) ≠ true)
    (htext : tdline_unquote tdline = (segs.map (fun x => x ++ "##".toList)).flatten ++ r)
    (hsegs : ∀ x ∈ segs, strstr (x ++ ['#']) "##".toList = none)
    (hr : strstr r "##".toList = none) :
    (∃ contents : List CStr,
        contents.length = segs.length + (if r = [] then 0 else 1)
          ∧ (tdline_records label tdline s).fpout = s.fpout ++
              (contents.enumFrom 0).map
                (fun p => Line.text (s.sequence_number + (p.1 : Int))
                  s.idoc.tdline_seq_number label p.2 (if p.1 = 0 then '*' else '/'))
          ∧ (tdline_records label tdline s).sequence_number
              = s.sequence_number + (contents.length : Int)
          ∧ contents =
              segs.map (fun x => x ++ "##".toList ++ print_spaces (70 - ((x.length : Int) - 2)))
                ++ (if r = [] then [] else [padRight 74 r]))
      ∧ (tdline_records "LBL001".toList ['A', DQUOTE, DQUOTE, 'B', '#', '#', 'C']
            State.initial).fpout
          = [Line.text 1 0 "LBL001".toList
              (['A', DQUOTE, 'B', '#', '#'] ++ List.replicate 69 ' ') '*',
             Line.text 2 0 "LBL001".toList (['C'] ++ List.replicate 73 ' ') '/'] := by
  refine ⟨?_, by decide⟩
  have e : "##".toList = ['#', '#'] := rfl
  rw [e] at htext hsegs hr
  refine ⟨_, ?_, ?_, ?_, rfl⟩
  · simp only [List.length_append, List.length_map]
    split <;> simp
  · unfold tdline_records
    simp only []
    rw [if_pos hskip, htext]
    have h := tdline_loop_lines label r hr segs _ 0 s hsegs (le_refl _)
    simp only [Nat.cast_zero] at h
    rw [h]
    simp only [sub_zero]
    congr 1
    apply List.map_congr_left
    intro p _
    congr 1
    simp
  · unfold tdline_records
    simp only []
    rw [if_pos hskip, htext]
    have h := tdline_loop_lines label r hr segs _ 0 s hsegs (le_refl _)
    simp only [Nat.cast_zero] at h
    rw [h]
    simp only [List.length_append, List.length_map]
    congr 2
    split <;> simp

/-- The value `A""B##C`: one segment `A"B` followed by a marker, and the rest `C`. -/
theorem text_lines_witness :
    (∃ contents : List CStr,
        contents.length = [['A', DQUOTE, 'B']].length + (if ['C'] = [] then 0 else 1)
          ∧ (tdline_records "LBL001".toList ['A', DQUOTE, DQUOTE, 'B', '#', '#', 'C']
                State.initial).fpout = State.initial.fpout ++
              (contents.enumFrom 0).map
                (fun p => Line.text (State.initial.sequence_number + (p.1 : Int))
                  State.initial.idoc.tdline_seq_number "LBL001".toList p.2
                  (if p.1 = 0 then '*' else '/'))
          ∧ (tdline_records "LBL001".toList ['A', DQUOTE, DQUOTE, 'B', '#', '#', 'C']
                State.initial).sequence_number
              = State.initial.sequence_number + (contents.length : Int)
          ∧ contents =
              [['A', DQUOTE, 'B']].map
                  (fun x => x ++ "##".toList ++ print_spaces (70 - ((x.length : Int) - 2)))
                ++ (if ['C'] = [] then [] else [padRight 74 ['C']]))
      ∧ (tdline_records "LBL001".toList ['A', DQUOTE, DQUOTE, 'B', '#', '#', 'C']
            State.initial).fpout
          = [Line.text 1 0 "LBL001".toList
              (['A', DQUOTE, 'B', '#', '#'] ++ List.replicate 69 ' ') '*',
             Line.text 2 0 "LBL001".toList (['C'] ++ List.replicate 73 ' ') '/'] :=
  text_lines "LBL001".toList ['A', DQUOTE, DQUOTE, 'B', '#', '#', 'C'] State.initial
    [['A', DQUOTE, 'B']] ['C'] (by decide) (by decide) (by decide) (by decide)

theorem print_spaces_marker (n : Nat) :
    print_spaces (70 - ((n : Int) - 2)) = List.replicate (72 - n) ' ' := by
  unfold print_spaces
  congr 1
  omega

/-- The lines that the TDLINE block writes for a value that is not skipped. -/
theorem tdline_records_fpout (label tdline : CStr) (s : State) (segs : List CStr) (r : CStr)
    (hskip : (tdline.take 4).length > 0 ∧ strcasecmp (tdline.take 4) "n/a".toList ≠ 0
      ∧ equals_no (tdline.take 4) ≠ true)
    (htext : tdline_unquote tdline = (segs.map (fun x => x ++ "##".toList)).flatten ++ r)
    (hsegs : ∀ x ∈ segs, strstr (x ++ ['#']) "##".toList = none)
    (hr : strstr r "##".toList = none) :
    (tdline_records label tdline s).fpout = s.fpout ++
      ((segs.map (fun x => x ++ "##".toList ++ List.replicate (72 - x.length) ' ')
          ++ (if r = [] then [] else [r ++ List.replicate (74 - r.length) ' '])).enumFrom 0).map
        (fun p => Line.text (s.sequence_number + (p.1 : Int))
          s.idoc.tdline_seq_number label p.2 (if p.1 = 0 then '*' else '/')) := by
  have e : "##".toList = ['#', '#'] := rfl
  rw [e] at htext hsegs hr
  unfold tdline_records
  simp only []
  rw [if_pos hskip, htext]
  have h := tdline_loop_lines label r hr segs _ 0 s hsegs (le_refl _)
  simp only [Nat.cast_zero] at h
  rw [h]
  simp only [sub_zero, print_spaces_marker, padRight]
  congr 1
  apply List.map_congr_left
  intro p _
  congr 1
  simp

set_option maxRecDepth 8000 in
/-- Claim C20, the code: a segment longer than 72 characters before a marker, or a last
segment longer than 74 characters, is written in full, and the content is wider than 74
characters: 75 characters for a segment of 73 characters and its marker, 75 characters for a
last segment of 75 characters. -/
theorem text_line_wider :
    (tdline_records "LBL001".toList (List.replicate 73 'A' ++ "##".toList)
        State.initial).fpout
      = [Line.text 1 0 "LBL001".toList (List.replicate 73 'A' ++ "##".toList) '*']
    ∧ (List.replicate 73 'A' ++ "##".toList).length = 75
    ∧ (tdline_records "LBL001".toList (List.replicate 75 'A') State.initial).fpout
      = [Line.text 1 0 "LBL001".toList (List.replicate 75 'A') '*']
    ∧ (List.replicate 75 'A').length = 75 := by
  decide

/-- Claim C20, amended: for a value that is not skipped, made of segments of at most 72
characters each followed by the marker `##` and of a rest of at most 74 characters, every
text line written has a content of exactly 74 characters between the indent of 61 spaces and
the mark: a segment of length `L`, the marker and `72 - L` spaces, or the rest followed by
spaces up to 74 characters. -/
theorem text_line_width (label tdline : CStr) (s : State) (segs : List CStr) (r : CStr)
    (hskip : (tdline.take 4).length > 0 ∧ strcasecmp (tdline.take 4) "n/a".toList ≠ 0
      ∧ equals_no (tdline.take 4) ≠ true)
    (htext : tdline_unquote tdline = (segs.map (fun x => x ++ "##".toList)).flatten ++ r)
    (hsegs : ∀ x ∈ segs, strstr (x ++ ['#']) "##".toList = none)
    (hr : strstr r "##".toList = none)
    (hwidth : ∀ x ∈ segs, x.length ≤ 72) (hrest : r.length ≤ 74) :
    ∃ contents : List CStr,
      (tdline_records label tdline s).fpout = s.fpout ++
          (contents.enumFrom 0).map
            (fun p => Line.text (s.sequence_number + (p.1 : Int))
              s.idoc.tdline_seq_number label p.2 (if p.1 = 0 then '*' else '/'))
        ∧ contents =
            segs.map (fun x => x ++ "##".toList ++ List.replicate (72 - x.length) ' ')
              ++ (if r = [] then [] else [r ++ List.replicate (74 - r.length) ' '])
        ∧ (∀ c ∈ contents, c.length = 74)
        ∧ ∀ c ∈ contents, ∀ (ctrl_num : CStr) (n p : Int) (mark : Char),
            Line.render ctrl_num (Line.text n p label c mark)
              = line_head "Z2BTTX01000".toList ctrl_num n p ++ "04".toList
                ++ "GRUNE  ENMATERIAL  ".toList ++ label ++ List.replicate 61 ' ' ++ c
                ++ [mark] ++ "\n".toList := by
  refine ⟨_, tdline_records_fpout label tdline s segs r hskip htext hsegs hr, rfl, ?_, ?_⟩
  · intro c hc
    rcases List.mem_append.mp hc with h | h
    · obtain ⟨x, hx, rfl⟩ := List.mem_map.mp h
      have := hwidth x hx
      have e : "##".toList.length = 2 := rfl
      simp only [List.length_append, List.length_replicate, e]
      omega
    · split at h
      · simp at h
      · rw [List.mem_singleton.mp h]
        simp only [List.length_append, List.length_replicate]
        omega
  · intro c _ ctrl_num n p mark
    rfl

/-- The value `Sterile##Single use`: one segment of 7 characters, a rest of 10. -/
theorem text_line_width_witness :
    ∃ contents : List CStr,
      (tdline_records "LBL001".toList "Sterile##Single use".toList State.initial).fpout
          = State.initial.fpout ++
            (contents.enumFrom 0).map
              (fun p => Line.text (State.initial.sequence_number + (p.1 : Int))
                State.initial.idoc.tdline_seq_number "LBL001".toList p.2
                (if p.1 = 0 then '*' else '/'))
        ∧ contents =
            ["Sterile".toList].map
                (fun x => x ++ "##".toList ++ List.replicate (72 - x.length) ' ')
              ++ (if "Single use".toList = [] then []
                  else ["Single use".toList
                    ++ List.replicate (74 - "Single use".toList.length) ' '])
        ∧ (∀ c ∈ contents, c.length = 74)
        ∧ ∀ c ∈ contents, ∀ (ctrl_num : CStr) (n p : Int) (mark : Char),
            Line.render ctrl_num (Line.text n p "LBL001".toList c mark)
              = line_head "Z2BTTX01000".toList ctrl_num n p ++ "04".toList
                ++ "GRUNE  ENMATERIAL  ".toList ++ "LBL001".toList ++ List.replicate 61 ' ' ++ c
                ++ [mark] ++ "\n".toList :=
  text_line_width "LBL001".toList "Sterile##Single use".toList State.initial
    ["Sterile".toList] "Single use".toList (by decide) (by decide) (by decide) (by decide)
    (by decide) (by decide)

/-! ### The quotes of a free-text value -/

theorem quotes_isPrefixOf (c : Char) (rest : CStr) :
    ([DQUOTE, DQUOTE] : CStr).isPrefixOf (c :: rest) = true
      ↔ c = DQUOTE ∧ rest.head? = some DQUOTE := by
  cases rest with
  | nil => simp [List.isPrefixOf]
  | cons d t =>
    simp only [List.isPrefixOf, Bool.and_true, Bool.and_eq_true, beq_iff_eq, List.head?_cons,
      Option.some.injEq]
    constructor
    · rintro ⟨h1, h2⟩; exact ⟨h1.symm, h2.symm⟩
    · rintro ⟨h1, h2⟩; exact ⟨h1.symm, h2.symm⟩

theorem squeeze_of_no_pair : ∀ token : CStr, strstr token [DQUOTE, DQUOTE] = none →
    spec_squeeze_quotes token = token
  | [], _ => rfl
  | c :: rest, h => by
    rw [strstr_cons] at h
    by_cases hp : ([DQUOTE, DQUOTE] : CStr).isPrefixOf (c :: rest) = true
    · rw [if_pos hp] at h; simp at h
    · rw [if_neg hp] at h
      have h2 : strstr rest [DQUOTE, DQUOTE] = none := by
        cases hs : strstr rest [DQUOTE, DQUOTE] with
        | none => rfl
        | some v => rw [hs] at h; simp at h
      rw [spec_squeeze_quotes, if_neg (fun hc => hp ((quotes_isPrefixOf c rest).mpr hc)),
        squeeze_of_no_pair rest h2]

theorem strstr_pair_head : ∀ (token : CStr) (a : Nat), strstr token [DQUOTE, DQUOTE] = some a →
    (token.eraseIdx a).head? = token.head? ∧ a < token.length
  | [], a, h => by simp [strstr] at h
  | c :: rest, a, h => by
    rw [strstr_cons] at h
    by_cases hp : ([DQUOTE, DQUOTE] : CStr).isPrefixOf (c :: rest) = true
    · rw [if_pos hp] at h
      have ha : a = 0 := by simpa using h.symm
      subst ha
      obtain ⟨hc, hr⟩ := (quotes_isPrefixOf c rest).mp hp
      simp [hc, hr]
    · rw [if_neg hp] at h
      cases hs : strstr rest [DQUOTE, DQUOTE] with
      | none => rw [hs] at h; simp at h
      | some v =>
        rw [hs] at h
        have ha : a = v + 1 := by simpa using h.symm
        subst ha
        have := (strstr_pair_head rest v hs).2
        simp
        omega

theorem squeeze_eraseIdx : ∀ (token : CStr) (a : Nat), strstr token [DQUOTE, DQUOTE] = some a →
    spec_squeeze_quotes (token.eraseIdx a) = spec_squeeze_quotes token
  | [], a, h => by simp [strstr] at h
  | c :: rest, a, h => by
    rw [strstr_cons] at h
    by_cases hp : ([DQUOTE, DQUOTE] : CStr).isPrefixOf (c :: rest) = true
    · rw [if_pos hp] at h
      have ha : a = 0 := by simpa using h.symm
      subst ha
      rw [List.eraseIdx_cons_zero, spec_squeeze_quotes, if_pos ((quotes_isPrefixOf c rest).mp hp)]
    · rw [if_neg hp] at h
      cases hs : strstr rest [DQUOTE, DQUOTE] with
      | none => rw [hs] at h; simp at h
      | some v =>
        rw [hs] at h
        have ha : a = v + 1 := by simpa using h.symm
        subst ha
        rw [List.eraseIdx_cons_succ, spec_squeeze_quotes, spec_squeeze_quotes,
          (strstr_pair_head rest v hs).1, squeeze_eraseIdx rest v hs]

/-- The loop that collapses the quotes, with `strlen(token)` turns or more. -/
theorem collapse_quotes_eq : ∀ (fuel : Nat) (token : CStr), token.length ≤ fuel →
    collapse_quotes fuel token = spec_squeeze_quotes token
  | 0, token, h => by
    have : token = [] := List.length_eq_zero.mp (by omega)
    subst this; rfl
  | fuel + 1, token, h => by
    rw [collapse_quotes]
    cases hs : strstr token [DQUOTE, DQUOTE] with
    | none => exact (squeeze_of_no_pair token hs).symm
    | some a =>
      simp only
      have hl := (strstr_pair_head token a hs).2
      rw [collapse_quotes_eq fuel (token.eraseIdx a)
        (by rw [List.length_eraseIdx]; split <;> omega), squeeze_eraseIdx token a hs]

/-- Claim C21, the code: a run of four double quotes becomes one double quote, where taking
the pairs from left to right gives two. -/
theorem quote_pairs_counterexample :
    tdline_unquote ['A', DQUOTE, DQUOTE, DQUOTE, DQUOTE, 'B'] = ['A', DQUOTE, 'B']
      ∧ spec_collapse_pairs (spec_strip_quotes ['A', DQUOTE, DQUOTE, DQUOTE, DQUOTE, 'B'])
        = ['A', DQUOTE, DQUOTE, 'B']
      ∧ (tdline_records "LBL001".toList ['A', DQUOTE, DQUOTE, DQUOTE, DQUOTE, 'B']
          State.initial).fpout
        = [Line.text 1 0 "LBL001".toList (padRight 74 ['A', DQUOTE, 'B']) '*'] := by
  decide

/-- Claim C21, amended: the text that is split into segments is the value with a leading
double quote removed if present, then a trailing one removed if present, and then every run
of adjacent double quotes replaced by one double quote (the loop removes a quote as long as
two quotes are adjacent). -/
theorem quote_runs_collapsed (tdline : CStr) :
    tdline_unquote tdline = spec_squeeze_quotes (spec_strip_quotes tdline) := by
  unfold tdline_unquote spec_strip_quotes
  exact collapse_quotes_eq _ _ (le_refl _)

/-- The value `"A""B"` between quotes: the text split is `A"B`; without a run of more than
two quotes the pairs give the same text. -/
theorem quote_runs_collapsed_witness :
    tdline_unquote [DQUOTE, 'A', DQUOTE, DQUOTE, 'B', DQUOTE]
        = spec_squeeze_quotes (spec_strip_quotes [DQUOTE, 'A', DQUOTE, DQUOTE, 'B', DQUOTE])
      ∧ spec_squeeze_quotes (spec_strip_quotes [DQUOTE, 'A', DQUOTE, DQUOTE, 'B', DQUOTE])
        = ['A', DQUOTE, 'B']
      ∧ spec_collapse_pairs (spec_strip_quotes [DQUOTE, 'A', DQUOTE, DQUOTE, 'B', DQUOTE])
        = ['A', DQUOTE, 'B'] :=
  ⟨quote_runs_collapsed _, by decide, by decide⟩

/-! ### The column names of the heading row -/

theorem get_token_tab (x rest : CStr) (h : TAB ∉ x) :
    get_token (x ++ TAB :: rest) TAB = (x, rest) := by
  unfold get_token
  rw [if_neg (by decide), if_pos (by simp)]
  have h1 : ∀ c ∈ x, (c != TAB) = true := by
    intro c hc
    simp only [bne_iff_ne, ne_eq]
    intro e; exact h (e ▸ hc)
  have h2 : (x ++ TAB :: rest).takeWhile (fun c => c != TAB) = x := by
    rw [List.takeWhile_append_of_pos h1]
    simp [List.takeWhile_cons]
  have h3 : (x ++ TAB :: rest).dropWhile (fun c => c != TAB) = TAB :: rest := by
    rw [List.dropWhile_append_of_pos h1]
    simp [List.dropWhile_cons]
  rw [h2, h3]
  rfl

theorem get_token_last (x : CStr) (h : TAB ∉ x) (hx : x ≠ []) :
    get_token x TAB = (x, []) := by
  unfold get_token
  rw [if_neg (by decide), if_neg h, if_pos (List.length_pos.mpr hx)]

theorem column_names_loop_nil (fuel : Nat) (acc : List CStr) :
    column_names_loop fuel [] acc = acc := by
  cases fuel <;> simp [column_names_loop]

/-- The first loop of `duplicate_column_names` collects the names that are not empty. -/
theorem column_names_loop_header : ∀ (names : List CStr) (fuel : Nat) (acc : List CStr),
    (∀ n ∈ names, TAB ∉ n) → (spec_header names).length ≤ fuel →
    column_names_loop fuel (spec_header names) acc = acc ++ names.filter (fun n => n ≠ [])
  | [], fuel, acc, _, _ => by
    simp [spec_header, column_names_loop_nil]
  | [n], fuel, acc, hn, hfuel => by
    have hn1 : TAB ∉ n := hn n (List.mem_singleton_self _)
    simp only [spec_header] at hfuel ⊢
    by_cases he : n = []
    · subst he; simp [column_names_loop_nil]
    · obtain ⟨fuel, rfl⟩ : ∃ f, fuel = f + 1 := by
        have := List.length_pos.mpr he
        exact ⟨fuel - 1, by omega⟩
      rw [column_names_loop, if_pos (List.length_pos.mpr he), get_token_last n hn1 he,
        if_pos (List.length_pos.mpr he), column_names_loop_nil]
      simp [he]
  | n :: m :: rest, fuel, acc, hn, hfuel => by
    have hn1 : TAB ∉ n := hn n (List.mem_cons_self _ _)
    simp only [spec_header] at hfuel ⊢
    obtain ⟨fuel, rfl⟩ : ∃ f, fuel = f + 1 := by
      simp at hfuel
      exact ⟨fuel - 1, by omega⟩
    rw [column_names_loop, if_pos (by simp), get_token_tab n _ hn1]
    simp only
    rw [column_names_loop_header (m :: rest) fuel _
      (fun x hx => hn x (List.mem_cons_of_mem _ hx)) (by simp at hfuel ⊢; omega)]
    by_cases he : n = []
    · subst he; simp
    · rw [if_pos (List.length_pos.mpr he)]
      simp [he, List.filter_cons]

theorem column_names_scan_spec (names : List CStr) (i : Nat) :
    ∀ (n j : Nat) (min_column : CStr) (min_index : Nat),
      j + n = names.length → i ≤ min_index → min_index < j →
      min_column = names.getD min_index [] →
      (∀ q, i ≤ q → q < j → ¬ strcmp (names.getD q []) min_column < 0) →
      i ≤ (column_names_scan names n j min_column min_index).2
        ∧ (column_names_scan names n j min_column min_index).2 < names.length
        ∧ (column_names_scan names n j min_column min_index).1
          = names.getD (column_names_scan names n j min_column min_index).2 []
        ∧ ∀ q, i ≤ q → q < names.length →
          ¬ strcmp (names.getD q []) (column_names_scan names n j min_column min_index).1 < 0 := by
  intro n
  induction n with
  | zero =>
    intro j m mi hj hi hmi hm hall
    simp only [column_names_scan]
    exact ⟨hi, by omega, hm, fun q h1 h2 => hall q h1 (by omega)⟩
  | succ n ih =>
    intro j m mi hj hi hmi hm hall
    simp only [column_names_scan]
    split
    · rename_i hlt
      apply ih (j + 1) (names.getD j []) j (by omega) (by omega) (by omega) rfl
      intro q h1 h2 hcon
      by_cases hq : q = j
      · rw [hq, strcmp_self] at hcon; omega
      · exact hall q h1 (by omega) (strcmp_lt_trans _ _ _ hcon hlt)
    · rename_i hnlt
      apply ih (j + 1) m mi (by omega) hi (by omega) hm
      intro q h1 h2
      by_cases hq : q = j
      · rw [hq]; exact hnlt
      · exact hall q h1 (by omega)

theorem set_set_perm {α : Type} (d : α) : ∀ (l : List α) (i j : Nat),
    i < l.length → j < l.length → ((l.set i (l.getD j d)).set j (l.getD i d)).Perm l
  | [], i, j, h, _ => by simp at h
  | h :: t, 0, 0, _, _ => by simp
  | h :: t, 0, j + 1, _, hj => by
    simp only [List.getD_cons_succ, List.getD_cons_zero, List.set_cons_zero, List.set_cons_succ]
    exact getD_set_perm d t j h (by simpa using hj)
  | h :: t, i + 1, 0, hi, _ => by
    simp only [List.getD_cons_succ, List.getD_cons_zero, List.set_cons_zero, List.set_cons_succ]
    exact getD_set_perm d t i h (by simpa using hi)
  | h :: t, i + 1, j + 1, hi, hj => by
    have ih := set_set_perm d t i j (by simpa using hi) (by simpa using hj)
    simp only [List.getD_cons_succ, List.set_cons_succ]
    exact ih.cons h

theorem set_set_getD {α : Type} (d : α) (l : List α) (i j x : Nat)
    (hi : i < l.length) (hj : j < l.length) :
    ((l.set i (l.getD j d)).set j (l.getD i d)).getD x d
      = if x = j then l.getD i d else if x = i then l.getD j d else l.getD x d := by
  simp only [List.getD_eq_getElem?_getD, List.getElem?_set, List.length_set]
  by_cases h1 : x = j
  · subst h1; simp [hj]
  · by_cases h2 : x = i
    · subst h2; simp [hi, h1, Ne.symm h1]
    · simp [h1, h2, Ne.symm h1, Ne.symm h2]

/-- The sort of `duplicate_column_names` rearranges the names and leaves them in
non-decreasing order. -/
theorem column_names_sort_spec :
    ∀ (n i : Nat) (names : List CStr),
      i + n = names.length →
      (∀ p q, p < i → p < q → q < names.length →
        strcmp (names.getD p []) (names.getD q []) ≤ 0) →
      (column_names_sort n i names).Perm names
        ∧ ∀ p q, p < q → q < names.length →
          strcmp ((column_names_sort n i names).getD p [])
            ((column_names_sort n i names).getD q []) ≤ 0 := by
  intro n
  induction n with
  | zero =>
    intro i names hi hinv
    simp only [column_names_sort]
    exact ⟨List.Perm.refl _, fun p q h1 h2 => hinv p q (by omega) h1 h2⟩
  | succ n ih =>
    intro i names hi hinv
    have hs := column_names_scan_spec names i n (i + 1) (names.getD i []) i (by omega)
      (le_refl _) (by omega) rfl
      (by
        intro q h1 h2
        have : q = i := by omega
        rw [this, strcmp_self]; omega)
    simp only [column_names_sort]
    generalize column_names_scan names n (i + 1) (names.getD i []) i = res at hs
    obtain ⟨h1, h2, h3, h4⟩ := hs
    have hmin : ∀ q, i ≤ q → q < names.length →
        strcmp (names.getD res.2 []) (names.getD q []) ≤ 0 := by
      intro q hq1 hq2
      have := h4 q hq1 hq2
      rw [h3] at this
      rw [strcmp_swap]
      omega
    split
    · rename_i hne
      have hlen : ((names.set i (names.getD res.2 [])).set res.2 (names.getD i [])).length
          = names.length := by simp
      obtain ⟨hp, hs⟩ := ih (i + 1) ((names.set i (names.getD res.2 [])).set res.2 (names.getD i []))
        (by rw [hlen]; omega)
        (by
          intro p q hp1 hp2 hq
          rw [hlen] at hq
          rw [set_set_getD [] names i res.2 p (by omega) h2,
            set_set_getD [] names i res.2 q (by omega) h2]
          by_cases hpi : p = i
          · have hpm : p ≠ res.2 := by omega
            rw [if_neg hpm, if_pos hpi]
            split
            · exact hmin i (le_refl _) (by omega)
            · split
              · omega
              · exact hmin q (by omega) hq
          · have hpm : p ≠ res.2 := by omega
            rw [if_neg hpm, if_neg hpi]
            split
            · exact hinv p i (by omega) (by omega) (by omega)
            · split
              · exact hinv p res.2 (by omega) (by omega) h2
              · exact hinv p q (by omega) hp2 hq)
      rw [hlen] at hs
      exact ⟨hp.trans (set_set_perm [] names i res.2 (by omega) h2), hs⟩
    · rename_i heq
      have heq2 : i = res.2 := by
        by_contra h; exact heq h
      apply ih (i + 1) names (by omega)
      intro p q hp1 hp2 hq
      by_cases hpi : p = i
      · rw [hpi, heq2]; exact hmin q (by omega) hq
      · exact hinv p q (by omega) hp2 hq

theorem column_names_equal_spec : ∀ (l : List CStr) (rc : Int),
    (List.Chain' (fun a b : CStr => strcmp a b ≠ 0) l → column_names_equal l rc = rc)
      ∧ (¬ List.Chain' (fun a b : CStr => strcmp a b ≠ 0) l → column_names_equal l rc = 1)
  | [], rc => by simp [column_names_equal]
  | [a], rc => by simp [column_names_equal]
  | a :: b :: rest, rc => by
    have ih := column_names_equal_spec (b :: rest) (if strcmp a b = 0 then 1 else rc)
    rw [column_names_equal, List.chain'_cons]
    constructor
    · rintro ⟨h1, h2⟩
      rw [ih.1 h2, if_neg h1]
    · intro h
      by_cases h2 : List.Chain' (fun a b : CStr => strcmp a b ≠ 0) (b :: rest)
      · have h1 : strcmp a b = 0 := by
          by_contra hne
          exact h ⟨hne, h2⟩
        rw [ih.1 h2, if_pos h1]
      · exact ih.2 h2

theorem chain_lt_of_le_ne : ∀ l : List CStr,
    List.Pairwise (fun a b : CStr => strcmp a b ≤ 0) l →
    List.Chain' (fun a b : CStr => strcmp a b ≠ 0) l →
    List.Chain' (fun a b : CStr => strcmp a b < 0) l
  | [], _, _ => List.chain'_nil
  | [a], _, _ => List.chain'_singleton a
  | a :: b :: rest, hs, hc => by
    rw [List.chain'_cons] at hc ⊢
    rw [List.pairwise_cons] at hs
    have h1 := hs.1 b (List.mem_cons_self _ _)
    exact ⟨lt_of_le_of_ne h1 hc.1, chain_lt_of_le_ne (b :: rest) hs.2 hc.2⟩

/-- In a list of names in non-decreasing order, two equal names follow each other as soon
as a name occurs twice. -/
theorem chain_ne_iff_nodup (l : List CStr) (hnul : ∀ n ∈ l, ∀ c ∈ n, c ≠ Char.ofNat 0)
    (hs : List.Pairwise (fun a b : CStr => strcmp a b ≤ 0) l) :
    List.Chain' (fun a b : CStr => strcmp a b ≠ 0) l ↔ l.Nodup := by
  constructor
  · intro hc
    have hlt := chain_lt_of_le_ne l hs hc
    haveI : IsTrans CStr (fun a b => strcmp a b < 0) :=
      ⟨fun a b c h1 h2 => strcmp_lt_trans a b c h1 h2⟩
    have hp := List.chain'_iff_pairwise.mp hlt
    exact hp.imp (fun {a b} h e => by rw [e, strcmp_self] at h; omega)
  · intro hn
    have hp : List.Pairwise (fun a b : CStr => strcmp a b ≠ 0) l := by
      rw [List.Nodup] at hn
      rw [List.pairwise_iff_forall_sublist] at hn ⊢
      intro a b hab h0
      have ha := hab.subset (List.mem_cons_self _ _)
      have hb := hab.subset (List.mem_cons_of_mem _ (List.mem_singleton_self _))
      exact hn hab ((strcmp_eq_zero a b (hnul a ha) (hnul b hb)).mp h0)
    exact List.Pairwise.chain' hp

/-- The sort and the last loop of `duplicate_column_names` on the names that are not empty:
the value is 1 when a name occurs at two places of the row, 0 otherwise. -/
theorem column_names_result (names : List CStr)
    (hnames : ∀ n ∈ names, ∀ c ∈ n, c ≠ TAB ∧ c ≠ Char.ofNat 0) :
    (column_names_equal
          (column_names_sort (names.filter (fun n => n ≠ [])).length 0
            (names.filter (fun n => n ≠ []))) 0 = 1 ↔
        ∃ i j : Nat, i < j ∧ j < names.length ∧ names.getD i [] ≠ []
          ∧ names.getD i [] = names.getD j [])
      ∧ (column_names_equal
          (column_names_sort (names.filter (fun n => n ≠ [])).length 0
            (names.filter (fun n => n ≠ []))) 0 = 0 ↔
        ¬ ∃ i j : Nat, i < j ∧ j < names.length ∧ names.getD i [] ≠ []
          ∧ names.getD i [] = names.getD j []) := by
  obtain ⟨hperm, hsorted⟩ := column_names_sort_spec
    (names.filter (fun n => n ≠ [])).length 0 (names.filter (fun n => n ≠ []))
    (Nat.zero_add _) (by intro p q h; omega)
  generalize column_names_sort (names.filter (fun n => n ≠ [])).length 0
    (names.filter (fun n => n ≠ [])) = sorted at hperm hsorted
  have hpair : List.Pairwise (fun a b : CStr => strcmp a b ≤ 0) sorted := by
    rw [List.pairwise_iff_getElem]
    intro p q hp1 hq1 hpq
    have := hsorted p q hpq (by rw [← hperm.length_eq]; exact hq1)
    rw [List.getD_eq_getElem _ _ hp1, List.getD_eq_getElem _ _ hq1] at this
    exact this
  have hnul : ∀ n ∈ sorted, ∀ c ∈ n, c ≠ Char.ofNat 0 := by
    intro n hn c hc
    have := hperm.subset hn
    exact (hnames n (List.mem_of_mem_filter this) c hc).2
  have key : (names.filter (fun n => n ≠ [])).Nodup ↔
      ¬ ∃ i j : Nat, i < j ∧ j < names.length ∧ names.getD i [] ≠ []
        ∧ names.getD i [] = names.getD j [] := by
    rw [List.Nodup, List.pairwise_filter, List.pairwise_iff_getElem]
    constructor
    · rintro h ⟨i, j, hij, hj, hne, heq⟩
      have hi : i < names.length := by omega
      rw [List.getD_eq_getElem _ _ hi, List.getD_eq_getElem _ _ hj] at heq
      rw [List.getD_eq_getElem _ _ hi] at hne
      exact h i j hi hj hij (by simpa using hne) (by rw [← heq]; simpa using hne) heq
    · intro h i j hi hj hij h1 _ heq
      apply h
      refine ⟨i, j, hij, hj, ?_, ?_⟩
      · rw [List.getD_eq_getElem _ _ hi]; simpa using h1
      · rw [List.getD_eq_getElem _ _ hi, List.getD_eq_getElem _ _ hj]; exact heq
  have hch := chain_ne_iff_nodup sorted hnul hpair
  have heq := column_names_equal_spec sorted 0
  by_cases hd : ∃ i j : Nat, i < j ∧ j < names.length ∧ names.getD i [] ≠ []
      ∧ names.getD i [] = names.getD j []
  · have hnc : ¬ List.Chain' (fun a b : CStr => strcmp a b ≠ 0) sorted := by
      intro hc
      exact key.mp ((hperm.nodup_iff).mp (hch.mp hc)) hd
    rw [heq.2 hnc]
    exact ⟨⟨fun _ => hd, fun _ => rfl⟩, ⟨fun h => absurd h (by decide), fun h => absurd hd h⟩⟩
  · have hc : List.Chain' (fun a b : CStr => strcmp a b ≠ 0) sorted :=
      hch.mpr ((hperm.nodup_iff).mpr (key.mpr hd))
    rw [heq.1 hc]
    exact ⟨⟨fun h => absurd h (by decide), fun h => absurd h hd⟩, ⟨fun _ => hd, fun _ => rfl⟩⟩

/-- Claim C22, the code: for a heading row made of column names separated by tabs, each of
at most 18 characters, `duplicate_column_names` returns 1 if and only if some name that is
not empty occurs at two places of the row (compared character by character), and it returns
0 otherwise. When a name has 19 characters or more, the `strcpy` of that name writes past
the end of its block of 19 bytes and no value is defined. -/
theorem duplicate_names_detected (names : List CStr)
    (hnames : ∀ n ∈ names, ∀ c ∈ n, c ≠ TAB ∧ c ≠ Char.ofNat 0) :
    ((∀ n ∈ names, n.length < COLUMN_NAME_BLOCK) →
        (duplicate_column_names (spec_header names) = some 1 ↔
            ∃ i j : Nat, i < j ∧ j < names.length ∧ names.getD i [] ≠ []
              ∧ names.getD i [] = names.getD j [])
          ∧ (duplicate_column_names (spec_header names) = some 0 ↔
            ¬ ∃ i j : Nat, i < j ∧ j < names.length ∧ names.getD i [] ≠ []
              ∧ names.getD i [] = names.getD j []))
      ∧ ((∃ n ∈ names, COLUMN_NAME_BLOCK ≤ n.length) →
        duplicate_column_names (spec_header names) = none) := by
  have htab : ∀ n ∈ names, TAB ∉ n := fun n hn h => (hnames n hn TAB h).1 rfl
  unfold duplicate_column_names
  rw [column_names_loop_header names _ [] htab (le_refl _), List.nil_append]
  constructor
  · intro hfit
    have hall : (names.filter (fun n => n ≠ [])).all
        (fun name => name.length < COLUMN_NAME_BLOCK) = true := by
      rw [List.all_eq_true]
      intro n hn
      exact decide_eq_true (hfit n (List.mem_of_mem_filter hn))
    rw [if_pos hall]
    simp only [Option.some.injEq]
    exact column_names_result names hnames
  · rintro ⟨n, hn, hlen⟩
    rw [if_neg]
    intro hall
    rw [List.all_eq_true] at hall
    have hne : n ≠ [] := by
      intro e
      rw [e] at hlen
      revert hlen
      decide
    have hlt := hall n (List.mem_filter.mpr ⟨hn, by simpa using hne⟩)
    rw [decide_eq_true_eq] at hlt
    omega

set_option maxRecDepth 8000 in
/-- A heading row in which LABEL occurs twice, one without repetition but with two empty
names, and one with a name of 19 characters. -/
theorem duplicate_names_detected_witness :
    duplicate_column_names (spec_header ["LABEL".toList, "SIZE".toList, [], "LABEL".toList])
        = some 1
      ∧ duplicate_column_names (spec_header ["LABEL".toList, [], "SIZE".toList, []]) = some 0
      ∧ duplicate_column_names (spec_header ["LABEL".toList, "STERILITYSTATEMENTS".toList])
        = none :=
  ⟨((duplicate_names_detected ["LABEL".toList, "SIZE".toList, [], "LABEL".toList]
      (by decide)).1 (by decide)).1.mpr ⟨0, 3, by decide, by decide, by decide, by decide⟩,
    by decide,
    (duplicate_names_detected ["LABEL".toList, "STERILITYSTATEMENTS".toList] (by decide)).2
      ⟨"STERILITYSTATEMENTS".toList, by decide, by decide⟩⟩

/-! ### The columns of the heading row -/

theorem ite_prop {α : Type} (P : α → Prop) (c : Prop) [Decidable c] (a b : α)
    (ha : c → P a) (hb : ¬ c → P b) : P (if c then a else b) := by
  split
  · rename_i h; exact ha h
  · rename_i h; exact hb h

theorem for_each_row_length (rows : List CStr) (count : Nat)
    (set : CStr → Int → Label_record → Label_record) (labels : List Label_record)
    (h : labels.length = rows.length) :
    (for_each_row rows count set labels).length = rows.length := by
  unfold for_each_row
  rw [List.length_zipWith, h, min_self]

/-- A column other than MATERIAL and PCODE leaves the two flags of `parse_spreadsheet` as
they are and does not end the function. -/
theorem parse_column_other (cfg : Config) (rows : List CStr) (token : CStr) (count : Nat)
    (ps : ParseState)
    (h : ¬ (strcmp token "MATERIAL".toList = 0 ∨ strcmp token "PCODE".toList = 0)) :
    (parse_column cfg rows token count ps).1 = false
      ∧ (parse_column cfg rows token count ps).2.material = ps.material
      ∧ (parse_column cfg rows token count ps).2.pcode = ps.pcode := by
  unfold parse_column
  refine ite_prop (fun x : Bool × ParseState => x.1 = false ∧ x.2.material = ps.material ∧ x.2.pcode = ps.pcode)
    _ _ _ (fun _ => ⟨rfl, rfl, rfl⟩) (fun _ => ?_)
  refine ite_prop (fun x : Bool × ParseState => x.1 = false ∧ x.2.material = ps.material ∧ x.2.pcode = ps.pcode)
    _ _ _ (fun hc => absurd hc h) (fun _ => ?_)
  repeat' (first
    | exact ⟨rfl, rfl, rfl⟩
    | refine ite_prop
        (fun x : Bool × ParseState => x.1 = false ∧ x.2.material = ps.material ∧ x.2.pcode = ps.pcode)
        _ _ _ (fun _ => ?_) (fun _ => ?_))

theorem parse_loop_nil (cfg : Config) (rows : List CStr) (fuel count : Nat) (ps : ParseState) :
    parse_loop cfg rows fuel [] count ps = ((count : Int), ps) := by
  cases fuel <;> simp [parse_loop]

/-- One turn of the loop of `parse_spreadsheet` on a heading that is followed by a tab. -/
theorem parse_loop_tab (cfg : Config) (rows : List CStr) (fuel count : Nat) (ps : ParseState)
    (n rest : CStr) (hn : TAB ∉ n) :
    parse_loop cfg rows (fuel + 1) (n ++ TAB :: rest) count ps =
      if (parse_column cfg rows n count ps).1 then (-1, (parse_column cfg rows n count ps).2)
      else parse_loop cfg rows fuel rest ((count + 1) % 65536)
        (parse_column cfg rows n count ps).2 := by
  rw [parse_loop, if_pos (by simp), get_token_tab n rest hn]

/-- The turn of the loop of `parse_spreadsheet` on the last heading. -/
theorem parse_loop_last (cfg : Config) (rows : List CStr) (fuel count : Nat) (ps : ParseState)
    (n : CStr) (hn : TAB ∉ n) (hne : n ≠ []) :
    parse_loop cfg rows (fuel + 1) n count ps =
      if (parse_column cfg rows n count ps).1 then (-1, (parse_column cfg rows n count ps).2)
      else ((((count + 1) % 65536 : Nat) : Int), (parse_column cfg rows n count ps).2) := by
  rw [parse_loop, if_pos (List.length_pos.mpr hne), get_token_last n hn hne, parse_loop_nil]

/-- The MATERIAL or PCODE column: the flag of the heading is set, and the function ends
with -1 when both flags are set. -/
theorem parse_column_material_pcode (cfg : Config) (rows : List CStr) (token : CStr)
    (count : Nat) (ps : ParseState)
    (hl : strcmp token "LABEL".toList ≠ 0)
    (h : strcmp token "MATERIAL".toList = 0 ∨ strcmp token "PCODE".toList = 0) :
    (parse_column cfg rows token count ps).2.material
        = (ps.material || decide (strcmp token "MATERIAL".toList = 0))
      ∧ (parse_column cfg rows token count ps).2.pcode
        = (ps.pcode || !decide (strcmp token "MATERIAL".toList = 0))
      ∧ (parse_column cfg rows token count ps).1
        = ((ps.pcode || !decide (strcmp token "MATERIAL".toList = 0))
            && (ps.material || decide (strcmp token "MATERIAL".toList = 0))) := by
  unfold parse_column
  rw [if_neg hl, if_pos h]
  unfold material_or_pcode
  by_cases hm : strcmp token "MATERIAL".toList = 0
  · simp only [hm, if_true, decide_True, Bool.or_true, Bool.not_true, Bool.or_false]
    cases hp : ps.pcode <;> simp [hp, ParseState.report]
  · simp only [hm, if_false, decide_False, Bool.or_false, Bool.not_false, Bool.or_true,
      Bool.true_and]
    cases hp : ps.material <;> simp [hp, ParseState.report]

/-- The value that the loop of `parse_spreadsheet` returns on a heading row made of the
names `names`, from a turn at which the two flags are not both set. -/
theorem parse_loop_abort (cfg : Config) (rows : List CStr) :
    ∀ (names : List CStr) (fuel count : Nat) (ps : ParseState),
      (∀ n ∈ names, ∀ c ∈ n, c ≠ TAB ∧ c ≠ Char.ofNat 0) →
      (spec_header names).length ≤ fuel →
      ¬ (ps.material = true ∧ ps.pcode = true) →
      ((parse_loop cfg rows fuel (spec_header names) count ps).1 = -1 ↔
          (ps.material = true ∨ "MATERIAL".toList ∈ names)
            ∧ (ps.pcode = true ∨ "PCODE".toList ∈ names))
        ∧ ((parse_loop cfg rows fuel (spec_header names) count ps).1 = -1
            ∨ 0 ≤ (parse_loop cfg rows fuel (spec_header names) count ps).1) := by
  have hstep : ∀ (n : CStr) (count : Nat) (ps : ParseState),
      (∀ c ∈ n, c ≠ TAB ∧ c ≠ Char.ofNat 0) → ¬ (ps.material = true ∧ ps.pcode = true) →
      (parse_column cfg rows n count ps).2.material
          = (ps.material || decide (n = "MATERIAL".toList))
        ∧ (parse_column cfg rows n count ps).2.pcode
          = (ps.pcode || decide (n = "PCODE".toList))
        ∧ (parse_column cfg rows n count ps).1
          = ((ps.pcode || decide (n = "PCODE".toList))
              && (ps.material || decide (n = "MATERIAL".toList))) := by
    intro n count ps hn hinv
    have hnul : ∀ c ∈ n, c ≠ Char.ofNat 0 := fun c hc => (hn c hc).2
    have eM : strcmp n "MATERIAL".toList = 0 ↔ n = "MATERIAL".toList :=
      strcmp_eq_zero _ _ hnul (by decide)
    have eP : strcmp n "PCODE".toList = 0 ↔ n = "PCODE".toList :=
      strcmp_eq_zero _ _ hnul (by decide)
    have eL : strcmp n "LABEL".toList = 0 ↔ n = "LABEL".toList :=
      strcmp_eq_zero _ _ hnul (by decide)
    by_cases hmp : strcmp n "MATERIAL".toList = 0 ∨ strcmp n "PCODE".toList = 0
    · have hl : strcmp n "LABEL".toList ≠ 0 := by
        rw [Ne, eL]
        rintro rfl
        revert hmp
        decide
      obtain ⟨h1, h2, h3⟩ := parse_column_material_pcode cfg rows n count ps hl hmp
      have hd : decide (strcmp n "MATERIAL".toList = 0) = decide (n = "MATERIAL".toList) :=
        decide_eq_decide.mpr eM
      rw [h1, h2, h3, hd]
      rcases hmp with hm | hp
      · have e := eM.mp hm
        have b1 : decide (n = "MATERIAL".toList) = true := decide_eq_true e
        have b2 : decide (n = "PCODE".toList) = false := decide_eq_false (by rw [e]; decide)
        rw [b1, b2]
        simp
      · have e := eP.mp hp
        have b1 : decide (n = "MATERIAL".toList) = false := decide_eq_false (by rw [e]; decide)
        have b2 : decide (n = "PCODE".toList) = true := decide_eq_true e
        rw [b1, b2]
        simp
    · obtain ⟨h1, h2, h3⟩ := parse_column_other cfg rows n count ps hmp
      rw [h1, h2, h3]
      rw [eM, eP] at hmp
      push_neg at hmp
      simp only [hmp.1, hmp.2, decide_False, Bool.or_false]
      cases hm : ps.material <;> cases hp : ps.pcode <;> simp_all
  intro names
  induction names with
  | nil =>
    intro fuel count ps _ _ hinv
    simp only [spec_header, parse_loop_nil, List.not_mem_nil, or_false]
    constructor
    · constructor
      · intro h; omega
      · intro h; exact absurd h hinv
    · right; omega
  | cons n rest ih =>
    intro fuel count ps hnames hfuel hinv
    have hn := hnames n (List.mem_cons_self _ _)
    have hntab : TAB ∉ n := fun h => (hn TAB h).1 rfl
    obtain ⟨h1, h2, h3⟩ := hstep n count ps hn hinv
    cases rest with
    | nil =>
      simp only [spec_header] at hfuel ⊢
      by_cases hne : n = []
      · subst hne
        simp only [parse_loop_nil, List.mem_singleton]
        have e1 : ("MATERIAL".toList = ([] : CStr)) = False := by decide
        have e2 : ("PCODE".toList = ([] : CStr)) = False := by decide
        rw [e1, e2]
        simp only [or_false]
        constructor
        · constructor
          · intro h; omega
          · intro h; exact absurd h hinv
        · right; omega
      · obtain ⟨fuel, rfl⟩ : ∃ f, fuel = f + 1 := by
          have := List.length_pos.mpr hne
          exact ⟨fuel - 1, by omega⟩
        rw [parse_loop_last cfg rows fuel count ps n hntab hne, h3]
        simp only [List.mem_singleton]
        by_cases hb : ((ps.pcode || decide (n = "PCODE".toList))
            && (ps.material || decide (n = "MATERIAL".toList))) = true
        · rw [if_pos hb]
          simp only [true_iff, true_or, and_true]
          simp only [Bool.and_eq_true, Bool.or_eq_true, decide_eq_true_eq] at hb
          exact ⟨by rcases hb.2 with h | h; exact Or.inl h; exact Or.inr h.symm,
            by rcases hb.1 with h | h; exact Or.inl h; exact Or.inr h.symm⟩
        · rw [if_neg hb]
          simp only [Bool.and_eq_true, Bool.or_eq_true, decide_eq_true_eq] at hb
          constructor
          · constructor
            · intro h
              simp only at h
              omega
            · rintro ⟨hm, hp⟩
              exact (hb ⟨by rcases hp with h | h; exact Or.inl h; exact Or.inr h.symm,
                by rcases hm with h | h; exact Or.inl h; exact Or.inr h.symm⟩).elim
          · right
            simp only
            omega
    | cons m rest =>
      simp only [spec_header] at hfuel ⊢
      obtain ⟨fuel, rfl⟩ : ∃ f, fuel = f + 1 := by
        simp at hfuel
        exact ⟨fuel - 1, by omega⟩
      rw [parse_loop_tab cfg rows fuel count ps n _ hntab, h3]
      by_cases hb : ((ps.pcode || decide (n = "PCODE".toList))
          && (ps.material || decide (n = "MATERIAL".toList))) = true
      · rw [if_pos hb]
        simp only [true_iff, true_or, and_true]
        simp only [Bool.and_eq_true, Bool.or_eq_true, decide_eq_true_eq] at hb
        refine ⟨by rcases hb.2 with h | h; exact Or.inl h; right; rw [h]; simp,
          by rcases hb.1 with h | h; exact Or.inl h; right; rw [h]; simp⟩
      · rw [if_neg hb]
        have hinv2 : ¬ ((parse_column cfg rows n count ps).2.material = true
            ∧ (parse_column cfg rows n count ps).2.pcode = true) := by
          rw [h1, h2]
          intro hc
          apply hb
          rw [Bool.and_eq_true]
          exact ⟨hc.2, hc.1⟩
        have := ih fuel ((count + 1) % 65536) (parse_column cfg rows n count ps).2
          (fun x hx => hnames x (List.mem_cons_of_mem _ hx))
          (by simp at hfuel ⊢; omega) hinv2
        refine ⟨this.1.trans ?_, this.2⟩
        rw [h1, h2]
        simp only [Bool.or_eq_true, decide_eq_true_eq, List.mem_cons]
        constructor
        · rintro ⟨hm, hp⟩
          refine ⟨?_, ?_⟩
          · rcases hm with (h | h) | h
            · exact Or.inl h
            · exact Or.inr (Or.inl h.symm)
            · exact Or.inr (Or.inr h)
          · rcases hp with (h | h) | h
            · exact Or.inl h
            · exact Or.inr (Or.inl h.symm)
            · exact Or.inr (Or.inr h)
        · rintro ⟨hm, hp⟩
          refine ⟨?_, ?_⟩
          · rcases hm with h | h | h
            · exact Or.inl (Or.inl h)
            · exact Or.inl (Or.inr h.symm)
            · exact Or.inr h
          · rcases hp with h | h | h
            · exact Or.inl (Or.inl h)
            · exact Or.inl (Or.inr h.symm)
            · exact Or.inr h

/-- Claim C23: for a heading row made of column names separated by tabs, `parse_spreadsheet`
returns -1 if and only if both the name MATERIAL and the name PCODE are in the row, and a
count that is not negative otherwise. -/
theorem material_and_pcode (cfg : Config) (rows : List CStr) (labels : List Label_record)
    (names : List CStr) (hnames : ∀ n ∈ names, ∀ c ∈ n, c ≠ TAB ∧ c ≠ Char.ofNat 0) :
    ((parse_spreadsheet cfg (spec_header names) rows labels).1 = -1 ↔
        "MATERIAL".toList ∈ names ∧ "PCODE".toList ∈ names)
      ∧ ((parse_spreadsheet cfg (spec_header names) rows labels).1 = -1
          ∨ 0 ≤ (parse_spreadsheet cfg (spec_header names) rows labels).1) := by
  unfold parse_spreadsheet
  have h := parse_loop_abort cfg rows names (spec_header names).length 0
    { labels := labels, material := false, pcode := false, stdout := [] } hnames (le_refl _)
    (by simp)
  simpa using h

/-- A heading row with MATERIAL and PCODE, and one with PCODE only. -/
theorem material_and_pcode_witness :
    (((parse_spreadsheet sample_config
            (spec_header ["LABEL".toList, "PCODE".toList, "SIZE".toList, "MATERIAL".toList])
            ["LBL001\tP1\tBOX\tM1".toList] (calloc_labels ["LBL001\tP1\tBOX\tM1".toList])).1 = -1 ↔
          "MATERIAL".toList
              ∈ ["LABEL".toList, "PCODE".toList, "SIZE".toList, "MATERIAL".toList]
            ∧ "PCODE".toList
              ∈ ["LABEL".toList, "PCODE".toList, "SIZE".toList, "MATERIAL".toList])
      ∧ ((parse_spreadsheet sample_config
            (spec_header ["LABEL".toList, "PCODE".toList, "SIZE".toList, "MATERIAL".toList])
            ["LBL001\tP1\tBOX\tM1".toList] (calloc_labels ["LBL001\tP1\tBOX\tM1".toList])).1 = -1
          ∨ 0 ≤ (parse_spreadsheet sample_config
            (spec_header ["LABEL".toList, "PCODE".toList, "SIZE".toList, "MATERIAL".toList])
            ["LBL001\tP1\tBOX\tM1".toList] (calloc_labels ["LBL001\tP1\tBOX\tM1".toList])).1))
    ∧ (parse_spreadsheet sample_config
          (spec_header ["LABEL".toList, "PCODE".toList, "SIZE".toList, "MATERIAL".toList])
          ["LBL001\tP1\tBOX\tM1".toList] (calloc_labels ["LBL001\tP1\tBOX\tM1".toList])).1 = -1
    ∧ (parse_spreadsheet sample_config
          (spec_header ["LABEL".toList, "PCODE".toList, "SIZE".toList])
          ["LBL001\tP1\tBOX".toList] (calloc_labels ["LBL001\tP1\tBOX".toList])).1 = 3 :=
  ⟨material_and_pcode sample_config _ _ _ (by decide), by decide, by decide⟩

/-! ### What the columns leave unchanged -/

theorem for_each_row_map {α : Type} (proj : Label_record → α) (count : Nat)
    (set : CStr → Int → Label_record → Label_record)
    (hset : ∀ c l r, proj (set c l r) = proj r) :
    ∀ (rows : List CStr) (labels : List Label_record), labels.length = rows.length →
      (for_each_row rows count set labels).map proj = labels.map proj
  | [], [], _ => rfl
  | [], _ :: _, h => by simp at h
  | _ :: _, [], h => by simp at h
  | row :: rows, r :: labels, h => by
    have ih := for_each_row_map proj count set hset rows labels (by simpa using h)
    unfold for_each_row at ih ⊢
    simp only [List.zipWith_cons_cons, List.map_cons, hset, ih]

theorem material_or_pcode_labels (token : CStr) (ps : ParseState) :
    (material_or_pcode token ps).2.labels = ps.labels := by
  unfold material_or_pcode
  simp only
  split <;> split <;> rfl

/-- A property of the parse state that every column keeps is kept by the loop of
`parse_spreadsheet`. -/
theorem parse_loop_invariant (cfg : Config) (rows : List CStr) (Inv : ParseState → Prop)
    (hstep : ∀ token count ps, Inv ps → Inv (parse_column cfg rows token count ps).2) :
    ∀ (fuel : Nat) (buffer : CStr) (count : Nat) (ps : ParseState), Inv ps →
      Inv (parse_loop cfg rows fuel buffer count ps).2
  | 0, _, _, _, h => h
  | fuel + 1, buffer, count, ps, h => by
    rw [parse_loop]
    split
    · split
      · exact hstep _ _ _ h
      · exact parse_loop_invariant cfg rows Inv hstep fuel _ _ _ (hstep _ _ _ h)
    · exact h

theorem frame_step {α : Type} (proj : Label_record → α) (rows : List CStr) (count : Nat)
    (set : CStr → Int → Label_record → Label_record) (ps : ParseState) (b : Bool)
    (hset : ∀ c l r, proj (set c l r) = proj r) (hlen : ps.labels.length = rows.length) :
    ((b, { ps with labels := for_each_row rows count set ps.labels }) :
        Bool × ParseState).2.labels.map proj = ps.labels.map proj
      ∧ ((b, { ps with labels := for_each_row rows count set ps.labels }) :
        Bool × ParseState).2.labels.length = rows.length :=
  ⟨for_each_row_map proj count set hset rows ps.labels hlen,
    for_each_row_length rows count set ps.labels hlen⟩

/-- With the switch `non_SAP_fields` off, no column changes the attributes gtin,
description, oldlabel, oldtemplate, prevlabel and prevtemplate. -/
theorem parse_column_non_SAP (cfg : Config) (rows : List CStr) (token : CStr) (count : Nat)
    (ps : ParseState) (hflag : cfg.non_SAP_fields = false)
    (hlen : ps.labels.length = rows.length) :
    (parse_column cfg rows token count ps).2.labels.map
        (fun r => (r.gtin, r.description, r.oldlabel, r.oldtemplate, r.prevlabel,
          r.prevtemplate))
      = ps.labels.map
        (fun r => (r.gtin, r.description, r.oldlabel, r.oldtemplate, r.prevlabel,
          r.prevtemplate))
    ∧ (parse_column cfg rows token count ps).2.labels.length = rows.length := by
  unfold parse_column
  refine ite_prop (fun x : Bool × ParseState =>
      x.2.labels.map (fun r => (r.gtin, r.description, r.oldlabel, r.oldtemplate, r.prevlabel,
          r.prevtemplate))
        = ps.labels.map (fun r => (r.gtin, r.description, r.oldlabel, r.oldtemplate,
          r.prevlabel, r.prevtemplate))
      ∧ x.2.labels.length = rows.length) _ _ _
    (fun _ => frame_step _ _ _ _ _ _ (fun _ _ _ => rfl) hlen) (fun _ => ?_)
  refine ite_prop (fun x : Bool × ParseState =>
      x.2.labels.map (fun r => (r.gtin, r.description, r.oldlabel, r.oldtemplate, r.prevlabel,
          r.prevtemplate))
        = ps.labels.map (fun r => (r.gtin, r.description, r.oldlabel, r.oldtemplate,
          r.prevlabel, r.prevtemplate))
      ∧ x.2.labels.length = rows.length) _ _ _
    (fun _ => ?_) (fun _ => ?_)
  · simp only [material_or_pcode_labels]
    exact ⟨for_each_row_map _ _ _ (fun _ _ _ => by rfl) _ _ hlen,
      for_each_row_length _ _ _ _ hlen⟩
  repeat' (first
    | exact absurd ‹cfg.non_SAP_fields = true› (by rw [hflag]; decide)
    | exact ⟨rfl, hlen⟩
    | exact frame_step _ _ _ _ _ _ (fun _ _ _ => by repeat' (first | rfl | split)) hlen
    | refine ite_prop (fun x : Bool × ParseState =>
          x.2.labels.map (fun r => (r.gtin, r.description, r.oldlabel, r.oldtemplate,
              r.prevlabel, r.prevtemplate))
            = ps.labels.map (fun r => (r.gtin, r.description, r.oldlabel, r.oldtemplate,
              r.prevlabel, r.prevtemplate))
          ∧ x.2.labels.length = rows.length) _ _ _
        (fun _ => ?_) (fun _ => ?_))

/-- The column IPN stores the cell of every row in `ipn`, whatever the switches are. -/
theorem parse_column_IPN (cfg : Config) (rows : List CStr) (count : Nat) (ps : ParseState) :
    parse_column cfg rows "IPN".toList count ps =
      (false,
        { ps with
          labels := for_each_row rows count
            (fun contents _ r => { r with ipn := strncpy contents MED }) ps.labels }) := by
  unfold parse_column
  repeat (rw [if_neg (show ¬ _ from by decide)])
  rw [if_pos (show _ from by decide)]

set_option maxRecDepth 8000 in
/-- The columns IPN and GTIN read with the switch off: the cell of the column IPN is in
`ipn` after `parse_spreadsheet`, the cell of the column GTIN is not in `gtin`. -/
theorem non_SAP_ipn_counterexample :
    sample_config.non_SAP_fields = false
      ∧ (parse_spreadsheet sample_config "LABEL\tIPN\tGTIN".toList ["L1\tX9\t123".toList]
          (calloc_labels ["L1\tX9\t123".toList])).2.labels.map (fun r => (r.ipn, r.gtin))
        = [("X9".toList, [])] := by
  decide

/-- Claim C24, the code: when `non_SAP_fields` is off, `parse_spreadsheet` leaves the
attributes gtin, description, oldlabel, oldtemplate, prevlabel and prevtemplate of every
record as they were, whatever the table holds. The branch of the column IPN has no test of
the switch: the column IPN is read into `ipn` whatever the switch is. -/
theorem non_SAP_columns_ignored (cfg : Config) (buffer : CStr) (rows : List CStr)
    (labels : List Label_record) (count : Nat) (ps : ParseState)
    (hflag : cfg.non_SAP_fields = false) (hlen : labels.length = rows.length) :
    (parse_spreadsheet cfg buffer rows labels).2.labels.map
        (fun r => (r.gtin, r.description, r.oldlabel, r.oldtemplate, r.prevlabel,
          r.prevtemplate))
      = labels.map
        (fun r => (r.gtin, r.description, r.oldlabel, r.oldtemplate, r.prevlabel,
          r.prevtemplate))
    ∧ (parse_column cfg rows "IPN".toList count ps).2.labels
      = for_each_row rows count (fun contents _ r => { r with ipn := strncpy contents MED })
          ps.labels := by
  refine ⟨?_, by rw [parse_column_IPN]⟩
  have h := parse_loop_invariant cfg rows
    (fun ps => ps.labels.map
        (fun r => (r.gtin, r.description, r.oldlabel, r.oldtemplate, r.prevlabel,
          r.prevtemplate))
      = labels.map
        (fun r => (r.gtin, r.description, r.oldlabel, r.oldtemplate, r.prevlabel,
          r.prevtemplate))
      ∧ ps.labels.length = rows.length)
    (fun token count ps hps => by
      have := parse_column_non_SAP cfg rows token count ps hflag hps.2
      exact ⟨this.1.trans hps.1, this.2⟩)
    buffer.length buffer 0
    { labels := labels, material := false, pcode := false, stdout := [] } ⟨rfl, hlen⟩
  exact h.1

set_option maxRecDepth 8000 in
/-- A table with the columns LABEL, IPN and GTIN, read with the switch off. -/
theorem non_SAP_columns_ignored_witness :
    (parse_spreadsheet sample_config "LABEL\tIPN\tGTIN".toList ["L1\tX9\t123".toList]
          (calloc_labels ["L1\tX9\t123".toList])).2.labels.map
        (fun r => (r.gtin, r.description, r.oldlabel, r.oldtemplate, r.prevlabel,
          r.prevtemplate))
      = (calloc_labels ["L1\tX9\t123".toList]).map
        (fun r => (r.gtin, r.description, r.oldlabel, r.oldtemplate, r.prevlabel,
          r.prevtemplate))
    ∧ (parse_column sample_config ["L1\tX9\t123".toList] "IPN".toList 1
          { labels := calloc_labels ["L1\tX9\t123".toList], material := false, pcode := false,
            stdout := [] }).2.labels
      = for_each_row ["L1\tX9\t123".toList] 1
          (fun contents _ r => { r with ipn := strncpy contents MED })
          (calloc_labels ["L1\tX9\t123".toList]) :=
  non_SAP_columns_ignored sample_config "LABEL\tIPN\tGTIN".toList ["L1\tX9\t123".toList]
    (calloc_labels ["L1\tX9\t123".toList]) 1
    { labels := calloc_labels ["L1\tX9\t123".toList], material := false, pcode := false,
      stdout := [] } rfl rfl

/-! ### The yes/no columns -/

theorem for_each_row_getD (count : Nat) (set : CStr → Int → Label_record → Label_record) :
    ∀ (rows : List CStr) (labels : List Label_record) (i : Nat),
      labels.length = rows.length → i < rows.length →
      (for_each_row rows count set labels).getD i {} =
        set (get_field_contents_from_row (rows.getD i []) count TAB).1
          (get_field_contents_from_row (rows.getD i []) count TAB).2 (labels.getD i {})
  | [], _, _, _, hi => by simp at hi
  | _ :: _, [], _, h, _ => by simp at h
  | row :: rows, r :: labels, 0, _, _ => by
    simp [for_each_row]
  | row :: rows, r :: labels, i + 1, h, hi => by
    have ih := for_each_row_getD count set rows labels i (by simpa using h) (by simpa using hi)
    unfold for_each_row at ih ⊢
    simpa using ih

/-- Each yes/no column runs the loop over the rows with a setter that stores 2 for a yes
cell and, except in the column KEEPDRY, 1 for a no cell, and leaves the flag otherwise. -/
theorem flag_columns_spec : ∀ p ∈ flag_columns, ∀ (cfg : Config) (rows : List CStr)
    (count : Nat) (ps : ParseState),
    ∃ set : CStr → Int → Label_record → Label_record,
      parse_column cfg rows p.1 count ps
          = (false, { ps with labels := for_each_row rows count set ps.labels })
        ∧ ∀ c l r, p.2 (set c l r) =
            if equals_yes c = true then 2
            else if equals_no c = true ∧ p.1 ≠ "KEEPDRY".toList then 1
            else p.2 r := by
  unfold flag_columns
  repeat' (first
    | exact List.forall_mem_nil _
    | refine List.forall_mem_cons.mpr ⟨?_, ?_⟩)
  all_goals
    intro cfg rows count ps
    refine Exists.intro ?_ (And.intro ?_ ?_)
    rotate_left
    · unfold parse_column
      repeat (rw [if_neg (show ¬ _ from by decide)])
      rw [if_pos (show _ from by decide)]
      exact rfl
    · intro c l r
      by_cases hy : equals_yes c = true
      · simp only [if_pos hy]
      · by_cases hn : equals_no c = true
        · simp +decide only [if_neg hy, if_pos hn, hn, true_and, ne_eq, not_true_eq_false,
            not_false_eq_true, if_true, if_false]
        · simp only [if_neg hy, if_neg hn, hn, false_and, if_false, Bool.false_eq_true]

theorem tolower_ne_zero (c : Char) (h : c ≠ Char.ofNat 0) : tolower c ≠ Char.ofNat 0 := by
  unfold tolower Char.toLower
  simp only []
  split
  · rename_i hr
    intro e
    have hc : c = Char.ofNat c.toNat := (Char.ofNat_toNat c).symm
    generalize c.toNat = n at hr hc e
    obtain ⟨h1, h2⟩ := hr
    have h1 : 65 ≤ n := h1
    interval_cases n <;> exact absurd e (by decide)
  · exact h

/-- On strings without NUL, `strcasecmp` gives 0 exactly for strings that are equal
ignoring case. -/
theorem strcasecmp_eq_zero (a b : CStr) (ha : ∀ c ∈ a, c ≠ Char.ofNat 0)
    (hb : ∀ c ∈ b, c ≠ Char.ofNat 0) :
    strcasecmp a b = 0 ↔ spec_equals_ignoring_case a b := by
  rw [strcasecmp_eq_strcmp, strcmp_eq_zero]
  · exact Iff.rfl
  · intro c hc
    obtain ⟨d, hd, rfl⟩ := List.mem_map.mp hc
    exact tolower_ne_zero d (ha d hd)
  · intro c hc
    obtain ⟨d, hd, rfl⟩ := List.mem_map.mp hc
    exact tolower_ne_zero d (hb d hd)

theorem equals_yes_spec (f : CStr) (hf : ∀ c ∈ f, c ≠ Char.ofNat 0) :
    equals_yes f = true ↔
      spec_equals_ignoring_case f "Y".toList ∨ spec_equals_ignoring_case f "Yes".toList := by
  unfold equals_yes
  rw [Bool.or_eq_true, beq_iff_eq, beq_iff_eq, strcasecmp_eq_zero f _ hf (by decide),
    strcasecmp_eq_zero f _ hf (by decide)]

theorem equals_no_spec (f : CStr) (hf : ∀ c ∈ f, c ≠ Char.ofNat 0) :
    equals_no f = true ↔
      spec_equals_ignoring_case f "N".toList ∨ spec_equals_ignoring_case f "No".toList := by
  unfold equals_no
  rw [Bool.or_eq_true, beq_iff_eq, beq_iff_eq, strcasecmp_eq_zero f _ hf (by decide),
    strcasecmp_eq_zero f _ hf (by decide)]
  unfold spec_equals_ignoring_case
  rw [show "NO".toList.map Char.toLower = "No".toList.map Char.toLower from by decide]

theorem ite_pair_fst {α β : Type} (c : Prop) [Decidable c] (a : α) (x y : β) :
    (if c then (a, x) else (a, y)).1 = a := by
  split <;> rfl

/-- The characters of a cell are characters of its row. -/
theorem get_field_contents_from_row_mem (row : CStr) (count : Int) (tab_str : Char) (c : Char)
    (h : c ∈ (get_field_contents_from_row row count tab_str).1) : c ∈ row := by
  unfold get_field_contents_from_row at h
  simp only [ite_pair_fst] at h
  have key : ∀ (l : CStr), (∀ x ∈ l, x ∈ row) → ∀ (p : Prop) [Decidable p] (q : Prop)
      [Decidable q] (n : Nat), ∀ x ∈ (if p then (if q then l.take n else l) else l),
      x ∈ row := by
    intro l hl p _ q _ n x hx
    split at hx
    · split at hx
      · exact hl x (List.mem_of_mem_take hx)
      · exact hl x hx
    · exact hl x hx
  exact key _ (fun x hx => List.mem_of_mem_drop (List.mem_of_mem_take hx)) _ _ _ c h

/-- Claim C25, the code: for a yes/no column `heading` with flag `flag`, and a data row
without NUL, the flag of the row's record after the column is 2 when the cell (as
`get_field_contents_from_row` delivers it) equals "Y" or "Yes" ignoring case, 1 when it
equals "N" or "No" ignoring case and the column is not KEEPDRY, and unchanged otherwise; in
particular the column KEEPDRY leaves the flag unchanged for a cell "N" or "No". -/
theorem flag_column_tri_state (cfg : Config) (rows : List CStr) (count : Nat)
    (ps : ParseState) (heading : CStr) (flag : Label_record → Nat) (i : Nat)
    (hcol : (heading, flag) ∈ flag_columns)
    (hlen : ps.labels.length = rows.length) (hi : i < rows.length)
    (hrow : ∀ c ∈ rows.getD i [], c ≠ Char.ofNat 0) :
    flag ((parse_column cfg rows heading count ps).2.labels.getD i {}) =
      if spec_equals_ignoring_case
            (get_field_contents_from_row (rows.getD i []) count TAB).1 "Y".toList
          ∨ spec_equals_ignoring_case
            (get_field_contents_from_row (rows.getD i []) count TAB).1 "Yes".toList then 2
      else if (spec_equals_ignoring_case
            (get_field_contents_from_row (rows.getD i []) count TAB).1 "N".toList
          ∨ spec_equals_ignoring_case
            (get_field_contents_from_row (rows.getD i []) count TAB).1 "No".toList)
          ∧ heading ≠ "KEEPDRY".toList then 1
      else flag (ps.labels.getD i {}) := by
  obtain ⟨set, hset, hflag⟩ := flag_columns_spec _ hcol cfg rows count ps
  simp only [] at hset hflag
  have hcell : ∀ c ∈ (get_field_contents_from_row (rows.getD i []) count TAB).1,
      c ≠ Char.ofNat 0 :=
    fun c hc => hrow c (get_field_contents_from_row_mem _ _ _ c hc)
  rw [hset]
  simp only []
  rw [for_each_row_getD count set rows ps.labels i hlen hi, hflag]
  simp only [equals_yes_spec _ hcell, equals_no_spec _ hcell]

set_option maxRecDepth 8000 in
/-- The columns CAUTION and KEEPDRY on a row whose cells are "N": CAUTION becomes 1, KEEPDRY
stays 0. A cell "Y.tif" is delivered as "Y" and sets the flag to 2. -/
theorem flag_column_tri_state_witness :
    (fun r : Label_record => r.keepdry)
        ((parse_column sample_config ["L1\tN\tN".toList] "KEEPDRY".toList 2
          { labels := calloc_labels ["L1\tN\tN".toList], material := false, pcode := false,
            stdout := [] }).2.labels.getD 0 {}) =
      if spec_equals_ignoring_case
            (get_field_contents_from_row (["L1\tN\tN".toList].getD 0 []) 2 TAB).1 "Y".toList
          ∨ spec_equals_ignoring_case
            (get_field_contents_from_row (["L1\tN\tN".toList].getD 0 []) 2 TAB).1
              "Yes".toList then 2
      else if (spec_equals_ignoring_case
            (get_field_contents_from_row (["L1\tN\tN".toList].getD 0 []) 2 TAB).1 "N".toList
          ∨ spec_equals_ignoring_case
            (get_field_contents_from_row (["L1\tN\tN".toList].getD 0 []) 2 TAB).1
              "No".toList)
          ∧ "KEEPDRY".toList ≠ "KEEPDRY".toList then 1
      else (fun r : Label_record => r.keepdry)
        (({ labels := calloc_labels ["L1\tN\tN".toList], material := false, pcode := false,
            stdout := [] } : ParseState).labels.getD 0 {}) :=
  flag_column_tri_state sample_config ["L1\tN\tN".toList] 2
    { labels := calloc_labels ["L1\tN\tN".toList], material := false, pcode := false,
      stdout := [] } "KEEPDRY".toList (fun r => r.keepdry) 0
    (by simp [flag_columns]) rfl (by decide) (by decide)

set_option maxRecDepth 8000 in
/-- The table LABEL / CAUTION / KEEPDRY / ECREP with the row L1 / N / N / Y.tif, read by
`parse_spreadsheet`: caution is 1, keepdry is 0 (not 1), and ecrep is 2 for the cell
"Y.tif". -/
theorem flag_columns_sample :
    (parse_spreadsheet sample_config "LABEL\tCAUTION\tKEEPDRY\tECREP".toList
        ["L1\tN\tN\tY.tif".toList] (calloc_labels ["L1\tN\tN\tY.tif".toList])).2.labels.map
      (fun r => (r.caution, r.keepdry, r.ecrep)) = [(1, 0, 2)] := by
  decide

/-! ### The values of the flags -/

theorem for_each_row_forall (P : Label_record → Prop) (count : Nat)
    (set : CStr → Int → Label_record → Label_record)
    (hset : ∀ c l r, P r → P (set c l r)) :
    ∀ (rows : List CStr) (labels : List Label_record), (∀ r ∈ labels, P r) →
      ∀ r ∈ for_each_row rows count set labels, P r
  | [], _, _, r, hr => by simp [for_each_row] at hr
  | _ :: _, [], _, r, hr => by simp [for_each_row] at hr
  | row :: rows, l :: labels, h, r, hr => by
    have ih := for_each_row_forall P count set hset rows labels
      (fun x hx => h x (List.mem_cons_of_mem _ hx))
    unfold for_each_row at ih hr
    rw [List.zipWith_cons_cons, List.mem_cons] at hr
    rcases hr with rfl | hr
    · exact hset _ _ _ (h l (List.mem_cons_self _ _))
    · exact ih r hr

theorem flags_le_iff (r : Label_record) :
    (∀ v ∈ r.flags, v ≤ 2) ↔
      (r.caution ≤ 2 ∧ r.consultifu ≤ 2 ∧ r.donotusedamaged ≤ 2 ∧ r.electroifu ≤ 2
        ∧ r.keepdry ≤ 2 ∧ r.latex ≤ 2 ∧ r.latexfree ≤ 2 ∧ r.maninbox ≤ 2 ∧ r.nonsterile ≤ 2
        ∧ r.noresterilize ≤ 2 ∧ r.pvcfree ≤ 2 ∧ r.reusable ≤ 2 ∧ r.singlepatientuse ≤ 2
        ∧ r.singleuseonly ≤ 2 ∧ r.ecrep ≤ 2 ∧ r.expdate ≤ 2 ∧ r.keepawayheat ≤ 2
        ∧ r.lotgraphic ≤ 2 ∧ r.manufacturer ≤ 2 ∧ r.mfgdate ≤ 2 ∧ r.phtbbp ≤ 2
        ∧ r.phtdehp ≤ 2 ∧ r.phtdinp ≤ 2 ∧ r.ref ≤ 2 ∧ r.refnumber ≤ 2 ∧ r.rxonly ≤ 2
        ∧ r.serial ≤ 2 ∧ r.sizelogo ≤ 2 ∧ r.tfxlogo ≤ 2) := by
  simp [Label_record.flags]

theorem flags_step (rows : List CStr) (count : Nat)
    (set : CStr → Int → Label_record → Label_record) (ps : ParseState) (b : Bool)
    (hset : ∀ c l r, (∀ v ∈ r.flags, v ≤ 2) → ∀ v ∈ (set c l r).flags, v ≤ 2)
    (h : ∀ r ∈ ps.labels, ∀ v ∈ r.flags, v ≤ 2) :
    ∀ r ∈ ((b, { ps with labels := for_each_row rows count set ps.labels }) :
        Bool × ParseState).2.labels, ∀ v ∈ r.flags, v ≤ 2 :=
  for_each_row_forall (fun r => ∀ v ∈ r.flags, v ≤ 2) count set hset rows ps.labels h

set_option maxHeartbeats 1000000 in
/-- No column stores a flag above 2. -/
theorem parse_column_flags (cfg : Config) (rows : List CStr) (token : CStr) (count : Nat)
    (ps : ParseState) (h : ∀ r ∈ ps.labels, ∀ v ∈ r.flags, v ≤ 2) :
    ∀ r ∈ (parse_column cfg rows token count ps).2.labels, ∀ v ∈ r.flags, v ≤ 2 := by
  unfold parse_column
  refine ite_prop (fun x : Bool × ParseState => ∀ r ∈ x.2.labels, ∀ v ∈ r.flags, v ≤ 2) _ _ _
    (fun _ => flags_step _ _ _ _ _ (fun _ _ _ hr => hr) h) (fun _ => ?_)
  refine ite_prop (fun x : Bool × ParseState => ∀ r ∈ x.2.labels, ∀ v ∈ r.flags, v ≤ 2) _ _ _
    (fun _ => ?_) (fun _ => ?_)
  · simp only [material_or_pcode_labels]
    exact for_each_row_forall (fun r => ∀ v ∈ r.flags, v ≤ 2) _ _ (fun _ _ _ hr => by exact hr)
      _ _ h
  repeat' (first
    | exact h
    | exact flags_step _ _ _ _ _ (fun _ _ _ hr => by
        repeat' split
        all_goals first
          | exact hr
          | (rw [flags_le_iff] at hr ⊢
             simp +decide only [hr, and_self])) h
    | refine ite_prop (fun x : Bool × ParseState => ∀ r ∈ x.2.labels, ∀ v ∈ r.flags, v ≤ 2)
        _ _ _ (fun _ => ?_) (fun _ => ?_))

/-- Claim C26: starting from zero-initialised records, after `parse_spreadsheet` every flag of
every record is 0 (unset), 1 (no) or 2 (yes), for every heading row and all data rows: no
column produces 3 or 4. -/
theorem flags_tri_state (cfg : Config) (buffer : CStr) (rows : List CStr) :
    List.Forall
      (fun r : Label_record => List.Forall (fun v : Nat => v = 0 ∨ v = 1 ∨ v = 2) r.flags)
      (parse_spreadsheet cfg buffer rows (calloc_labels rows)).2.labels := by
  have h := parse_loop_invariant cfg rows
    (fun ps => ∀ r ∈ ps.labels, ∀ v ∈ r.flags, v ≤ 2)
    (fun token count ps hps => parse_column_flags cfg rows token count ps hps)
    buffer.length buffer 0
    { labels := calloc_labels rows, material := false, pcode := false, stdout := [] }
    (by
      intro r hr v hv
      obtain ⟨_, _, rfl⟩ := List.mem_map.mp hr
      revert v
      decide)
  rw [List.forall_iff_forall_mem]
  intro r hr
  rw [List.forall_iff_forall_mem]
  intro v hv
  have := h r hr v hv
  omega

/-! ### The text columns -/

/-- Each text column of `text_columns` runs the loop over the rows with a setter that stores
the copy of the cell, whatever `get_field_contents_from_row` returns; the copy keeps a cell
of at most two characters whole. -/
theorem text_columns_spec : ∀ p ∈ text_columns,
    (∀ (cfg : Config) (rows : List CStr) (count : Nat) (ps : ParseState),
      (p.2.2.2 = true → cfg.non_SAP_fields = true) →
      ∃ set : CStr → Int → Label_record → Label_record,
        (parse_column cfg rows p.1 count ps).2.labels = for_each_row rows count set ps.labels
          ∧ ∀ c l r, p.2.1 (set c l r) = p.2.2.1 c)
      ∧ ∀ c : CStr, c.length ≤ 2 → p.2.2.1 c = c := by
  unfold text_columns
  repeat' (first
    | exact List.forall_mem_nil _
    | refine List.forall_mem_cons.mpr ⟨?_, ?_⟩)
  all_goals
    refine ⟨?_, ?_⟩
    · intro cfg rows count ps hg
      refine Exists.intro ?_ (And.intro ?_ ?_)
      rotate_left
      · unfold parse_column
        repeat (rw [if_neg (show ¬ _ from by decide)])
        rw [if_pos (show _ from by decide)]
        first
          | (dsimp only; exact rfl)
          | (rw [material_or_pcode_labels]; dsimp only; exact rfl)
          | (rw [if_pos (hg rfl)]; dsimp only; exact rfl)
      · intro c l r
        rfl
    · intro c hc
      first
        | rfl
        | exact List.take_of_length_le (Nat.le_trans hc (by decide))

/-- A cell that equals "N" or "No" ignoring case is a textual no for `equals_no`, is not
empty and has at most two characters. -/
theorem spec_no_equals_no (cell : CStr)
    (h : spec_equals_ignoring_case cell "N".toList
      ∨ spec_equals_ignoring_case cell "No".toList) :
    equals_no cell = true ∧ cell ≠ [] ∧ cell.length ≤ 2 := by
  have hlen : cell ≠ [] ∧ cell.length ≤ 2 := by
    rcases h with h | h
    all_goals
      have := congrArg List.length h
      rw [List.length_map] at this
      have h2 : cell.length = 1 ∨ cell.length = 2 := by
        first
          | exact Or.inl this
          | exact Or.inr this
      constructor
      · intro e; rw [e] at h2; simp at h2
      · omega
  refine ⟨?_, hlen⟩
  have hnul : ∀ c ∈ cell, c ≠ Char.ofNat 0 := by
    intro c hc e
    have hm : c.toLower ∈ cell.map Char.toLower := List.mem_map.mpr ⟨c, hc, rfl⟩
    rw [e] at hm
    rcases h with h | h
    all_goals
      unfold spec_equals_ignoring_case at h
      rw [h] at hm
      revert hm
      decide
  exact (equals_no_spec cell hnul).mpr h

/-- Claim C27, amended: a text column stores in its attribute the copy of the cell of each data
row, also when the cell equals "n" or "no" ignoring case: the attribute is then that cell,
which is not empty. Only the column MDR5 acts on the textual no: it leaves `mdr5` as it
was. -/
theorem text_cell_copied (cfg : Config) (rows : List CStr) (count : Nat) (ps : ParseState)
    (heading : CStr) (field : Label_record → CStr) (copy : CStr → CStr) (gated : Bool)
    (i : Nat)
    (hcol : (heading, field, copy, gated) ∈ text_columns)
    (hgate : gated = true → cfg.non_SAP_fields = true)
    (hlen : ps.labels.length = rows.length) (hi : i < rows.length) :
    field ((parse_column cfg rows heading count ps).2.labels.getD i {})
        = copy (get_field_contents_from_row (rows.getD i []) count TAB).1
      ∧ (spec_equals_ignoring_case
            (get_field_contents_from_row (rows.getD i []) count TAB).1 "N".toList
          ∨ spec_equals_ignoring_case
            (get_field_contents_from_row (rows.getD i []) count TAB).1 "No".toList →
        field ((parse_column cfg rows heading count ps).2.labels.getD i {})
            = (get_field_contents_from_row (rows.getD i []) count TAB).1
          ∧ field ((parse_column cfg rows heading count ps).2.labels.getD i {}) ≠ []
          ∧ ((parse_column cfg rows "MDR5".toList count ps).2.labels.getD i {}).mdr5
            = (ps.labels.getD i {}).mdr5) := by
  obtain ⟨hwalk, hshort⟩ := text_columns_spec _ hcol
  obtain ⟨set, hset, hattr⟩ := hwalk cfg rows count ps hgate
  simp only [] at hset hattr hshort
  have h1 : field ((parse_column cfg rows heading count ps).2.labels.getD i {})
      = copy (get_field_contents_from_row (rows.getD i []) count TAB).1 := by
    rw [hset, for_each_row_getD count set rows ps.labels i hlen hi, hattr]
  refine ⟨h1, fun hno => ?_⟩
  obtain ⟨hn, hne, hle⟩ := spec_no_equals_no _ hno
  rw [h1, hshort _ hle]
  refine ⟨rfl, hne, ?_⟩
  have hm : parse_column cfg rows "MDR5".toList count ps =
      (false,
        { ps with
          labels := for_each_row rows count
            (fun contents length r =>
              if length ≠ 0 then { r with mdr5 := strlcpy contents MED } else r)
            ps.labels }) := by
    unfold parse_column
    repeat (rw [if_neg (show ¬ _ from by decide)])
    rw [if_pos (show _ from by decide)]
  rw [hm]
  simp only []
  rw [for_each_row_getD count _ rows ps.labels i hlen hi]
  have hz : (get_field_contents_from_row (rows.getD i []) count TAB).2 = 0 := by
    unfold get_field_contents_from_row at hn ⊢
    simp only [ite_pair_fst] at hn
    simp only []
    rw [if_pos hn]
  rw [hz]
  rfl

set_option maxRecDepth 8000 in
/-- Claim C27, the code: the cell "no" of the column SIZE is stored in `size`;
the cell "No" of the column MDR5 leaves `mdr5` empty. -/
theorem text_cell_no_counterexample :
    (parse_spreadsheet sample_config "LABEL\tSIZE\tMDR5".toList ["L1\tno\tNo".toList]
        (calloc_labels ["L1\tno\tNo".toList])).2.labels.map (fun r => (r.size, r.mdr5))
      = [("no".toList, [])] := by
  decide

set_option maxRecDepth 8000 in
/-- The column SIZE on the row L1 / no / No. -/
theorem text_cell_copied_witness :
    (fun r : Label_record => r.size)
          ((parse_column sample_config ["L1\tno\tNo".toList] "SIZE".toList 1
            { labels := calloc_labels ["L1\tno\tNo".toList], material := false,
              pcode := false, stdout := [] }).2.labels.getD 0 {})
        = (fun contents => strlcpy contents MED)
          (get_field_contents_from_row (["L1\tno\tNo".toList].getD 0 []) 1 TAB).1
      ∧ (spec_equals_ignoring_case
            (get_field_contents_from_row (["L1\tno\tNo".toList].getD 0 []) 1 TAB).1 "N".toList
          ∨ spec_equals_ignoring_case
            (get_field_contents_from_row (["L1\tno\tNo".toList].getD 0 []) 1 TAB).1
              "No".toList →
        (fun r : Label_record => r.size)
              ((parse_column sample_config ["L1\tno\tNo".toList] "SIZE".toList 1
                { labels := calloc_labels ["L1\tno\tNo".toList], material := false,
                  pcode := false, stdout := [] }).2.labels.getD 0 {})
            = (get_field_contents_from_row (["L1\tno\tNo".toList].getD 0 []) 1 TAB).1
          ∧ (fun r : Label_record => r.size)
              ((parse_column sample_config ["L1\tno\tNo".toList] "SIZE".toList 1
                { labels := calloc_labels ["L1\tno\tNo".toList], material := false,
                  pcode := false, stdout := [] }).2.labels.getD 0 {}) ≠ []
          ∧ ((parse_column sample_config ["L1\tno\tNo".toList] "MDR5".toList 1
                { labels := calloc_labels ["L1\tno\tNo".toList], material := false,
                  pcode := false, stdout := [] }).2.labels.getD 0 {}).mdr5
            = (({ labels := calloc_labels ["L1\tno\tNo".toList], material := false,
                  pcode := false, stdout := [] } : ParseState).labels.getD 0 {}).mdr5) :=
  text_cell_copied sample_config ["L1\tno\tNo".toList] 1
    { labels := calloc_labels ["L1\tno\tNo".toList], material := false, pcode := false,
      stdout := [] }
    "SIZE".toList (fun r => r.size) (fun contents => strlcpy contents MED) false 0
    (by simp [text_columns]) (fun h => absurd h (by decide)) rfl (by decide)

/-! ### The REVISION line -/

theorem decimal_foldl_nonneg : ∀ (t : CStr) (acc : Int), 0 ≤ acc →
    (∀ c ∈ t, c.isDigit = true) →
    0 ≤ t.foldl (fun acc c => acc * 10 + digitValue c) acc
  | [], acc, h, _ => h
  | c :: t, acc, h, hd => by
    rw [List.foldl_cons]
    apply decimal_foldl_nonneg t _ _ (fun x hx => hd x (List.mem_cons_of_mem _ hx))
    have hb := isDigit_bounds (hd c (List.mem_cons_self _ _))
    unfold digitValue ord
    omega

/-- On a string of digits, `%d` reads the whole string. -/
theorem scan_d_digits (t : CStr) (hne : t ≠ []) (hd : ∀ c ∈ t, c.isDigit = true) :
    scan_d t = some (decimal t, []) := by
  obtain ⟨c, t', rfl⟩ := List.exists_cons_of_ne_nil hne
  have hc := hd c (List.mem_cons_self _ _)
  have hb := isDigit_bounds hc
  have hsp : isspace c = false := by
    unfold isspace
    simp only [Bool.or_eq_false_iff, Bool.and_eq_false_iff, decide_eq_false_iff_not]
    omega
  have htake : (c :: t').takeWhile Char.isDigit = c :: t' :=
    List.takeWhile_eq_self_iff.mpr hd
  have hdrop : (c :: t').dropWhile Char.isDigit = [] :=
    List.dropWhile_eq_nil_iff.mpr hd
  have hdig : scan_digits (c :: t') = some (decimal (c :: t'), []) := by
    unfold scan_digits
    rw [htake, hdrop]
    rfl
  unfold scan_d
  rw [List.dropWhile_cons_of_neg (by rw [hsp]; decide)]
  split
  · rename_i heq
    obtain ⟨rfl, -⟩ := List.cons.inj heq
    exact absurd hc (by decide)
  · rename_i heq
    obtain ⟨rfl, -⟩ := List.cons.inj heq
    exact absurd hc (by decide)
  · exact hdig

/-- A value of the pattern `R<0-99>` is accepted by the test of the REVISION block. -/
theorem spec_revision_accepted (v : CStr) (h : spec_revision_pattern v = true) :
    ∃ rev, sscanf_R_d v = some rev ∧ 0 ≤ rev ∧ rev ≤ 99 := by
  unfold spec_revision_pattern at h
  split at h
  · rename_i t
    simp only [Bool.and_eq_true, Bool.not_eq_true', List.isEmpty_eq_false, List.all_eq_true,
      decide_eq_true_eq] at h
    obtain ⟨⟨hne, hd⟩, h99⟩ := h
    refine ⟨decimal t, ?_, ?_, h99⟩
    · unfold sscanf_R_d
      simp only [scan_d_digits t hne hd, Option.map_some']
    · exact decimal_foldl_nonneg t 0 (Int.le_refl 0) hd
  · exact absurd h (by decide)

/-- An accepted value starts with R, so it is not empty and not a textual no. -/
theorem sscanf_R_d_some (v : CStr) (rev : Int) (h : sscanf_R_d v = some rev) :
    v.length > 0 ∧ equals_no v = false := by
  unfold sscanf_R_d at h
  split at h
  · rename_i t
    refine ⟨by simp, ?_⟩
    unfold equals_no
    have h1 : strcasecmp ('R' :: t) "N".toList ≠ 0 := by
      show strcasecmp ('R' :: t) ('N' :: []) ≠ 0
      rw [strcasecmp, if_neg (by decide)]
      decide
    have h2 : strcasecmp ('R' :: t) "NO".toList ≠ 0 := by
      show strcasecmp ('R' :: t) ('N' :: 'O' :: []) ≠ 0
      rw [strcasecmp, if_neg (by decide)]
      decide
    rw [Bool.or_eq_false_iff, beq_eq_false_iff_ne, beq_eq_false_iff_ne]
    exact ⟨h1, h2⟩
  · exact absurd h (by simp)

/-- Claim C28, amended: the REVISION block writes one REVISION line, carrying the whole value,
and takes one sequence number exactly when `sscanf(revision, "R%d", &rev)` reads a number
between 0 and 99: the value starts with R, then optional white space, an optional sign and
at least one digit, whatever follows the digits. Every other value gives the diagnostic, no
line and no sequence number. Every value of the pattern `R<0-99>` is accepted. -/
theorem revision_line_emitted (r : Label_record) (record : Int) (s : State) :
    ((∃ rev, sscanf_R_d r.revision = some rev ∧ 0 ≤ rev ∧ rev ≤ 99) →
        (revision_record r record s).fpout
            = s.fpout ++ [Line.characteristic s.sequence_number s.idoc.char_seq_number
                "REVISION".toList r.revision (padRight 255 r.revision)]
          ∧ (revision_record r record s).sequence_number = s.sequence_number + 1
          ∧ (revision_record r record s).stdout = s.stdout)
      ∧ (¬ (∃ rev, sscanf_R_d r.revision = some rev ∧ 0 ≤ rev ∧ rev ≤ 99) →
        (revision_record r record s).fpout = s.fpout
          ∧ (revision_record r record s).sequence_number = s.sequence_number
          ∧ (revision_record r record s).stdout
            = s.stdout ++ [Diag.invalid_revision r.revision record])
      ∧ (spec_revision_pattern r.revision = true →
        ∃ rev, sscanf_R_d r.revision = some rev ∧ 0 ≤ rev ∧ rev ≤ 99) := by
  refine ⟨?_, ?_, spec_revision_accepted r.revision⟩
  · rintro ⟨rev, hs, h0, h99⟩
    obtain ⟨hlen, hno⟩ := sscanf_R_d_some _ _ hs
    have : revision_record r record s =
        print_Z2BTLC01000 s.idoc.char_seq_number "REVISION".toList r.revision
          (padRight 255 r.revision) s := by
      unfold revision_record array_nonnull
      rw [if_pos rfl, hs]
      simp only []
      rw [if_pos ⟨h0, h99⟩]
      unfold print_info_column_header
      rw [if_pos hlen]
      simp only [hno, Bool.false_eq_true, if_false]
    rw [this]
    exact ⟨rfl, rfl, rfl⟩
  · intro hn
    have : revision_record r record s = s.report (.invalid_revision r.revision record) := by
      unfold revision_record array_nonnull
      rw [if_pos rfl]
      split
      · rename_i rev hs
        rw [if_neg (fun h => hn ⟨rev, hs, h.1, h.2⟩)]
      · rfl
    rw [this]
    exact ⟨rfl, rfl, rfl⟩

set_option maxRecDepth 8000 in
/-- Claim C28, the code: the cell "R5x" of the column REVISION is stored as the
revision "R5x", which is not of the pattern `R<0-99>`, and the REVISION line is written
with it. -/
theorem revision_trailing_counterexample :
    (parse_spreadsheet sample_config "LABEL\tREVISION".toList ["L1\tR5x".toList]
        (calloc_labels ["L1\tR5x".toList])).2.labels.map (fun r => r.revision)
      = ["R5x".toList]
    ∧ spec_revision_pattern "R5x".toList = false
    ∧ (revision_record { revision := "R5x".toList } 1 State.initial).fpout
      = [Line.characteristic 1 0 "REVISION".toList "R5x".toList (padRight 255 "R5x".toList)]
    ∧ (revision_record { revision := "R5x".toList } 1 State.initial).sequence_number = 2
    ∧ (revision_record { revision := "R5x".toList } 1 State.initial).stdout = [] := by
  decide

set_option maxRecDepth 8000 in
/-- The revisions "R07" (written) and "X1" (diagnostic). -/
theorem revision_line_emitted_witness :
    (revision_record { revision := "R07".toList } 1 State.initial).fpout
        = [Line.characteristic 1 0 "REVISION".toList "R07".toList (padRight 255 "R07".toList)]
      ∧ (revision_record { revision := "X1".toList } 1 State.initial).stdout
        = [Diag.invalid_revision "X1".toList 1]
      ∧ (revision_record { revision := "X1".toList } 1 State.initial).sequence_number = 1 :=
  ⟨((revision_line_emitted { revision := "R07".toList } 1 State.initial).1
      ⟨7, by decide, by decide, by decide⟩).1,
    ((revision_line_emitted { revision := "X1".toList } 1 State.initial).2.1
      (by
        rintro ⟨rev, h, -⟩
        have e : sscanf_R_d ({ revision := "X1".toList } : Label_record).revision = none := by
          decide
        rw [e] at h
        cases h)).2.2,
    ((revision_line_emitted { revision := "X1".toList } 1 State.initial).2.1
      (by
        rintro ⟨rev, h, -⟩
        have e : sscanf_R_d ({ revision := "X1".toList } : Label_record).revision = none := by
          decide
        rw [e] at h
        cases h)).2.1⟩

/-! ### The numbered graphics -/

/-- A call with flag 2, 3 or 4 writes the line of slot `g_cnt` and advances the counter and
the sequence number. -/
theorem print_graphic0x_record_yes (cfg : Config) (g_cnt : Int) (name : CStr) (value : Nat)
    (s : State) (h : spec_is_yes (name, value) = true) :
    print_graphic0x_record cfg g_cnt name value s =
      (g_cnt + 1,
        { s with
          fpout := s.fpout ++
            spec_slot_lines cfg s.idoc.char_seq_number [(name, value)] g_cnt s.sequence_number
          sequence_number := s.sequence_number + 1 }) := by
  unfold spec_is_yes at h
  simp only [Bool.or_eq_true, decide_eq_true_eq] at h
  unfold print_graphic0x_record print_Z2BTLC01000 spec_slot_lines spec_slot_lines
  rcases h with (h | h) | h
  · rw [if_pos h]; simp only [if_pos h]
  · have h2 : ¬ value = 2 := by omega
    rw [if_neg h2, if_pos h]; simp only [if_neg h2, if_pos h]
  · have h2 : ¬ value = 2 := by omega
    have h3 : ¬ value = 3 := by omega
    rw [if_neg h2, if_neg h3, if_pos h]; simp only [if_neg h2, if_neg h3]

theorem graphics_path_lengths : GRAPHICS_PATH.length = 49 ∧ ALT_GRAPHICS_PATH.length = 101 := by
  decide

/-- Claim C30, the code: `print_graphic_path` writes the folder, the whole name and
spaces counted from the first `MED + 1` = 31 characters of the name: 255 characters in all
for a name of at most 31 characters, and one more for each further character of the
name. -/
theorem graphic_path_width (cfg : Config) (graphic : CStr) :
    print_graphic_path cfg graphic
        = (if cfg.alt_path then ALT_GRAPHICS_PATH else GRAPHICS_PATH) ++ graphic
          ++ List.replicate
            (255 - ((if cfg.alt_path then ALT_GRAPHICS_PATH else GRAPHICS_PATH).length
              + min graphic.length 31)) ' '
      ∧ (print_graphic_path cfg graphic).length = 255 + (graphic.length - 31) := by
  obtain ⟨hg, ha⟩ := graphics_path_lengths
  unfold print_graphic_path print_spaces strnlen
  have hm : MED + 1 = 31 := by decide
  by_cases h : cfg.alt_path = true
  · simp only [if_pos h, ha, hm]
    refine ⟨?_, ?_⟩
    · congr 2
      omega
    · simp only [List.length_append, List.length_replicate, ha]
      omega
  · simp only [if_neg h, hg, hm, Bool.false_eq_true, if_false]
    refine ⟨?_, ?_⟩
    · congr 2
      omega
    · simp only [List.length_append, List.length_replicate, hg]
      omega

set_option maxRecDepth 8000 in
/-- A name of 32 characters gives 256 characters. Such a name reaches `print_graphic_path`
from `print_graphic_column_header` for a lookup value of 28 characters, and for a cell value
of 28 characters without lookup value. -/
theorem graphic_path_long_name :
    (print_graphic_path sample_config "ABCDEFGHIJKLMNOPQRSTUVWXYZAB.tif".toList).length = 256
      ∧ (print_graphic_column_header
          { sample_config with
            lookup := [("BOX".toList, "ABCDEFGHIJKLMNOPQRSTUVWXYZAB".toList),
              ("CASE".toList, "Case".toList)] }
          "LOGO1".toList "BOX".toList "Nothing".toList State.initial).fpout.map
        (fun l => match l with
          | Line.characteristic _ _ _ _ third => third.length
          | _ => 0)
        = [256]
      ∧ (print_graphic_column_header sample_config "LOGO1".toList
          "ABCDEFGHIJKLMNOPQRSTUVWXYZAB".toList "Nothing".toList State.initial).fpout.map
        (fun l => match l with
          | Line.characteristic _ _ _ _ third => third.length
          | _ => 0)
        = [256] := by
  decide

/-! ### The SIZELOGO line -/

theorem OtherLines.unchanged (s : State) : OtherLines s s :=
  ⟨[], by simp, by simp⟩

theorem OtherLines.chain {s t u : State} (h1 : OtherLines s t) (h2 : OtherLines t u) :
    OtherLines s u := by
  obtain ⟨a, ha1, ha2⟩ := h1
  obtain ⟨b, hb1, hb2⟩ := h2
  refine ⟨a ++ b, by rw [hb1, ha1, List.append_assoc], ?_⟩
  intro l hl
  rcases List.mem_append.mp hl with h | h
  · exact ha2 l h
  · exact hb2 l h

theorem OtherLines.diagnostic (s : State) (d : Diag) : OtherLines s (s.report d) :=
  ⟨[], by simp [State.report], by simp⟩

theorem print_Z2BTLC01000_other (p : Int) (name value third : CStr) (s : State)
    (h : name ≠ "SIZELOGO".toList) : OtherLines s (print_Z2BTLC01000 p name value third s) :=
  ⟨[Line.characteristic s.sequence_number p name value third], rfl, by
    intro l hl
    rw [List.mem_singleton] at hl
    rw [hl]
    exact h⟩

theorem print_info_column_header_other (col_name col_value : CStr) (s : State)
    (h : col_name ≠ "SIZELOGO".toList) :
    OtherLines s (print_info_column_header col_name col_value s) := by
  unfold print_info_column_header
  split
  · exact print_Z2BTLC01000_other _ _ _ _ s h
  · exact OtherLines.unchanged s

theorem print_graphic_column_header_other (cfg : Config) (col_name col_value d : CStr)
    (s : State) (h : col_name ≠ "SIZELOGO".toList) :
    OtherLines s (print_graphic_column_header cfg col_name col_value d s) := by
  unfold print_graphic_column_header
  simp only
  split
  · exact print_Z2BTLC01000_other _ _ _ _ s h
  · exact OtherLines.unchanged s

theorem print_boolean_record_other (cfg : Config) (col_name : CStr) (value : Nat) (g : CStr)
    (s : State) (h : col_name ≠ "SIZELOGO".toList) :
    OtherLines s (print_boolean_record cfg col_name value g s) := by
  unfold print_boolean_record
  split_ifs
  all_goals first
    | exact print_Z2BTLC01000_other _ _ _ _ s h
    | exact OtherLines.unchanged s

theorem gtin_checks_other (cfg : Config) (value : CStr) (record : Int) (s : State) :
    OtherLines s (gtin_checks cfg value record s) := by
  have hp : ∀ (a b c d : Int) (s : State), OtherLines s (gtin_prefix_check a b c d s) := by
    intro a b c d s
    unfold gtin_prefix_check
    split
    · exact OtherLines.diagnostic _ _
    · exact OtherLines.unchanged _
  unfold gtin_checks
  simp only
  split_ifs
  · exact (OtherLines.diagnostic _ _).chain (hp _ _ _ _ _)
  · exact hp _ _ _ _ _
  · exact hp _ _ _ _ _
  · exact (OtherLines.diagnostic _ _).chain (hp _ _ _ _ _)

theorem graphic0x_run_other (cfg : Config) : ∀ (calls : List (CStr × Nat)) (g_cnt : Int)
    (s : State), OtherLines s (graphic0x_run cfg calls g_cnt s).2 := by
  intro calls
  induction calls with
  | nil => intro g_cnt s; exact OtherLines.unchanged s
  | cons call rest ih =>
    intro g_cnt s
    have hname : "GRAPHIC0".toList ++ fmt_d g_cnt ≠ "SIZELOGO".toList := by
      intro e
      have h : (some 'G' : Option Char) = some 'S' := congrArg List.head? e
      exact absurd h (by decide)
    have h1 : OtherLines s (print_graphic0x_record cfg g_cnt call.1 call.2 s).2 := by
      unfold print_graphic0x_record
      split_ifs
      all_goals first
        | exact print_Z2BTLC01000_other _ _ _ _ s hname
        | exact OtherLines.unchanged s
    exact h1.chain (ih _ _)

theorem run_steps_other : ∀ steps : List (State → State),
    (∀ f ∈ steps, ∀ s, OtherLines s (f s)) → ∀ s, OtherLines s (run_steps steps s) := by
  intro steps
  induction steps with
  | nil => intro _ s; exact OtherLines.unchanged s
  | cons f rest ih =>
    intro h s
    exact (h f (List.mem_cons_self _ _) s).chain
      (ih (fun g hg => h g (List.mem_cons_of_mem _ hg)) (f s))

theorem characteristic_blocks_other (cfg : Config) (r : Label_record) (record : Int)
    (s : State) :
    OtherLines s (level_record cfg r record s)
      ∧ OtherLines s (quantity_record r s)
      ∧ OtherLines s (barcodetext_record cfg r record s)
      ∧ OtherLines s (gtin_record cfg r record s)
      ∧ OtherLines s (ltnumber_record r s)
      ∧ OtherLines s (ipn_record cfg r s)
      ∧ OtherLines s (graphic0x_records cfg r s)
      ∧ OtherLines s (barcode1_record cfg r record s)
      ∧ OtherLines s (gs1_record cfg r record s) := by
  refine ⟨?_, ?_, ?_, ?_, ?_, ?_, graphic0x_run_other cfg _ 1 s, ?_, ?_⟩
  · unfold level_record print_info_lookup_column_header
    simp only
    split_ifs
    · exact (OtherLines.diagnostic _ _).chain (print_Z2BTLC01000_other _ _ _ _ _ (by decide))
    · exact print_Z2BTLC01000_other _ _ _ _ _ (by decide)
    · exact OtherLines.unchanged _
  · unfold quantity_record
    split
    · exact print_info_column_header_other _ _ _ (by decide)
    · exact OtherLines.unchanged _
  · unfold barcodetext_record
    simp only
    split_ifs
    · exact (gtin_checks_other _ _ _ _).chain (print_info_column_header_other _ _ _ (by decide))
    · exact (OtherLines.diagnostic _ _).chain (print_info_column_header_other _ _ _ (by decide))
    · exact OtherLines.unchanged _
  · unfold gtin_record
    simp only
    split_ifs
    · exact (gtin_checks_other _ _ _ _).chain (print_info_column_header_other _ _ _ (by decide))
    · exact (OtherLines.diagnostic _ _).chain (print_info_column_header_other _ _ _ (by decide))
    all_goals exact OtherLines.unchanged _
  · unfold ltnumber_record
    split
    · exact print_info_column_header_other _ _ _ (by decide)
    · exact OtherLines.unchanged _
  · unfold ipn_record
    split_ifs
    · exact print_info_column_header_other _ _ _ (by decide)
    all_goals exact OtherLines.unchanged _
  · unfold barcode1_record
    simp only
    split_ifs
    · exact (gtin_checks_other _ _ _ _).chain
        (print_graphic_column_header_other _ _ _ _ _ (by decide))
    · exact print_graphic_column_header_other _ _ _ _ _ (by decide)
    · exact OtherLines.unchanged _
  · unfold gs1_record print_blank_graphic_column_header
    simp only
    split_ifs
    all_goals first
      | exact (gtin_checks_other _ _ _ _).chain
          (print_Z2BTLC01000_other _ _ _ _ _ (by decide))
      | exact (gtin_checks_other _ _ _ _).chain
          (print_graphic_column_header_other _ _ _ _ _ (by decide))
      | exact print_Z2BTLC01000_other _ _ _ _ _ (by decide)
      | exact print_graphic_column_header_other _ _ _ _ _ (by decide)
      | exact OtherLines.unchanged _

/-- The statements before and after the SIZELOGO call write no SIZELOGO line. -/
theorem characteristic_steps_other (cfg : Config) (r : Label_record) (record : Int) :
    ∃ before after : List (State → State),
      characteristic_steps cfg r record
          = before ++ print_boolean_column_header cfg "SIZELOGO".toList (r.sizelogo != 0)
            :: after
        ∧ (∀ f ∈ before, ∀ s, OtherLines s (f s))
        ∧ (∀ f ∈ after, ∀ s, OtherLines s (f s)) := by
  refine ⟨(characteristic_steps cfg r record).take 23,
    (characteristic_steps cfg r record).drop 24, rfl, ?_, ?_⟩
  all_goals
    unfold characteristic_steps
    simp only [List.take_succ_cons, List.take_zero, List.drop_succ_cons, List.drop_zero,
      List.forall_mem_cons]
    repeat' apply And.intro
    all_goals first
      | exact fun s => print_graphic_column_header_other _ _ _ _ s (by decide)
      | exact fun s => print_boolean_record_other _ _ _ _ s (by decide)
      | exact fun s => (characteristic_blocks_other cfg r record s).1
      | exact fun s => (characteristic_blocks_other cfg r record s).2.1
      | exact fun s => (characteristic_blocks_other cfg r record s).2.2.1
      | exact fun s => (characteristic_blocks_other cfg r record s).2.2.2.1
      | exact fun s => (characteristic_blocks_other cfg r record s).2.2.2.2.1
      | exact fun s => (characteristic_blocks_other cfg r record s).2.2.2.2.2.1
      | exact fun s => (characteristic_blocks_other cfg r record s).2.2.2.2.2.2.1
      | exact fun s => (characteristic_blocks_other cfg r record s).2.2.2.2.2.2.2.1
      | exact fun s => (characteristic_blocks_other cfg r record s).2.2.2.2.2.2.2.2
      | (intro x hx; cases hx)

theorem leading_blocks_other (cfg : Config) (r : Label_record) (record : Int) (s : State) :
    OtherLines s (material_record r s)
      ∧ OtherLines s (label_record r s)
      ∧ (∀ tdline, OtherLines s (tdline_records r.label tdline s))
      ∧ OtherLines s (revision_record r record s)
      ∧ OtherLines s (release_record r record s)
      ∧ (∀ t, size_record cfg r s = some t → OtherLines s t) := by
  refine ⟨?_, ?_, ?_, ?_, ?_, ?_⟩
  · unfold material_record
    split_ifs
    · exact ⟨[_], rfl, by
        intro l hl
        rw [List.mem_singleton] at hl
        rw [hl]
        show ([] : CStr) ≠ _
        decide⟩
    · exact OtherLines.unchanged _
    · exact OtherLines.unchanged _
  · exact ⟨[_], rfl, by
        intro l hl
        rw [List.mem_singleton] at hl
        rw [hl]
        show ([] : CStr) ≠ _
        decide⟩
  · intro tdline
    have hloop : ∀ (fuel : Nat) (token : CStr) (n : Int) (s : State),
        OtherLines s (tdline_loop r.label fuel token n s) := by
      intro fuel
      induction fuel with
      | zero => intro token n s; exact OtherLines.unchanged s
      | succ fuel ih =>
        intro token n s
        unfold tdline_loop
        split
        · refine OtherLines.chain ?_ (ih _ _ _)
          exact ⟨[_], rfl, by
        intro l hl
        rw [List.mem_singleton] at hl
        rw [hl]
        show ([] : CStr) ≠ _
        decide⟩
        · exact OtherLines.unchanged s
    unfold tdline_records
    simp only
    split
    · exact hloop _ _ _ _
    · exact OtherLines.unchanged s
  · unfold revision_record
    split
    · split
      · split
        · exact print_info_column_header_other _ _ _ (by decide)
        · exact OtherLines.diagnostic _ _
      · exact OtherLines.diagnostic _ _
    · exact OtherLines.unchanged _
  · unfold release_record
    split
    · split
      · split
        · exact print_info_column_header_other _ _ _ (by decide)
        · exact OtherLines.diagnostic _ _
      · exact OtherLines.diagnostic _ _
    · exact OtherLines.unchanged _
  · intro t h
    unfold size_record at h
    simp only at h
    split at h
    · split at h
      · cases h
      · split at h
        · cases h
          exact print_Z2BTLC01000_other _ _ _ _ _ (by decide)
        · cases h
          exact print_info_column_header_other _ _ _ (by decide)
    · cases h
      exact OtherLines.unchanged _

/-- Claim C31, the code: a call of `print_label_idoc_records` that returns 1 writes exactly
one line named SIZELOGO; the line carries "Y" when the flag `sizelogo` is not 0, that is
for yes (2) and also for no (1), and "N" only when the flag is unset (0). -/
theorem sizelogo_line (cfg : Config) (r : Label_record) (record : Int) (s : State)
    (h : (print_label_idoc_records cfg r record s).status = .returned 1) :
    ∃ (before after : List Line) (seq parent : Int),
      (print_label_idoc_records cfg r record s).state.fpout
          = s.fpout ++ before
            ++ [Line.characteristic seq parent "SIZELOGO".toList
                (if r.sizelogo = 0 then "N".toList else "Y".toList)
                (print_graphic_path cfg
                  (if r.sizelogo = 0 then "No".toList else "Yes".toList))]
            ++ after
        ∧ (∀ l ∈ before, l.name ≠ "SIZELOGO".toList)
        ∧ (∀ l ∈ after, l.name ≠ "SIZELOGO".toList) := by
  obtain ⟨pre, post, hsplit, hpre, hpost⟩ := characteristic_steps_other cfg r record
  have hnon : ∀ s, OtherLines s (run_steps (non_SAP_steps cfg r) s) := by
    apply run_steps_other
    unfold non_SAP_steps
    split
    · simp only [List.forall_mem_cons]
      repeat' apply And.intro
      all_goals first
        | exact fun s => print_info_column_header_other _ _ s (by decide)
        | (intro x hx; cases hx)
    · intro x hx; cases hx
  have hline : ∀ s0 : State,
      (print_boolean_column_header cfg "SIZELOGO".toList (r.sizelogo != 0) s0).fpout
        = s0.fpout ++ [Line.characteristic s0.sequence_number s0.idoc.char_seq_number
            "SIZELOGO".toList (if r.sizelogo = 0 then "N".toList else "Y".toList)
            (print_graphic_path cfg (if r.sizelogo = 0 then "No".toList else "Yes".toList))] := by
    intro s0
    unfold print_boolean_column_header print_Z2BTLC01000
    by_cases hz : r.sizelogo = 0
    · simp [hz]
    · simp [hz]
  revert h
  unfold print_label_idoc_records
  simp only
  split
  · intro h; simp at h
  · split
    · intro h; simp at h
    · rename_i tdline htd
      simp only [show array_nonnull r.template = true from rfl, if_true]
      split
      · intro h; simp at h
      · rename_i t hsz
        intro _
        have h1 := (leading_blocks_other cfg r record s).1
        have h2 := (leading_blocks_other cfg r record (material_record r s)).2.1
        have h3 := (leading_blocks_other cfg r record
          (label_record r (material_record r s))).2.2.1 tdline
        have h4 := print_info_column_header_other "TEMPLATENUMBER".toList r.template
          (tdline_records r.label tdline (label_record r (material_record r s))) (by decide)
        have h5 := (leading_blocks_other cfg r record
          (print_info_column_header "TEMPLATENUMBER".toList r.template
            (tdline_records r.label tdline (label_record r (material_record r s))))).2.2.2.1
        have h6 := (leading_blocks_other cfg r record
          (revision_record r record (print_info_column_header "TEMPLATENUMBER".toList
            r.template
            (tdline_records r.label tdline
              (label_record r (material_record r s)))))).2.2.2.2.1
        have h7 := (leading_blocks_other cfg r record _).2.2.2.2.2 t hsz
        have h8 := run_steps_other _ hpre t
        have hlead := ((((((h1.chain h2).chain h3).chain h4).chain h5).chain h6).chain h7).chain
          h8
        obtain ⟨before, hb1, hb2⟩ := hlead
        obtain ⟨after, ha1, ha2⟩ := (run_steps_other _ hpost
          (print_boolean_column_header cfg "SIZELOGO".toList (r.sizelogo != 0)
            (run_steps pre t))).chain
          (hnon _)
        refine ⟨before, after,
          (run_steps pre t).sequence_number, (run_steps pre t).idoc.char_seq_number,
          ?_, hb2, ha2⟩
        show (run_steps (non_SAP_steps cfg r)
          (run_steps (characteristic_steps cfg r record) t)).fpout = _
        rw [hsplit]
        unfold run_steps at ha1 hb1 ⊢
        rw [List.foldl_append, List.foldl_cons]
        rw [ha1, hline, hb1]

set_option maxRecDepth 8000 in
/-- A record whose flag `sizelogo` is no (1): the call returns 1 and the SIZELOGO line
carries "Y". -/
theorem sizelogo_no_sample :
    (print_label_idoc_records sample_config sample_record_sizelogo_no 1 State.initial).status
        = .returned 1
      ∧ (print_label_idoc_records sample_config sample_record_sizelogo_no 1
          State.initial).state.fpout
        = [Line.label 1 1 "LBL001".toList,
            Line.characteristic 2 1 "TEMPLATENUMBER".toList "TPL1".toList
              (padRight 255 "TPL1".toList),
            Line.characteristic 3 1 "SIZELOGO".toList "Y".toList
              (print_graphic_path sample_config "Yes".toList)] := by
  decide

set_option maxRecDepth 8000 in
/-- The record of the sample, with the flag `sizelogo` no (1). -/
theorem sizelogo_line_witness :
    ∃ (before after : List Line) (seq parent : Int),
      (print_label_idoc_records sample_config sample_record_sizelogo_no 1
          State.initial).state.fpout
          = State.initial.fpout ++ before
            ++ [Line.characteristic seq parent "SIZELOGO".toList
                (if sample_record_sizelogo_no.sizelogo = 0 then "N".toList else "Y".toList)
                (print_graphic_path sample_config
                  (if sample_record_sizelogo_no.sizelogo = 0 then "No".toList
                    else "Yes".toList))]
            ++ after
        ∧ (∀ l ∈ before, l.name ≠ "SIZELOGO".toList)
        ∧ (∀ l ∈ after, l.name ≠ "SIZELOGO".toList) :=
  sizelogo_line sample_config sample_record_sizelogo_no 1 State.initial (by decide)

/-! ### The function `get_token` -/

theorem dropWhile_ne_cons (d : Char) : ∀ (l : CStr), d ∈ l →
    l.dropWhile (fun c => c != d) = d :: (l.dropWhile (fun c => c != d)).tail
  | [], h => by simp at h
  | c :: l, h => by
    by_cases e : c = d
    · subst e
      simp [List.dropWhile_cons]
    · have hd : d ∈ l := by
        rcases List.mem_cons.mp h with h | h
        · exact absurd h.symm e
        · exact h
      have hp : (c != d) = true := by simpa using e
      have hc : (c :: l).dropWhile (fun c => c != d) = l.dropWhile (fun c => c != d) := by
        simp only [List.dropWhile_cons, hp, if_true]
      rw [hc]
      exact dropWhile_ne_cons d l hd

/-- Claim C32, the code: for the delimiter NUL the token is the whole buffer and the buffer
is left as it is, not emptied. -/
theorem get_token_NUL_counterexample :
    get_token "AB".toList (Char.ofNat 0) = ("AB".toList, "AB".toList) := by
  decide

/-- Claim C32, amended: for a non-empty buffer and a delimiter `d` other than NUL: if the
buffer contains `d`, the token holds no `d` and token, `d` and the buffer left make up the
original buffer, so the token is the text before the first `d` and the buffer left is the
text after it; if the buffer does not contain `d`, the token is the whole buffer and the
buffer is left empty. -/
theorem get_token_split (buffer : CStr) (d : Char) (hne : buffer ≠ [])
    (hd : d ≠ Char.ofNat 0) :
    (d ∈ buffer →
        (get_token buffer d).1 ++ d :: (get_token buffer d).2 = buffer
          ∧ d ∉ (get_token buffer d).1)
      ∧ (d ∉ buffer → get_token buffer d = (buffer, [])) := by
  unfold get_token
  rw [if_neg hd]
  constructor
  · intro h
    rw [if_pos h]
    simp only []
    constructor
    · rw [← dropWhile_ne_cons d buffer h]
      exact List.takeWhile_append_dropWhile _ _
    · intro hm
      have := List.mem_takeWhile_imp hm
      simp at this
  · intro h
    rw [if_neg h, if_pos (List.length_pos.mpr hne)]

/-- The buffer "A;B;C" with the delimiter ';', and the buffer "ABC" without it. -/
theorem get_token_split_witness :
    (get_token "A;B;C".toList ';').1 ++ ';' :: (get_token "A;B;C".toList ';').2
        = "A;B;C".toList
      ∧ ';' ∉ (get_token "A;B;C".toList ';').1
      ∧ get_token "ABC".toList ';' = ("ABC".toList, []) :=
  ⟨((get_token_split "A;B;C".toList ';' (by decide) (by decide)).1 (by decide)).1,
    ((get_token_split "A;B;C".toList ';' (by decide) (by decide)).1 (by decide)).2,
    (get_token_split "ABC".toList ';' (by decide) (by decide)).2 (by decide)⟩

/-! ### The function `get_field_contents_from_row` -/

theorem peek_loop_cons (n : Int) (d c : Char) (rest : CStr) (i h : Int) :
    peek_loop n d (c :: rest) i h
      = if h < n then peek_loop n d rest (i + 1) (if c = d then h + 1 else h) else (i, h) := by
  rw [peek_loop]

theorem peek_loop_shift (n : Int) (d : Char) : ∀ (buffer : CStr) (i h : Int),
    peek_loop n d buffer i h
      = ((peek_loop (n - h) d buffer 0 0).1 + i, (peek_loop (n - h) d buffer 0 0).2 + h)
  | [], i, h => by simp [peek_loop]
  | c :: rest, i, h => by
    rw [peek_loop_cons n d c rest i h, peek_loop_cons (n - h) d c rest 0 0]
    by_cases hlt : h < n
    · have h0 : (0 : Int) < n - h := by omega
      rw [if_pos hlt, if_pos h0]
      by_cases hc : c = d
      · rw [if_pos hc, if_pos hc, peek_loop_shift n d rest (i + 1) (h + 1),
          peek_loop_shift (n - h) d rest (0 + 1) (0 + 1)]
        have e : n - h - (0 + 1) = n - (h + 1) := by ring
        rw [e]
        refine Prod.ext ?_ ?_
        · show _ + (i + 1) = _ + (0 + 1) + i
          ring
        · show _ + (h + 1) = _ + (0 + 1) + h
          ring
      · rw [if_neg hc, if_neg hc, peek_loop_shift n d rest (i + 1) h,
          peek_loop_shift (n - h) d rest (0 + 1) 0]
        have e : n - h - 0 = n - h := by ring
        rw [e]
        refine Prod.ext ?_ ?_
        · show _ + (i + 1) = _ + (0 + 1) + i
          ring
        · show _ + h = _ + 0 + h
          ring
    · have h0 : ¬ (0 : Int) < n - h := by omega
      rw [if_neg hlt, if_neg h0]
      simp

/-- The loop from the start: nothing is read for `n ≤ 0`; otherwise the first character is
read and the loop goes on with the rest. -/
theorem peek_loop_start (n : Int) (d c : Char) (rest : CStr) :
    peek_loop n d (c :: rest) 0 0
      = if 0 < n then
          ((peek_loop (n - (if c = d then 1 else 0)) d rest 0 0).1 + 1,
            (peek_loop (n - (if c = d then 1 else 0)) d rest 0 0).2 + (if c = d then 1 else 0))
        else (0, 0) := by
  rw [peek_loop_cons]
  by_cases hlt : (0 : Int) < n
  · rw [if_pos hlt, if_pos hlt, peek_loop_shift]
    by_cases hc : c = d
    · simp only [if_pos hc]
      rw [show n - (0 + 1) = n - 1 from by ring, show (0 : Int) + 1 = 1 from by ring]
    · simp only [if_neg hc]
      rw [show (0 : Int) + 1 = 1 from by ring]
  · rw [if_neg hlt, if_neg hlt]

theorem peek_loop_bounds (d : Char) : ∀ (buffer : CStr) (n : Int),
    0 ≤ (peek_loop n d buffer 0 0).2 ∧ (peek_loop n d buffer 0 0).2 ≤ max n 0
      ∧ 0 ≤ (peek_loop n d buffer 0 0).1
      ∧ (peek_loop n d buffer 0 0).1 ≤ buffer.length
      ∧ (1 ≤ (peek_loop n d buffer 0 0).2 → 1 ≤ (peek_loop n d buffer 0 0).1)
  | [], n => by simp [peek_loop]
  | c :: rest, n => by
    rw [peek_loop_start]
    simp only [List.length_cons]
    push_cast
    by_cases hlt : (0 : Int) < n
    · rw [if_pos hlt]
      obtain ⟨h1, h2, h3, h4, h5⟩ := peek_loop_bounds d rest (n - (if c = d then 1 else 0))
      simp only []
      by_cases hc : c = d
      · simp only [if_pos hc] at h1 h2 h3 h4 h5 ⊢
        refine ⟨by omega, by omega, by omega, by omega, by omega⟩
      · simp only [if_neg hc] at h1 h2 h3 h4 h5 ⊢
        refine ⟨by omega, by omega, by omega, by omega, by omega⟩
    · rw [if_neg hlt]
      simp only []
      refine ⟨by omega, by omega, by omega, by omega, by omega⟩

theorem peek_loop_zero (d : Char) (buffer : CStr) (n : Int) (hn : n ≤ 0) :
    peek_loop n d buffer 0 0 = (0, 0) := by
  cases buffer with
  | nil => rfl
  | cons c rest => rw [peek_loop_start, if_neg (by omega)]

theorem peek_nth_token_nil (n : Int) (d : Char) (hn : 1 ≤ n) : peek_nth_token n [] d = -1 := by
  unfold peek_nth_token
  rw [if_neg (by omega)]
  simp only [peek_loop]
  rw [if_neg (by omega)]

theorem peek_nth_token_range (n : Int) (buffer : CStr) (d : Char) (hn : 1 ≤ n) :
    peek_nth_token n buffer d = -1
      ∨ (0 ≤ peek_nth_token n buffer d ∧ peek_nth_token n buffer d < buffer.length) := by
  unfold peek_nth_token
  rw [if_neg (by omega)]
  obtain ⟨h1, h2, h3, h4, h5⟩ := peek_loop_bounds d buffer n
  by_cases e : (peek_loop n d buffer 0 0).2 = n
  · rw [if_pos e]
    right
    have := h5 (by omega)
    omega
  · rw [if_neg e]
    left; rfl

theorem peek_nth_token_hit (n : Int) (rest : CStr) (d : Char) (hn : 1 ≤ n) :
    peek_nth_token n (d :: rest) d
      = if n = 1 then 0
        else if peek_nth_token (n - 1) rest d = -1 then -1
        else peek_nth_token (n - 1) rest d + 1 := by
  obtain ⟨b1, b2, b3, b4, b5⟩ := peek_loop_bounds d rest (n - 1)
  have hs : peek_loop n d (d :: rest) 0 0
      = ((peek_loop (n - 1) d rest 0 0).1 + 1, (peek_loop (n - 1) d rest 0 0).2 + 1) := by
    rw [peek_loop_start, if_pos (show (0 : Int) < n from by omega)]
    simp only [if_true]
  have hL : peek_nth_token n (d :: rest) d
      = if (peek_loop (n - 1) d rest 0 0).2 + 1 = n then
          (peek_loop (n - 1) d rest 0 0).1 + 1 - 1
        else -1 := by
    unfold peek_nth_token
    rw [if_neg (show ¬ n = 0 from by omega), hs]
  rw [hL]
  by_cases h1 : n = 1
  · rw [if_pos h1]
    subst h1
    rw [peek_loop_zero d rest (1 - 1) (by omega)]
    simp
  · have hR : peek_nth_token (n - 1) rest d
        = if (peek_loop (n - 1) d rest 0 0).2 = n - 1 then
            (peek_loop (n - 1) d rest 0 0).1 - 1
          else -1 := by
      unfold peek_nth_token
      rw [if_neg (show ¬ n - 1 = 0 from by omega)]
    rw [if_neg h1, hR]
    split_ifs <;> omega

theorem peek_nth_token_miss (n : Int) (c : Char) (rest : CStr) (d : Char) (hn : 1 ≤ n)
    (hc : c ≠ d) :
    peek_nth_token n (c :: rest) d
      = if peek_nth_token n rest d = -1 then -1 else peek_nth_token n rest d + 1 := by
  obtain ⟨b1, b2, b3, b4, b5⟩ := peek_loop_bounds d rest n
  have hs : peek_loop n d (c :: rest) 0 0
      = ((peek_loop n d rest 0 0).1 + 1, (peek_loop n d rest 0 0).2) := by
    rw [peek_loop_start, if_pos (show (0 : Int) < n from by omega)]
    simp only [if_neg hc, sub_zero, add_zero]
  have hL : peek_nth_token n (c :: rest) d
      = if (peek_loop n d rest 0 0).2 = n then (peek_loop n d rest 0 0).1 + 1 - 1
        else -1 := by
    unfold peek_nth_token
    rw [if_neg (show ¬ n = 0 from by omega), hs]
  have hR : peek_nth_token n rest d
      = if (peek_loop n d rest 0 0).2 = n then (peek_loop n d rest 0 0).1 - 1
        else -1 := by
    unfold peek_nth_token
    rw [if_neg (show ¬ n = 0 from by omega)]
  rw [hL, hR]
  split_ifs <;> omega

theorem spec_field_nil (k : Nat) : spec_field k [] = [] := by
  cases k <;> simp [spec_field]

theorem spec_field_tab (k : Nat) (rest : CStr) :
    spec_field (k + 1) (TAB :: rest) = spec_field k rest := by
  rw [spec_field, if_pos (List.mem_cons_self _ _)]
  simp [List.dropWhile_cons]

theorem spec_field_zero_other (c : Char) (rest : CStr) (hc : c ≠ TAB) :
    spec_field 0 (c :: rest) = c :: spec_field 0 rest := by
  simp only [spec_field]
  rw [List.takeWhile_cons_of_pos (by simpa using hc)]

theorem spec_field_succ_other (k : Nat) (c : Char) (rest : CStr) (hc : c ≠ TAB) :
    spec_field (k + 1) (c :: rest) = spec_field (k + 1) rest := by
  have hd : (c :: rest).dropWhile (fun c => c != TAB) = rest.dropWhile (fun c => c != TAB) := by
    rw [List.dropWhile_cons_of_pos (by simpa using hc)]
  have hm : TAB ∈ c :: rest ↔ TAB ∈ rest := by
    simp only [List.mem_cons]
    constructor
    · rintro (h | h)
      · exact absurd h.symm hc
      · exact h
    · exact Or.inr
  simp only [spec_field, hd, hm]

/-- The variables `start` and `stop` mark the field: they are positions in the row, in this
order, and the text between them is the field. -/
theorem field_extent : ∀ (row : CStr) (k : Nat),
    ∃ start stop : Nat, field_start row k TAB = start ∧ field_stop row k TAB = stop
      ∧ start ≤ stop ∧ stop ≤ row.length
      ∧ (row.drop start).take (stop - start) = spec_field k row
  | [], k => by
    refine ⟨0, 0, ?_, ?_, le_refl _, le_refl _, by simp [spec_field_nil]⟩
    · unfold field_start
      by_cases hk : (k : Int) = 0
      · rw [if_pos hk]; rfl
      · rw [if_neg hk, peek_nth_token_nil _ _ (by omega), if_pos rfl]; rfl
    · unfold field_stop
      rw [peek_nth_token_nil _ _ (by omega), if_pos rfl]; rfl
  | c :: rest, 0 => by
    obtain ⟨start, stop, h1, h2, h3, h4, h5⟩ := field_extent rest 0
    have hs0 : start = 0 := by
      unfold field_start at h1
      rw [if_pos (by simp)] at h1
      exact_mod_cast h1.symm
    subst hs0
    have hstart : field_start (c :: rest) ((0 : Nat) : Int) TAB = ((0 : Nat) : Int) := by
      unfold field_start
      rw [if_pos (by simp)]
      simp
    unfold field_stop at h2 ⊢
    simp only [Nat.cast_zero, zero_add] at h2 ⊢
    by_cases hc : c = TAB
    · subst hc
      refine ⟨0, 0, hstart, ?_, le_refl _, Nat.zero_le _, ?_⟩
      · rw [peek_nth_token_hit 1 rest TAB (le_refl _), if_pos rfl]
        simp
      · simp [spec_field, List.takeWhile_cons]
    · refine ⟨0, stop + 1, hstart, ?_, Nat.zero_le _, ?_, ?_⟩
      · rw [peek_nth_token_miss 1 c rest TAB (le_refl _) hc]
        have hr := peek_nth_token_range 1 rest TAB (le_refl _)
        rw [List.length_cons]
        push_cast
        split_ifs at h2 ⊢ <;> omega
      · rw [List.length_cons]; omega
      · rw [spec_field_zero_other c rest hc, ← h5]
        simp
  | c :: rest, k + 1 => by
    have hk1 : (1 : Int) ≤ ((k + 1 : Nat) : Int) := by push_cast; omega
    have hk2 : (1 : Int) ≤ ((k + 1 : Nat) : Int) + 1 := by push_cast; omega
    by_cases hc : c = TAB
    · subst hc
      obtain ⟨start, stop, h1, h2, h3, h4, h5⟩ := field_extent rest k
      refine ⟨start + 1, stop + 1, ?_, ?_, by omega, by rw [List.length_cons]; omega, ?_⟩
      · unfold field_start at h1 ⊢
        rw [if_neg (show ¬ ((k + 1 : Nat) : Int) = 0 from by omega),
          peek_nth_token_hit _ rest TAB hk1]
        have e : ((k + 1 : Nat) : Int) - 1 = (k : Int) := by push_cast; ring
        rw [e, List.length_cons]
        by_cases hk : (k : Int) = 0
        · rw [if_pos hk] at h1
          rw [if_pos (show ((k + 1 : Nat) : Int) = 1 from by push_cast; omega)]
          rw [if_neg (show ¬ (0 : Int) = -1 from by decide)]
          push_cast
          omega
        · rw [if_neg hk] at h1
          rw [if_neg (show ¬ ((k + 1 : Nat) : Int) = 1 from by push_cast; omega)]
          have hr := peek_nth_token_range (k : Int) rest TAB (by omega)
          push_cast
          split_ifs at h1 ⊢ <;> omega
      · unfold field_stop at h2 ⊢
        rw [peek_nth_token_hit _ rest TAB hk2]
        have e : ((k + 1 : Nat) : Int) + 1 - 1 = (k : Int) + 1 := by push_cast; ring
        rw [e, if_neg (show ¬ ((k + 1 : Nat) : Int) + 1 = 1 from by push_cast; omega),
          List.length_cons]
        have hr := peek_nth_token_range ((k : Int) + 1) rest TAB (by omega)
        push_cast
        split_ifs at h2 ⊢ <;> omega
      · rw [spec_field_tab, ← h5]
        simp
    · obtain ⟨start, stop, h1, h2, h3, h4, h5⟩ := field_extent rest (k + 1)
      refine ⟨start + 1, stop + 1, ?_, ?_, by omega, by rw [List.length_cons]; omega, ?_⟩
      · unfold field_start at h1 ⊢
        rw [if_neg (show ¬ ((k + 1 : Nat) : Int) = 0 from by omega)] at h1
        rw [if_neg (show ¬ ((k + 1 : Nat) : Int) = 0 from by omega),
          peek_nth_token_miss _ c rest TAB hk1 hc, List.length_cons]
        have hr := peek_nth_token_range ((k + 1 : Nat) : Int) rest TAB hk1
        push_cast at h1 hr ⊢
        split_ifs at h1 ⊢ <;> omega
      · unfold field_stop at h2 ⊢
        rw [peek_nth_token_miss _ c rest TAB hk2 hc, List.length_cons]
        have hr := peek_nth_token_range (((k + 1 : Nat) : Int) + 1) rest TAB hk2
        push_cast at h2 hr ⊢
        split_ifs at h2 ⊢ <;> omega
      · rw [spec_field_succ_other k c rest hc, ← h5]
        simp

theorem cut_tif_eq (field : CStr) :
    (if (field.length : Int) > 4 ∧ field.get? ((field.length : Int) - 4).toNat = some '.' then
        if strcmp (field.drop ((field.length : Int) - 3).toNat) "tif".toList = 0 then
          field.take ((field.length : Int) - 4).toNat
        else field
      else field) = spec_cut_tif field := by
  unfold spec_cut_tif
  by_cases hlen : field.length > 4
  · have e4 : ((field.length : Int) - 4).toNat = field.length - 4 := by omega
    have e3 : ((field.length : Int) - 3).toNat = field.length - 4 + 1 := by omega
    rw [e4, e3]
    have hl : (field.drop (field.length - 4)).length = 4 := by
      rw [List.length_drop]; omega
    have hget : field.get? (field.length - 4) = (field.drop (field.length - 4)).head? := by
      rw [List.head?_drop]
      simp
    have hdrop : field.drop (field.length - 4 + 1) = (field.drop (field.length - 4)).tail := by
      rw [List.tail_drop]
    rw [hget, hdrop]
    generalize field.drop (field.length - 4) = suffix at hl
    match suffix, hl with
    | [a, b, c, d], _ =>
      have hs : strcmp [b, c, d] "tif".toList = 0 ↔ [b, c, d] = "tif".toList :=
        strcmp_eq_zero_short [b, c, d] "tif".toList (by decide) (le_refl 3)
      by_cases ha : a = '.'
      · subst ha
        by_cases ht : [b, c, d] = "tif".toList
        · have hs' := hs.mpr ht
          simp only [List.head?_cons, List.tail_cons]
          rw [if_pos ⟨by omega, trivial⟩, if_pos hs', if_pos ⟨hlen, by rw [ht]; rfl⟩]
        · have hs' : ¬ strcmp [b, c, d] "tif".toList = 0 := fun h => ht (hs.mp h)
          simp only [List.head?_cons, List.tail_cons]
          rw [if_pos ⟨by omega, trivial⟩, if_neg hs', if_neg]
          rintro ⟨-, h⟩
          exact ht (List.cons.inj h).2
      · simp only [List.head?_cons, List.tail_cons]
        rw [if_neg, if_neg]
        · rintro ⟨-, h⟩
          exact ha (List.cons.inj h).1
        · rintro ⟨-, h⟩
          exact ha (Option.some.inj h)
  · rw [if_neg (fun h => hlen (by omega)), if_neg (fun h => hlen h.1)]

/-- What `get_field_contents_from_row` leaves in `contents` and returns, from the variables
`start` and `stop`. -/
theorem get_field_contents_from_row_eq (row : CStr) (k : Nat) :
    get_field_contents_from_row row k TAB
      = if equals_no (spec_cut_tif (spec_field k row)) then
          (spec_cut_tif (spec_field k row), 0)
        else (spec_cut_tif (spec_field k row), ((spec_field k row).length : Int)) := by
  obtain ⟨start, stop, h1, h2, h3, h4, h5⟩ := field_extent row k
  have hlen : (spec_field k row).length = stop - start := by
    rw [← h5, List.length_take, List.length_drop]
    omega
  unfold field_start at h1
  unfold field_stop at h2
  unfold get_field_contents_from_row
  simp only [h1, h2]
  have e1 : ((start : Int)).toNat = start := by omega
  have e2 : ((stop : Int) - (start : Int)).toNat = stop - start := by omega
  have e3 : (stop : Int) - (start : Int) = ((spec_field k row).length : Int) := by omega
  rw [e1, e2, h5, e3, cut_tif_eq]

set_option maxRecDepth 8000 in
/-- Claim C33, the code: for the field "logo.tif" the contents left are "logo", of 4
characters, and the value returned is 8, the length of the field. -/
theorem field_tif_counterexample :
    spec_field 1 "L1\tlogo.tif".toList = "logo.tif".toList
      ∧ get_field_contents_from_row "L1\tlogo.tif".toList 1 TAB = ("logo".toList, 8) := by
  decide

/-- Claim C33, amended: for every row and column index `k`, `get_field_contents_from_row`
leaves in `contents` the tab-delimited field `k` of the row without a final ".tif" (a field
of four characters or fewer is kept whole), and returns 0 when what it left equals "N" or
"NO" ignoring case, and otherwise the length of the field as it stands in the row, which is
4 more than the length of the contents when ".tif" was cut. -/
theorem field_contents (row : CStr) (k : Nat) :
    (get_field_contents_from_row row k TAB).1 = spec_cut_tif (spec_field k row)
      ∧ (get_field_contents_from_row row k TAB).2
        = (if equals_no (spec_cut_tif (spec_field k row)) then 0
          else ((spec_field k row).length : Int))
      ∧ ((∀ c ∈ row, c ≠ Char.ofNat 0) →
        (equals_no (spec_cut_tif (spec_field k row)) = true ↔
          spec_equals_ignoring_case (spec_cut_tif (spec_field k row)) "N".toList
            ∨ spec_equals_ignoring_case (spec_cut_tif (spec_field k row)) "NO".toList)) := by
  have h := get_field_contents_from_row_eq row k
  refine ⟨?_, ?_, ?_⟩
  · rw [h]; split <;> rfl
  · rw [h]; split <;> rfl
  · intro hrow
    have hcell : ∀ c ∈ spec_cut_tif (spec_field k row), c ≠ Char.ofNat 0 := by
      intro c hc
      have e : (get_field_contents_from_row row k TAB).1 = spec_cut_tif (spec_field k row) := by
        rw [h]; split <;> rfl
      rw [← e] at hc
      exact hrow c (get_field_contents_from_row_mem _ _ _ c hc)
    rw [equals_no_spec _ hcell]
    unfold spec_equals_ignoring_case
    rw [show "NO".toList.map Char.toLower = "No".toList.map Char.toLower from by decide]

set_option maxRecDepth 8000 in
/-- The row L1 / no / x.tif: field 1 is a textual no, field 2 loses its extension. -/
theorem field_contents_witness :
    get_field_contents_from_row "L1\tno\tx.tif".toList 1 TAB = ("no".toList, 0)
      ∧ (get_field_contents_from_row "L1\tno\tx.tif".toList (2 : Nat) TAB).1
        = spec_cut_tif (spec_field 2 "L1\tno\tx.tif".toList)
      ∧ (equals_no (spec_cut_tif (spec_field 1 "L1\tno\tx.tif".toList)) = true ↔
          spec_equals_ignoring_case (spec_cut_tif (spec_field 1 "L1\tno\tx.tif".toList))
              "N".toList
            ∨ spec_equals_ignoring_case (spec_cut_tif (spec_field 1 "L1\tno\tx.tif".toList))
              "NO".toList) :=
  ⟨by decide, (field_contents "L1\tno\tx.tif".toList 2).1,
    (field_contents "L1\tno\tx.tif".toList 1).2.2 (by decide)⟩

/-! ### The function `strncmpci` -/

theorem ord_toLower (c : Char) :
    ord c.toLower = if 65 ≤ ord c ∧ ord c ≤ 90 then ord c + 32 else ord c := by
  unfold Char.toLower ord
  simp only []
  by_cases h : c.toNat ≥ 65 ∧ c.toNat ≤ 90
  · rw [if_pos h, if_pos (by omega)]
    have hc : c = Char.ofNat c.toNat := (Char.ofNat_toNat c).symm
    generalize c.toNat = n at h hc
    obtain ⟨h1, h2⟩ := h
    interval_cases n <;> rfl
  · rw [if_neg h, if_neg (by omega)]

theorem ord_lt (c : Char) : ord c < 1114112 := by
  have h := c.valid
  unfold ord Char.toNat
  rcases h with h | h
  · have : c.val.toNat < 55296 := h
    omega
  · have : c.val.toNat < 1114112 := h.2
    omega

/-- The folded values of two characters are equal exactly when the characters are equal
ignoring case. -/
theorem fold_eq_iff (c d : Char) :
    tolower_int (char_int c) = tolower_int (char_int d) ↔ c.toLower = d.toLower := by
  have hc : (0 : Int) ≤ ord c := by unfold ord; omega
  have hd : (0 : Int) ≤ ord d := by unfold ord; omega
  constructor
  · intro h
    apply ord_inj
    rw [ord_toLower, ord_toLower]
    unfold tolower_int char_int at h
    split_ifs at h ⊢ <;> omega
  · intro h
    have h' := congrArg ord h
    rw [ord_toLower, ord_toLower] at h'
    unfold tolower_int char_int
    split_ifs at h' ⊢ <;> omega

theorem fold_range (c : Char) (hc : c ≠ Char.ofNat 0) :
    tolower_int (char_int c) ≠ 0 ∧ -128 ≤ tolower_int (char_int c)
      ∧ tolower_int (char_int c) < 1114144 := by
  have h0 : ord c ≠ 0 := fun h => hc (ord_inj (by rw [h]; rfl))
  have h1 : (0 : Int) ≤ ord c := by unfold ord; omega
  have h2 := ord_lt c
  unfold tolower_int char_int
  split_ifs <;> omega

/-- The loop entered with `ret_code` 0 compares the first `n` characters ignoring case: the
result is 0 exactly when they are equal ignoring case, and otherwise the difference of the
folded characters at the first position where the strings differ (0 standing for the end
of a string). -/
theorem strncmpci_loop_spec : ∀ (n : Nat) (a b : CStr),
    (∀ c ∈ a, c ≠ Char.ofNat 0) → (∀ c ∈ b, c ≠ Char.ofNat 0) →
    (strncmpci_loop n a b 0 = 0 ↔ spec_equals_ignoring_case (a.take n) (b.take n))
      ∧ (strncmpci_loop n a b 0 ≠ 0 →
        ∃ i, i < n ∧ spec_equals_ignoring_case (a.take i) (b.take i)
          ∧ strncmpci_loop n a b 0
            = tolower_int (((a.get? i).map char_int).getD 0)
              - tolower_int (((b.get? i).map char_int).getD 0))
      ∧ -1114272 < strncmpci_loop n a b 0
  | 0, a, b, _, _ => by
    simp [strncmpci_loop, spec_equals_ignoring_case]
  | n + 1, [], [], _, _ => by
    simp [strncmpci_loop, spec_equals_ignoring_case]
  | n + 1, [], y :: b, _, hb => by
    obtain ⟨h0, h1, h2⟩ := fold_range y (hb y (List.mem_cons_self _ _))
    have hz : tolower_int 0 = 0 := by decide
    have e : strncmpci_loop (n + 1) [] (y :: b) 0 = 0 - tolower_int (char_int y) := by
      rw [strncmpci_loop, if_neg (by simp)]
      simp only [List.head?_nil, List.head?_cons, Option.map_none', Option.map_some',
        Option.getD_none, Option.getD_some, hz]
      rw [if_pos (by omega)]
    rw [e]
    refine ⟨?_, ?_, by omega⟩
    · constructor
      · intro h; omega
      · intro h
        have := congrArg List.length h
        simp at this
    · intro _
      refine ⟨0, by omega, rfl, ?_⟩
      simp [hz]
  | n + 1, x :: a, [], ha, _ => by
    obtain ⟨h0, h1, h2⟩ := fold_range x (ha x (List.mem_cons_self _ _))
    have hz : tolower_int 0 = 0 := by decide
    have e : strncmpci_loop (n + 1) (x :: a) [] 0 = tolower_int (char_int x) - 0 := by
      rw [strncmpci_loop, if_neg (by simp)]
      simp only [List.head?_nil, List.head?_cons, Option.map_none', Option.map_some',
        Option.getD_none, Option.getD_some, hz]
      rw [if_pos (by omega)]
    rw [e]
    refine ⟨?_, ?_, by omega⟩
    · constructor
      · intro h; omega
      · intro h
        have := congrArg List.length h
        simp at this
    · intro _
      refine ⟨0, by omega, rfl, ?_⟩
      simp [hz]
  | n + 1, x :: a, y :: b, ha, hb => by
    obtain ⟨hx0, hx1, hx2⟩ := fold_range x (ha x (List.mem_cons_self _ _))
    obtain ⟨hy0, hy1, hy2⟩ := fold_range y (hb y (List.mem_cons_self _ _))
    obtain ⟨i1, i2, i3⟩ := strncmpci_loop_spec n a b
      (fun c hc => ha c (List.mem_cons_of_mem _ hc))
      (fun c hc => hb c (List.mem_cons_of_mem _ hc))
    have hstep : strncmpci_loop (n + 1) (x :: a) (y :: b) 0
        = if tolower_int (char_int x) - tolower_int (char_int y) ≠ 0 then
            tolower_int (char_int x) - tolower_int (char_int y)
          else strncmpci_loop n a b 0 := by
      rw [strncmpci_loop, if_neg (by simp)]
      simp only [List.head?_cons, Option.map_some', Option.getD_some, List.tail_cons]
    have hcons : spec_equals_ignoring_case ((x :: a).take (n + 1)) ((y :: b).take (n + 1))
        ↔ x.toLower = y.toLower ∧ spec_equals_ignoring_case (a.take n) (b.take n) := by
      unfold spec_equals_ignoring_case
      simp only [List.take_succ_cons, List.map_cons, List.cons.injEq]
    rw [hstep, hcons]
    by_cases hd : tolower_int (char_int x) - tolower_int (char_int y) ≠ 0
    · simp only [if_pos hd]
      have hne : ¬ x.toLower = y.toLower := by
        intro h
        have := (fold_eq_iff x y).mpr h
        omega
      refine ⟨?_, ?_, by omega⟩
      · constructor
        · intro h; exact absurd h hd
        · intro h; exact absurd h.1 hne
      · intro _
        refine ⟨0, by omega, rfl, ?_⟩
        simp
    · simp only [if_neg hd]
      have heq : x.toLower = y.toLower := (fold_eq_iff x y).mp (by omega)
      refine ⟨?_, ?_, i3⟩
      · rw [i1]
        constructor
        · intro h; exact ⟨heq, h⟩
        · intro h; exact h.2
      · intro h
        obtain ⟨i, hi, he, hv⟩ := i2 h
        refine ⟨i + 1, by omega, ?_, ?_⟩
        · unfold spec_equals_ignoring_case at he ⊢
          simp only [List.take_succ_cons, List.map_cons, heq, he]
        · rw [hv]
          simp

theorem strncmpci_loop_first (n : Nat) (a b : CStr) (r : Int) (h : ¬ (a = [] ∧ b = [])) :
    strncmpci_loop (n + 1) a b r = strncmpci_loop (n + 1) a b 0 := by
  rw [strncmpci_loop, strncmpci_loop, if_neg h, if_neg h]

/-- Claim C34, the code: for strings that are not NULL and `num ≥ 0`, `strncmpci` returns
`INT_MIN` when `num` is 0 and when both strings are empty, where the first `num`
characters are equal. In every other case it returns 0 exactly when the first `num`
characters are equal ignoring case, otherwise the difference of the folded characters at
the first position where the strings differ, and never `INT_MIN`. With a NULL argument it
returns `INT_MIN`. -/
theorem strncmpci_result (a b : CStr) (num : Nat) (ha : ∀ c ∈ a, c ≠ Char.ofNat 0)
    (hb : ∀ c ∈ b, c ≠ Char.ofNat 0) :
    (num = 0 ∨ (a = [] ∧ b = []) → strncmpci (some a) (some b) num = INT_MIN)
      ∧ (num ≠ 0 → ¬ (a = [] ∧ b = []) →
        (strncmpci (some a) (some b) num = 0 ↔
            spec_equals_ignoring_case (a.take num) (b.take num))
          ∧ (strncmpci (some a) (some b) num ≠ 0 →
            ∃ i, i < num ∧ spec_equals_ignoring_case (a.take i) (b.take i)
              ∧ strncmpci (some a) (some b) num
                = tolower_int (((a.get? i).map char_int).getD 0)
                  - tolower_int (((b.get? i).map char_int).getD 0))
          ∧ strncmpci (some a) (some b) num ≠ INT_MIN)
      ∧ strncmpci none (some b) num = INT_MIN ∧ strncmpci (some a) none num = INT_MIN := by
  have hdef : strncmpci (some a) (some b) num = strncmpci_loop num a b INT_MIN := by
    unfold strncmpci
    simp only []
    rw [if_neg (by omega)]
    simp
  refine ⟨?_, ?_, rfl, rfl⟩
  · rintro (h | h)
    · subst h
      rw [hdef]
      rfl
    · rw [hdef]
      cases num with
      | zero => rfl
      | succ n => rw [strncmpci_loop, if_pos h]
  · intro hn hne
    obtain ⟨n, rfl⟩ := Nat.exists_eq_succ_of_ne_zero hn
    rw [hdef, Nat.succ_eq_add_one, strncmpci_loop_first n a b INT_MIN hne]
    obtain ⟨h1, h2, h3⟩ := strncmpci_loop_spec (n + 1) a b ha hb
    refine ⟨h1, h2, ?_⟩
    unfold INT_MIN
    omega

/-- The switch "-j" against "-J", and two empty strings. -/
theorem strncmpci_result_witness :
    (strncmpci (some "-j".toList) (some "-J".toList) (2 : Nat) = 0 ↔
        spec_equals_ignoring_case ("-j".toList.take 2) ("-J".toList.take 2))
      ∧ strncmpci (some []) (some []) (2 : Nat) = INT_MIN :=
  ⟨((strncmpci_result "-j".toList "-J".toList 2 (by decide) (by decide)).2.1 (by decide)
      (by decide)).1,
    (strncmpci_result [] [] 2 (by decide) (by decide)).1 (Or.inr ⟨rfl, rfl⟩)⟩

/-! ### The order of the columns -/

theorem fields_injective (r t : Label_record) (h : r.fields = t.fields) : r = t := by
  cases r
  cases t
  simp only [Label_record.fields, List.cons.injEq, Field_value.text.injEq,
    Field_value.flag.injEq, Field_value.pointer.injEq, and_true] at h
  simp only [Label_record.mk.injEq]
  exact h

set_option maxHeartbeats 4000000 in
/-- Each column of the table runs the loop over the rows with a setter that changes the one
member of the record at the position of the table, to the value of the kind of the
column. -/
theorem column_effects_spec : ∀ e ∈ column_effects, ∀ (cfg : Config) (rows : List CStr)
    (count : Nat) (ps : ParseState), (e.2.2.2 = true → cfg.non_SAP_fields = true) →
    ∃ set : CStr → Int → Label_record → Label_record,
      (parse_column cfg rows e.1 count ps).2.labels = for_each_row rows count set ps.labels
        ∧ ∀ c l r, (set c l r).fields
            = r.fields.set e.2.1 (e.2.2.1.value c l (r.fields.getD e.2.1 (.flag 0))) := by
  unfold column_effects
  repeat' (first
    | exact List.forall_mem_nil _
    | refine List.forall_mem_cons.mpr ⟨?_, ?_⟩)
  all_goals
    intro cfg rows count ps hg
    refine Exists.intro ?_ (And.intro ?_ ?_)
    rotate_left
    · unfold parse_column
      repeat (rw [if_neg (show ¬ _ from by decide)])
      rw [if_pos (show _ from by decide)]
      first
        | (dsimp only; exact rfl)
        | (rw [material_or_pcode_labels]; dsimp only; exact rfl)
        | (rw [if_pos (hg rfl)]; dsimp only; exact rfl)
    · intro c l r
      simp only [Column_kind.value]
      first
        | rfl
        | (split_ifs <;> rfl)

set_option maxHeartbeats 4000000 in
/-- A column whose branch is inside `if (non_SAP_fields)` leaves the records as they are
when the switch is off. -/
theorem column_effects_gated : ∀ e ∈ column_effects, e.2.2.2 = true → ∀ (cfg : Config)
    (rows : List CStr) (count : Nat) (ps : ParseState), cfg.non_SAP_fields = false →
    (parse_column cfg rows e.1 count ps).2.labels = ps.labels := by
  unfold column_effects
  repeat' (first
    | exact List.forall_mem_nil _
    | refine List.forall_mem_cons.mpr ⟨?_, ?_⟩)
  all_goals
    intro hgated cfg rows count ps hflag
    first
      | exact absurd hgated (by decide)
      | (unfold parse_column
         repeat (rw [if_neg (show ¬ _ from by decide)])
         rw [if_pos (show _ from by decide)]
         rw [if_neg (show ¬ _ from by rw [hflag]; decide)]
         rfl)
theorem strcmp_ne_heading (token lit : CStr) (hnul : ∀ c ∈ token, c ≠ Char.ofNat 0)
    (hlit : ∀ c ∈ lit, c ≠ Char.ofNat 0) (hmem : lit ∈ column_effects.map (fun e => e.1))
    (hnot : token ∉ column_effects.map (fun e => e.1)) : ¬ strcmp token lit = 0 := by
  intro h
  rw [strcmp_eq_zero token lit hnul hlit] at h
  exact hnot (h ▸ hmem)

set_option maxHeartbeats 4000000 in
/-- A column whose heading is not in the table leaves the records as they are. -/
theorem parse_column_unknown (cfg : Config) (rows : List CStr) (token : CStr) (count : Nat)
    (ps : ParseState) (hnul : ∀ c ∈ token, c ≠ Char.ofNat 0)
    (hnot : token ∉ column_effects.map (fun e => e.1)) :
    (parse_column cfg rows token count ps).2.labels = ps.labels := by
  unfold parse_column
  repeat' (first
    | (refine absurd ‹strcmp token _ = 0› (strcmp_ne_heading token _ hnul ?_ ?_ hnot) <;> decide)
    | (rcases ‹_ ∨ _ ∨ _› with h | h | h <;>
        (refine absurd h (strcmp_ne_heading token _ hnul ?_ ?_ hnot) <;> decide))
    | (rcases ‹_ ∨ _› with h | h <;>
        (refine absurd h (strcmp_ne_heading token _ hnul ?_ ?_ hnot) <;> decide))
    | exact rfl
    | refine ite_prop (fun x : Bool × ParseState => x.2.labels = ps.labels) _ _ _
        (fun _ => ?_) (fun _ => ?_))
theorem zipWith_right {α β : Type} : ∀ (l : List α) (m : List β), m.length = l.length →
    List.zipWith (fun _ b => b) l m = m
  | [], [], _ => rfl
  | [], _ :: _, h => by simp at h
  | _ :: _, [], h => by simp at h
  | _ :: l, b :: m, h => by
    rw [List.zipWith_cons_cons, zipWith_right l m (by simpa using h)]

theorem zipWith_zipWith_right {α β : Type} (f g : α → β → β) :
    ∀ (l : List α) (m : List β),
      List.zipWith f l (List.zipWith g l m) = List.zipWith (fun a b => f a (g a b)) l m
  | [], _ => by simp
  | _ :: _, [] => by simp
  | a :: l, b :: m => by
    simp only [List.zipWith_cons_cons, zipWith_zipWith_right f g l m]

theorem for_each_row_fields (count : Nat) (set : CStr → Int → Label_record → Label_record)
    (f : CStr → Int → List Field_value → List Field_value)
    (hset : ∀ c l r, (set c l r).fields = f c l r.fields) :
    ∀ (rows : List CStr) (labels : List Label_record),
      (for_each_row rows count set labels).map Label_record.fields
        = List.zipWith
            (fun row fs =>
              f (get_field_contents_from_row row count TAB).1
                (get_field_contents_from_row row count TAB).2 fs)
            rows (labels.map Label_record.fields)
  | [], _ => by simp [for_each_row]
  | _ :: _, [] => by simp [for_each_row]
  | row :: rows, r :: labels => by
    have ih := for_each_row_fields count set f hset rows labels
    unfold for_each_row at ih ⊢
    simp only [List.zipWith_cons_cons, List.map_cons, hset, ih]

/-- What a column does to the members of the records: the column `count` of each row is
applied to the record of the row as the table of columns says. -/
theorem parse_column_fields (cfg : Config) (rows : List CStr) (token : CStr) (count : Nat)
    (ps : ParseState) (hnul : ∀ c ∈ token, c ≠ Char.ofNat 0)
    (hlen : ps.labels.length = rows.length) :
    (parse_column cfg rows token count ps).2.labels.map Label_record.fields
        = List.zipWith
            (fun row fs =>
              apply_column cfg token (get_field_contents_from_row row count TAB).1
                (get_field_contents_from_row row count TAB).2 fs)
            rows (ps.labels.map Label_record.fields)
      ∧ (parse_column cfg rows token count ps).2.labels.length = rows.length := by
  have hsame : (parse_column cfg rows token count ps).2.labels = ps.labels →
      (parse_column cfg rows token count ps).2.labels.map Label_record.fields
          = List.zipWith (fun (_ : CStr) (fs : List Field_value) => fs) rows
              (ps.labels.map Label_record.fields)
        ∧ (parse_column cfg rows token count ps).2.labels.length = rows.length := by
    intro h
    rw [h, zipWith_right rows _ (by rw [List.length_map, hlen])]
    exact ⟨rfl, hlen⟩
  unfold apply_column
  cases hfind : column_effects.find? (fun e => e.1 = token) with
  | none =>
    have hnot : token ∉ column_effects.map (fun e => e.1) := by
      intro hmem
      obtain ⟨e, he, rfl⟩ := List.mem_map.mp hmem
      have := List.find?_eq_none.mp hfind e he
      simp at this
    exact hsame (parse_column_unknown cfg rows token count ps hnul hnot)
  | some e =>
    have he : e ∈ column_effects := List.mem_of_find?_eq_some hfind
    have hname : e.1 = token := by
      have := List.find?_some hfind
      simpa using this
    subst hname
    by_cases hg : e.2.2.2 = true ∧ cfg.non_SAP_fields = false
    · simp only [if_pos hg]
      exact hsame (column_effects_gated e he hg.1 cfg rows count ps hg.2)
    · simp only [if_neg hg]
      have hg2 : e.2.2.2 = true → cfg.non_SAP_fields = true := by
        intro h1
        cases h2 : cfg.non_SAP_fields
        · exact absurd ⟨h1, h2⟩ hg
        · rfl
      obtain ⟨set, h1, h2⟩ := column_effects_spec e he cfg rows count ps hg2
      rw [h1]
      exact ⟨for_each_row_fields count set
          (fun c l fs => fs.set e.2.1 (e.2.2.1.value c l (fs.getD e.2.1 (.flag 0)))) h2 rows
          ps.labels,
        for_each_row_length rows count set ps.labels hlen⟩
theorem parse_column_flags_eq (cfg : Config) (rows : List CStr) (n : CStr) (count : Nat)
    (ps : ParseState) (hnul : ∀ c ∈ n, c ≠ Char.ofNat 0)
    (hinv : ¬ (ps.material = true ∧ ps.pcode = true)) :
    (parse_column cfg rows n count ps).2.material
        = (ps.material || decide (n = "MATERIAL".toList))
      ∧ (parse_column cfg rows n count ps).2.pcode
        = (ps.pcode || decide (n = "PCODE".toList))
      ∧ (parse_column cfg rows n count ps).1
        = ((ps.pcode || decide (n = "PCODE".toList))
            && (ps.material || decide (n = "MATERIAL".toList))) := by
  have eM : strcmp n "MATERIAL".toList = 0 ↔ n = "MATERIAL".toList :=
    strcmp_eq_zero _ _ hnul (by decide)
  have eP : strcmp n "PCODE".toList = 0 ↔ n = "PCODE".toList :=
    strcmp_eq_zero _ _ hnul (by decide)
  have eL : strcmp n "LABEL".toList = 0 ↔ n = "LABEL".toList :=
    strcmp_eq_zero _ _ hnul (by decide)
  by_cases hmp : strcmp n "MATERIAL".toList = 0 ∨ strcmp n "PCODE".toList = 0
  · have hl : strcmp n "LABEL".toList ≠ 0 := by
      rw [Ne, eL]
      rintro rfl
      revert hmp
      decide
    obtain ⟨h1, h2, h3⟩ := parse_column_material_pcode cfg rows n count ps hl hmp
    have hd : decide (strcmp n "MATERIAL".toList = 0) = decide (n = "MATERIAL".toList) :=
      decide_eq_decide.mpr eM
    rw [h1, h2, h3, hd]
    rcases hmp with hm | hp
    · have e := eM.mp hm
      have b1 : decide (n = "MATERIAL".toList) = true := decide_eq_true e
      have b2 : decide (n = "PCODE".toList) = false := decide_eq_false (by rw [e]; decide)
      rw [b1, b2]
      simp
    · have e := eP.mp hp
      have b1 : decide (n = "MATERIAL".toList) = false := decide_eq_false (by rw [e]; decide)
      have b2 : decide (n = "PCODE".toList) = true := decide_eq_true e
      rw [b1, b2]
      simp
  · obtain ⟨h1, h2, h3⟩ := parse_column_other cfg rows n count ps hmp
    rw [h1, h2, h3]
    rw [eM, eP] at hmp
    push_neg at hmp
    simp only [hmp.1, hmp.2, decide_False, Bool.or_false]
    cases hm : ps.material <;> cases hp : ps.pcode <;> simp_all

/-- A column of a heading row that does not name both MATERIAL and PCODE does not end
`parse_spreadsheet`, and the rest of the row does not name both either. -/
theorem parse_column_continue (cfg : Config) (rows : List CStr) (n : CStr) (rest : List CStr)
    (count : Nat) (ps : ParseState) (hnul : ∀ c ∈ n, c ≠ Char.ofNat 0)
    (h : ¬ ((ps.material = true ∨ "MATERIAL".toList ∈ n :: rest)
      ∧ (ps.pcode = true ∨ "PCODE".toList ∈ n :: rest))) :
    (parse_column cfg rows n count ps).1 = false
      ∧ ¬ (((parse_column cfg rows n count ps).2.material = true ∨ "MATERIAL".toList ∈ rest)
        ∧ ((parse_column cfg rows n count ps).2.pcode = true ∨ "PCODE".toList ∈ rest)) := by
  have hinv : ¬ (ps.material = true ∧ ps.pcode = true) :=
    fun hh => h ⟨Or.inl hh.1, Or.inl hh.2⟩
  obtain ⟨h1, h2, h3⟩ := parse_column_flags_eq cfg rows n count ps hnul hinv
  rw [h1, h2, h3]
  simp only [List.mem_cons] at h
  constructor
  · rw [Bool.eq_false_iff]
    intro hb
    simp only [Bool.and_eq_true, Bool.or_eq_true, decide_eq_true_eq] at hb
    refine h ⟨?_, ?_⟩
    · rcases hb.2 with x | x
      · exact Or.inl x
      · exact Or.inr (Or.inl x.symm)
    · rcases hb.1 with x | x
      · exact Or.inl x
      · exact Or.inr (Or.inl x.symm)
  · intro hb
    simp only [Bool.or_eq_true, decide_eq_true_eq] at hb
    refine h ⟨?_, ?_⟩
    · rcases hb.1 with (x | x) | x
      · exact Or.inl x
      · exact Or.inr (Or.inl x.symm)
      · exact Or.inr (Or.inr x)
    · rcases hb.2 with (x | x) | x
      · exact Or.inl x
      · exact Or.inr (Or.inl x.symm)
      · exact Or.inr (Or.inr x)

theorem apply_column_nil (cfg : Config) (contents : CStr) (length : Int)
    (fs : List Field_value) : apply_column cfg [] contents length fs = fs := by
  have h : column_effects.find? (fun e => e.1 = ([] : CStr)) = none := by decide
  unfold apply_column
  rw [h]

/-- The loop of `parse_spreadsheet` over a heading row made of the names `names`, which do
not hold both MATERIAL and PCODE: the columns are applied to the records one after the
other, numbered from `count`. -/
theorem parse_loop_fields (cfg : Config) (rows : List CStr) :
    ∀ (names : List CStr) (fuel count : Nat) (ps : ParseState),
      (∀ n ∈ names, ∀ c ∈ n, c ≠ TAB ∧ c ≠ Char.ofNat 0) →
      (spec_header names).length ≤ fuel →
      count + names.length ≤ 65536 →
      ¬ ((ps.material = true ∨ "MATERIAL".toList ∈ names)
        ∧ (ps.pcode = true ∨ "PCODE".toList ∈ names)) →
      ps.labels.length = rows.length →
      (parse_loop cfg rows fuel (spec_header names) count ps).2.labels.map Label_record.fields
        = List.zipWith (fun row fs => spec_row_fields cfg row names count fs) rows
            (ps.labels.map Label_record.fields) := by
  intro names
  induction names with
  | nil =>
    intro fuel count ps _ _ _ _ hlen
    simp only [spec_header, parse_loop_nil, spec_row_fields]
    rw [zipWith_right rows _ (by rw [List.length_map, hlen])]
  | cons n rest ih =>
    intro fuel count ps hnames hfuel hcount hflags hlen
    have hn := hnames n (List.mem_cons_self _ _)
    have hntab : TAB ∉ n := fun h => (hn TAB h).1 rfl
    have hnul : ∀ c ∈ n, c ≠ Char.ofNat 0 := fun c hc => (hn c hc).2
    obtain ⟨h1, h2⟩ := parse_column_continue cfg rows n rest count ps hnul hflags
    obtain ⟨h3, h4⟩ := parse_column_fields cfg rows n count ps hnul hlen
    cases rest with
    | nil =>
      simp only [spec_header] at hfuel ⊢
      simp only [spec_row_fields]
      by_cases hne : n = []
      · subst hne
        simp only [parse_loop_nil, apply_column_nil]
        rw [zipWith_right rows _ (by rw [List.length_map, hlen])]
      · obtain ⟨fuel, rfl⟩ : ∃ f, fuel = f + 1 := by
          have := List.length_pos.mpr hne
          exact ⟨fuel - 1, by omega⟩
        rw [parse_loop_last cfg rows fuel count ps n hntab hne, h1]
        simp only [Bool.false_eq_true, if_false]
        exact h3
    | cons m rest =>
      simp only [spec_header, List.length_append, List.length_cons] at hfuel
      obtain ⟨fuel, rfl⟩ : ∃ f, fuel = f + 1 := ⟨fuel - 1, by omega⟩
      simp only [spec_header]
      rw [parse_loop_tab cfg rows fuel count ps n _ hntab, h1]
      simp only [Bool.false_eq_true, if_false]
      simp only [List.length_cons] at hcount
      rw [Nat.mod_eq_of_lt (by omega)]
      rw [ih fuel (count + 1) _ (fun x hx => hnames x (List.mem_cons_of_mem _ hx)) (by omega)
        (by simp only [List.length_cons]; omega) h2 h4, h3, zipWith_zipWith_right]
      rfl
theorem takeWhile_dropWhile_tab (x rest : CStr) (h : TAB ∉ x) :
    (x ++ TAB :: rest).takeWhile (fun c => c != TAB) = x
      ∧ ((x ++ TAB :: rest).dropWhile (fun c => c != TAB)).tail = rest := by
  have e := get_token_tab x rest h
  unfold get_token at e
  rw [if_neg (by decide), if_pos (by simp)] at e
  exact ⟨congrArg Prod.fst e, congrArg Prod.snd e⟩

theorem takeWhile_no_tab : ∀ (x : CStr), TAB ∉ x → x.takeWhile (fun c => c != TAB) = x
  | [], _ => rfl
  | c :: x, h => by
    have hc : c ≠ TAB := fun e => h (e ▸ List.mem_cons_self _ _)
    have hx : TAB ∉ x := fun e => h (List.mem_cons_of_mem _ e)
    simp only [List.takeWhile_cons, bne_iff_ne, ne_eq, hc, not_false_eq_true, if_true,
      takeWhile_no_tab x hx]

/-- The field `j` of a row made of cells without tabs is the cell `j`. -/
theorem spec_field_header : ∀ (cells : List CStr) (j : Nat), (∀ cell ∈ cells, TAB ∉ cell) →
    spec_field j (spec_header cells) = cells.getD j []
  | [], j, _ => by simp [spec_header, spec_field_nil]
  | [c], 0, h => by
    simp only [spec_header, spec_field, List.getD_cons_zero]
    exact takeWhile_no_tab c (h c (List.mem_singleton_self c))
  | [c], j + 1, h => by
    simp only [spec_header, spec_field, List.getD_cons_succ, List.getD_nil]
    rw [if_neg (h c (List.mem_singleton_self c))]
  | c :: d :: rest, 0, h => by
    simp only [spec_header, spec_field, List.getD_cons_zero]
    exact (takeWhile_dropWhile_tab c _ (h c (List.mem_cons_self _ _))).1
  | c :: d :: rest, j + 1, h => by
    simp only [spec_header, spec_field, List.getD_cons_succ]
    rw [if_pos (by simp), (takeWhile_dropWhile_tab c _ (h c (List.mem_cons_self _ _))).2]
    exact spec_field_header (d :: rest) j (fun x hx => h x (List.mem_cons_of_mem _ hx))

/-- The contents read from column `j` of a row made of cells without tabs are the contents
read from the cell `j` alone. -/
theorem get_field_contents_from_row_header (cells : List CStr) (j : Nat)
    (h : ∀ cell ∈ cells, TAB ∉ cell) :
    get_field_contents_from_row (spec_header cells) j TAB
      = get_field_contents_from_row (cells.getD j []) (0 : Nat) TAB := by
  have hc : TAB ∉ cells.getD j [] := by
    rw [List.getD_eq_getElem?_getD]
    cases e : cells[j]? with
    | none => simp
    | some x => exact h x (List.getElem?_mem e)
  rw [get_field_contents_from_row_eq, get_field_contents_from_row_eq,
    spec_field_header cells j h]
  have e0 : spec_field 0 (cells.getD j []) = cells.getD j [] := by
    simp only [spec_field]
    exact takeWhile_no_tab _ hc
  rw [e0]

/-- The members of the record of a row made of cells without tabs, after the columns
`names` numbered from `count`: each column is applied with the contents of its own cell. -/
theorem spec_row_fields_zip (cfg : Config) (cells : List CStr)
    (h : ∀ cell ∈ cells, TAB ∉ cell) :
    ∀ (names : List CStr) (count : Nat) (fs : List Field_value),
      count + names.length ≤ cells.length →
      spec_row_fields cfg (spec_header cells) names count fs
        = (names.zip (cells.drop count)).foldl
            (fun fs x =>
              apply_column cfg x.1 (get_field_contents_from_row x.2 (0 : Nat) TAB).1
                (get_field_contents_from_row x.2 (0 : Nat) TAB).2 fs) fs
  | [], _, _, _ => by simp [spec_row_fields]
  | n :: names, count, fs, hlen => by
    simp only [List.length_cons] at hlen
    have hlt : count < cells.length := by omega
    rw [spec_row_fields, List.drop_eq_getElem_cons hlt, List.zip_cons_cons, List.foldl_cons,
      spec_row_fields_zip cfg cells h names (count + 1) _ (by omega),
      get_field_contents_from_row_header cells count h, List.getD_eq_getElem cells [] hlt]

theorem getD_set_ne {α : Type} (l : List α) (i j : Nat) (a d : α) (h : i ≠ j) :
    (l.set i a).getD j d = l.getD j d := by
  rw [List.getD_eq_getElem?_getD, List.getD_eq_getElem?_getD, List.getElem?_set_ne h]

/-- Two columns that do not name the same member of the record can be applied in either
order. -/
theorem apply_column_comm (cfg : Config) (a b c d : CStr) (k l : Int)
    (fs : List Field_value)
    (h : spec_attribute cfg a = none ∨ spec_attribute cfg a ≠ spec_attribute cfg b) :
    apply_column cfg b d l (apply_column cfg a c k fs)
      = apply_column cfg a c k (apply_column cfg b d l fs) := by
  unfold spec_attribute at h
  unfold apply_column
  generalize column_effects.find? (fun e => e.1 = a) = fa at h ⊢
  generalize column_effects.find? (fun e => e.1 = b) = fb at h ⊢
  cases fa with
  | none => rfl
  | some x =>
    cases fb with
    | none => rfl
    | some y =>
      simp only at h ⊢
      by_cases hx : x.2.2.2 = true ∧ cfg.non_SAP_fields = false
      · simp only [if_pos hx]
      · by_cases hy : y.2.2.2 = true ∧ cfg.non_SAP_fields = false
        · simp only [if_pos hy]
        · simp only [if_neg hx, if_neg hy] at h ⊢
          have hne : x.2.1 ≠ y.2.1 := by
            rcases h with h | h
            · cases h
            · exact fun e => h (congrArg some e)
          rw [getD_set_ne _ _ _ _ _ hne, getD_set_ne _ _ _ _ _ (Ne.symm hne),
            List.set_comm _ _ _ hne]

theorem map_getD_range {α : Type} (l : List α) (d : α) :
    (List.range l.length).map (fun j => l.getD j d) = l := by
  apply List.ext_getElem
  · simp
  · intro n h1 h2
    simp only [List.getElem_map, List.getElem_range]
    exact List.getD_eq_getElem l d h2

theorem zipWith_congr_left {α β γ : Type} (f g : α → β → γ) :
    ∀ (l : List α) (m : List β), (∀ a ∈ l, ∀ b, f a b = g a b) →
      List.zipWith f l m = List.zipWith g l m
  | [], _, _ => by simp
  | _ :: _, [], _ => by simp
  | a :: l, b :: m, h => by
    rw [List.zipWith_cons_cons, List.zipWith_cons_cons, h a (List.mem_cons_self _ _) b,
      zipWith_congr_left f g l m (fun x hx => h x (List.mem_cons_of_mem _ hx))]

/-- The members of the record of a row do not depend on the order of the columns, when no
two columns name the same member. -/
theorem spec_row_fields_order (cfg : Config) (names cells : List CStr) (p : List Nat)
    (fs : List Field_value) (hp : p.Perm (List.range names.length))
    (hattr : names.Pairwise
      (fun a b => spec_attribute cfg a = none ∨ spec_attribute cfg a ≠ spec_attribute cfg b))
    (hlen : cells.length = names.length) (hcells : ∀ cell ∈ cells, TAB ∉ cell) :
    spec_row_fields cfg (spec_header (p.map (fun j => cells.getD j [])))
        (p.map (fun j => names.getD j [])) 0 fs
      = spec_row_fields cfg (spec_header cells) names 0 fs := by
  have hsym : ∀ {x y : CStr},
      (spec_attribute cfg x = none ∨ spec_attribute cfg x ≠ spec_attribute cfg y) →
      (spec_attribute cfg y = none ∨ spec_attribute cfg y ≠ spec_attribute cfg x) := by
    intro x y h
    rcases h with h | h
    · by_cases e : spec_attribute cfg y = none
      · exact Or.inl e
      · exact Or.inr (by rw [h]; exact e)
    · exact Or.inr (Ne.symm h)
  have hcells2 : ∀ cell ∈ p.map (fun j => cells.getD j []), TAB ∉ cell := by
    intro cell hc
    obtain ⟨j, _, rfl⟩ := List.mem_map.mp hc
    rw [List.getD_eq_getElem?_getD]
    cases e : cells[j]? with
    | none => simp
    | some x => exact hcells x (List.getElem?_mem e)
  rw [spec_row_fields_zip cfg _ hcells2 _ 0 fs (by simp),
    spec_row_fields_zip cfg _ hcells _ 0 fs (by omega)]
  simp only [List.drop_zero]
  rw [List.zip_map']
  have hz : names.zip cells
      = (List.range names.length).map (fun j => (names.getD j [], cells.getD j [])) := by
    rw [← List.zip_map']
    rw [map_getD_range names []]
    have := map_getD_range cells []
    rw [hlen] at this
    rw [this]
  rw [hz]
  refine List.Perm.foldl_eq' (List.Perm.map _ hp) ?_ fs
  have hpw : (p.map (fun j => (names.getD j [], cells.getD j []))).Pairwise
      (fun x y => spec_attribute cfg x.1 = none
        ∨ spec_attribute cfg x.1 ≠ spec_attribute cfg y.1) := by
    have h1 : ((List.range names.length).map
        (fun j => (names.getD j [], cells.getD j []))).Pairwise
        (fun x y => spec_attribute cfg x.1 = none
          ∨ spec_attribute cfg x.1 ≠ spec_attribute cfg y.1) := by
      rw [← hz]
      have h2 := hattr
      rw [← List.map_fst_zip names cells (by omega)] at h2
      exact List.pairwise_map.mp h2
    exact (List.Perm.pairwise_iff (fun h => hsym h) (List.Perm.map _ hp)).mpr h1
  intro x hx y hy z
  by_cases e : x = y
  · rw [e]
  · exact apply_column_comm cfg x.1 y.1 _ _ _ _ z
      (List.Pairwise.forall (fun _ _ h => hsym h) hpw hx hy e)
theorem spec_attribute_MATERIAL_PCODE (cfg : Config) :
    spec_attribute cfg "MATERIAL".toList = some 0
      ∧ spec_attribute cfg "PCODE".toList = some 0 := by
  have h1 : column_effects.find? (fun e => e.1 = "MATERIAL".toList)
      = some ("MATERIAL".toList, 0, .copy LRG, false) := by decide
  have h2 : column_effects.find? (fun e => e.1 = "PCODE".toList)
      = some ("PCODE".toList, 0, .copy LRG, false) := by decide
  unfold spec_attribute
  rw [h1, h2]
  simp

/-- Claim C35: the records that `parse_spreadsheet` fills do not depend on the order of the
columns. The heading row is made of the names `names`, every data row of as many cells
without tabs, and no two columns name the same member of the record (so MATERIAL and PCODE
are not both there); `p` is an order of the column numbers. With the columns of the heading
row and of every data row put in the order `p`, `parse_spreadsheet` leaves the same records,
returns without -1 as before, and the lines written for the records are the same. -/
theorem column_order_independent (cfg : Config) (names : List CStr)
    (table : List (List CStr)) (p : List Nat) (labels : List Label_record)
    (hp : p.Perm (List.range names.length))
    (hnames : ∀ n ∈ names, ∀ c ∈ n, c ≠ TAB ∧ c ≠ Char.ofNat 0)
    (hattr : names.Pairwise
      (fun a b => spec_attribute cfg a = none ∨ spec_attribute cfg a ≠ spec_attribute cfg b))
    (hcells : ∀ cells ∈ table, cells.length = names.length ∧ ∀ cell ∈ cells, TAB ∉ cell)
    (hlen : labels.length = table.length) (hcount : names.length ≤ 65536) :
    (parse_spreadsheet cfg (spec_header (p.map (fun j => names.getD j [])))
        (table.map (fun cells => spec_header (p.map (fun j => cells.getD j []))))
        labels).2.labels
      = (parse_spreadsheet cfg (spec_header names) (table.map spec_header) labels).2.labels
    ∧ (parse_spreadsheet cfg (spec_header (p.map (fun j => names.getD j [])))
        (table.map (fun cells => spec_header (p.map (fun j => cells.getD j []))))
        labels).1 ≠ -1
    ∧ (parse_spreadsheet cfg (spec_header names) (table.map spec_header) labels).1 ≠ -1
    ∧ ∀ s : State,
      main_loop cfg
          (sort_labels
            (parse_spreadsheet cfg (spec_header (p.map (fun j => names.getD j [])))
              (table.map (fun cells => spec_header (p.map (fun j => cells.getD j []))))
              labels).2.labels).2 1 s
        = main_loop cfg
          (sort_labels
            (parse_spreadsheet cfg (spec_header names) (table.map spec_header)
              labels).2.labels).2 1 s := by
  have hperm : (p.map (fun j => names.getD j [])).Perm names := by
    have h := List.Perm.map (fun j => names.getD j []) hp
    rw [map_getD_range] at h
    exact h
  have hnames2 : ∀ n ∈ p.map (fun j => names.getD j []), ∀ c ∈ n,
      c ≠ TAB ∧ c ≠ Char.ofNat 0 := fun n hn => hnames n (hperm.mem_iff.mp hn)
  have hsym : ∀ (x y : CStr),
      (spec_attribute cfg x = none ∨ spec_attribute cfg x ≠ spec_attribute cfg y) →
      (spec_attribute cfg y = none ∨ spec_attribute cfg y ≠ spec_attribute cfg x) := by
    intro x y h
    rcases h with h | h
    · by_cases e : spec_attribute cfg y = none
      · exact Or.inl e
      · exact Or.inr (by rw [h]; exact e)
    · exact Or.inr (Ne.symm h)
  have hno : ¬ ("MATERIAL".toList ∈ names ∧ "PCODE".toList ∈ names) := by
    intro h
    have hr := List.Pairwise.forall hsym hattr h.1 h.2 (by decide)
    rw [(spec_attribute_MATERIAL_PCODE cfg).1, (spec_attribute_MATERIAL_PCODE cfg).2] at hr
    simp at hr
  have hflags : ¬ (((false : Bool) = true ∨ "MATERIAL".toList ∈ names)
      ∧ ((false : Bool) = true ∨ "PCODE".toList ∈ names)) := by
    simpa using hno
  have hflags2 : ¬ (((false : Bool) = true ∨ "MATERIAL".toList ∈ p.map (fun j => names.getD j []))
      ∧ ((false : Bool) = true ∨ "PCODE".toList ∈ p.map (fun j => names.getD j []))) := by
    rw [hperm.mem_iff, hperm.mem_iff]
    exact hflags
  have hlength : (p.map (fun j => names.getD j [])).length = names.length := hperm.length_eq
  have hrecords :
      (parse_spreadsheet cfg (spec_header (p.map (fun j => names.getD j [])))
          (table.map (fun cells => spec_header (p.map (fun j => cells.getD j []))))
          labels).2.labels
        = (parse_spreadsheet cfg (spec_header names) (table.map spec_header)
          labels).2.labels := by
    refine List.map_injective_iff.mpr (fun a b => fields_injective a b) ?_
    unfold parse_spreadsheet
    rw [parse_loop_fields cfg _ _ _ 0 _ hnames2 (le_refl _) (by omega) hflags2
        (by simp only [List.length_map]; exact hlen),
      parse_loop_fields cfg _ _ _ 0 _ hnames (le_refl _) (by omega) hflags
        (by simp only [List.length_map]; exact hlen),
      List.zipWith_map_left, List.zipWith_map_left]
    refine zipWith_congr_left _ _ _ _ (fun cells hc fs => ?_)
    exact spec_row_fields_order cfg names cells p fs hp hattr (hcells cells hc).1
      (hcells cells hc).2
  refine ⟨hrecords, ?_, ?_, ?_⟩
  · intro h
    unfold parse_spreadsheet at h
    exact hflags2 ((parse_loop_abort cfg _ _ _ 0 _ hnames2 (le_refl _) (by simp)).1.mp h)
  · intro h
    unfold parse_spreadsheet at h
    exact hflags ((parse_loop_abort cfg _ _ _ 0 _ hnames (le_refl _) (by simp)).1.mp h)
  · intro s
    rw [hrecords]

set_option maxRecDepth 8000 in
/-- The table of `sample_column_names` and `sample_cells`, with the columns in the order
NOTE, LABEL, CAUTION, MATERIAL. -/
theorem column_order_independent_witness :
    (parse_spreadsheet sample_config
        (spec_header (sample_column_order.map (fun j => sample_column_names.getD j [])))
        (sample_cells.map
          (fun cells => spec_header (sample_column_order.map (fun j => cells.getD j []))))
        (calloc_labels (sample_cells.map spec_header))).2.labels
      = (parse_spreadsheet sample_config (spec_header sample_column_names)
        (sample_cells.map spec_header) (calloc_labels (sample_cells.map spec_header))).2.labels :=
  (column_order_independent sample_config sample_column_names sample_cells sample_column_order
    (calloc_labels (sample_cells.map spec_header)) (by decide) (by decide) (by decide)
    (by decide) (by decide) (by decide)).1

/-! ### The attributes that only the switch brings into the document -/

theorem gtin_record_off (cfg : Config) (r : Label_record) (record : Int)
    (hflag : cfg.non_SAP_fields = false) : gtin_record cfg r record = fun s => s := by
  funext s
  unfold gtin_record
  simp [hflag]

theorem ipn_record_off (cfg : Config) (r : Label_record)
    (hflag : cfg.non_SAP_fields = false) : ipn_record cfg r = fun s => s := by
  funext s
  unfold ipn_record
  simp [hflag]

/-- The string read at `ltnumber` is the same for a record and for its printed part. -/
theorem ltnumber_string_printed_part (r : Label_record) :
    (spec_printed_part r).ltnumber_string = r.ltnumber_string := by
  unfold Label_record.ltnumber_string Label_record.ipn_string spec_printed_part spec_SAP_part
  by_cases h : r.ltnumber.length < MED
  · simp only [if_pos h]
  · simp only [if_neg h]

theorem ltnumber_record_printed_part (r : Label_record) :
    ltnumber_record (spec_printed_part r) = ltnumber_record r := by
  funext s
  unfold ltnumber_record
  rw [ltnumber_string_printed_part]
  rfl

theorem characteristic_steps_printed_part (cfg : Config) (r : Label_record) (record : Int)
    (hflag : cfg.non_SAP_fields = false) :
    characteristic_steps cfg (spec_printed_part r) record
      = characteristic_steps cfg r record := by
  unfold characteristic_steps
  rw [gtin_record_off cfg r record hflag, gtin_record_off cfg _ record hflag,
    ipn_record_off cfg r hflag, ipn_record_off cfg _ hflag, ltnumber_record_printed_part]
  rfl

/-- With the switch off, `print_label_idoc_records` does the same for a record and for its
printed part. -/
theorem print_label_idoc_records_printed_part (cfg : Config) (r : Label_record)
    (record : Int) (s : State) (hflag : cfg.non_SAP_fields = false) :
    print_label_idoc_records cfg (spec_printed_part r) record s
      = print_label_idoc_records cfg r record s := by
  have hn : ∀ t : Label_record, non_SAP_steps cfg t = [] := by
    intro t
    unfold non_SAP_steps
    simp [hflag]
  unfold print_label_idoc_records
  rw [characteristic_steps_printed_part cfg r record hflag, hn, hn]
  rfl

theorem main_loop_printed_part (cfg : Config) (hflag : cfg.non_SAP_fields = false) :
    ∀ (labels : List Label_record) (i : Int) (s : State),
      main_loop cfg (labels.map spec_printed_part) i s = main_loop cfg labels i s
  | [], _, _ => rfl
  | r :: rest, i, s => by
    rw [List.map_cons, main_loop, main_loop,
      print_label_idoc_records_printed_part cfg r i s hflag]
    cases h : print_label_idoc_records cfg r i s with
    | mk status s1 =>
      cases status with
      | returned value =>
        simp only
        split
        · exact main_loop_printed_part cfg hflag rest (i + 1) s1
        · rfl
      | null_tdline => rfl
      | size_loop => rfl
      | no_rows => rfl
      | column_name_overrun => rfl

theorem printed_part_label (r : Label_record) : (spec_printed_part r).label = r.label := rfl

theorem printed_part_default : spec_printed_part {} = {} := rfl

theorem getD_map_printed_part (labels : List Label_record) (j : Nat) :
    (labels.map spec_printed_part).getD j {} = spec_printed_part (labels.getD j {}) := by
  rw [List.getD_eq_getElem?_getD, List.getD_eq_getElem?_getD, List.getElem?_map]
  cases labels[j]? with
  | none => exact printed_part_default.symm
  | some x => rfl

theorem sort_labels_scan_printed_part (labels : List Label_record) :
    ∀ (n j : Nat) (min_label : Label_record) (min_index : Nat),
      sort_labels_scan (labels.map spec_printed_part) n j (spec_printed_part min_label)
          min_index
        = (spec_printed_part (sort_labels_scan labels n j min_label min_index).1,
            (sort_labels_scan labels n j min_label min_index).2)
  | 0, _, _, _ => rfl
  | n + 1, j, min_label, min_index => by
    rw [sort_labels_scan, sort_labels_scan, getD_map_printed_part, printed_part_label,
      printed_part_label]
    split
    · exact sort_labels_scan_printed_part labels n (j + 1) _ j
    · exact sort_labels_scan_printed_part labels n (j + 1) _ min_index

theorem swap_label_records_printed_part (labels : List Label_record) (i min_index : Nat) :
    swap_label_records (labels.map spec_printed_part) i min_index
      = (swap_label_records labels i min_index).map spec_printed_part := by
  unfold swap_label_records
  rw [getD_map_printed_part, getD_map_printed_part, List.map_set, List.map_set]

theorem sort_labels_from_printed_part :
    ∀ (n i : Nat) (labels : List Label_record) (sorted : Bool),
      sort_labels_from n i (labels.map spec_printed_part) sorted
        = ((sort_labels_from n i labels sorted).1,
            (sort_labels_from n i labels sorted).2.map spec_printed_part)
  | 0, _, _, _ => rfl
  | n + 1, i, labels, sorted => by
    rw [sort_labels_from, sort_labels_from, getD_map_printed_part,
      sort_labels_scan_printed_part]
    simp only
    split
    · rw [swap_label_records_printed_part]
      exact sort_labels_from_printed_part n (i + 1) _ false
    · exact sort_labels_from_printed_part n (i + 1) labels sorted

theorem sort_labels_printed_part (labels : List Label_record) :
    sort_labels (labels.map spec_printed_part)
      = ((sort_labels labels).1, (sort_labels labels).2.map spec_printed_part) := by
  unfold sort_labels
  rw [List.length_map]
  exact sort_labels_from_printed_part _ 0 labels true

/-- Two records that differ only in the eight attributes, and not in `ipn` when `ltnumber`
holds `MED` characters or more, have the same printed part. -/
theorem printed_part_eq (r t : Label_record) (h : spec_SAP_part r = spec_SAP_part t)
    (hipn : r.ltnumber.length < MED ∨ r.ipn = t.ipn) :
    spec_printed_part r = spec_printed_part t := by
  have hl : r.ltnumber = t.ltnumber := by
    have e := congrArg Label_record.ltnumber h
    exact e
  unfold spec_printed_part
  rw [h, ← hl]
  rcases hipn with h1 | h1
  · simp only [if_pos h1]
  · rw [h1]

theorem map_printed_part_eq : ∀ (labels1 labels2 : List Label_record),
    List.Forall₂
      (fun r t => spec_SAP_part r = spec_SAP_part t ∧ (r.ltnumber.length < MED ∨ r.ipn = t.ipn))
      labels1 labels2 →
    labels1.map spec_printed_part = labels2.map spec_printed_part
  | _, _, .nil => rfl
  | _, _, .cons h rest => by
    rw [List.map_cons, List.map_cons, printed_part_eq _ _ h.1 h.2,
      map_printed_part_eq _ _ rest]

set_option maxRecDepth 16000 in
/-- The table with an LTNUMBER cell of 30 characters, read and printed with the switch off:
the LTNUMBER line carries the cell followed by the cell of the column IPN. -/
theorem ltnumber_line_sample :
    sample_config.non_SAP_fields = false
      ∧ ((main_loop sample_config
            (parse_spreadsheet sample_config sample_header_ltnumber
              [sample_row_ltnumber "X9".toList]
              (calloc_labels [sample_row_ltnumber "X9".toList])).2.labels 1
            State.initial).state.fpout.filter
          (fun l => l.name = "LTNUMBER".toList))
        = [Line.characteristic 4 1 "LTNUMBER".toList
            "123456789012345678901234567890X9".toList
            (padRight 255 "123456789012345678901234567890X9".toList)]
      ∧ ((main_loop sample_config
            (parse_spreadsheet sample_config sample_header_ltnumber
              [sample_row_ltnumber "Y7".toList]
              (calloc_labels [sample_row_ltnumber "Y7".toList])).2.labels 1
            State.initial).state.fpout.filter
          (fun l => l.name = "LTNUMBER".toList))
        = [Line.characteristic 4 1 "LTNUMBER".toList
            "123456789012345678901234567890Y7".toList
            (padRight 255 "123456789012345678901234567890Y7".toList)] := by
  decide

/-- Claim C36, the code: with the switch `non_SAP_fields` off, the document does not depend on
the attributes gtin, oldlabel, oldtemplate, prevlabel, prevtemplate, bomlevel and
description, and it does not depend on `ipn` for the records whose `ltnumber` has fewer than
`MED` characters. For two lists of records that differ only in the eight attributes, and
not in `ipn` where `ltnumber` holds `MED` characters or more, the loop of `main` ends in
the same way from any state, with the same lines written, the same sequence numbers and the
same messages, and so it does after `sort_labels`. -/
theorem non_SAP_attributes_unread (cfg : Config) (labels1 labels2 : List Label_record)
    (i : Int) (s : State) (hflag : cfg.non_SAP_fields = false)
    (h : List.Forall₂
      (fun r t => spec_SAP_part r = spec_SAP_part t ∧ (r.ltnumber.length < MED ∨ r.ipn = t.ipn))
      labels1 labels2) :
    main_loop cfg labels1 i s = main_loop cfg labels2 i s
      ∧ main_loop cfg (sort_labels labels1).2 i s
        = main_loop cfg (sort_labels labels2).2 i s := by
  have hmap := map_printed_part_eq labels1 labels2 h
  constructor
  · rw [← main_loop_printed_part cfg hflag labels1, ← main_loop_printed_part cfg hflag labels2,
      hmap]
  · rw [← main_loop_printed_part cfg hflag (sort_labels labels1).2,
      ← main_loop_printed_part cfg hflag (sort_labels labels2).2]
    have e1 := congrArg Prod.snd (sort_labels_printed_part labels1)
    have e2 := congrArg Prod.snd (sort_labels_printed_part labels2)
    simp only at e1 e2
    rw [← e1, ← e2, hmap]

/-- Two lists of one record each, which differ in all eight attributes; `ltnumber` is
empty. -/
theorem non_SAP_attributes_unread_witness :
    main_loop sample_config [sample_record_non_SAP.1] 1 State.initial
      = main_loop sample_config [sample_record_non_SAP.2] 1 State.initial :=
  (non_SAP_attributes_unread sample_config [sample_record_non_SAP.1]
    [sample_record_non_SAP.2] 1 State.initial rfl
    (List.Forall₂.cons ⟨rfl, Or.inl (by decide)⟩ List.Forall₂.nil)).1

/-! ### The names of the numbered-graphic lines -/

theorem graphic_name_digits (j : Nat) (hj : 1 ≤ j ∧ j ≤ 14) :
    (j ≤ 9 → "GRAPHIC0".toList ++ fmt_d j = spec_graphic_name j)
      ∧ (10 ≤ j →
        "GRAPHIC0".toList ++ fmt_d j = "GRAPHIC0".toList ++ (spec_graphic_name j).drop 7
          ∧ "GRAPHIC0".toList ++ fmt_d j ≠ spec_graphic_name j) := by
  obtain ⟨h1, h2⟩ := hj
  interval_cases j <;> decide

/-- Claim C37, the code: the name that `print_graphic0x_record` prints for the slot `j` is
the text "GRAPHIC0" followed by `j` in decimal. For the slots 1 to 9 this is "GRAPHIC"
followed by `j` written with two digits, GRAPHIC01 to GRAPHIC09; for the slots 10 to 14 it is
"GRAPHIC0" followed by the two digits of `j`, GRAPHIC010 to GRAPHIC014, which is not
"GRAPHIC" followed by `j` written with two digits. -/
theorem graphic_names (cfg : Config) (j : Nat) (name : CStr) (value : Nat) (s : State)
    (hyes : spec_is_yes (name, value) = true) (hj : 1 ≤ j ∧ j ≤ 14) :
    ∃ l : Line,
      (print_graphic0x_record cfg j name value s).2.fpout = s.fpout ++ [l]
        ∧ l.name = "GRAPHIC0".toList ++ fmt_d j
        ∧ (j ≤ 9 → l.name = spec_graphic_name j)
        ∧ (10 ≤ j →
          l.name = "GRAPHIC0".toList ++ (spec_graphic_name j).drop 7
            ∧ l.name ≠ spec_graphic_name j) := by
  rw [print_graphic0x_record_yes cfg j name value s hyes]
  refine ⟨_, rfl, rfl, ?_, ?_⟩
  · exact (graphic_name_digits j hj).1
  · exact (graphic_name_digits j hj).2

set_option maxRecDepth 8000 in
/-- The block of the numbered graphics for a record whose first ten flags are yes: the names
of the lines written. The line of slot 10 is named GRAPHIC010. -/
theorem graphic_name_slot_ten :
    (graphic0x_records sample_config sample_record_ten_graphics State.initial).fpout.map
        Line.name
      = ["GRAPHIC01".toList, "GRAPHIC02".toList, "GRAPHIC03".toList, "GRAPHIC04".toList,
          "GRAPHIC05".toList, "GRAPHIC06".toList, "GRAPHIC07".toList, "GRAPHIC08".toList,
          "GRAPHIC09".toList, "GRAPHIC010".toList] := by
  decide

set_option maxRecDepth 8000 in
/-- The slot 10 with the flag yes: the name printed is GRAPHIC010, not GRAPHIC10. -/
theorem graphic_names_witness :
    ∃ l : Line,
      (print_graphic0x_record sample_config (10 : Nat) "Reusable.tif".toList 2
          State.initial).2.fpout = [l]
        ∧ l.name = "GRAPHIC010".toList ∧ l.name ≠ "GRAPHIC10".toList := by
  obtain ⟨l, h1, h2, -, h4⟩ :=
    graphic_names sample_config 10 "Reusable.tif".toList 2 State.initial (by decide)
      (by decide)
  exact ⟨l, h1, h2.trans (by decide), fun e => (h4 (by decide)).2 (e.trans (by decide))⟩

/-! ### The indices that `sap_lookup` reads -/

theorem sap_lookup_loop_reads (cfg : Config) (needle : CStr) :
    ∀ (fuel : Nat) (start end_ middle : Int) (exit : Bool) (reads : List Int),
      lookup_state cfg needle start end_ middle exit →
      (∀ i ∈ reads, lookup_read cfg needle i) →
      ∀ i ∈ (sap_lookup_loop cfg needle fuel start end_ middle exit reads).2,
        lookup_read cfg needle i := by
  intro fuel
  induction fuel with
  | zero => intro start end_ middle exit reads _ hr; exact hr
  | succ fuel ih =>
    intro start end_ middle exit reads hs hr
    cases exit with
    | true => rw [sap_lookup_loop_exit]; exact hr
    | false =>
      have hstep : ∀ m : Int, (end_ - start).tdiv 2 + start = m → lookup_read cfg needle m →
          (strcasecmp needle (lookup_entry cfg m).1 < 0 →
            lookup_state cfg needle start (m - 1) m (decide (middle = m))) →
          (strcasecmp needle (lookup_entry cfg m).1 > 0 →
            lookup_state cfg needle (m + 1) end_ m (decide (middle = m))) →
          ∀ i ∈ (sap_lookup_loop cfg needle (fuel + 1) start end_ middle false reads).2,
            lookup_read cfg needle i := by
        intro m hm hpm hlt hgt
        have hr2 : ∀ i ∈ reads ++ [m], lookup_read cfg needle i := by
          intro i hi
          rcases List.mem_append.mp hi with h | h
          · exact hr i h
          · rw [List.mem_singleton.mp h]; exact hpm
        rw [sap_lookup_loop_step cfg needle fuel start end_ middle m reads hm]
        split
        · exact hr2
        · split
          · rename_i h1 h2
            exact ih _ _ _ _ _ (hlt h2) hr2
          · rename_i h1 h2
            exact ih _ _ _ _ _ (hgt (by omega)) hr2
      rcases hs with hs | hs | hs | hs | hs
      · cases hs
      · obtain ⟨h0, h1, h2⟩ := hs
        have hdiv : (end_ - start).tdiv 2 = (end_ - start) / 2 :=
          Int.tdiv_eq_ediv (by omega) (by norm_num)
        have hm1 : start ≤ (end_ - start).tdiv 2 + start := by rw [hdiv]; omega
        have hm2 : (end_ - start).tdiv 2 + start ≤ end_ := by rw [hdiv]; omega
        generalize hmd : (end_ - start).tdiv 2 + start = m at hm1 hm2
        refine hstep m hmd ⟨by omega, by omega, fun e => by omega⟩ ?_ ?_
        · intro _
          by_cases hx : middle = m
          · left; exact decide_eq_true hx
          · by_cases hlo : start ≤ m - 1
            · right; left; exact ⟨h0, hlo, by omega⟩
            · right; right; left
              exact ⟨by omega, by omega, by omega, by omega, fun e => by omega⟩
        · intro hpos
          by_cases hx : middle = m
          · left; exact decide_eq_true hx
          · by_cases hhi : m + 1 ≤ end_
            · right; left; exact ⟨by omega, hhi, h2⟩
            · right; right; right; left
              have e : m = end_ := by omega
              refine ⟨by omega, e, by omega, h2, fun e2 => ?_⟩
              rw [← e2, ← e]
              exact hpos
      · obtain ⟨h0, h1, h2⟩ := hs
        have e : end_ - start = -1 := by omega
        have hmd : (end_ - start).tdiv 2 + start = start := by
          rw [e]
          have : (-1 : Int).tdiv 2 = 0 := by decide
          rw [this]; omega
        refine hstep start hmd h2 ?_ ?_
        · intro _; left; exact decide_eq_true h1
        · intro _; left; exact decide_eq_true h1
      · obtain ⟨h0, h1, h2, h3, h4⟩ := hs
        have e : end_ - start = -1 := by omega
        have hmd : (end_ - start).tdiv 2 + start = start := by
          rw [e]
          have : (-1 : Int).tdiv 2 = 0 := by decide
          rw [this]; omega
        have hp : lookup_read cfg needle start :=
          ⟨by omega, by omega, fun e2 => h4 (by omega)⟩
        refine hstep start hmd hp ?_ ?_
        · intro _; right; right; left; exact ⟨by omega, rfl, hp⟩
        · intro _; right; right; right; right
          refine ⟨by omega, by omega, ?_⟩
          rw [← h0]; exact hp
      · obtain ⟨h0, h1, h2⟩ := hs
        have e : end_ - start = -2 := by omega
        have hmd : (end_ - start).tdiv 2 + start = end_ + 1 := by
          rw [e]
          have : (-2 : Int).tdiv 2 = -1 := by decide
          rw [this]; omega
        refine hstep (end_ + 1) hmd h2 ?_ ?_
        · intro _; left; exact decide_eq_true h1
        · intro _; left; exact decide_eq_true h1
/-- Claim C38, the code: for a non-empty table and any needle, every index that `sap_lookup`
reads lies in the range 0 .. lookupsize, the last of which is outside the table. The reads
stay in the range 0 .. lookupsize - 1 when the table has one or two entries (index 0 is the
only one read) and when the needle is not above the last term. In a table of three entries
or more accepted by `check_lookup_array`, a needle above the last term makes `sap_lookup`
read the entry `lookup[lookupsize]`. -/
theorem lookup_reads (cfg : Config) (needle : CStr) (hn : 0 < cfg.lookup.length) :
    (∀ i ∈ (sap_lookup_trace cfg needle).2, 0 ≤ i ∧ i ≤ cfg.lookup.length)
      ∧ (cfg.lookup.length ≤ 2 → (sap_lookup_trace cfg needle).2 = [0])
      ∧ (strcasecmp needle (lookup_entry cfg ((cfg.lookup.length : Int) - 1)).1 ≤ 0 →
          ∀ i ∈ (sap_lookup_trace cfg needle).2, 0 ≤ i ∧ i < cfg.lookup.length)
      ∧ ((check_lookup_array cfg).1 = true → 3 ≤ cfg.lookup.length →
          strcasecmp needle (lookup_entry cfg ((cfg.lookup.length : Int) - 1)).1 > 0 →
          (cfg.lookup.length : Int) ∈ (sap_lookup_trace cfg needle).2) := by
  have hall : ∀ i ∈ (sap_lookup_trace cfg needle).2, lookup_read cfg needle i := by
    unfold sap_lookup_trace
    apply sap_lookup_loop_reads
    · right; left; exact ⟨le_refl _, by omega, le_refl _⟩
    · intro i hi; simp at hi
  refine ⟨fun i hi => ⟨(hall i hi).1, (hall i hi).2.1⟩, ?_, ?_, ?_⟩
  · intro h2
    have hmd : ((cfg.lookup.length : Int) - 1 - 0).tdiv 2 + 0 = 0 := by
      have hdiv : ((cfg.lookup.length : Int) - 1 - 0).tdiv 2
          = ((cfg.lookup.length : Int) - 1 - 0) / 2 :=
        Int.tdiv_eq_ediv (by omega) (by norm_num)
      rw [hdiv]; omega
    unfold sap_lookup_trace
    rw [sap_lookup_loop_step cfg needle _ _ _ _ 0 _ hmd]
    have hdec : decide ((0 : Int) = 0) = true := by simp
    rw [hdec, sap_lookup_loop_exit, sap_lookup_loop_exit]
    split
    · rfl
    · split <;> rfl
  · intro hle i hi
    obtain ⟨h0, h1, h2⟩ := hall i hi
    refine ⟨h0, ?_⟩
    by_contra hcon
    have := h2 (by omega)
    omega
  · intro hchk h3 hgt
    have hinc := (check_lookup_array_increasing cfg).mp hchk
    have hlow : ∀ i : Int, 0 ≤ i → i < ((cfg.lookup.length : Nat) : Int) →
        strcasecmp needle (lookup_entry cfg i).1 > 0 := by
      intro i h0 h1
      obtain ⟨j, rfl⟩ := Int.eq_ofNat_of_zero_le h0
      by_cases hj : j = cfg.lookup.length - 1
      · have e : ((j : Nat) : Int) = (cfg.lookup.length : Int) - 1 := by omega
        rw [e]; exact hgt
      · have e : (((cfg.lookup.length - 1 : Nat)) : Int) = (cfg.lookup.length : Int) - 1 := by
          omega
        have ha := hinc j (cfg.lookup.length - 1) (by omega) (by omega)
        rw [e] at ha
        have hb : strcasecmp (lookup_entry cfg ((cfg.lookup.length : Int) - 1)).1 needle < 0 := by
          rw [strcasecmp_swap]; omega
        have hc := strcasecmp_lt_trans _ _ _ ha hb
        rw [strcasecmp_swap] at hc
        omega
    obtain ⟨r, -, he⟩ := sap_lookup_loop_absent cfg needle cfg.lookup.length (by omega)
      (le_refl _) hlow (fun i h1 h2 => by omega) (cfg.lookup.length + 4) 0
      ((cfg.lookup.length : Int) - 1) 0 [] (le_refl _) (by omega) (by omega) (by omega)
      (by push_cast; omega)
      (by
        right; right
        have hdiv : ((cfg.lookup.length : Int) - 1 - 0).tdiv 2
            = ((cfg.lookup.length : Int) - 1 - 0) / 2 :=
          Int.tdiv_eq_ediv (by omega) (by norm_num)
        rw [hdiv]
        omega)
    unfold sap_lookup_trace
    rw [he, if_neg (lt_irrefl _)]
    split <;> simp

/-- The table with the terms BOX, CASE, EACH and the needle PACK: the indices read are 1, 2
and 3, and 3 is the number of entries. -/
theorem lookup_reads_witness :
    (sample_config_three.lookup.length : Int) = 3
      ∧ (3 : Int) ∈ (sap_lookup_trace sample_config_three "PACK".toList).2
      ∧ (sap_lookup_trace sample_config_three "PACK".toList).2 = [1, 2, 3] :=
  ⟨by decide,
    (lookup_reads sample_config_three "PACK".toList (by decide)).2.2.2 (by decide) (by decide)
      (by decide),
    by decide⟩

/-! ### Single-digit errors and the check digit -/

theorem weightedSum_digits_split (n : Nat) :
    weightedSum (Nat.digits 10 n) =
      3 * (n % 10) + 1 * (n / 10 % 10) + weightedSum (Nat.digits 10 (n / 10 / 10)) := by
  rcases Nat.eq_zero_or_pos n with h0 | hpos
  · subst h0; simp [weightedSum]
  · exact weightedSum_digits_step n hpos

theorem weightedSum_ofDigits : ∀ (ds : List Nat), (∀ x ∈ ds, x < 10) →
    weightedSum (Nat.digits 10 (Nat.ofDigits 10 ds)) = weightedSum ds
  | [], _ => by simp [weightedSum]
  | [a], h => by
    have ha : a < 10 := h a (List.mem_singleton_self a)
    rw [weightedSum_digits_split]
    simp only [Nat.ofDigits_singleton, weightedSum]
    have e1 : a % 10 = a := Nat.mod_eq_of_lt ha
    have e2 : a / 10 = 0 := Nat.div_eq_of_lt ha
    rw [e1, e2]
    simp [weightedSum]
  | a :: b :: rest, h => by
    have ha : a < 10 := h a (List.mem_cons_self _ _)
    have hb : b < 10 := h b (List.mem_cons_of_mem _ (List.mem_cons_self _ _))
    have ih := weightedSum_ofDigits rest
      (fun x hx => h x (List.mem_cons_of_mem _ (List.mem_cons_of_mem _ hx)))
    rw [weightedSum_digits_split]
    simp only [Nat.ofDigits_cons, weightedSum]
    have e1 : (a + 10 * (b + 10 * Nat.ofDigits 10 rest)) % 10 = a := by omega
    have e2 : (a + 10 * (b + 10 * Nat.ofDigits 10 rest)) / 10 % 10 = b := by omega
    have e3 : (a + 10 * (b + 10 * Nat.ofDigits 10 rest)) / 10 / 10 = Nat.ofDigits 10 rest := by
      omega
    rw [e1, e2, e3, ih]

/-- The check digit of a value given by its digits, the last digit first: it is computed
from the weighted sum of the other digits. -/
theorem checkDigit_ofDigits (f : Nat) (payload : List Nat) (hf : f < 10)
    (h : ∀ x ∈ payload, x < 10) :
    checkDigit ((Nat.ofDigits 10 (f :: payload) : Nat) : Int)
        = ((if weightedSum payload % 10 = 0 then 0 else 10 - weightedSum payload % 10 : Nat) : Int)
      ∧ ((Nat.ofDigits 10 (f :: payload) : Nat) : Int).tmod 10 = (f : Int) := by
  have h10 : ((10 : Nat) : Int) = 10 := rfl
  have hdiv : Nat.ofDigits 10 (f :: payload) / 10 = Nat.ofDigits 10 payload := by
    rw [Nat.ofDigits_cons]; omega
  have hmod : Nat.ofDigits 10 (f :: payload) % 10 = f := by
    rw [Nat.ofDigits_cons]; omega
  have htail : ∀ g : Nat, (Nat.digits 10 g).tail = Nat.digits 10 (g / 10) := by
    intro g
    rcases Nat.eq_zero_or_pos g with h0 | hpos
    · subst h0; simp
    · rw [Nat.digits_def' (by norm_num) hpos]; rfl
  constructor
  · rw [checkDigit_natCast]
    unfold specCheckDigit
    simp only [htail, hdiv, weightedSum_ofDigits payload h]
  · rw [← h10, tmod_natCast, hmod]

theorem weightedSum_set : ∀ (l : List Nat) (k d : Nat), k < l.length →
    weightedSum (l.set k d) + (if k % 2 = 0 then 3 else 1) * l.getD k 0
      = weightedSum l + (if k % 2 = 0 then 3 else 1) * d
  | [], _, _, h => by simp at h
  | [a], 0, d, _ => by simp [weightedSum]; omega
  | [a], k + 1, d, h => by simp at h
  | a :: b :: rest, 0, d, _ => by simp [weightedSum]; omega
  | a :: b :: rest, 1, d, _ => by simp [weightedSum]; omega
  | a :: b :: rest, k + 2, d, h => by
    have ih := weightedSum_set rest k d (by simpa using h)
    have e : (k + 2) % 2 = k % 2 := by omega
    simp only [List.set_cons_succ, weightedSum, List.getD_cons_succ, e]
    omega

/-- Claim C39: the check digit detects every single-digit error. A value is given by its 14
digits, the last digit first; it passes when its last digit is `checkDigit` of the value
(the test of `print_label_idoc_records`). If a value passes, the value with one of its 14
digits replaced by a different digit does not pass; and for every 13 digits there is exactly
one last digit with which the value passes. -/
theorem check_digit_single_error :
    (∀ (ds : List Nat) (i d : Nat), ds.length = 14 → (∀ x ∈ ds, x < 10) → i < 14 → d < 10 →
        d ≠ ds.getD i 0 →
        ((Nat.ofDigits 10 ds : Nat) : Int).tmod 10 = checkDigit ((Nat.ofDigits 10 ds : Nat) : Int) →
        ((Nat.ofDigits 10 (ds.set i d) : Nat) : Int).tmod 10
          ≠ checkDigit ((Nat.ofDigits 10 (ds.set i d) : Nat) : Int))
      ∧ (∀ payload : List Nat, payload.length = 13 → (∀ x ∈ payload, x < 10) →
        ∃! f : Nat, f < 10
          ∧ ((Nat.ofDigits 10 (f :: payload) : Nat) : Int).tmod 10
            = checkDigit ((Nat.ofDigits 10 (f :: payload) : Nat) : Int)) := by
  constructor
  · intro ds i d hlen hds hi hd hne hpass
    cases ds with
    | nil => simp at hlen
    | cons f payload =>
      have hf : f < 10 := hds f (List.mem_cons_self _ _)
      have hp : ∀ x ∈ payload, x < 10 := fun x hx => hds x (List.mem_cons_of_mem _ hx)
      obtain ⟨h1, h2⟩ := checkDigit_ofDigits f payload hf hp
      rw [h1, h2] at hpass
      cases i with
      | zero =>
        simp only [List.set_cons_zero, List.getD_cons_zero] at hne ⊢
        obtain ⟨h3, h4⟩ := checkDigit_ofDigits d payload hd hp
        rw [h3, h4, ← hpass]
        exact_mod_cast hne
      | succ k =>
        simp only [List.set_cons_succ, List.getD_cons_succ] at hne ⊢
        have hk : k < payload.length := by simp at hlen; omega
        have hp2 : ∀ x ∈ payload.set k d, x < 10 := by
          intro x hx
          rcases List.mem_or_eq_of_mem_set hx with h | h
          · exact hp x h
          · rw [h]; exact hd
        obtain ⟨h3, h4⟩ := checkDigit_ofDigits f (payload.set k d) hf hp2
        rw [h3, h4]
        have hset := weightedSum_set payload k d hk
        have hold : payload.getD k 0 < 10 := by
          rw [List.getD_eq_getElem payload 0 hk]
          exact hp _ (List.getElem_mem hk)
        have hpass2 : f = if weightedSum payload % 10 = 0 then 0
            else 10 - weightedSum payload % 10 := by exact_mod_cast hpass
        intro hcon
        have hcon2 : f = if weightedSum (payload.set k d) % 10 = 0 then 0
            else 10 - weightedSum (payload.set k d) % 10 := by exact_mod_cast hcon
        generalize weightedSum (payload.set k d) = S2 at hset hcon2
        generalize weightedSum payload = S1 at hset hpass2
        generalize payload.getD k 0 = d0 at hset hold hne
        split_ifs at hset hpass2 hcon2 <;> omega
  · intro payload _ hp
    refine ⟨if weightedSum payload % 10 = 0 then 0 else 10 - weightedSum payload % 10,
      ⟨?_, ?_⟩, ?_⟩
    · split_ifs <;> omega
    · have hf : (if weightedSum payload % 10 = 0 then 0 else 10 - weightedSum payload % 10)
          < 10 := by split_ifs <;> omega
      obtain ⟨h1, h2⟩ := checkDigit_ofDigits _ payload hf hp
      rw [h1, h2]
    · intro f hf
      obtain ⟨h1, h2⟩ := checkDigit_ofDigits f payload hf.1 hp
      have := hf.2
      rw [h1, h2] at this
      exact_mod_cast this

/-- The value 04026704000012 passes, and with its last digit replaced by 3 it does not. -/
theorem check_digit_single_error_witness :
    ((Nat.ofDigits 10 [2, 1, 0, 0, 0, 0, 4, 0, 7, 6, 2, 0, 4, 0] : Nat) : Int).tmod 10
        = checkDigit ((Nat.ofDigits 10 [2, 1, 0, 0, 0, 0, 4, 0, 7, 6, 2, 0, 4, 0] : Nat) : Int)
      ∧ ((Nat.ofDigits 10 ([2, 1, 0, 0, 0, 0, 4, 0, 7, 6, 2, 0, 4, 0].set 0 3) : Nat) : Int).tmod 10
        ≠ checkDigit
          ((Nat.ofDigits 10 ([2, 1, 0, 0, 0, 0, 4, 0, 7, 6, 2, 0, 4, 0].set 0 3) : Nat) : Int) :=
  ⟨by decide,
    check_digit_single_error.1 [2, 1, 0, 0, 0, 0, 4, 0, 7, 6, 2, 0, 4, 0] 0 3 (by decide)
      (by decide) (by decide) (by decide) (by decide) (by decide)⟩

/-! ### Parent numbers and own numbers -/

theorem getLast_filter_take (lines : List Line) (p : Line → Bool) (k : Nat) (m : Line)
    (h : ((lines.take k).filter p).getLast? = some m) :
    ∃ j : Nat, j < k ∧ lines[j]? = some m := by
  have hm : m ∈ lines.take k := (List.mem_filter.mp (List.mem_of_getLast?_eq_some h)).1
  obtain ⟨j, hj⟩ := List.getElem?_of_mem hm
  rw [List.getElem?_take] at hj
  by_cases hjk : j < k
  · rw [if_pos hjk] at hj
    exact ⟨j, hjk, hj⟩
  · rw [if_neg hjk] at hj
    cases hj

/-- Claim C40, counterexample: a single record without material gives a document whose first
line is a label line with own number 1 and parent number 1. -/
theorem first_label_line_counterexample :
    (main_loop sample_config [sample_record_plain] 1 State.initial).state.fpout[0]?
        = some (Line.label 1 1 "LBL001".toList)
      ∧ ¬ (Line.label 1 1 "LBL001".toList).parent < (Line.label 1 1 "LBL001".toList).seq := by
  decide

/-- Claim C40, amended: in a run from the initial control state, the parent number printed on
a line is strictly smaller than the own number of the line, for every line but a label line
that is the first line of the document; that line carries the parent number 1 and the own
number 1. -/
theorem parent_below_own (cfg : Config) (records : List Label_record) (i : Int) (k : Nat)
    (l : Line) (hk : (main_loop cfg records i State.initial).state.fpout[k]? = some l) :
    (k = 0 ∧ l.isLabel = true → l.parent = 1 ∧ l.seq = 1)
      ∧ (¬ (k = 0 ∧ l.isLabel = true) → l.parent < l.seq) := by
  have hinv := run_inv cfg records i
  have hown := hinv.own k l hk
  have hearlier : ∀ (p : Line → Bool) (m : Line),
      (((main_loop cfg records i State.initial).state.fpout.take k).filter p).getLast?
        = some m → m.seq < l.seq := by
    intro p m h
    obtain ⟨j, hj, hm⟩ := getLast_filter_take _ p k m h
    rw [hinv.own j m hm, hown]
    omega
  constructor
  · rintro ⟨h0, hl⟩
    subst h0
    have hp := hinv.label_ref 0 l hk hl
    rw [List.take_zero] at hp
    exact ⟨hp, by rw [hown]; rfl⟩
  · intro hnot
    cases hkind : l with
    | material n p mat =>
      have := hinv.material_ref k l hk (by rw [hkind]; rfl)
      rw [hkind] at this
      rw [this]
      omega
    | label n p lb =>
      have hl : l.isLabel = true := by rw [hkind]; rfl
      have hp := hinv.label_ref k l hk hl
      rw [hkind] at hp hown
      rw [hp]
      cases hm : lastMaterial ((main_loop cfg records i State.initial).state.fpout.take k) with
      | none =>
        have hk0 : k ≠ 0 := fun e => hnot ⟨e, hl⟩
        simp only [Option.map_none', Option.getD_none]
        rw [hown]
        omega
      | some m =>
        simp only [Option.map_some', Option.getD_some]
        have := hearlier Line.isMaterial m hm
        rw [hkind] at this
        exact this
    | text n p lb content mark =>
      obtain ⟨lbl, h1, h2⟩ := hinv.child_ref k l hk (Or.inl (by rw [hkind]; rfl))
      have := hearlier Line.isLabel lbl h1
      rw [hkind] at h2 this
      rw [h2]
      exact this
    | characteristic n p name value third =>
      obtain ⟨lbl, h1, h2⟩ := hinv.child_ref k l hk (Or.inr (by rw [hkind]; rfl))
      have := hearlier Line.isLabel lbl h1
      rw [hkind] at h2 this
      rw [h2]
      exact this

/-- The record with material MAT1: the label line is the second line, with parent number 1
and own number 2. -/
theorem parent_below_own_witness :
    (main_loop sample_config [sample_record_mat1] 1 State.initial).state.fpout[1]?
        = some (Line.label 2 1 "LBL001".toList)
      ∧ (Line.label 2 1 "LBL001".toList).parent < (Line.label 2 1 "LBL001".toList).seq :=
  ⟨by decide,
    (parent_below_own sample_config [sample_record_mat1] 1 1 (Line.label 2 1 "LBL001".toList)
      (by decide)).2 (by decide)⟩

end Stoidoc
